import Mathlib

/-!
Space Invaders: the per-tick simulation of `main.cpp`

A shallow embedding of the game-state update performed by one pass of the
fixed-timestep loop in `main` (`src/main.cpp`), followed by theorems about it.

Conventions of the embedding.

* `size_t` values are natural numbers below `2 ^ 64`; every arithmetic step the
  program performs on them is reduced modulo `2 ^ 64` (`add64`, `sub64`, `mul64`,
  `addInt64`).  `int` values are integers, reduced to the 32-bit two's-complement
  range by `toInt32`; `uint32_t` values are reduced modulo `2 ^ 32`.
* An access outside an array, a division by zero and a failed `ASSERT` end the
  run: a step that meets one returns `Except.error` with the matching `Fault`.
* Rendering into the pixel buffer, sound and the window title have no effect on
  the game state and are left out, except for the array and division faults the
  drawing code can raise.
* `game.width`, `game.height` and `game.num_aliens` are written once at start-up
  (224, 256, 55) and never again; they are the constants `game_width`,
  `game_height` and `num_aliens`.
* The three entries of `alien_animation` are initialised and updated by the same
  loops with the same values, and entry `i` points at `alien_sprites[2*i]` and
  `alien_sprites[2*i+1]`; the state keeps one `SpriteAnimation` record for them.
* `random` divides in `double`; the embedding divides in the rationals.
-/

namespace SpaceInvaders

/-! ## Machine arithmetic -/

/-- Reduction of an integer to a `size_t` (64-bit unsigned) value. -/
def wrap64 (z : Int) : Nat := (z % 18446744073709551616).toNat

/-- Reduction of an integer to an `int` (32-bit two's complement) value. -/
def toInt32 (z : Int) : Int := (z + 2147483648) % 4294967296 - 2147483648

/-- Addition of two `size_t` values. -/
def add64 (a b : Nat) : Nat := (a + b) % 18446744073709551616

/-- Subtraction of two `size_t` values. -/
def sub64 (a b : Nat) : Nat :=
  (a % 18446744073709551616 + (18446744073709551616 - b % 18446744073709551616))
    % 18446744073709551616

/-- Multiplication of two `size_t` values. -/
def mul64 (a b : Nat) : Nat := (a * b) % 18446744073709551616

/-- The sum `a + d` of a `size_t` and an `int`, computed in `size_t`. -/
def addInt64 (a : Nat) (d : Int) : Nat := wrap64 ((a : Int) + d)

/-- The difference `a - d` of a `size_t` and an `int`, computed in `size_t`. -/
def subInt64 (a : Nat) (d : Int) : Nat := wrap64 ((a : Int) - d)

/-! ## Data model -/

/-- The ways a step can leave defined behaviour. `outOfFuel` is the embedding's
own: a loop was cut off by its iteration budget. -/
inductive Fault where
  | outOfBounds
  | divByZero
  | assertFailed
  | outOfFuel
  deriving DecidableEq, Repr

/-- A bitmap, `struct Sprite` (the `color` field is read by drawing only). -/
structure Sprite where
  width : Nat
  height : Nat
  data : List Nat
  deriving DecidableEq, Repr

/-- An invader, `struct Alien`. -/
structure Alien where
  x : Nat
  y : Nat
  type : Nat
  deriving DecidableEq, Repr

/-- A shot, `struct Bullet`; `dir` is an `int`. -/
structure Bullet where
  x : Nat
  y : Nat
  dir : Int
  deriving DecidableEq, Repr

/-- The ship, `struct Player`. -/
structure Player where
  x : Nat
  y : Nat
  life : Nat
  deriving DecidableEq, Repr

/-- Capacity of the bullet array. -/
def GAME_MAX_BULLETS : Nat := 128

/-- Value of `buffer_width`, copied into `game.width`. -/
def game_width : Nat := 224

/-- Value of `buffer_height`, copied into `game.height`. -/
def game_height : Nat := 256

/-- Value of `game.num_aliens`. -/
def num_aliens : Nat := 55

/-- The mutable part of `struct Game`. -/
structure Game where
  num_bullets : Nat
  aliens : List Alien
  player : Player
  bullets : List Bullet
  deriving DecidableEq, Repr

/-- The timing part of `struct SpriteAnimation`. -/
structure SpriteAnimation where
  num_frames : Nat
  frame_duration : Nat
  time : Nat
  deriving DecidableEq, Repr

/-- Value `ALIEN_DEAD` of `enum AlienType`. -/
def ALIEN_DEAD : Nat := 0

/-- The variables of `main` that a tick reads or writes, with the input globals
set by `key_callback`. -/
structure State where
  game : Game
  alien_animation : SpriteAnimation
  alien_bullet_animation : SpriteAnimation
  alien_update_frequency : Nat
  move_audio_i : Nat
  alien_swarm_position : Nat
  alien_swarm_max_position : Nat
  aliens_killed : Nat
  alien_update_timer : Nat
  should_change_speed : Bool
  death_counters : List Nat
  rng : Nat
  alien_move_dir : Int
  high_score : Nat
  score : Nat
  level : Nat
  player_move_dir : Int
  move_dir : Int
  fire_pressed : Bool
  reset : Bool
  game_over : Bool
  game_running : Bool
  deriving DecidableEq, Repr

/-- The six alien bitmaps `alien_sprites[0..5]`: two animation frames for each of the
three alien types (type `t` uses entries `2*(t-1)` and `2*(t-1)+1`). -/
def alien_sprites : List Sprite :=
  [ { width := 8, height := 8, data := [
     0,0,0,1,1,0,0,0,
     0,0,1,1,1,1,0,0,
     0,1,1,1,1,1,1,0,
     1,1,0,1,1,0,1,1,
     1,1,1,1,1,1,1,1,
     0,1,0,1,1,0,1,0,
     1,0,0,0,0,0,0,1,
     0,1,0,0,0,0,1,0] },
    { width := 8, height := 8, data := [
     0,0,0,1,1,0,0,0,
     0,0,1,1,1,1,0,0,
     0,1,1,1,1,1,1,0,
     1,1,0,1,1,0,1,1,
     1,1,1,1,1,1,1,1,
     0,0,1,0,0,1,0,0,
     0,1,0,1,1,0,1,0,
     1,0,1,0,0,1,0,1] },
    { width := 11, height := 8, data := [
     0,0,1,0,0,0,0,0,1,0,0,
     0,0,0,1,0,0,0,1,0,0,0,
     0,0,1,1,1,1,1,1,1,0,0,
     0,1,1,0,1,1,1,0,1,1,0,
     1,1,1,1,1,1,1,1,1,1,1,
     1,0,1,1,1,1,1,1,1,0,1,
     1,0,1,0,0,0,0,0,1,0,1,
     0,0,0,1,1,0,1,1,0,0,0] },
    { width := 11, height := 8, data := [
     0,0,1,0,0,0,0,0,1,0,0,
     1,0,0,1,0,0,0,1,0,0,1,
     1,0,1,1,1,1,1,1,1,0,1,
     1,1,1,0,1,1,1,0,1,1,1,
     1,1,1,1,1,1,1,1,1,1,1,
     0,1,1,1,1,1,1,1,1,1,0,
     0,0,1,0,0,0,0,0,1,0,0,
     0,1,0,0,0,0,0,0,0,1,0] },
    { width := 12, height := 8, data := [
     0,0,0,0,1,1,1,1,0,0,0,0,
     0,1,1,1,1,1,1,1,1,1,1,0,
     1,1,1,1,1,1,1,1,1,1,1,1,
     1,1,1,0,0,1,1,0,0,1,1,1,
     1,1,1,1,1,1,1,1,1,1,1,1,
     0,0,0,1,1,0,0,1,1,0,0,0,
     0,0,1,1,0,1,1,0,1,1,0,0,
     1,1,0,0,0,0,0,0,0,0,1,1] },
    { width := 12, height := 8, data := [
     0,0,0,0,1,1,1,1,0,0,0,0,
     0,1,1,1,1,1,1,1,1,1,1,0,
     1,1,1,1,1,1,1,1,1,1,1,1,
     1,1,1,0,0,1,1,0,0,1,1,1,
     1,1,1,1,1,1,1,1,1,1,1,1,
     0,0,1,1,1,0,0,1,1,1,0,0,
     0,1,1,0,0,1,1,0,0,1,1,0,
     0,0,1,1,0,0,0,0,1,1,0,0] } ]

/-- The explosion bitmap `alien_death_sprite` (13 x 7). -/
def alien_death_sprite : Sprite :=
  { width := 13, height := 7, data := [
     0,1,0,0,1,0,0,0,1,0,0,1,0,
     0,0,1,0,0,1,0,1,0,0,1,0,0,
     0,0,0,1,0,0,0,0,0,1,0,0,0,
     1,1,0,0,0,0,0,0,0,0,0,1,1,
     0,0,0,1,0,0,0,0,0,1,0,0,0,
     0,0,1,0,0,1,0,1,0,0,1,0,0,
     0,1,0,0,1,0,0,0,1,0,0,1,0] }

/-- The player's ship `player_sprite` (11 x 7). -/
def player_sprite : Sprite :=
  { width := 11, height := 7, data := [
     0,0,0,0,0,1,0,0,0,0,0,
     0,0,0,0,1,1,1,0,0,0,0,
     0,0,0,0,1,1,1,0,0,0,0,
     0,1,1,1,1,1,1,1,1,1,0,
     1,1,1,1,1,1,1,1,1,1,1,
     1,1,1,1,1,1,1,1,1,1,1,
     1,1,1,1,1,1,1,1,1,1,1] }

/-- The player's shot `player_bullet_sprite` (1 x 3). -/
def player_bullet_sprite : Sprite :=
  { width := 1, height := 3, data := [
     1,
     1,
     1] }

/-- The sprite `alien_bullet_sprite[0]` (3 x 7), the frame every collision test uses. -/
def alien_bullet_sprite_0 : Sprite :=
  { width := 3, height := 7, data := [
     0,1,0,
     1,0,0,
     0,1,0,
     0,0,1,
     0,1,0,
     1,0,0,
     0,1,0] }

/-- The sprite `alien_bullet_sprite[1]` (3 x 7). -/
def alien_bullet_sprite_1 : Sprite :=
  { width := 3, height := 7, data := [
     0,1,0,
     0,0,1,
     0,1,0,
     1,0,0,
     0,1,0,
     0,0,1,
     0,1,0] }

/-- The array `alien_bullet_sprite`. -/
def alien_bullet_sprite : List Sprite := [alien_bullet_sprite_0, alien_bullet_sprite_1]

/-! ## Input -/

/-- The keys `key_callback` distinguishes. -/
inductive Key where
  | escape
  | right
  | left
  | space
  | r
  | g
  | other
  deriving DecidableEq, Repr

/-- The GLFW key actions. -/
inductive Action where
  | press
  | release
  | repeat_
  deriving DecidableEq, Repr

/-- One keyboard event delivered by `glfwPollEvents`. -/
structure KeyEvent where
  key : Key
  action : Action
  deriving DecidableEq, Repr

/-- The effect of `key_callback` on the input globals. -/
def key_callback (s : State) (e : KeyEvent) : State :=
  match e.key with
  | Key.escape => if e.action = Action.press then { s with game_running := false } else s
  | Key.right =>
      if e.action = Action.press then { s with move_dir := toInt32 (s.move_dir + 1) }
      else if e.action = Action.release then { s with move_dir := toInt32 (s.move_dir - 1) }
      else s
  | Key.left =>
      if e.action = Action.press then { s with move_dir := toInt32 (s.move_dir - 1) }
      else if e.action = Action.release then { s with move_dir := toInt32 (s.move_dir + 1) }
      else s
  | Key.space => if e.action = Action.release then { s with fire_pressed := true } else s
  | Key.r => if e.action = Action.release then { s with reset := true } else s
  | Key.g => if e.action = Action.release then { s with game_over := true } else s
  | Key.other => s

/-- The call `glfwPollEvents()`: the callback runs once for each pending event. -/
def glfwPollEvents (s : State) (evs : List KeyEvent) : State :=
  evs.foldl key_callback s

/-! ## Random source -/

/-- The function `xorshift32`: the new generator word, which is also the value
returned. -/
def xorshift32 (rng : Nat) : Nat :=
  let x := rng
  let x := x ^^^ ((x <<< 13) % 4294967296)
  let x := x ^^^ (x >>> 17)
  let x := x ^^^ ((x <<< 5) % 4294967296)
  x

/-- The function `random`: the quotient of the next generator word by
`UINT32_MAX`, paired with the new generator word. -/
def random (rng : Nat) : ℚ × Nat :=
  let x := xorshift32 rng
  ((x : ℚ) / 4294967295, x)

/-! ## Collision oracle -/

/-- The function `sprite_overlap_check`. -/
def sprite_overlap_check (sp_a : Sprite) (x_a y_a : Nat) (sp_b : Sprite) (x_b y_b : Nat) :
    Bool :=
  if x_a < add64 x_b sp_b.width ∧ add64 x_a sp_a.width > x_b ∧
      y_a < add64 y_b sp_b.height ∧ add64 y_a sp_a.height > y_b then
    true
  else
    false

/-! ## Array accesses -/

/-- Read of `game.bullets[i]`. -/
def readBullet (g : Game) (i : Nat) : Except Fault Bullet :=
  match g.bullets[i]? with
  | some b => Except.ok b
  | none => Except.error Fault.outOfBounds

/-- Write `game.bullets[i] = b`. -/
def writeBullet (g : Game) (i : Nat) (b : Bullet) : Except Fault Game :=
  if i < g.bullets.length then Except.ok { g with bullets := g.bullets.set i b }
  else Except.error Fault.outOfBounds

/-- Read of `game.aliens[i]`. -/
def readAlien (g : Game) (i : Nat) : Except Fault Alien :=
  match g.aliens[i]? with
  | some a => Except.ok a
  | none => Except.error Fault.outOfBounds

/-- Write `game.aliens[i] = a`. -/
def writeAlien (g : Game) (i : Nat) (a : Alien) : Except Fault Game :=
  if i < g.aliens.length then Except.ok { g with aliens := g.aliens.set i a }
  else Except.error Fault.outOfBounds

/-- Read of `alien_sprites[i]`. -/
def alienSprite (i : Nat) : Except Fault Sprite :=
  match alien_sprites[i]? with
  | some sp => Except.ok sp
  | none => Except.error Fault.outOfBounds

/-- The sprite `*alien_animation[type - 1].frames[current_frame]` with
`current_frame = animation.time / animation.frame_duration`, as the drawing loop
and the hit test compute it; frame `f` of animation `i` is `alien_sprites[2*i+f]`. -/
def alienFrameSprite (s : State) (type : Nat) : Except Fault Sprite :=
  if sub64 type 1 < 3 then
    if s.alien_animation.frame_duration = 0 then Except.error Fault.divByZero
    else if s.alien_animation.time / s.alien_animation.frame_duration < 2 then
      alienSprite
        (2 * sub64 type 1 + s.alien_animation.time / s.alien_animation.frame_duration)
    else Except.error Fault.outOfBounds
  else Except.error Fault.outOfBounds

/-- The sprite `alien_sprites[2 * (type - 1)]` used by the layout and by bounds
tracking. -/
def alienBaseSprite (type : Nat) : Except Fault Sprite :=
  alienSprite (mul64 2 (sub64 type 1))

/-! ## Drawing (faults only) -/

/-- One pass of the alien drawing loop: nothing is read for an alien whose death
counter is zero, a dead alien is drawn with the death sprite, a living one with
its current animation frame. -/
def drawAlien (s : State) (ai : Nat) : Except Fault Unit :=
  match s.death_counters[ai]? with
  | none => Except.error Fault.outOfBounds
  | some dc =>
    if dc = 0 then Except.ok ()
    else
      match readAlien s.game ai with
      | Except.error e => Except.error e
      | Except.ok alien =>
        if alien.type = ALIEN_DEAD then Except.ok ()
        else
          match alienFrameSprite s alien.type with
          | Except.error e => Except.error e
          | Except.ok _ => Except.ok ()

/-- The alien drawing loop over the indices in `ais`. -/
def drawAliens (s : State) : List Nat → Except Fault Unit
  | [] => Except.ok ()
  | ai :: rest =>
    match drawAlien s ai with
    | Except.error e => Except.error e
    | Except.ok _ => drawAliens s rest

/-- One pass of the bullet drawing loop: an alien shot selects
`alien_bullet_sprite[time / frame_duration]`. -/
def drawBullet (s : State) (bi : Nat) : Except Fault Unit :=
  match readBullet s.game bi with
  | Except.error e => Except.error e
  | Except.ok bullet =>
    if bullet.dir > 0 then Except.ok ()
    else if s.alien_bullet_animation.frame_duration = 0 then Except.error Fault.divByZero
    else if s.alien_bullet_animation.time / s.alien_bullet_animation.frame_duration < 2 then
      Except.ok ()
    else Except.error Fault.outOfBounds

/-- The bullet drawing loop `for (bi = 0; bi < game.num_bullets; ++bi)`, from
index `bi` on. -/
def drawBullets (s : State) : Nat → Nat → Except Fault Unit
  | 0, _ => Except.error Fault.outOfFuel
  | fuel + 1, bi =>
    if bi < s.game.num_bullets then
      match drawBullet s bi with
      | Except.error e => Except.error e
      | Except.ok _ => drawBullets s fuel (bi + 1)
    else Except.ok ()


/-! ## Projectile system -/

/-- Swap-with-last removal: `game.bullets[bi] = game.bullets[game.num_bullets - 1];
--game.num_bullets;`. -/
def removeBullet (g : Game) (bi : Nat) : Except Fault Game := do
  let last ← readBullet g (sub64 g.num_bullets 1)
  let g1 ← writeBullet g bi last
  pure { g1 with num_bullets := sub64 g.num_bullets 1 }

/-- The pair removal performed when the bullets at `bi` and `bj` overlap. -/
def pairRemove (g : Game) (bi bj : Nat) : Except Fault Game :=
  let moved : Except Fault Game :=
    if bj = sub64 g.num_bullets 1 then
      readBullet g (sub64 g.num_bullets 2) >>= fun v => writeBullet g bi v
    else if bi = sub64 g.num_bullets 1 then
      readBullet g (sub64 g.num_bullets 2) >>= fun v => writeBullet g bj v
    else
      readBullet g (sub64 g.num_bullets 1) >>= fun v1 =>
      writeBullet g (if bi < bj then bi else bj) v1 >>= fun g' =>
      readBullet g' (sub64 g'.num_bullets 2) >>= fun v2 =>
      writeBullet g' (if bi < bj then bj else bi) v2
  moved >>= fun g1 => Except.ok { g1 with num_bullets := sub64 g1.num_bullets 2 }

/-- The loop `for (bj = 0; bj < game.num_bullets; ++bj)` that tests the player
bullet at `bi` against every other live bullet, from index `bj` on; it stops at
the first overlap, after removing the pair. -/
def bulletVsBullet : Nat → Nat → Nat → Game → Except Fault Game
  | 0, _, _, _ => Except.error Fault.outOfFuel
  | fuel + 1, bj, bi, g =>
    if bj < g.num_bullets then
      if bi = bj then bulletVsBullet fuel (bj + 1) bi g
      else do
        let a ← readBullet g bi
        let b ← readBullet g bj
        if sprite_overlap_check player_bullet_sprite a.x a.y alien_bullet_sprite_0 b.x b.y then
          pairRemove g bi bj
        else bulletVsBullet fuel (bj + 1) bi g
    else Except.ok g

/-- The body of `if (overlap)` in the alien loop: the alien at `ai`, whose
current frame is `alien_sprite`, is hit by the bullet at `bi`. -/
def hitAlien (s : State) (bi ai : Nat) (alien_sprite : Sprite) : Except Fault State := do
  let a ← readAlien s.game ai
  let score :=
    if a.type = 1 then add64 s.score 40
    else add64 s.score (mul64 10 (sub64 4 a.type))
  let g1 ← writeAlien s.game ai
    { a with
      type := ALIEN_DEAD
      x := sub64 a.x (sub64 alien_death_sprite.width alien_sprite.width / 2) }
  let g2 ← removeBullet g1 bi
  let killed := add64 s.aliens_killed 1
  pure { s with
    game := g2
    score := score
    aliens_killed := killed
    should_change_speed := if killed % 15 = 0 then true else s.should_change_speed }

/-- One pass of the alien loop for index `ai`: a dead alien is skipped, a living
one is tested against the bullet at `bi` with its current frame. The result is the
state after the hit when the pass ends in `break`, and `none` otherwise. -/
def testAlien (s : State) (bi ai : Nat) : Except Fault (Option State) := do
  let alien ← readAlien s.game ai
  if alien.type = ALIEN_DEAD then pure none
  else do
    let alien_sprite ← alienFrameSprite s alien.type
    let b ← readBullet s.game bi
    if sprite_overlap_check player_bullet_sprite b.x b.y alien_sprite alien.x alien.y then do
      let s1 ← hitAlien s bi ai alien_sprite
      pure (some s1)
    else pure none

/-- The loop `for (ai = 0; ai < game.num_aliens; ++ai)` that tests the bullet at
`bi` against the living aliens with indices in `ais`; it stops at the first hit. -/
def checkHit (s : State) (bi : Nat) : List Nat → Except Fault State
  | [] => Except.ok s
  | ai :: rest =>
    match testAlien s bi ai with
    | Except.error e => Except.error e
    | Except.ok (some s1) => Except.ok s1
    | Except.ok none => checkHit s bi rest

/-- One pass of the bullet loop for index `bi`; the flag is `true` when the pass
ends in `break`. -/
def simulateBullet (s : State) (bi : Nat) : Except Fault (State × Bool) := do
  let b ← readBullet s.game bi
  let b1 : Bullet := { b with y := addInt64 b.y b.dir }
  let g1 ← writeBullet s.game bi b1
  if b1.y ≥ game_height ∨ b1.y < player_bullet_sprite.height then do
    let g2 ← removeBullet g1 bi
    pure ({ s with game := g2 }, false)
  else if b1.dir < 0 then
    if sprite_overlap_check alien_bullet_sprite_0 b1.x b1.y
        player_sprite g1.player.x g1.player.y then do
      let g2 ← removeBullet
        { g1 with player := { g1.player with life := sub64 g1.player.life 1 } } bi
      pure ({ s with game := g2 }, true)
    else pure ({ s with game := g1 }, false)
  else do
    let g2 ← bulletVsBullet (GAME_MAX_BULLETS + 1) 0 bi g1
    let s3 ← checkHit { s with game := g2 } bi (List.range num_aliens)
    pure (s3, false)

/-- The loop `for (bi = 0; bi < game.num_bullets; ++bi)` of the bullet phase,
from index `bi` on. -/
def simulateBullets : Nat → Nat → State → Except Fault State
  | 0, _, _ => Except.error Fault.outOfFuel
  | fuel + 1, bi, s =>
    if bi < s.game.num_bullets then
      match simulateBullet s bi with
      | Except.error e => Except.error e
      | Except.ok (s1, true) => Except.ok s1
      | Except.ok (s1, false) => simulateBullets fuel (bi + 1) s1
    else Except.ok s

/-! ## Swarm controller -/

/-- The block `if (should_change_speed)`. -/
def changeSpeed (s : State) : State :=
  if s.should_change_speed then
    { s with
      should_change_speed := false
      alien_update_frequency := s.alien_update_frequency / 2
      alien_animation :=
        { s.alien_animation with frame_duration := s.alien_update_frequency / 2 } }
  else s

/-- The loop that decrements the death counter of every dead alien whose counter
is not zero. -/
def updateDeathCounters (s : State) : State :=
  { s with
    death_counters :=
      List.zipWith (fun (alien : Alien) (dc : Nat) =>
        if alien.type = ALIEN_DEAD ∧ dc ≠ 0 then dc - 1 else dc)
        s.game.aliens s.death_counters }

/-- The boundary test and the shift of an advance. -/
def moveSwarm (s : State) : State :=
  let s1 : State :=
    if toInt32 (toInt32 s.alien_swarm_position + s.alien_move_dir) < 0 then
      { s with
        alien_move_dir := toInt32 (s.alien_move_dir * -1)
        game := { s.game with
          aliens := s.game.aliens.map (fun alien => { alien with y := sub64 alien.y 8 }) } }
    else if s.alien_swarm_position > subInt64 s.alien_swarm_max_position s.alien_move_dir then
      { s with alien_move_dir := toInt32 (s.alien_move_dir * -1) }
    else s
  { s1 with
    alien_swarm_position := addInt64 s1.alien_swarm_position s1.alien_move_dir
    game := { s1.game with
      aliens := s1.game.aliens.map
        (fun alien => { alien with x := addInt64 alien.x s1.alien_move_dir }) } }

/-- The draw `game.num_aliens * random(&rng)` converted to `size_t`. -/
def randomAlienIndex (rng : Nat) : Nat × Nat :=
  let r := random rng
  (Int.toNat (Rat.floor ((num_aliens : ℚ) * r.1)), r.2)

/-- The selection loop: draw an index until the alien there is not dead. The
result is the index and the generator word after the last draw. -/
def pickAlien : Nat → Nat → List Alien → Except Fault (Nat × Nat)
  | 0, _, _ => Except.error Fault.outOfFuel
  | fuel + 1, rng, aliens =>
    let d := randomAlienIndex rng
    match aliens[d.1]? with
    | none => Except.error Fault.outOfBounds
    | some alien =>
      if alien.type = ALIEN_DEAD then pickAlien fuel d.2 aliens
      else Except.ok d

/-- The block `if (game.num_bullets < GAME_MAX_BULLETS)` of an advance: the alien
at `rai` fires a bullet from below the middle of frame 0 of its animation. -/
def alienShoot (s : State) (rai : Nat) : Except Fault State :=
  readAlien s.game rai >>= fun alien =>
  if sub64 alien.type 1 < 3 then
    alienSprite (2 * sub64 alien.type 1) >>= fun alien_sprite =>
    writeBullet s.game s.game.num_bullets
      { x := add64 alien.x (alien_sprite.width / 2)
        y := sub64 alien.y alien_bullet_sprite_0.height
        dir := -2 } >>= fun g1 =>
    Except.ok { s with game := { g1 with num_bullets := add64 g1.num_bullets 1 } }
  else Except.error Fault.outOfBounds

/-- The block `if (aliens_killed < game.num_aliens)` of an advance: one living
alien is drawn at random and fires if the bullet array has room. -/
def alienFire (fuel : Nat) (s : State) : Except Fault State :=
  if s.aliens_killed < num_aliens then
    pickAlien fuel s.rng s.game.aliens >>= fun d =>
    if s.game.num_bullets < GAME_MAX_BULLETS then alienShoot { s with rng := d.2 } d.1
    else Except.ok { s with rng := d.2 }
  else Except.ok s

/-- The block `if (alien_update_timer >= alien_update_frequency)`. -/
def advance (fuel : Nat) (s : State) : Except Fault State :=
  if s.alien_update_timer ≥ s.alien_update_frequency then
    let i := add64 s.move_audio_i 1
    let s1 : State :=
      { s with move_audio_i := if i = 4 then 0 else i, alien_update_timer := 0 }
    alienFire fuel (moveSwarm s1)
  else Except.ok s

/-- One step of an animation clock: `++time`, back to zero at
`num_frames * frame_duration`. -/
def stepAnimation (a : SpriteAnimation) : SpriteAnimation :=
  let t := add64 a.time 1
  { a with time := if t ≥ mul64 a.num_frames a.frame_duration then 0 else t }

/-- The block "Update animations" followed by `++alien_update_timer`. -/
def updateAnimations (s : State) : State :=
  { s with
    alien_animation := stepAnimation s.alien_animation
    alien_bullet_animation := stepAnimation s.alien_bullet_animation
    alien_update_timer := add64 s.alien_update_timer 1 }

/-! ## Player -/

/-- The block "Simulate player". -/
def simulatePlayer (s : State) : State :=
  let pmd := toInt32 (2 * s.move_dir)
  let s1 : State := { s with player_move_dir := pmd }
  if pmd ≠ 0 then
    if addInt64 (add64 s1.game.player.x player_sprite.width) pmd ≥ game_width then
      { s1 with game := { s1.game with
          player := { s1.game.player with x := sub64 game_width player_sprite.width } } }
    else if toInt32 (toInt32 s1.game.player.x + pmd) ≤ 0 then
      { s1 with game := { s1.game with player := { s1.game.player with x := 0 } } }
    else
      { s1 with game := { s1.game with
          player := { s1.game.player with x := addInt64 s1.game.player.x pmd } } }
  else s1


/-! ## Scoring and progression -/

/-- The scan `ai = 0; while (game.aliens[ai].type == ALIEN_DEAD) ++ai;` over the
remaining array `aliens`, whose first entry has index `ai`. -/
def firstLiving : List Alien → Nat → Except Fault Nat
  | [], _ => Except.error Fault.outOfBounds
  | alien :: rest, ai =>
    if alien.type = ALIEN_DEAD then firstLiving rest (ai + 1) else Except.ok ai

/-- The scan `while (game.aliens[ai].type == ALIEN_DEAD) --ai;` downwards from
index `ai`; below index 0 the index wraps and leaves the array. -/
def lastLiving (aliens : List Alien) : Nat → Except Fault Nat
  | 0 =>
    match aliens[0]? with
    | none => Except.error Fault.outOfBounds
    | some alien =>
      if alien.type = ALIEN_DEAD then Except.error Fault.outOfBounds else Except.ok 0
  | ai + 1 =>
    match aliens[ai + 1]? with
    | none => Except.error Fault.outOfBounds
    | some alien =>
      if alien.type = ALIEN_DEAD then lastLiving aliens ai else Except.ok (ai + 1)

/-- The statement `if (score > high_score.hs) high_score.hs = score;`: the
assignment narrows the `size_t` score to the `uint32_t` field. -/
def updateHighScore (s : State) : State :=
  if s.score > s.high_score then { s with high_score := s.score % 4294967296 } else s

/-- The first `pos` of bounds tracking: the `x` of the first living alien, moved
back by the centring offset of its sprite in the death sprite. -/
def leftBound (aliens : List Alien) : Except Fault Nat :=
  firstLiving aliens 0 >>= fun ai =>
  (match aliens[ai]? with
    | some alien => Except.ok alien
    | none => Except.error Fault.outOfBounds) >>= fun alien =>
  alienBaseSprite alien.type >>= fun sprite =>
  Except.ok (sub64 alien.x (sub64 alien_death_sprite.width sprite.width / 2))

/-- The second `pos` of bounds tracking, `game.width - game.aliens[ai].x - 13 + pos`
for the last living alien. -/
def rightBound (aliens : List Alien) (pos : Nat) : Except Fault Nat :=
  lastLiving aliens (sub64 num_aliens 1) >>= fun aj =>
  (match aliens[aj]? with
    | some alien => Except.ok alien
    | none => Except.error Fault.outOfBounds) >>= fun last =>
  Except.ok (add64 (sub64 (sub64 game_width last.x) 13) pos)

/-- The two conditional assignments of bounds tracking and the `ASSERT` that
closes it. -/
def raiseBounds (s : State) (pos pos2 : Nat) : Except Fault State :=
  if (if pos2 > s.alien_swarm_max_position then pos2 else s.alien_swarm_max_position)
      ≤ game_width then
    Except.ok { s with
      alien_swarm_position :=
        if pos > s.alien_swarm_position then pos else s.alien_swarm_position
      alien_swarm_max_position :=
        if pos2 > s.alien_swarm_max_position then pos2 else s.alien_swarm_max_position }
  else Except.error Fault.assertFailed

/-- The branch taken while the wave is not complete and no reset is pending:
high-score update and bounds tracking, closed by the `ASSERT`. -/
def trackBounds (s : State) : Except Fault State :=
  leftBound s.game.aliens >>= fun pos =>
  rightBound s.game.aliens pos >>= fun pos2 =>
  raiseBounds (updateHighScore s) pos pos2

/-- The alien written to `game.aliens[xi * 5 + yi]` by the layout loops of the
re-layout, for the swarm position `pos`. -/
def layoutAlien (pos xi yi : Nat) : Except Fault Alien := do
  let type := add64 (sub64 5 yi / 2) 1
  let sprite ← alienBaseSprite type
  pure
    { type := type
      x := add64 (add64 (mul64 16 xi) pos) (sub64 alien_death_sprite.width sprite.width / 2)
      y := add64 (mul64 17 yi) 128 }

/-- The layout loops `for (xi < 11) for (yi < 5)` of the re-layout: entry
`xi * 5 + yi` of the result is the alien of column `xi` and row `yi`. -/
def layoutAliens (pos : Nat) : Except Fault (List Alien) :=
  (List.range num_aliens).mapM (fun i => layoutAlien pos (i / 5) (i % 5))

/-- The alien written to `game.aliens[xi * 5 + yi]` by the layout loops of start-up.
They differ from the loops of the re-layout in one expression: the type is computed
in `int`, as `(5 - int(yi)) / 2 + 1`, and then stored in the `size_t` field. -/
def startAlien (pos xi yi : Nat) : Except Fault Alien := do
  let type := wrap64 (toInt32 (Int.tdiv (toInt32 (5 - toInt32 (yi : Int))) 2 + 1))
  let sprite ← alienBaseSprite type
  pure
    { type := type
      x := add64 (add64 (mul64 16 xi) pos) (sub64 alien_death_sprite.width sprite.width / 2)
      y := add64 (mul64 17 yi) 128 }

/-- The layout loops of start-up. -/
def startAliens (pos : Nat) : Except Fault (List Alien) :=
  (List.range num_aliens).mapM (fun i => startAlien pos (i / 5) (i % 5))

/-- The cadence assigned to `alien_update_frequency` for a level. -/
def levelFrequency (level : Nat) : Nat :=
  if level ≤ 8 then sub64 120 (mul64 level 10)
  else if level ≤ 36 then sub64 (sub64 120 (mul64 8 10)) level
  else 4

/-- The block `if (reset)` that opens the else-branch: a pending reset restores
three lives, zeroes the score, drops a pending fire input and sets the level to 0. -/
def applyReset (s : State) : State :=
  if s.reset then
    { s with
      reset := false
      game := { s.game with player := { s.game.player with life := 3 } }
      score := 0
      fire_pressed := false
      level := 0 }
  else s

/-- The branch taken when the wave is complete or a reset is pending. -/
def nextWave (s : State) : Except Fault State :=
  layoutAliens 24 >>= fun aliens =>
  Except.ok { applyReset s with
    should_change_speed := true
    level := add64 (applyReset s).level 1
    game := { (applyReset s).game with num_bullets := 0, aliens := aliens }
    alien_swarm_max_position := sub64 (sub64 game_width (mul64 16 11)) 3
    alien_update_frequency := levelFrequency (add64 (applyReset s).level 1)
    alien_swarm_position := 24
    aliens_killed := 0
    alien_update_timer := 0
    alien_move_dir := 4
    death_counters := List.replicate num_aliens 10 }

/-- The statement `if (aliens_killed < game.num_aliens && !reset) ... else ...`
that closes the simulation part of a tick. -/
def progression (s : State) : Except Fault State :=
  if s.aliens_killed < num_aliens ∧ s.reset = false then trackBounds s else nextWave s

/-- The block "Process events" up to `fire_pressed = false`. -/
def processFire (s : State) : Except Fault State :=
  if s.fire_pressed = true ∧ s.game.num_bullets < GAME_MAX_BULLETS then
    writeBullet s.game s.game.num_bullets
      { x := add64 s.game.player.x (player_sprite.width / 2)
        y := add64 s.game.player.y player_sprite.height
        dir := 2 } >>= fun g1 =>
    Except.ok { s with
      game := { g1 with num_bullets := add64 g1.num_bullets 1 }
      fire_pressed := false }
  else Except.ok { s with fire_pressed := false }

/-! ## Simulation loop -/

/-- The statements of a tick that follow the game-over test, for a tick entered
with `game.player.life != 0`: drawing, bullet phase, alien step, animation clocks,
player step, progression and player fire. `fuel` bounds the draws of the alien
selection loop. -/
def playTick (fuel : Nat) (s : State) : Except Fault State :=
  drawAliens s (List.range num_aliens) >>= fun _ =>
  drawBullets s (GAME_MAX_BULLETS + 1) 0 >>= fun _ =>
  simulateBullets (GAME_MAX_BULLETS + 1) 0 s >>= fun s1 =>
  advance fuel (updateDeathCounters (changeSpeed s1)) >>= fun s2 =>
  progression (simulatePlayer (updateAnimations s2)) >>= fun s3 =>
  processFire s3

/-- The statement `if (game_over) game.player.life = 0;`. -/
def forceGameOver (s : State) : State :=
  if s.game_over then
    { s with game := { s.game with player := { s.game.player with life := 0 } } }
  else s

/-- The body of `if (game.player.life == 0)`: the force flag is cleared, the
events are polled, and a pending reset sets `life` to 1; the tick ends there. -/
def gameOverTick (s : State) (evs : List KeyEvent) : State :=
  if (glfwPollEvents { s with game_over := false } evs).reset then
    { glfwPollEvents { s with game_over := false } evs with
      game := { (glfwPollEvents { s with game_over := false } evs).game with
        player := { (glfwPollEvents { s with game_over := false } evs).game.player with
          life := 1 } } }
  else glfwPollEvents { s with game_over := false } evs

/-- One pass of the loop `while (deltaTime >= 1.0)`: a tick. `evs` are the
keyboard events delivered by the tick's call of `glfwPollEvents`. -/
def tick (fuel : Nat) (s : State) (evs : List KeyEvent) : Except Fault State :=
  if (forceGameOver s).game.player.life = 0 then
    Except.ok (gameOverTick (forceGameOver s) evs)
  else
    playTick fuel (forceGameOver s) >>= fun s1 => Except.ok (glfwPollEvents s1 evs)

/-- The loop `while (deltaTime >= 1.0) { updates++; deltaTime--; ... }` that one
pass of the outer loop runs: while the time debt is at least one tick, it takes
one tick off the debt and runs the tick body. `deltaTime` is taken as a rational
number, the diagnostic counter `updates` is left out, and `evss` lists the events
delivered to the successive ticks (none once the list is used up). `budget`
bounds the number of iterations. -/
def updateLoop (fuel : Nat) :
    Nat → ℚ → State → List (List KeyEvent) → Except Fault (ℚ × State)
  | 0, _, _, _ => Except.error Fault.outOfFuel
  | budget + 1, deltaTime, s, evss =>
    if deltaTime ≥ 1 then
      tick fuel s (evss.headD []) >>= fun s1 =>
      updateLoop fuel budget (deltaTime - 1) s1 evss.tail
    else Except.ok (deltaTime, s)

/-- The state `main` has built when it enters the loop; `hs` is the high score
read from `score.dat` and `bullets` the contents of the bullet array, which
`main` leaves uninitialised. -/
def initialState (hs : Nat) (bullets : List Bullet) : Except Fault State := do
  let aliens ← startAliens 24
  pure
    { game :=
        { num_bullets := 0
          aliens := aliens
          player := { x := 112 - 5, y := 32, life := 3 }
          bullets := bullets }
      alien_animation := { num_frames := 2, frame_duration := 120, time := 0 }
      alien_bullet_animation := { num_frames := 2, frame_duration := 5, time := 0 }
      alien_update_frequency := 120
      move_audio_i := 0
      alien_swarm_position := 24
      alien_swarm_max_position := sub64 (sub64 game_width (mul64 16 11)) 3
      aliens_killed := 0
      alien_update_timer := 0
      should_change_speed := false
      death_counters := List.replicate num_aliens 10
      rng := 13
      alien_move_dir := 4
      high_score := hs
      score := 0
      level := 1
      player_move_dir := 0
      move_dir := 0
      fire_pressed := false
      reset := false
      game_over := false
      game_running := true }


/-! ## Vocabulary of the theorems

Predicates, relations and concrete states that the theorems below are stated
with. -/

/-- A bullet array holding two live bullets, used to instantiate the removal
theorems. -/
def twoBulletGame : Game :=
  { num_bullets := 2
    aliens := []
    player := { x := 107, y := 32, life := 3 }
    bullets := { x := 112, y := 100, dir := 2 } :: { x := 111, y := 101, dir := -2 }
      :: List.replicate 126 { x := 0, y := 0, dir := 0 } }

/-- The alien with index `j` does not stop the hit test of the bullet at `bi`: it
is dead, or its current frame does not overlap the bullet. -/
def Misses (s : State) (bi j : Nat) : Prop :=
  ∃ a, s.game.aliens[j]? = some a ∧
    (a.type = ALIEN_DEAD ∨
      ∃ sp b, alienFrameSprite s a.type = Except.ok sp ∧ s.game.bullets[bi]? = some b ∧
        sprite_overlap_check player_bullet_sprite b.x b.y sp a.x a.y = false)

/-- The points `hitAlien` adds for an alien of the given type. -/
def hitScore (score type : Nat) : Nat :=
  if type = 1 then add64 score 40 else add64 score (mul64 10 (sub64 4 type))

/-- The aliens of a freshly laid-out wave at swarm position `pos`, in closed form:
index `i` is column `i / 5`, row `i % 5`. -/
def gridAliens (pos : Nat) : List Alien :=
  (List.range num_aliens).map (fun i =>
    let type := (5 - i % 5) / 2 + 1
    let w := if type = 1 then 8 else if type = 2 then 11 else 12
    { type := type, x := 16 * (i / 5) + pos + (13 - w) / 2, y := 17 * (i % 5) + 128 })

/-- The value of `initialState`: the start-up state with high score `hs` and bullet
array `bullets`. -/
def startState (hs : Nat) (bullets : List Bullet) : State :=
  { game :=
      { num_bullets := 0
        aliens := gridAliens 24
        player := { x := 107, y := 32, life := 3 }
        bullets := bullets }
    alien_animation := { num_frames := 2, frame_duration := 120, time := 0 }
    alien_bullet_animation := { num_frames := 2, frame_duration := 5, time := 0 }
    alien_update_frequency := 120
    move_audio_i := 0
    alien_swarm_position := 24
    alien_swarm_max_position := 45
    aliens_killed := 0
    alien_update_timer := 0
    should_change_speed := false
    death_counters := List.replicate num_aliens 10
    rng := 13
    alien_move_dir := 4
    high_score := hs
    score := 0
    level := 1
    player_move_dir := 0
    move_dir := 0
    fire_pressed := false
    reset := false
    game_over := false
    game_running := true }

/-- A bullet array whose first slot holds `b`; the other 127 slots are zero. -/
def oneBullet (b : Bullet) : List Bullet := b :: List.replicate 127 { x := 0, y := 0, dir := 0 }

/-- The start-up state with one live player bullet, already advanced to just
below the alien of column 0, row 0. -/
def hitDemo : State :=
  { startState 0 (oneBullet { x := 30, y := 126, dir := 2 }) with
    game := { (startState 0 (oneBullet { x := 30, y := 126, dir := 2 })).game with
      num_bullets := 1 } }

/-- A swarm at the left edge, moving left, whose bottom row has come down to
`y = 0`: the start-up grid at position 0, lowered by 128 (sixteen descents of 8). -/
def lowSwarm : State :=
  { startState 0 (List.replicate 128 { x := 0, y := 0, dir := 0 }) with
    game := { (startState 0 (List.replicate 128 { x := 0, y := 0, dir := 0 })).game with
      aliens := (gridAliens 0).map (fun alien => { alien with y := alien.y - 128 }) }
    alien_swarm_position := 0
    alien_swarm_max_position := 49
    alien_move_dir := -4
    alien_update_timer := 120 }

/-- The fields a step leaves alone when it only touches the input globals. -/
def InputFrame (s s' : State) : Prop :=
  s' = { s with
    move_dir := s'.move_dir
    fire_pressed := s'.fire_pressed
    reset := s'.reset
    game_over := s'.game_over
    game_running := s'.game_running }

/-- The fields the fire step leaves alone: everything but the bullet array, the
bullet count and `fire_pressed`. -/
def FireFrame (s s' : State) : Prop :=
  s' = { s with
    game := { s.game with bullets := s'.game.bullets, num_bullets := s'.game.num_bullets }
    fire_pressed := false }

/-- The state in which the wave's last alien (column 0, row 0) is about to be hit:
the other 54 aliens are dead, one player bullet is two units below overlap. -/
def lastAlienState (level score hs : Nat) : State :=
  { startState hs (oneBullet { x := 30, y := 124, dir := 2 }) with
    game := { (startState hs (oneBullet { x := 30, y := 124, dir := 2 })).game with
      num_bullets := 1
      aliens := (gridAliens 24).map
        (fun alien => if alien.x = 24 ∧ alien.y = 128 then alien
          else { alien with type := ALIEN_DEAD }) }
    aliens_killed := 54
    death_counters := 10 :: List.replicate 54 0
    score := score
    level := level }

/-- A state whose wave is complete: all 55 aliens are dead and 55 kills are
counted. -/
def clearedWave (level : Nat) : State :=
  { startState 0 (List.replicate 128 { x := 0, y := 0, dir := 0 }) with
    game := { (startState 0 (List.replicate 128 { x := 0, y := 0, dir := 0 })).game with
      aliens := (gridAliens 24).map (fun alien => { alien with type := ALIEN_DEAD }) }
    aliens_killed := 55
    death_counters := List.replicate 55 0
    score := 990
    level := level }

/-- The fields of `game` a bullet-array operation leaves alone. -/
def BulletsOnly (g g' : Game) : Prop :=
  g'.aliens = g.aliens ∧ g'.player = g.player ∧ g'.bullets.length = g.bullets.length

/-- The number of aliens that are not dead. -/
def livingCount (aliens : List Alien) : Nat :=
  aliens.countP (fun alien => decide (alien.type ≠ ALIEN_DEAD))

/-- How the state after (part of) the bullet phase relates to the state before:
only `game`, `score`, `aliens_killed` and `should_change_speed` change; no alien is
added, moved or revived; the kill counter grows by the number of aliens that died;
the speed-up flag is raised exactly if it was raised before or the counter passed
a multiple of 15. The counting facts assume that the counter cannot wrap. -/
structure BulletRel (s s' : State) : Prop where
  frame : ∃ game score killed flag, s' = { s with
    game := game
    score := score
    aliens_killed := killed
    should_change_speed := flag }
  len : s'.game.aliens.length = s.game.aliens.length
  bullets_len : s'.game.bullets.length = s.game.bullets.length
  kept : ∀ (i : Nat) (a : Alien), s'.game.aliens[i]? = some a → a.type ≠ ALIEN_DEAD →
    s.game.aliens[i]? = some a
  kills : s.aliens_killed + livingCount s.game.aliens < 18446744073709551616 →
    s'.aliens_killed + livingCount s'.game.aliens
        = s.aliens_killed + livingCount s.game.aliens ∧
      s.aliens_killed ≤ s'.aliens_killed ∧
      (s'.should_change_speed = true ↔
        (s.should_change_speed = true ∨
          ∃ m, s.aliens_killed < m ∧ m ≤ s'.aliens_killed ∧ m % 15 = 0))

/-- The fields that the housekeeping steps of a tick (death counters, animation
clocks, player movement, alien fire, player fire) do not touch. -/
structure SameCore (s s' : State) : Prop where
  aliens : s'.game.aliens = s.game.aliens
  position : s'.alien_swarm_position = s.alien_swarm_position
  max_position : s'.alien_swarm_max_position = s.alien_swarm_max_position
  dir : s'.alien_move_dir = s.alien_move_dir
  frequency : s'.alien_update_frequency = s.alien_update_frequency
  level : s'.level = s.level
  killed : s'.aliens_killed = s.aliens_killed
  flag : s'.should_change_speed = s.should_change_speed
  reset : s'.reset = s.reset
  score : s'.score = s.score
  high_score : s'.high_score = s.high_score
  bullets_len : s'.game.bullets.length = s.game.bullets.length

/-- An event list without a release of the reset key. -/
def NoResetKey (evs : List KeyEvent) : Prop :=
  ∀ e, e ∈ evs → ¬ (e.key = Key.r ∧ e.action = Action.release)

/-- Width of the sprites of an alien type. -/
def typeWidth (type : Nat) : Nat := if type = 1 then 8 else if type = 2 then 11 else 12

/-- The living aliens stand on a common grid: for some offset `off`, every living
alien with index `i` has a type in 1..3 and `x = off + 16 * (i / 5) + (13 - w) / 2`
modulo `2 ^ 64`, `w` being the width of its sprite. -/
def AlienGrid (aliens : List Alien) : Prop :=
  ∃ off : Nat, ∀ (i : Nat) (a : Alien), aliens[i]? = some a → a.type ≠ ALIEN_DEAD →
    (a.type = 1 ∨ a.type = 2 ∨ a.type = 3) ∧
    a.x = (off + 16 * (i / 5) + (13 - typeWidth a.type) / 2) % 18446744073709551616

/-- What an advance can change, and how it moves the aliens. -/
structure AdvanceRel (s s' : State) : Prop where
  max_position : s'.alien_swarm_max_position = s.alien_swarm_max_position
  frequency : s'.alien_update_frequency = s.alien_update_frequency
  level : s'.level = s.level
  killed : s'.aliens_killed = s.aliens_killed
  flag : s'.should_change_speed = s.should_change_speed
  reset : s'.reset = s.reset
  score : s'.score = s.score
  high_score : s'.high_score = s.high_score
  len : s'.game.aliens.length = s.game.aliens.length
  living : livingCount s'.game.aliens = livingCount s.game.aliens
  bullets_len : s'.game.bullets.length = s.game.bullets.length
  grid : AlienGrid s.game.aliens → AlienGrid s'.game.aliens

/-- The result is not the fault `f`. -/
def Avoids {α : Type} (f : Fault) (x : Except Fault α) : Prop := x ≠ Except.error f

/-- The faults that no array access and no division raises: the failed `ASSERT`
and the exhausted iteration budget. -/
def Internal (f : Fault) : Prop := f = Fault.assertFailed ∨ f = Fault.outOfFuel

/-- The result is not a failed `ASSERT`. -/
def NoAssert {α : Type} (x : Except Fault α) : Prop := Avoids Fault.assertFailed x

/-- The invariant behind the `ASSERT`: 55 aliens, a maximum bound of at most 211,
and the living aliens on a common grid. -/
def BoundsInv (s : State) : Prop :=
  s.game.aliens.length = num_aliens ∧ s.alien_swarm_max_position ≤ 211 ∧
    AlienGrid s.game.aliens

/-- The states the program can be in between two ticks: the start-up state, for any
stored high score and any contents of the bullet array, and every state a tick
reaches from such a state without a fault, for any fuel and any events. -/
inductive Reachable : State → Prop where
  | start (hs : Nat) (bullets : List Bullet) (s : State) :
      hs < 4294967296 → bullets.length = GAME_MAX_BULLETS →
      initialState hs bullets = Except.ok s → Reachable s
  | step (fuel : Nat) (s s' : State) (evs : List KeyEvent) :
      Reachable s → tick fuel s evs = Except.ok s' → Reachable s'

/-- The invariant of the first wave: no reset pending, level 1, speed-up flag
clear between ticks, kill counter equal to the number of dead aliens, and the
cadence 120 below 15 kills and 60 from 15 to 29 kills. -/
def FirstWaveInv (s : State) : Prop :=
  s.reset = false ∧ s.level = 1 ∧ s.should_change_speed = false ∧
  s.aliens_killed + livingCount s.game.aliens = 55 ∧
  (s.aliens_killed < 15 → s.alien_update_frequency = 120) ∧
  (15 ≤ s.aliens_killed → s.aliens_killed < 30 → s.alien_update_frequency = 60)

/-- The states of the first wave: the start-up state, and every state reached from
one by a tick whose events contain no release of the reset key and which ends at
level 1 (that is, without a wave clear). -/
inductive FirstWave : State → Prop where
  | start (hs : Nat) (bullets : List Bullet) (s : State) :
      hs < 4294967296 → bullets.length = GAME_MAX_BULLETS →
      initialState hs bullets = Except.ok s → FirstWave s
  | step (fuel : Nat) (s s' : State) (evs : List KeyEvent) :
      FirstWave s → NoResetKey evs → tick fuel s evs = Except.ok s' → s'.level = 1 →
      FirstWave s'

/-- The start-up layout with the given score and high score and one live player
bullet that the next bullet phase moves into the alien of column 0, row 0. -/
def shotState (score hs : Nat) : State :=
  { startState hs (oneBullet { x := 30, y := 124, dir := 2 }) with
    game := { (startState hs (oneBullet { x := 30, y := 124, dir := 2 })).game with
      num_bullets := 1 }
    score := score }

/-- The state `shotState 50 50` with the reset and fire inputs pending: the tick's
bullet phase kills an alien before the reset branch runs. -/
def resetDemo : State := { shotState 50 50 with reset := true, fire_pressed := true }

/-- An event list without a release of the force-game-over key. -/
def NoGameOverKey (evs : List KeyEvent) : Prop :=
  ∀ e, e ∈ evs → ¬ (e.key = Key.g ∧ e.action = Action.release)

/-- The start-up state with one live alien shot that the next bullet phase moves
into the player. -/
def playerHitDemo : State :=
  { startState 0 (oneBullet { x := 110, y := 40, dir := -2 }) with
    game := { (startState 0 (oneBullet { x := 110, y := 40, dir := -2 })).game with
      num_bullets := 1 } }

/-- A condition under which the alien drawing loop meets no fault: 55 aliens and
death counters, a frame duration that is not zero, a frame index below 2, and no
alien type above 3. -/
def drawGuard (s : State) : Bool :=
  decide (s.game.aliens.length = num_aliens) &&
  decide (s.death_counters.length = num_aliens) &&
  decide (s.alien_animation.frame_duration ≠ 0) &&
  decide (s.alien_animation.time / s.alien_animation.frame_duration < 2) &&
  s.game.aliens.all (fun a => decide (a.type ≤ 3))

/-- A condition under which the hit test of the bullet at `bi` finds nothing and
meets no fault: every alien is dead or of a type in 1..3 whose sprites, 8 high and
`typeWidth` wide, the bullet does not overlap. -/
def missGuard (s : State) (bi : Nat) : Bool :=
  match s.game.bullets[bi]? with
  | none => false
  | some b =>
    decide (s.game.aliens.length = num_aliens) &&
    decide (s.alien_animation.frame_duration ≠ 0) &&
    decide (s.alien_animation.time / s.alien_animation.frame_duration < 2) &&
    s.game.aliens.all (fun a =>
      decide (a.type = ALIEN_DEAD) ||
      (decide (a.type ≤ 3) &&
        !sprite_overlap_check player_bullet_sprite b.x b.y
          { width := typeWidth a.type, height := 8, data := [] } a.x a.y))

/-- The alien drawing loop, skipped under `drawGuard`. -/
def drawAliensQuick (s : State) : Except Fault Unit :=
  if drawGuard s = true then Except.ok () else drawAliens s (List.range num_aliens)

/-- The hit test of the bullet at `bi`, skipped under `missGuard`. -/
def checkHitQuick (s : State) (bi : Nat) : Except Fault State :=
  if missGuard s bi = true then Except.ok s else checkHit s bi (List.range num_aliens)

/-- The pass `simulateBullet` with `checkHitQuick` for the hit test. -/
def simulateBulletQuick (s : State) (bi : Nat) : Except Fault (State × Bool) := do
  let b ← readBullet s.game bi
  let b1 : Bullet := { b with y := addInt64 b.y b.dir }
  let g1 ← writeBullet s.game bi b1
  if b1.y ≥ game_height ∨ b1.y < player_bullet_sprite.height then do
    let g2 ← removeBullet g1 bi
    pure ({ s with game := g2 }, false)
  else if b1.dir < 0 then
    if sprite_overlap_check alien_bullet_sprite_0 b1.x b1.y
        player_sprite g1.player.x g1.player.y then do
      let g2 ← removeBullet
        { g1 with player := { g1.player with life := sub64 g1.player.life 1 } } bi
      pure ({ s with game := g2 }, true)
    else pure ({ s with game := g1 }, false)
  else do
    let g2 ← bulletVsBullet (GAME_MAX_BULLETS + 1) 0 bi g1
    let s3 ← checkHitQuick { s with game := g2 } bi
    pure (s3, false)

/-- The loop `simulateBullets` with `simulateBulletQuick` for its passes. -/
def simulateBulletsQuick : Nat → Nat → State → Except Fault State
  | 0, _, _ => Except.error Fault.outOfFuel
  | fuel + 1, bi, s =>
    if bi < s.game.num_bullets then
      match simulateBulletQuick s bi with
      | Except.error e => Except.error e
      | Except.ok (s1, true) => Except.ok s1
      | Except.ok (s1, false) => simulateBulletsQuick fuel (bi + 1) s1
    else Except.ok s

/-- The tick `tick` with the quick loops. -/
def tickQuick (fuel : Nat) (s : State) (evs : List KeyEvent) : Except Fault State :=
  if (forceGameOver s).game.player.life = 0 then
    Except.ok (gameOverTick (forceGameOver s) evs)
  else
    (drawAliensQuick (forceGameOver s) >>= fun _ =>
      drawBullets (forceGameOver s) (GAME_MAX_BULLETS + 1) 0 >>= fun _ =>
      simulateBulletsQuick (GAME_MAX_BULLETS + 1) 0 (forceGameOver s) >>= fun s1 =>
      advance fuel (updateDeathCounters (changeSpeed s1)) >>= fun s2 =>
      progression (simulatePlayer (updateAnimations s2)) >>= fun s3 =>
      processFire s3) >>= fun s1 => Except.ok (glfwPollEvents s1 evs)

/-- A run of ticks, one list of events per tick; `none` if a tick meets a fault. -/
def runTicks (fuel : Nat) : State → List (List KeyEvent) → Option State
  | s, [] => some s
  | s, evs :: rest =>
    match tickQuick fuel s evs with
    | Except.ok s1 => runTicks fuel s1 rest
    | Except.error _ => none

/-- The fault a result ends in, if any. -/
def faultOf {α : Type} : Except Fault α → Option Fault
  | Except.error e => some e
  | Except.ok _ => none

/-- A bullet array of 128 zeroed slots. -/
def zeroBullets : List Bullet := List.replicate 128 { x := 0, y := 0, dir := 0 }

/-- The state between two ticks of the first wave in which the swarm has advanced
once and the alien of column 0, row 0, now at `(28, 128)`, has just fired the shot
at `(34, 121)`, the ship stands at `x = 31`, and the bullet array starts with
`live`, the bullets that are live. -/
def firstShotState (live : List Bullet) : State :=
  { game :=
      { num_bullets := live.length
        aliens := gridAliens 28
        player := { x := 31, y := 32, life := 3 }
        bullets := live ++ List.replicate (128 - live.length) { x := 0, y := 0, dir := 0 } }
    alien_animation := { num_frames := 2, frame_duration := 120, time := 121 }
    alien_bullet_animation := { num_frames := 2, frame_duration := 5, time := 1 }
    alien_update_frequency := 120
    move_audio_i := 1
    alien_swarm_position := 28
    alien_swarm_max_position := 49
    aliens_killed := 0
    alien_update_timer := 1
    should_change_speed := false
    death_counters := List.replicate num_aliens 10
    rng := 3514797
    alien_move_dir := 4
    high_score := 0
    score := 0
    level := 1
    player_move_dir := 0
    move_dir := 0
    fire_pressed := false
    reset := false
    game_over := false
    game_running := true }

/-- The events of 121 ticks of play from start-up: the left key is pressed during
tick 1 and released during tick 39, the fire key is released during tick 77. -/
def collisionTrace : List (List KeyEvent) :=
  [[{ key := Key.left, action := Action.press }]] ++ List.replicate 37 [] ++
  [[{ key := Key.left, action := Action.release }]] ++ List.replicate 37 [] ++
  [[{ key := Key.space, action := Action.release }]] ++ List.replicate 44 []

/-- The state that play reaches by `collisionTrace`: the ship's shot, at
`(36, 125)`, is two units below the alien of column 0, row 0 and below the shot
that alien has just fired. -/
def collisionState : State :=
  firstShotState [{ x := 36, y := 125, dir := 2 }, { x := 34, y := 121, dir := -2 }]

/-- The events of 121 ticks of play from start-up: the left key is pressed during
tick 9 and released during tick 47, the fire key is released during ticks 13
and 77. -/
def crossfireTrace : List (List KeyEvent) :=
  List.replicate 8 [] ++ [[{ key := Key.left, action := Action.press }]] ++
  List.replicate 3 [] ++ [[{ key := Key.space, action := Action.release }]] ++
  List.replicate 33 [] ++ [[{ key := Key.left, action := Action.release }]] ++
  List.replicate 29 [] ++ [[{ key := Key.space, action := Action.release }]] ++
  List.replicate 44 []

/-- The state that play reaches by `crossfireTrace`: as `collisionState`, with an
earlier shot of the ship, at `(102, 253)`, in slot 0. -/
def crossfireState : State :=
  firstShotState [{ x := 102, y := 253, dir := 2 }, { x := 36, y := 125, dir := 2 },
    { x := 34, y := 121, dir := -2 }]

/-- The state `crossfireState` after the pass of the bullet loop for slot 0. -/
def crossfireMid : State :=
  firstShotState [{ x := 102, y := 255, dir := 2 }, { x := 36, y := 125, dir := 2 },
    { x := 34, y := 121, dir := -2 }]

/-- The start-up state at a tick in which an advance is due, with the generator
at the word whose successor is `UINT32_MAX`. -/
def fireDemo : State :=
  { startState 0 zeroBullets with rng := 1584200935, alien_update_timer := 120 }

/-- The bullet count is within the array, which has its 128 slots. -/
def CountInv (g : Game) : Prop :=
  g.num_bullets ≤ GAME_MAX_BULLETS ∧ g.bullets.length = GAME_MAX_BULLETS

/-- The tick body run `n` times in a row, on the events `evss`. -/
def tickSeq (fuel : Nat) : Nat → State → List (List KeyEvent) → Except Fault State
  | 0, s, _ => Except.ok s
  | n + 1, s, evss =>
    tick fuel s (evss.headD []) >>= fun s1 => tickSeq fuel n s1 evss.tail

/-- The events of 121 ticks of play from start-up: the left key is pressed during
tick 8 and released during tick 46, the fire key is released during tick 12. -/
def skipTrace : List (List KeyEvent) :=
  List.replicate 7 [] ++ [[{ key := Key.left, action := Action.press }]] ++
  List.replicate 3 [] ++ [[{ key := Key.space, action := Action.release }]] ++
  List.replicate 33 [] ++ [[{ key := Key.left, action := Action.release }]] ++
  List.replicate 75 []

/-- The state that play reaches by `skipTrace`: the ship's shot, in slot 0, is at
`(102, 255)`, one step below the upper edge, and the shot that the alien of
column 0, row 0 has just fired is in slot 1. -/
def skipState : State :=
  firstShotState [{ x := 102, y := 255, dir := 2 }, { x := 34, y := 121, dir := -2 }]

/-- The events of three ticks of play from start-up: the fire key is released
during tick 1 and during tick 2. -/
def doubleShotTrace : List (List KeyEvent) :=
  [[{ key := Key.space, action := Action.release }],
    [{ key := Key.space, action := Action.release }], []]

/-- The state that play reaches by `doubleShotTrace`: two shots of the ship, fired
in consecutive ticks, are live at `(112, 41)` and `(112, 39)`. -/
def doubleShotState : State :=
  { startState 0
      ([{ x := 112, y := 41, dir := 2 }, { x := 112, y := 39, dir := 2 }] ++
        List.replicate 126 { x := 0, y := 0, dir := 0 }) with
    game :=
      { num_bullets := 2
        aliens := gridAliens 24
        player := { x := 107, y := 32, life := 3 }
        bullets := [{ x := 112, y := 41, dir := 2 }, { x := 112, y := 39, dir := 2 }] ++
          List.replicate 126 { x := 0, y := 0, dir := 0 } }
    alien_animation := { num_frames := 2, frame_duration := 120, time := 3 }
    alien_bullet_animation := { num_frames := 2, frame_duration := 5, time := 3 }
    alien_swarm_max_position := 49
    alien_update_timer := 3 }

/-- The number of dead aliens. -/
def deadCount (aliens : List Alien) : Nat :=
  aliens.countP (fun alien => decide (alien.type = ALIEN_DEAD))

/-- The cadence is a base value halved `h` times, `h` being at most the number of
multiples of 15 that the kill counter has reached: the base is 120, the value set
at start-up, or half the level formula at the current level. -/
def Halved (s : State) : Prop :=
  ∃ h, h ≤ s.aliens_killed / 15 ∧
    (s.alien_update_frequency = 120 / 2 ^ h ∨
      s.alien_update_frequency = levelFrequency s.level / 2 ^ (h + 1))

/-- The invariant of the kill counter and the cadence inside a tick, from the
speed-change block to the progression step. -/
def MidInv (s : State) : Prop :=
  s.aliens_killed + livingCount s.game.aliens = 55 ∧ s.should_change_speed = false ∧
    Halved s

/-- The invariant of the kill counter and the cadence between two ticks: the
counter and the living aliens add up to 55 and an alien is left; either the
speed-up flag is raised, no alien of the wave has been killed and the cadence is
the level formula at the current level, or the flag is clear and the cadence is a
halved base value. -/
def CadenceInv (s : State) : Prop :=
  s.aliens_killed + livingCount s.game.aliens = 55 ∧ s.aliens_killed < 55 ∧
  ((s.should_change_speed = true ∧ s.aliens_killed = 0 ∧
      s.alien_update_frequency = levelFrequency s.level) ∨
    (s.should_change_speed = false ∧ Halved s))

/-- The events of two ticks of play from start-up: the reset key is released
during tick 1. -/
def resetTrace : List (List KeyEvent) := [[{ key := Key.r, action := Action.release }], []]

/-- The state that play reaches by `resetTrace`: the second tick has taken the
reset branch, which lays the wave out again, sets the cadence to the level formula
at level 1 and raises the speed-up flag. -/
def resetState : State :=
  { startState 0 zeroBullets with
    should_change_speed := true
    alien_update_frequency := 110
    alien_animation := { num_frames := 2, frame_duration := 120, time := 2 }
    alien_bullet_animation := { num_frames := 2, frame_duration := 5, time := 2 } }

/-- The aliens late in a wave: the 44 aliens of columns 0 to 7 and of rows 0 to 3
of column 8 are dead, the 11 others stand where the layout at offset 24 puts
them. -/
def lateAliens : List Alien :=
  (List.range num_aliens).map (fun i =>
    { x := 16 * (i / 5) + 24 +
        (if i < 44 then 0 else (13 - typeWidth ((5 - i % 5) / 2 + 1)) / 2)
      y := 17 * (i % 5) + 128
      type := if i < 44 then ALIEN_DEAD else (5 - i % 5) / 2 + 1 })

/-- A state late in a wave of the given level, with the given cadence and frame
duration: the aliens are `lateAliens`, 44 kills are counted, offset and maximum
bound are those that bounds tracking computes for the 11 living aliens, and one
shot of the ship is two units below the alien of column 9, row 0. -/
def lateWaveState (level cadence : Nat) : State :=
  { startState 0 (oneBullet { x := 174, y := 124, dir := 2 }) with
    game :=
      { num_bullets := 1
        aliens := lateAliens
        player := { x := 169, y := 32, life := 3 }
        bullets := oneBullet { x := 174, y := 124, dir := 2 } }
    alien_animation := { num_frames := 2, frame_duration := cadence, time := 0 }
    alien_update_frequency := cadence
    alien_swarm_position := 152
    alien_swarm_max_position := 177
    aliens_killed := 44
    death_counters := List.replicate 44 0 ++ List.replicate 11 10
    score := 5000
    high_score := 5000
    level := level }

/-- The invariant of the alien animation clock between two ticks: two frames, a
frame duration and a cadence of at most 120, a clock below twice the frame
duration unless the frame duration is 0, and a frame duration equal to the cadence
while the speed-up flag is clear. -/
def AnimInv (s : State) : Prop :=
  s.alien_animation.num_frames = 2 ∧ s.alien_animation.frame_duration ≤ 120 ∧
  s.alien_update_frequency ≤ 120 ∧
  (s.alien_animation.frame_duration ≠ 0 →
    s.alien_animation.time < 2 * s.alien_animation.frame_duration) ∧
  (s.should_change_speed = false →
    s.alien_animation.frame_duration = s.alien_update_frequency)

/-- The horizontal invariant of the swarm, for the alien array, the offset, the
maximum bound and the direction: 55 aliens; a direction of 4 or -4; a maximum
bound from 45 to 211 that the offset does not exceed; and an integer `off`, the
`x` of column 0, such that every living alien with index `i` has the type of its
row, stands at `off + 16 * (i / 5)` plus the centring `(i % 5) / 2` of its sprite,
in a column that does not start left of the offset, and is at most as far right of
the offset as `211` is of the maximum bound. -/
def Field (aliens : List Alien) (pos max : Nat) (dir : Int) : Prop :=
  aliens.length = num_aliens ∧ (dir = 4 ∨ dir = -4) ∧ 45 ≤ max ∧ max ≤ 211 ∧ pos ≤ max ∧
  ∃ off : Int, ∀ (i : Nat) (a : Alien), aliens[i]? = some a → a.type ≠ ALIEN_DEAD →
    a.type = (5 - i % 5) / 2 + 1 ∧
    (a.x : Int) = off + 16 * ((i / 5 : Nat) : Int) + (((i % 5) / 2 : Nat) : Int) ∧
    (pos : Int) ≤ off + 16 * ((i / 5 : Nat) : Int) ∧
    a.x + max ≤ 211 + pos

/-- The horizontal invariant of the swarm in a state. -/
def FieldInv (s : State) : Prop :=
  Field s.game.aliens s.alien_swarm_position s.alien_swarm_max_position s.alien_move_dir

/-- The invariant between two ticks: the horizontal invariant, and the offset is
what bounds tracking computes from the first living alien. -/
def EndInv (s : State) : Prop :=
  FieldInv s ∧ leftBound s.game.aliens = Except.ok s.alien_swarm_position

/-! ## A replay of long runs

A tick of the game works on the arrays of 128 bullets and 55 aliens. The
definitions of this section evaluate the same tick on a compact state: the live
bullets as a list, the types of the aliens together with the origin of their grid,
and the scalars of the state. A definition returns `none` where it leaves the
range in which it follows the game. `conc` builds the game state that a replay
state stands for; `tickK_sound` below shows that a replay step that returns a
state is a tick of the game between two such states, so a replay from the start-up
state ends in a reachable state. -/

/-- A live bullet of the replay: position and direction (`up` for a player shot). -/
structure KB where
  x : Nat
  y : Nat
  up : Bool
  deriving DecidableEq, Repr

/-- The state of the replay. -/
structure KS where
  bullets : List KB
  types : List Nat
  gx : Nat
  gy : Nat
  px : Nat
  fd : Nat
  atime : Nat
  btime : Nat
  cadence : Nat
  audio : Nat
  pos : Nat
  maxpos : Nat
  kills : Nat
  timer : Nat
  flag : Bool
  rng : Nat
  right : Bool
  hs : Nat
  score : Nat
  level : Nat
  md : Nat
  fire : Bool
  deriving DecidableEq, Repr

/-- Element `n` of a list. -/
def nthK {α : Type} (l : List α) (n : Nat) : Option α :=
  (List.rec (motive := fun _ => Nat → Option α) (fun _ => none)
    (fun a _ ih k => Nat.rec (motive := fun _ => Option α) (some a) (fun k' _ => ih k') k) l) n

/-- The list with element `n` replaced. -/
def setK {α : Type} (l : List α) (n : Nat) (v : α) : List α :=
  (List.rec (motive := fun _ => Nat → List α) (fun _ => [])
    (fun a t ih k => Nat.rec (motive := fun _ => List α) (v :: t) (fun k' _ => a :: ih k') k) l) n

/-- The last element of a list. -/
def lastK {α : Type} (l : List α) : Option α :=
  List.rec (motive := fun _ => Option α) none
    (fun a t ih => List.casesOn (motive := fun _ => Option α) t (some a) (fun _ _ => ih)) l

/-- The list without its last element. -/
def initK {α : Type} (l : List α) : List α :=
  List.rec (motive := fun _ => List α) []
    (fun a t ih => List.casesOn (motive := fun _ => List α) t [] (fun _ _ => a :: ih)) l

/-- Reversal onto an accumulator. -/
def revK {α : Type} (l : List α) : List α → List α :=
  List.rec (motive := fun _ => List α → List α) (fun acc => acc)
    (fun a _ ih acc => ih (a :: acc)) l

/-- The player bullet at `(x, y)` overlaps no box of width 3 and height 7 at `(bx, bY)`. -/
def clearK (x y bx bY : Nat) : Bool :=
  Bool.casesOn (motive := fun _ => Bool) (Nat.blt x (Nat.add bx 3)) true
    (Bool.casesOn (motive := fun _ => Bool) (Nat.blt bx (Nat.add x 1)) true
      (Bool.casesOn (motive := fun _ => Bool) (Nat.blt y (Nat.add bY 7)) true
        (Nat.ble (Nat.add y 3) bY)))

/-- The player bullet at `(x, y)` is clear of every bullet of `l`. -/
def allClearK (x y : Nat) (l : List KB) : Bool :=
  List.rec (motive := fun _ => Bool) true
    (fun b _ ih => Bool.casesOn (motive := fun _ => Bool) (clearK x y b.x b.y) false ih) l

/-- Width of the sprites of a living alien. -/
def widthK (type : Nat) : Nat :=
  Bool.casesOn (motive := fun _ => Nat) (Nat.beq type 1)
    (Bool.casesOn (motive := fun _ => Nat) (Nat.beq type 2) 12 11) 8

/-- Offset of a living alien in its grid cell. -/
def offK (type : Nat) : Nat :=
  Bool.casesOn (motive := fun _ => Nat) (Nat.beq type 1)
    (Bool.casesOn (motive := fun _ => Nat) (Nat.beq type 2) 0 1) 2

/-- Points for an alien. -/
def pointsK (type : Nat) : Nat :=
  Bool.casesOn (motive := fun _ => Nat) (Nat.beq type 1)
    (Bool.casesOn (motive := fun _ => Nat) (Nat.beq type 2) 10 20) 40

/-- The index of the living alien that the player bullet at `(x, y)` overlaps. -/
def hitK (c : KS) (x y : Nat) : Option Nat :=
  Bool.casesOn (motive := fun _ => Option Nat) (Nat.ble c.gy (Nat.add y 2)) none
    (Bool.casesOn (motive := fun _ => Option Nat) (Nat.ble c.gx (Nat.add x 1024)) none
      (Bool.casesOn (motive := fun _ => Option Nat)
        (Nat.ble (Nat.mod (Nat.sub (Nat.add y 2) c.gy) 17) 9) none
        (Bool.casesOn (motive := fun _ => Option Nat)
          (Nat.blt (Nat.div (Nat.sub (Nat.add y 2) c.gy) 17) 5) none
          (Bool.casesOn (motive := fun _ => Option Nat)
            (Nat.blt (Nat.div (Nat.sub (Nat.add x 1024) c.gx) 16) 11) none
            (Option.casesOn (motive := fun _ => Option Nat)
              (nthK c.types (Nat.add (Nat.mul 5 (Nat.div (Nat.sub (Nat.add x 1024) c.gx) 16))
                (Nat.div (Nat.sub (Nat.add y 2) c.gy) 17)))
              none
              (fun t =>
                Bool.casesOn (motive := fun _ => Option Nat) (Nat.beq t 0)
                  (Bool.casesOn (motive := fun _ => Option Nat)
                    (Nat.ble (offK t) (Nat.mod (Nat.sub (Nat.add x 1024) c.gx) 16)) none
                    (Bool.casesOn (motive := fun _ => Option Nat)
                      (Nat.blt (Nat.mod (Nat.sub (Nat.add x 1024) c.gx) 16)
                        (Nat.add (offK t) (widthK t))) none
                      (some (Nat.add (Nat.mul 5 (Nat.div (Nat.sub (Nat.add x 1024) c.gx) 16))
                        (Nat.div (Nat.sub (Nat.add y 2) c.gy) 17)))))
                  none))))))

/-- The state after the alien with index `i` is hit. -/
def killK (c : KS) (i : Nat) : Option KS :=
  Option.casesOn (motive := fun _ => Option KS) (nthK c.types i) none
    (fun t => Bool.casesOn (motive := fun _ => Option KS)
      (Bool.casesOn (motive := fun _ => Bool) (Nat.ble c.kills 1000) false
        (Nat.ble c.score 4000000000)) none
      (some { c with
      types := setK c.types i 0
      score := Nat.add c.score (pointsK t)
      kills := Nat.add c.kills 1
      flag := Bool.casesOn (motive := fun _ => Bool)
        (Nat.beq (Nat.mod (Nat.add c.kills 1) 15) 0) c.flag true }))

/-- The ship at `px` is clear of the alien shot at `(x, y)`. -/
def shipClearK (x y px : Nat) : Bool :=
  Bool.casesOn (motive := fun _ => Bool) (Nat.blt y 39) true
    (Bool.casesOn (motive := fun _ => Bool) (Nat.blt x (Nat.add px 11)) true
      (Bool.casesOn (motive := fun _ => Bool) (Nat.blt px (Nat.add x 3)) true
        (Nat.ble (Nat.add y 7) 32)))

/-- The rest of the bullet loop after a removal: the last bullet takes the place of
the removed one and is passed over. -/
def afterRemovalK (ih : List KB → List KB → KS → Option KS) (acc t : List KB) (c : KS) :
    Option KS :=
  Option.casesOn (motive := fun _ => Option KS) (lastK t)
    (ih acc [] c)
    (fun l => ih (l :: acc) (initK t) c)

/-- One pass of the bullet loop for the bullet `b`, followed by the rest of the loop
`ih`: `acc` holds the bullets already passed, last first, and `t` those still to
come. -/
def bulletStepK (ih : List KB → List KB → KS → Option KS) (acc : List KB) (b : KB)
    (t : List KB) (c : KS) : Option KS :=
  Bool.casesOn (motive := fun _ => Option KS) b.up
    -- alien shot
    (Bool.casesOn (motive := fun _ => Option KS)
      (Bool.casesOn (motive := fun _ => Bool) (Nat.blt b.y 5) (Nat.ble 258 b.y) true)
      (Bool.casesOn (motive := fun _ => Option KS) (shipClearK b.x (Nat.sub b.y 2) c.px)
        none
        (ih (KB.mk b.x (Nat.sub b.y 2) false :: acc) t c))
      (afterRemovalK ih acc t c))
    -- player shot
    (Bool.casesOn (motive := fun _ => Option KS)
      (Bool.casesOn (motive := fun _ => Bool) (Nat.ble 254 b.y) (Nat.beq b.y 0) true)
      (Bool.casesOn (motive := fun _ => Option KS)
        (Bool.casesOn (motive := fun _ => Bool) (allClearK b.x (Nat.add b.y 2) acc)
          false (allClearK b.x (Nat.add b.y 2) t))
        none
        (Option.casesOn (motive := fun _ => Option KS) (hitK c b.x (Nat.add b.y 2))
          (ih (KB.mk b.x (Nat.add b.y 2) true :: acc) t c)
          (fun i =>
            Option.casesOn (motive := fun _ => Option KS) (killK c i) none
              (fun c1 => afterRemovalK ih acc t c1))))
      (afterRemovalK ih acc t c))

/-- The bullet loop. -/
def bulletsK (fuel : Nat) : List KB → List KB → KS → Option KS :=
  Nat.rec (motive := fun _ => List KB → List KB → KS → Option KS) (fun _ _ _ => none)
    (fun _ ih acc rest c =>
      List.casesOn (motive := fun _ => Option KS) rest
        (some { c with bullets := revK acc [] })
        (fun b t => bulletStepK ih acc b t c)) fuel

/-- The block `if (should_change_speed)`. -/
def changeSpeedK (c : KS) : KS :=
  Bool.casesOn (motive := fun _ => KS) c.flag c
    { c with flag := false, cadence := Nat.div c.cadence 2, fd := Nat.div c.cadence 2 }

/-- First living alien: its index among the `n` entries counted down, as `55 - n`. -/
def firstK (l : List Nat) : Nat → Option Nat :=
  List.rec (motive := fun _ => Nat → Option Nat) (fun _ => none)
    (fun t _ ih i => Bool.casesOn (motive := fun _ => Option Nat) (Nat.beq t 0) (some i)
      (ih (Nat.succ i))) l

/-- Last living alien from index `i` on, `acc` if there is none. -/
def lastLivingK (l : List Nat) : Nat → Option Nat → Option Nat :=
  List.rec (motive := fun _ => Nat → Option Nat → Option Nat) (fun _ acc => acc)
    (fun t _ ih i acc => Bool.casesOn (motive := fun _ => Option Nat) (Nat.beq t 0)
      (ih (Nat.succ i) (some i)) (ih (Nat.succ i) acc)) l

/-- A step to the left keeps every living alien on the field. -/
def leftOkK (c : KS) : Bool :=
  Option.casesOn (motive := fun _ => Bool) (firstK c.types 0) true
    (fun i => Nat.ble 1028 (Nat.add c.gx (Nat.mul 16 (Nat.div i 5))))

/-- The shift of an advance. -/
def moveK (c : KS) : Option KS :=
  Bool.casesOn (motive := fun _ => Option KS)
    (Bool.casesOn (motive := fun _ => Bool) (Nat.ble c.pos 1000) false
      (Bool.casesOn (motive := fun _ => Bool) (Nat.ble c.maxpos 1000) false
        (Bool.casesOn (motive := fun _ => Bool) (Nat.ble 4 c.maxpos) false
          (Bool.casesOn (motive := fun _ => Bool) (Nat.ble 4 c.gx) false
            (Bool.casesOn (motive := fun _ => Bool) (Nat.ble c.gx 2000) false
              (Nat.ble c.gy 1000))))))
    none
    (Bool.casesOn (motive := fun _ => Option KS) c.right
      -- moving left
      (Bool.casesOn (motive := fun _ => Option KS) (Nat.blt c.pos 4)
        (Bool.casesOn (motive := fun _ => Option KS)
          (Nat.ble c.pos (Nat.add c.maxpos 4)) none
          (Bool.casesOn (motive := fun _ => Option KS) (leftOkK c) none
            (some { c with pos := Nat.sub c.pos 4, gx := Nat.sub c.gx 4 })))
        (Bool.casesOn (motive := fun _ => Option KS) (Nat.ble 8 c.gy) none
          (some { c with right := true, pos := Nat.add c.pos 4, gx := Nat.add c.gx 4,
                         gy := Nat.sub c.gy 8 })))
      -- moving right
      (Bool.casesOn (motive := fun _ => Option KS)
        (Nat.blt (Nat.sub c.maxpos 4) c.pos)
        (some { c with pos := Nat.add c.pos 4, gx := Nat.add c.gx 4 })
        (Bool.casesOn (motive := fun _ => Option KS) (Nat.ble 4 c.pos) none
          (Bool.casesOn (motive := fun _ => Option KS) (leftOkK c) none
            (some { c with right := false, pos := Nat.sub c.pos 4, gx := Nat.sub c.gx 4 })))))

/-- The generator step. -/
def xorK (x : Nat) : Nat :=
  (fun x1 => (fun x2 => Nat.xor x2 (Nat.mod (Nat.shiftLeft x2 5) 4294967296))
      (Nat.xor x1 (Nat.shiftRight x1 17)))
    (Nat.xor x (Nat.mod (Nat.shiftLeft x 13) 4294967296))

/-- The selection loop: the generator word after the last draw and the index drawn. -/
def pickK (fuel : Nat) : Nat → List Nat → Option (Nat × Nat) :=
  Nat.rec (motive := fun _ => Nat → List Nat → Option (Nat × Nat)) (fun _ _ => none)
    (fun _ ih rng types =>
      Option.casesOn (motive := fun _ => Option (Nat × Nat))
        (nthK types (Nat.div (Nat.mul 55 (xorK rng)) 4294967295)) none
        (fun t => Bool.casesOn (motive := fun _ => Option (Nat × Nat)) (Nat.beq t 0)
          (some (xorK rng, Nat.div (Nat.mul 55 (xorK rng)) 4294967295))
          (ih (xorK rng) types))) fuel

/-- The shot of the alien with index `i` and type `t`. -/
def shotK (c : KS) (i t : Nat) : Option KB :=
  Bool.casesOn (motive := fun _ => Option KB)
    (Nat.ble 1024 (Nat.add c.gx (Nat.mul 16 (Nat.div i 5)))) none
    (Bool.casesOn (motive := fun _ => Option KB)
      (Nat.ble 7 (Nat.add c.gy (Nat.mul 17 (Nat.mod i 5)))) none
      (Bool.casesOn (motive := fun _ => Option KB)
        (Bool.casesOn (motive := fun _ => Bool) (Nat.ble c.gx 1800) false (Nat.ble c.gy 128)) none
        (some (KB.mk
          (Nat.add (Nat.sub (Nat.add c.gx (Nat.mul 16 (Nat.div i 5))) 1024)
            (Nat.add (offK t) (Nat.div (widthK t) 2)))
          (Nat.sub (Nat.add c.gy (Nat.mul 17 (Nat.mod i 5))) 7) false))))

/-- The fire block of an advance. -/
def alienFireK (fuel : Nat) (c : KS) : Option KS :=
  Bool.casesOn (motive := fun _ => Option KS) (Nat.blt c.kills 55) (some c)
    (Option.casesOn (motive := fun _ => Option KS) (pickK fuel c.rng c.types) none
      (fun d =>
        Option.casesOn (motive := fun _ => Option KS) (nthK c.types d.2) none
          (fun t =>
            Option.casesOn (motive := fun _ => Option KS) (shotK c d.2 t) none
              (fun b => some { c with rng := d.1, bullets := revK (revK c.bullets []) [b] }))))

/-- The advance block. -/
def advanceK (fuel : Nat) (c : KS) : Option KS :=
  Bool.casesOn (motive := fun _ => Option KS) (Nat.ble c.cadence c.timer) (some c)
    (Bool.casesOn (motive := fun _ => Option KS)
      (Bool.casesOn (motive := fun _ => Bool) (Nat.blt (List.length c.bullets) 128) false
        (Nat.ble c.audio 1000)) none
      (Option.casesOn (motive := fun _ => Option KS)
        (moveK { c with
          audio := Bool.casesOn (motive := fun _ => Nat) (Nat.beq (Nat.add c.audio 1) 4)
            (Nat.add c.audio 1) 0
          timer := 0 }) none
        (fun c1 => alienFireK fuel c1)))

/-- One step of an animation clock with two frames. -/
def clockK (time fd : Nat) : Nat :=
  Bool.casesOn (motive := fun _ => Nat) (Nat.ble (Nat.mul 2 fd) (Nat.add time 1))
    (Nat.add time 1) 0

/-- The animation clocks and the advance timer. -/
def animK (c : KS) : Option KS :=
  Bool.casesOn (motive := fun _ => Option KS)
    (Bool.casesOn (motive := fun _ => Bool) (Nat.ble c.atime 1000) false
      (Bool.casesOn (motive := fun _ => Bool) (Nat.ble c.fd 1000) false
        (Bool.casesOn (motive := fun _ => Bool) (Nat.ble c.btime 1000) false
          (Nat.ble c.timer 1000))))
    none
    (some { c with
      atime := clockK c.atime c.fd, btime := clockK c.btime 5, timer := Nat.add c.timer 1 })

/-- The player step; `md` is the held direction plus 4. -/
def playerK (c : KS) : Option KS :=
  Bool.casesOn (motive := fun _ => Option KS) (Nat.ble c.px 213) none
    (Bool.casesOn (motive := fun _ => Option KS) (Nat.beq c.md 4)
      (Bool.casesOn (motive := fun _ => Option KS) (Nat.beq c.md 5)
        (Bool.casesOn (motive := fun _ => Option KS) (Nat.beq c.md 3) none
          (Bool.casesOn (motive := fun _ => Option KS) (Nat.ble c.px 2)
            (some { c with px := Nat.sub c.px 2 })
            (some { c with px := 0 })))
        (Bool.casesOn (motive := fun _ => Option KS) (Nat.ble 211 c.px)
          (some { c with px := Nat.add c.px 2 })
          (some { c with px := 213 })))
      (some c))

/-- The high-score update and the two conditional assignments of bounds tracking,
for the left bound `lb` and the `x` of the last living alien `lx`. -/
def boundsK (c : KS) (lb lx : Nat) : Option KS :=
  Bool.casesOn (motive := fun _ => Option KS)
    (Bool.casesOn (motive := fun _ => Bool) (Nat.ble (Nat.add lx 13) 224) false
      (Bool.casesOn (motive := fun _ => Bool)
        (Nat.ble (Nat.add (Nat.sub 211 lx) lb) 224) false
        (Bool.casesOn (motive := fun _ => Bool) (Nat.ble c.maxpos 224) false
          (Nat.blt c.score 4294967296))))
    none
    (some { c with
      hs := Bool.casesOn (motive := fun _ => Nat) (Nat.blt c.hs c.score) c.hs c.score
      pos := Bool.casesOn (motive := fun _ => Nat) (Nat.blt c.pos lb) c.pos lb
      maxpos := Bool.casesOn (motive := fun _ => Nat)
        (Nat.blt c.maxpos (Nat.add (Nat.sub 211 lx) lb)) c.maxpos
        (Nat.add (Nat.sub 211 lx) lb) })

/-- The high-score update and the bounds tracking. -/
def trackK (c : KS) : Option KS :=
  Option.casesOn (motive := fun _ => Option KS) (firstK c.types 0) none
    (fun i =>
      Option.casesOn (motive := fun _ => Option KS) (lastLivingK c.types 0 none) none
        (fun j =>
          Option.casesOn (motive := fun _ => Option KS) (nthK c.types j) none
            (fun tj =>
              Bool.casesOn (motive := fun _ => Option KS)
                (Nat.ble 1024 (Nat.add c.gx (Nat.mul 16 (Nat.div i 5)))) none
                (boundsK c (Nat.sub (Nat.add c.gx (Nat.mul 16 (Nat.div i 5))) 1024)
                  (Nat.add (Nat.sub (Nat.add c.gx (Nat.mul 16 (Nat.div j 5))) 1024)
                    (offK tj))))))

/-- The alien types of a fresh wave. -/
def waveTypesK : List Nat :=
  [3,3,2,2,1, 3,3,2,2,1, 3,3,2,2,1, 3,3,2,2,1, 3,3,2,2,1, 3,3,2,2,1,
   3,3,2,2,1, 3,3,2,2,1, 3,3,2,2,1, 3,3,2,2,1, 3,3,2,2,1]

/-- The cadence of a level up to 8. -/
def levelK (level : Nat) : Nat := Nat.sub 120 (Nat.mul level 10)

/-- The end of the simulation part of a tick. -/
def progressionK (c : KS) : Option KS :=
  Bool.casesOn (motive := fun _ => Option KS) (Nat.blt c.kills 55)
    (Bool.casesOn (motive := fun _ => Option KS) (Nat.ble (Nat.add c.level 1) 8) none
      (some { c with
        flag := true
        level := Nat.add c.level 1
        bullets := []
        types := waveTypesK
        gx := 1048
        gy := 128
        maxpos := 45
        cadence := levelK (Nat.add c.level 1)
        pos := 24
        kills := 0
        timer := 0
        right := true }))
    (trackK c)

/-- The player's shot. -/
def fireK (c : KS) : KS :=
  Bool.casesOn (motive := fun _ => KS) c.fire c
    (Bool.casesOn (motive := fun _ => KS) (Nat.blt (List.length c.bullets) 128)
      { c with fire := false }
      { c with fire := false, bullets := revK (revK c.bullets []) [KB.mk (Nat.add c.px 5) 39 true] })

/-- Bit `k` of an event code. -/
def bitK (ev k : Nat) : Nat := Nat.land (Nat.shiftRight ev k) 1

/-- The key events of a tick: left press 1, left release 2, right press 4, right
release 8, space release 16. -/
def pollK (c : KS) (ev : Nat) : Option KS :=
  Bool.casesOn (motive := fun _ => Option KS) (Nat.beq ev 0)
    (Bool.casesOn (motive := fun _ => Option KS)
      (Bool.casesOn (motive := fun _ => Bool) (Nat.blt ev 32) false
        (Bool.casesOn (motive := fun _ => Bool) (Nat.ble 3 c.md) false (Nat.ble c.md 5)))
      none
      (Bool.casesOn (motive := fun _ => Option KS)
        (Bool.casesOn (motive := fun _ => Bool)
          (Nat.ble 3 (Nat.sub (Nat.add (Nat.add c.md (bitK ev 1)) (bitK ev 2))
            (Nat.add (bitK ev 0) (bitK ev 3)))) false
          (Nat.ble (Nat.sub (Nat.add (Nat.add c.md (bitK ev 1)) (bitK ev 2))
            (Nat.add (bitK ev 0) (bitK ev 3))) 5))
        none
        (some { c with
          md := Nat.sub (Nat.add (Nat.add c.md (bitK ev 1)) (bitK ev 2))
            (Nat.add (bitK ev 0) (bitK ev 3))
          fire := Bool.casesOn (motive := fun _ => Bool) (Nat.beq (bitK ev 4) 1) c.fire true })))
    (some c)

/-- One tick of the replay. -/
def tickK (fuel : Nat) (c : KS) (ev : Nat) : Option KS :=
  Bool.casesOn (motive := fun _ => Option KS)
    (Bool.casesOn (motive := fun _ => Bool) (Nat.blt 0 c.fd) false
      (Bool.casesOn (motive := fun _ => Bool) (Nat.blt c.atime (Nat.mul 2 c.fd)) false
        (Bool.casesOn (motive := fun _ => Bool) (Nat.blt c.btime 10) false
          (Bool.casesOn (motive := fun _ => Bool) (Nat.ble 3 c.md) false
            (Bool.casesOn (motive := fun _ => Bool) (Nat.ble c.md 5) false
              (Bool.casesOn (motive := fun _ => Bool) (Nat.ble c.fd 1000) false
                (Bool.casesOn (motive := fun _ => Bool) (Nat.ble c.px 213) false
                  (Bool.casesOn (motive := fun _ => Bool) (Nat.ble c.gx 2004) false
                    (Nat.ble c.gy 128)))))))))
    none
    (Option.casesOn (motive := fun _ => Option KS) (bulletsK 129 [] c.bullets c) none
      (fun c1 =>
        Option.casesOn (motive := fun _ => Option KS) (advanceK fuel (changeSpeedK c1)) none
          (fun c2 =>
            Option.casesOn (motive := fun _ => Option KS) (animK c2) none
              (fun c2a =>
                Option.casesOn (motive := fun _ => Option KS) (playerK c2a) none
                  (fun c3 =>
                    Option.casesOn (motive := fun _ => Option KS) (progressionK c3) none
                      (fun c4 =>
                        Bool.casesOn (motive := fun _ => Option KS) (Nat.ble c4.px 213) none
                          (pollK (fireK c4) ev)))))))

/-- The replay of a list of event codes. -/
def runK (fuel : Nat) (c : KS) (tr : List Nat) : Option KS :=
  (List.rec (motive := fun _ => KS → Option KS) (fun c => some c)
    (fun ev _ ih c => Option.casesOn (motive := fun _ => Option KS) (tickK fuel c ev) none
      (fun c1 => ih c1)) tr) c

/-- The bullet of the game that a bullet of the replay stands for. -/
def toBullet (b : KB) : Bullet :=
  { x := b.x, y := b.y, dir := Bool.casesOn (motive := fun _ => Int) b.up (-2) 2 }

/-- The key events that an event code stands for. -/
def evsOf (ev : Nat) : List KeyEvent :=
  (if bitK ev 0 = 1 then [{ key := Key.left, action := Action.press }] else []) ++
  (if bitK ev 1 = 1 then [{ key := Key.left, action := Action.release }] else []) ++
  (if bitK ev 2 = 1 then [{ key := Key.right, action := Action.press }] else []) ++
  (if bitK ev 3 = 1 then [{ key := Key.right, action := Action.release }] else []) ++
  (if bitK ev 4 = 1 then [{ key := Key.space, action := Action.release }] else [])

/-- The game state that a replay state stands for, given what the replay leaves
out: the bullet count, the two arrays, the death counters and the last step of the
player. -/
def conc (c : KS) (n : Nat) (bl : List Bullet) (al : List Alien) (dc : List Nat) (pmd : Int) :
    State :=
  { game :=
      { num_bullets := n
        aliens := al
        player := { x := c.px, y := 32, life := 3 }
        bullets := bl }
    alien_animation := { num_frames := 2, frame_duration := c.fd, time := c.atime }
    alien_bullet_animation := { num_frames := 2, frame_duration := 5, time := c.btime }
    alien_update_frequency := c.cadence
    move_audio_i := c.audio
    alien_swarm_position := c.pos
    alien_swarm_max_position := c.maxpos
    aliens_killed := c.kills
    alien_update_timer := c.timer
    should_change_speed := c.flag
    death_counters := dc
    rng := c.rng
    alien_move_dir := Bool.casesOn (motive := fun _ => Int) c.right (-4) 4
    high_score := c.hs
    score := c.score
    level := c.level
    player_move_dir := pmd
    move_dir := (c.md : Int) - 4
    fire_pressed := c.fire
    reset := false
    game_over := false
    game_running := true }

/-- The type of the aliens of a row. -/
def rowTypeK (r : Nat) : Nat :=
  Bool.casesOn (motive := fun _ => Nat) (Nat.ble r 1)
    (Bool.casesOn (motive := fun _ => Nat) (Nat.ble r 3) 1 2) 3

/-- The live part of the bullet array `bl` is the list `l`, and every bullet of it
is on the field. -/
def Live (bl : List Bullet) (l : List KB) : Prop :=
  bl.length = 128 ∧ l.length ≤ 128 ∧
    (∀ (i : Nat) (q : KB), l[i]? = some q → bl[i]? = some (toBullet q)) ∧
    ∀ b, b ∈ l → b.x ≤ 1000 ∧ b.y ≤ 255

/-- The alien array `al` has the types `types`, and its living aliens stand on the
grid with origin `(gx - 1024, gy)`. -/
def OnGrid (types : List Nat) (gx gy : Nat) (al : List Alien) : Prop :=
  al.length = 55 ∧ types = al.map (fun a => a.type) ∧
    ∀ (i : Nat) (a : Alien), al[i]? = some a → a.type ≠ 0 →
      a.type = rowTypeK (i % 5) ∧ a.x + 1024 = gx + 16 * (i / 5) + offK a.type ∧
        a.y = gy + 17 * (i % 5)

/-- The game state `s` is the one the replay state `c` stands for. -/
def Rep (s : State) (c : KS) : Prop :=
  ∃ (bl : List Bullet) (al : List Alien) (dc : List Nat) (pmd : Int),
    s = conc c c.bullets.length bl al dc pmd ∧ Live bl c.bullets ∧
      OnGrid c.types c.gx c.gy al ∧ dc.length = 55

/-- What the bullet loop with `fuel` passes left has to deliver. -/
def LoopSpec (fuel : Nat) : Prop :=
  ∀ (acc rest : List KB) (c c' : KS) (bl : List Bullet) (al : List Alien) (dc : List Nat)
    (pmd : Int),
    Live bl (acc.reverse ++ rest) → OnGrid c.types c.gx c.gy al → c.fd ≠ 0 →
    c.atime / c.fd < 2 → c.px ≤ 213 → c.gx ≤ 2004 → c.gy ≤ 128 →
    bulletsK fuel acc rest c = some c' →
    ∃ bl' al', simulateBullets fuel acc.length (conc c (acc.length + rest.length) bl al dc pmd)
        = Except.ok (conc c' c'.bullets.length bl' al' dc pmd) ∧
      Live bl' c'.bullets ∧ OnGrid c'.types c'.gx c'.gy al' ∧
      c'.fd = c.fd ∧ c'.atime = c.atime ∧ c'.px = c.px ∧ c'.gx = c.gx ∧ c'.gy = c.gy

/-- The replay state at start-up. -/
def ks0 : KS :=
  { bullets := []
    types := [3, 3, 2, 2, 1, 3, 3, 2, 2, 1, 3, 3, 2, 2, 1, 3, 3, 2, 2, 1, 3, 3, 2, 2, 1, 3, 3, 2,
     2, 1, 3, 3, 2, 2, 1, 3, 3, 2, 2, 1, 3, 3, 2, 2, 1, 3, 3, 2, 2, 1, 3, 3, 2, 2, 1]
    gx := 1048, gy := 128, px := 107, fd := 120, atime := 0, btime := 0
    cadence := 120, audio := 0, pos := 24, maxpos := 45, kills := 0, timer := 0, flag := false
    rng := 13, right := true, hs := 0, score := 0, level := 1, md := 4, fire := false }

/-- The event codes of the ticks 1 to 300 of the run, one code for each tick. -/
def tr0 : List Nat :=
  [16, 4, 24, 1, 16, 0, 16, 6, 16, 0, 0, 0, 0, 16, 0, 16, 0, 16, 0, 8, 16, 4, 0, 16, 0, 16, 8, 0,
   0, 0, 0, 0, 0, 0, 0, 0, 0, 0, 0, 0, 0, 0, 0, 0, 0, 0, 0, 0, 0, 0, 0, 0, 0, 0, 16, 4, 16, 0, 16,
   0, 16, 0, 16, 0, 16, 0, 24, 1, 16, 6, 0, 0, 0, 16, 0, 16, 0, 16, 0, 16, 9, 16, 6, 0, 0, 0, 0,
   16, 0, 16, 0, 24, 0, 0, 0, 0, 0, 0, 0, 0, 0, 0, 0, 0, 0, 0, 16, 0, 0, 0, 0, 0, 0, 0, 0, 0, 0,
   16, 1, 0, 0, 0, 0, 0, 0, 0, 0, 0, 0, 0, 0, 0, 0, 0, 0, 0, 0, 0, 0, 0, 0, 0, 0, 0, 0, 0, 16, 0,
   0, 0, 0, 0, 0, 0, 0, 0, 0, 0, 0, 16, 0, 16, 0, 16, 0, 16, 0, 16, 0, 16, 0, 16, 0, 16, 0, 16, 6,
   8, 16, 0, 0, 0, 16, 4, 8, 16, 1, 0, 0, 0, 0, 0, 0, 0, 0, 2, 0, 0, 0, 0, 0, 0, 0, 0, 0, 0, 0, 0,
   0, 0, 0, 0, 0, 0, 0, 0, 0, 0, 0, 0, 0, 0, 0, 0, 0, 0, 0, 0, 0, 0, 0, 0, 0, 0, 16, 1, 16, 0, 16,
   0, 16, 6, 0, 16, 0, 24, 0, 0, 0, 16, 4, 0, 0, 0, 0, 0, 16, 0, 8, 0, 16, 4, 0, 16, 8, 4, 0, 0,
   0, 0, 0, 0, 0, 0, 0, 0, 0, 0, 0, 0, 16, 0, 0, 0, 0, 0, 0, 0, 0, 0, 0, 0, 16, 0, 0, 8, 0, 16, 0,
   0]

/-- The replay state after the event lists up to `tr0`. -/
def ks1 : KS :=
  { bullets := [{ x := 82, y := 107, up := true }, { x := 54, y := 173, up := false },
      { x := 58, y := 147, up := true }, { x := 94, y := 71, up := false },
      { x := 60, y := 143, up := true }, { x := 76, y := 113, up := true },
      { x := 74, y := 121, up := true }, { x := 66, y := 63, up := false },
      { x := 114, y := 73, up := true }, { x := 60, y := 137, up := true },
      { x := 138, y := 51, up := true }, { x := 142, y := 41, up := true }]
    types := [0, 0, 2, 2, 1, 0, 0, 2, 2, 1, 0, 0, 0, 0, 0, 0, 0, 0, 0, 1, 0, 0, 0, 2, 1, 0, 0, 0,
     0, 0, 0, 0, 0, 0, 0, 0, 0, 0, 0, 0, 0, 0, 0, 0, 0, 0, 0, 0, 0, 0, 0, 0, 0, 0, 0]
    gx := 1072, gy := 128, px := 137, fd := 15, atime := 3, btime := 0
    cadence := 15, audio := 2, pos := 48, maxpos := 145, kills := 46, timer := 10, flag := false
    rng := 344781211, right := true, hs := 840, score := 840, level := 1, md := 4, fire := false }

/-- The event codes of the ticks 301 to 600 of the run, one code for each tick. -/
def tr1 : List Nat :=
  [0, 0, 0, 0, 0, 0, 0, 0, 0, 0, 0, 0, 0, 0, 0, 0, 0, 0, 0, 0, 0, 0, 0, 0, 0, 0, 0, 0, 0, 0, 0, 0,
   0, 0, 0, 0, 0, 0, 0, 0, 0, 0, 0, 0, 0, 0, 0, 0, 0, 0, 0, 0, 0, 0, 0, 0, 0, 0, 0, 0, 0, 0, 0, 0,
   0, 0, 0, 0, 0, 0, 0, 0, 0, 0, 0, 0, 0, 0, 0, 0, 0, 0, 16, 4, 24, 4, 24, 4, 24, 1, 16, 0, 0, 0,
   0, 16, 2, 0, 16, 1, 0, 16, 6, 0, 16, 0, 8, 0, 0, 16, 1, 0, 0, 0, 0, 0, 16, 0, 16, 0, 16, 6, 16,
   9, 16, 0, 0, 16, 0, 16, 2, 0, 0, 0, 0, 0, 0, 0, 16, 4, 8, 0, 0, 0, 0, 0, 0, 0, 0, 0, 0, 0, 0,
   0, 0, 0, 0, 0, 0, 0, 0, 0, 16, 4, 16, 9, 0, 0, 0, 0, 16, 0, 16, 0, 16, 6, 24, 4, 8, 0, 0, 0, 0,
   0, 16, 1, 0, 0, 16, 0, 16, 0, 16, 0, 16, 0, 16, 0, 16, 0, 16, 2, 0, 0, 0, 16, 1, 0, 2, 16, 0,
   0, 0, 0, 0, 0, 0, 0, 0, 16, 0, 0, 0, 0, 0, 0, 16, 1, 0, 0, 16, 6, 0, 8, 16, 4, 0, 0, 0, 0, 16,
   9, 0, 0, 0, 0, 0, 0, 0, 0, 0, 0, 0, 0, 0, 16, 6, 0, 0, 0, 0, 0, 0, 0, 0, 0, 0, 0, 0, 0, 0, 0,
   0, 0, 0, 0, 0, 0, 0, 0, 0, 0, 0, 0, 0, 0, 0, 0, 0, 0, 0, 0, 0, 0, 0, 0, 0, 0, 0, 0]

/-- The replay state after the event lists up to `tr1`. -/
def ks2 : KS :=
  { bullets := [{ x := 36, y := 123, up := true }, { x := 198, y := 97, up := false },
      { x := 210, y := 41, up := false }, { x := 66, y := 149, up := true },
      { x := 50, y := 173, up := true }, { x := 54, y := 163, up := true },
      { x := 206, y := 25, up := false }, { x := 210, y := 121, up := false },
      { x := 206, y := 109, up := false }]
    types := [0, 0, 0, 2, 1, 0, 0, 0, 2, 0, 0, 0, 0, 0, 1, 0, 0, 0, 0, 0, 0, 0, 0, 0, 0, 0, 0, 0,
     0, 0, 0, 0, 0, 0, 0, 0, 0, 0, 0, 0, 3, 3, 2, 2, 1, 3, 3, 2, 2, 1, 3, 3, 2, 2, 1]
    gx := 1064, gy := 128, px := 117, fd := 12, atime := 19, btime := 0
    cadence := 12, audio := 0, pos := 40, maxpos := 49, kills := 36, timer := 7, flag := false
    rng := 3976221069, right := false, hs := 1780, score := 1780, level := 2, md := 5, fire :=
     false }

/-- The event codes of the ticks 601 to 900 of the run, one code for each tick. -/
def tr2 : List Nat :=
  [0, 0, 0, 0, 0, 0, 16, 0, 16, 0, 16, 0, 24, 4, 24, 4, 0, 0, 16, 9, 16, 6, 16, 0, 24, 4, 0, 0, 0,
   16, 0, 8, 16, 1, 2, 0, 16, 1, 0, 0, 0, 0, 0, 0, 0, 16, 0, 0, 0, 16, 0, 0, 0, 0, 0, 0, 0, 0, 0,
   0, 0, 16, 2, 0, 0, 0, 0, 0, 0, 0, 0, 0, 0, 0, 0, 0, 0, 0, 0, 0, 0, 0, 0, 0, 0, 0, 0, 0, 0, 0,
   0, 0, 0, 0, 0, 0, 0, 0, 0, 0, 0, 0, 0, 0, 0, 0, 0, 0, 0, 0, 0, 0, 0, 0, 0, 0, 0, 0, 0, 0, 0, 0,
   0, 0, 0, 0, 0, 0, 0, 0, 0, 0, 0, 0, 0, 0, 0, 0, 0, 0, 0, 0, 0, 0, 16, 1, 16, 6, 24, 1, 16, 0,
   16, 6, 16, 9, 0, 0, 0, 16, 0, 16, 0, 16, 6, 16, 0, 16, 9, 0, 0, 0, 0, 0, 16, 0, 16, 0, 16, 6,
   16, 0, 16, 9, 0, 0, 0, 0, 0, 2, 16, 1, 16, 2, 0, 0, 0, 0, 0, 0, 0, 0, 16, 0, 0, 0, 0, 16, 0, 0,
   0, 0, 0, 16, 1, 0, 0, 18, 1, 2, 0, 0, 16, 1, 16, 0, 2, 0, 16, 1, 0, 0, 18, 1, 16, 0, 0, 18, 4,
   16, 9, 16, 6, 0, 0, 0, 0, 0, 0, 0, 0, 0, 0, 16, 0, 0, 0, 0, 0, 0, 0, 0, 0, 0, 0, 0, 0, 0, 0, 0,
   0, 0, 0, 0, 0, 0, 0, 0, 0, 0, 0, 0, 0, 16, 0, 16, 0, 24, 0, 0, 0, 16, 4, 8, 0, 0, 0, 0, 0, 0]

/-- The replay state after the event lists up to `tr2`. -/
def ks3 : KS :=
  { bullets := [{ x := 50, y := 155, up := true }, { x := 68, y := 195, up := true },
      { x := 54, y := 169, up := true }, { x := 134, y := 63, up := true },
      { x := 42, y := 105, up := false }, { x := 62, y := 132, up := false },
      { x := 46, y := 151, up := true }, { x := 70, y := 127, up := true },
      { x := 136, y := 51, up := true }, { x := 136, y := 59, up := true },
      { x := 150, y := 44, up := false }, { x := 130, y := 69, up := true }]
    types := [0, 0, 2, 2, 1, 0, 0, 0, 2, 1, 0, 0, 0, 0, 0, 0, 0, 0, 0, 0, 0, 0, 0, 0, 0, 0, 0, 0,
     0, 0, 0, 3, 2, 2, 1, 3, 3, 2, 2, 1, 3, 3, 2, 2, 1, 3, 3, 2, 2, 1, 3, 3, 2, 2, 1]
    gx := 1064, gy := 128, px := 133, fd := 22, atime := 29, btime := 0
    cadence := 22, audio := 2, pos := 40, maxpos := 49, kills := 26, timer := 22, flag := false
    rng := 678389479, right := true, hs := 2670, score := 2670, level := 3, md := 4, fire := false
     }

/-- The event codes of the ticks 901 to 1200 of the run, one code for each tick. -/
def tr3 : List Nat :=
  [0, 0, 0, 0, 16, 4, 0, 0, 16, 0, 16, 9, 16, 6, 16, 0, 16, 0, 16, 9, 16, 6, 8, 16, 0, 0, 0, 16,
   0, 0, 16, 0, 0, 0, 0, 0, 0, 0, 0, 0, 0, 0, 0, 0, 0, 0, 0, 0, 0, 0, 0, 0, 0, 0, 0, 0, 0, 0, 0,
   0, 0, 0, 0, 0, 0, 0, 0, 0, 0, 0, 0, 0, 0, 0, 0, 0, 0, 0, 0, 0, 0, 0, 0, 0, 0, 16, 1, 16, 0, 2,
   16, 1, 0, 0, 0, 0, 0, 16, 0, 16, 0, 16, 0, 16, 0, 0, 0, 0, 0, 0, 0, 0, 0, 16, 0, 16, 2, 0, 0,
   0, 0, 0, 0, 0, 0, 0, 0, 0, 0, 0, 0, 0, 0, 0, 0, 0, 0, 0, 0, 0, 0, 0, 0, 0, 0, 0, 0, 0, 0, 0, 0,
   0, 0, 0, 0, 0, 0, 0, 0, 0, 0, 0, 0, 0, 0, 0, 0, 0, 0, 0, 0, 0, 0, 0, 0, 0, 0, 0, 0, 0, 0, 0, 0,
   0, 0, 0, 0, 16, 4, 24, 4, 24, 4, 24, 4, 24, 4, 24, 4, 24, 4, 0, 0, 0, 0, 16, 0, 24, 0, 0, 0, 0,
   0, 0, 0, 0, 0, 0, 0, 0, 0, 0, 0, 0, 0, 0, 0, 0, 0, 0, 0, 0, 0, 0, 0, 0, 0, 0, 0, 0, 0, 0, 0, 0,
   0, 0, 0, 0, 0, 0, 0, 0, 0, 0, 0, 0, 0, 0, 0, 0, 0, 0, 16, 4, 24, 4, 0, 0, 0, 0, 0, 16, 0, 24,
   4, 16, 0, 24, 4, 24, 4, 16, 0, 16, 0, 16, 0, 8, 16, 4, 0, 0, 0, 8, 0, 0, 0, 0, 0, 0]

/-- The replay state after the event lists up to `tr3`. -/
def ks4 : KS :=
  { bullets := [{ x := 34, y := 13, up := false }, { x := 134, y := 93, up := false },
      { x := 128, y := 105, up := true }, { x := 126, y := 111, up := true },
      { x := 142, y := 93, up := true }, { x := 144, y := 89, up := true },
      { x := 148, y := 85, up := true }, { x := 150, y := 81, up := true },
      { x := 152, y := 77, up := true }, { x := 156, y := 73, up := true },
      { x := 160, y := 69, up := true }, { x := 164, y := 65, up := true },
      { x := 166, y := 59, up := true }]
    types := [3, 3, 2, 2, 1, 3, 3, 2, 2, 1, 3, 3, 2, 2, 1, 3, 3, 2, 2, 1, 0, 0, 2, 0, 0, 0, 0, 0,
     2, 1, 0, 0, 2, 2, 1, 3, 3, 2, 2, 1, 3, 3, 2, 2, 1, 3, 3, 2, 2, 1, 3, 3, 2, 2, 1]
    gx := 1056, gy := 128, px := 169, fd := 40, atime := 39, btime := 0
    cadence := 40, audio := 2, pos := 32, maxpos := 49, kills := 9, timer := 33, flag := false
    rng := 2567157781, right := true, hs := 3440, score := 3440, level := 4, md := 4, fire :=
     false }

/-- The event codes of the ticks 1201 to 1500 of the run, one code for each tick. -/
def tr4 : List Nat :=
  [0, 0, 0, 0, 0, 0, 0, 0, 0, 0, 0, 0, 0, 0, 0, 0, 0, 0, 0, 0, 0, 0, 0, 0, 0, 0, 0, 0, 0, 0, 0, 0,
   16, 4, 16, 9, 16, 6, 0, 0, 0, 0, 16, 0, 16, 0, 24, 4, 24, 1, 16, 6, 0, 0, 0, 0, 16, 9, 16, 6,
   16, 0, 16, 0, 8, 16, 1, 0, 0, 0, 0, 0, 0, 0, 0, 0, 0, 0, 0, 0, 0, 0, 0, 0, 0, 0, 0, 0, 0, 0, 0,
   0, 0, 0, 0, 0, 0, 0, 0, 0, 0, 0, 0, 0, 0, 0, 0, 0, 0, 16, 0, 0, 0, 0, 0, 0, 0, 0, 0, 0, 0, 0,
   0, 0, 0, 0, 0, 16, 0, 0, 16, 0, 16, 0, 16, 0, 0, 0, 0, 0, 0, 0, 0, 0, 0, 16, 0, 16, 6, 24, 1,
   2, 0, 0, 0, 0, 0, 0, 0, 0, 0, 0, 0, 0, 0, 0, 0, 0, 0, 0, 0, 0, 0, 0, 0, 0, 0, 0, 0, 0, 0, 0, 0,
   0, 16, 1, 2, 0, 0, 0, 0, 0, 16, 4, 8, 16, 1, 2, 0, 0, 16, 0, 0, 0, 0, 0, 0, 0, 0, 0, 0, 0, 0,
   0, 0, 0, 0, 0, 0, 0, 0, 0, 0, 0, 0, 0, 0, 0, 0, 0, 0, 0, 0, 0, 0, 0, 0, 0, 0, 0, 0, 0, 0, 0, 0,
   0, 0, 0, 0, 0, 16, 0, 0, 0, 0, 4, 16, 0, 0, 0, 0, 0, 0, 0, 0, 0, 0, 0, 16, 0, 16, 0, 24, 4, 24,
   4, 0, 0, 0, 0, 0, 0, 16, 0, 0, 0, 0, 0, 0, 0, 0, 0, 0, 0, 0, 0, 0, 0, 0, 0]

/-- The replay state after the event lists up to `tr4`. -/
def ks5 : KS :=
  { bullets := [{ x := 62, y := 52, up := false }, { x := 66, y := 89, up := false },
      { x := 46, y := 162, up := false }, { x := 26, y := 129, up := false },
      { x := 34, y := 81, up := false }, { x := 38, y := 41, up := false },
      { x := 70, y := 97, up := true }, { x := 46, y := 121, up := true },
      { x := 38, y := 159, up := false }, { x := 94, y := 69, up := true },
      { x := 62, y := 139, up := false }, { x := 74, y := 95, up := true },
      { x := 76, y := 91, up := true }, { x := 78, y := 87, up := true },
      { x := 42, y := 133, up := false }]
    types := [0, 3, 2, 2, 1, 3, 3, 0, 0, 0, 0, 0, 0, 0, 1, 0, 0, 0, 2, 1, 0, 0, 0, 0, 0, 0, 0, 0,
     0, 0, 0, 0, 0, 0, 0, 0, 0, 0, 0, 0, 0, 0, 0, 0, 0, 0, 0, 0, 0, 0, 0, 0, 0, 0, 0]
    gx := 1064, gy := 120, px := 121, fd := 5, atime := 6, btime := 0
    cadence := 5, audio := 0, pos := 40, maxpos := 161, kills := 46, timer := 3, flag := false
    rng := 301443060, right := true, hs := 4190, score := 4190, level := 4, md := 5, fire := false
     }

/-- The event codes of the ticks 1501 to 1800 of the run, one code for each tick. -/
def tr5 : List Nat :=
  [0, 0, 0, 0, 0, 0, 16, 0, 0, 0, 0, 0, 16, 0, 0, 0, 0, 0, 0, 0, 0, 0, 0, 0, 16, 8, 0, 0, 0, 0, 0,
   0, 0, 0, 0, 0, 0, 0, 0, 0, 0, 0, 0, 0, 0, 0, 0, 0, 0, 0, 0, 0, 0, 0, 0, 0, 0, 0, 0, 0, 0, 0, 0,
   0, 0, 0, 0, 0, 0, 0, 0, 0, 0, 0, 0, 0, 0, 0, 0, 0, 0, 0, 0, 0, 0, 0, 0, 0, 0, 0, 0, 0, 0, 0, 0,
   0, 0, 0, 0, 0, 0, 0, 0, 0, 16, 4, 24, 4, 24, 4, 24, 1, 16, 6, 0, 0, 16, 0, 24, 4, 16, 0, 16, 9,
   16, 0, 0, 0, 0, 0, 0, 0, 0, 0, 0, 18, 1, 16, 0, 16, 0, 16, 0, 16, 0, 16, 2, 0, 0, 0, 16, 0, 0,
   0, 0, 0, 0, 0, 0, 0, 16, 4, 16, 9, 0, 2, 0, 0, 0, 0, 0, 0, 0, 0, 0, 0, 0, 0, 0, 0, 0, 16, 1,
   16, 0, 16, 0, 16, 0, 16, 6, 8, 16, 1, 16, 0, 16, 6, 24, 4, 0, 0, 0, 0, 0, 0, 16, 9, 0, 0, 0, 0,
   0, 0, 0, 0, 16, 6, 24, 1, 2, 0, 0, 0, 0, 0, 0, 0, 0, 0, 16, 0, 0, 0, 16, 0, 0, 0, 0, 0, 0, 0,
   0, 0, 0, 0, 0, 0, 0, 16, 4, 8, 16, 4, 8, 0, 16, 0, 0, 0, 0, 0, 0, 0, 16, 1, 16, 2, 0, 0, 0, 0,
   16, 1, 0, 0, 0, 0, 0, 0, 0, 16, 0, 0, 16, 6, 16, 0, 8, 16, 1, 2, 0, 16, 1, 0, 0, 0, 0, 0]

/-- The replay state after the event lists up to `tr5`. -/
def ks6 : KS :=
  { bullets := [{ x := 118, y := 69, up := false }, { x := 126, y := 154, up := false },
      { x := 112, y := 55, up := true }, { x := 130, y := 101, up := true },
      { x := 110, y := 61, up := true }, { x := 58, y := 137, up := false },
      { x := 106, y := 65, up := true }, { x := 134, y := 121, up := true },
      { x := 66, y := 187, up := false }, { x := 110, y := 47, up := true },
      { x := 130, y := 89, up := true }, { x := 82, y := 35, up := false },
      { x := 132, y := 129, up := true }, { x := 112, y := 71, up := true },
      { x := 134, y := 107, up := true }]
    types := [3, 3, 2, 2, 1, 3, 3, 2, 2, 1, 3, 3, 2, 2, 1, 3, 3, 2, 2, 1, 0, 0, 0, 0, 0, 0, 0, 0,
     0, 0, 0, 0, 0, 0, 0, 0, 0, 0, 0, 0, 0, 0, 0, 0, 1, 0, 0, 0, 0, 0, 0, 0, 0, 0, 0]
    gx := 1084, gy := 128, px := 95, fd := 8, atime := 8, btime := 0
    cadence := 8, audio := 2, pos := 60, maxpos := 81, kills := 34, timer := 3, flag := false
    rng := 335301408, right := true, hs := 5060, score := 5060, level := 5, md := 3, fire := false
     }

/-- The event codes of the ticks 1801 to 2100 of the run, one code for each tick. -/
def tr6 : List Nat :=
  [16, 0, 0, 0, 0, 0, 0, 2, 16, 1, 2, 0, 0, 0, 16, 1, 0, 0, 0, 0, 0, 0, 0, 0, 0, 0, 0, 0, 0, 16,
   0, 0, 0, 16, 0, 16, 0, 16, 0, 0, 16, 6, 0, 0, 16, 9, 0, 0, 0, 0, 0, 0, 0, 0, 0, 0, 2, 16, 0, 0,
   0, 0, 0, 0, 0, 0, 0, 0, 0, 0, 0, 0, 0, 0, 0, 0, 0, 0, 0, 0, 0, 0, 0, 0, 0, 0, 0, 0, 0, 0, 0, 0,
   0, 0, 0, 0, 0, 0, 0, 0, 0, 0, 0, 0, 0, 0, 0, 0, 0, 0, 0, 0, 0, 0, 0, 0, 0, 0, 0, 0, 0, 0, 0, 0,
   0, 0, 0, 0, 4, 0, 0, 0, 0, 0, 0, 0, 0, 0, 0, 0, 0, 0, 0, 0, 0, 0, 0, 0, 0, 0, 0, 0, 0, 0, 0, 0,
   0, 0, 0, 0, 0, 0, 0, 0, 0, 0, 0, 0, 0, 0, 0, 0, 0, 0, 0, 0, 0, 0, 0, 0, 0, 0, 0, 0, 0, 8, 0, 0,
   0, 0, 0, 0, 0, 0, 0, 0, 0, 0, 0, 0, 0, 0, 0, 0, 0, 0, 0, 0, 0, 16, 0, 0, 0, 0, 0, 0, 0, 0, 0,
   0, 0, 0, 0, 0, 0, 0, 0, 0, 0, 0, 0, 0, 0, 0, 0, 0, 0, 0, 0, 0, 0, 0, 0, 0, 0, 0, 0, 0, 0, 0, 0,
   0, 0, 0, 0, 0, 0, 0, 0, 0, 0, 0, 0, 0, 0, 0, 0, 0, 0, 0, 0, 0, 0, 0, 0, 0, 0, 0, 0, 0, 0, 0, 0,
   0, 0, 0, 0, 0, 0, 0, 16, 4, 24, 0, 0, 16, 0, 0, 16, 4]

/-- The replay state after the event lists up to `tr6`. -/
def ks7 : KS :=
  { bullets := [{ x := 130, y := 55, up := true }, { x := 132, y := 51, up := true },
      { x := 132, y := 45, up := true }, { x := 132, y := 39, up := true }]
    types := [3, 3, 2, 2, 1, 3, 3, 2, 2, 1, 3, 3, 2, 2, 1, 3, 3, 2, 2, 1, 3, 3, 2, 2, 1, 3, 3, 2,
     2, 1, 3, 3, 2, 2, 1, 3, 3, 2, 2, 1, 3, 3, 2, 2, 1, 3, 3, 2, 2, 1, 3, 3, 2, 2, 1]
    gx := 1048, gy := 128, px := 127, fd := 30, atime := 12, btime := 0
    cadence := 30, audio := 3, pos := 24, maxpos := 49, kills := 0, timer := 10, flag := false
    rng := 3467370519, right := true, hs := 5500, score := 5500, level := 6, md := 5, fire :=
     false }

/-- The event codes of the ticks 2101 to 2373 of the run, one code for each tick. -/
def tr7 : List Nat :=
  [0, 16, 0, 24, 4, 16, 0, 16, 0, 16, 0, 16, 0, 16, 0, 16, 0, 16, 0, 16, 9, 16, 6, 0, 0, 0, 0, 0,
   0, 0, 0, 8, 0, 0, 0, 0, 0, 0, 0, 0, 0, 0, 0, 0, 0, 0, 0, 0, 0, 0, 0, 0, 0, 0, 0, 0, 0, 16, 4,
   16, 0, 16, 0, 16, 0, 16, 0, 24, 4, 16, 0, 24, 4, 24, 1, 0, 0, 0, 0, 0, 0, 0, 0, 0, 2, 0, 0, 0,
   0, 16, 0, 0, 0, 0, 0, 0, 0, 0, 1, 0, 0, 0, 0, 0, 0, 0, 0, 0, 0, 0, 0, 0, 0, 0, 0, 0, 0, 0, 0,
   0, 0, 0, 0, 0, 0, 0, 0, 0, 0, 16, 0, 16, 0, 16, 0, 2, 0, 16, 1, 0, 0, 0, 0, 0, 16, 0, 0, 18, 1,
   16, 0, 16, 0, 0, 0, 0, 0, 16, 2, 0, 0, 16, 1, 0, 0, 16, 0, 0, 0, 0, 16, 0, 0, 0, 0, 0, 0, 0, 0,
   16, 0, 16, 0, 16, 6, 16, 0, 24, 1, 0, 0, 2, 16, 1, 2, 0, 16, 0, 0, 0, 0, 0, 0, 0, 0, 0, 0, 0,
   0, 0, 16, 4, 24, 4, 8, 16, 0, 0, 16, 0, 0, 0, 0, 0, 0, 0, 0, 16, 1, 16, 2, 0, 0, 0, 0, 16, 4,
   0, 0, 0, 0, 0, 0, 0, 0, 0, 0, 0, 0, 0, 0, 0, 0, 0, 0, 0, 0, 0, 0, 0, 0, 0, 0, 0, 0, 0, 0, 0, 0,
   0, 0, 0, 0]

/-- The replay state after the event lists up to `tr7`. -/
def ks8 : KS :=
  { bullets := [{ x := 38, y := 149, up := true }, { x := 14, y := 99, up := false },
      { x := 46, y := 63, up := false }, { x := 34, y := 119, up := true },
      { x := 6, y := 130, up := false }, { x := 18, y := 130, up := false },
      { x := 34, y := 109, up := true }, { x := 10, y := 133, up := false },
      { x := 26, y := 9, up := false }, { x := 50, y := 105, up := false },
      { x := 36, y := 155, up := true }, { x := 54, y := 91, up := false },
      { x := 58, y := 155, up := false }, { x := 46, y := 85, up := false },
      { x := 38, y := 125, up := true }]
    types := [3, 3, 2, 2, 1, 0, 0, 0, 0, 0, 0, 0, 0, 0, 0, 0, 0, 0, 2, 1, 0, 0, 0, 0, 1, 0, 0, 0,
     0, 1, 0, 0, 0, 0, 0, 0, 0, 0, 0, 0, 0, 0, 0, 0, 0, 0, 0, 0, 0, 0, 0, 0, 0, 0, 0]
    gx := 1036, gy := 120, px := 101, fd := 3, atime := 0, btime := 3
    cadence := 3, audio := 0, pos := 12, maxpos := 129, kills := 46, timer := 2, flag := false
    rng := 92564695, right := true, hs := 6360, score := 6360, level := 6, md := 5, fire := false
     }

/-! ## Basic facts -/

theorem bind_ok_eq {α β : Type} (a : α) (f : α → Except Fault β) :
    (Except.ok a >>= f) = f a := rfl

theorem bind_error_eq {α β : Type} (e : Fault) (f : α → Except Fault β) :
    ((Except.error e : Except Fault α) >>= f) = Except.error e := rfl

theorem bind_eq_ok {α β : Type} (x : Except Fault α) (f : α → Except Fault β) (b : β) :
    (x >>= f) = Except.ok b ↔ ∃ a, x = Except.ok a ∧ f a = Except.ok b := by
  cases x with
  | error e => simp [bind_error_eq]
  | ok a => simp [bind_ok_eq]

theorem bind_eq_error {α β : Type} (x : Except Fault α) (f : α → Except Fault β) (e : Fault) :
    (x >>= f) = Except.error e ↔
      x = Except.error e ∨ ∃ a, x = Except.ok a ∧ f a = Except.error e := by
  cases x with
  | error e1 => simp [bind_error_eq]
  | ok a => simp [bind_ok_eq]

theorem pure_eq_ok {α : Type} (a : α) : (pure a : Except Fault α) = Except.ok a := rfl

theorem sub64_of_le (a b : Nat) (hb : b ≤ a) (ha : a < 18446744073709551616) :
    sub64 a b = a - b := by
  unfold sub64
  omega

theorem add64_of_lt (a b : Nat) (h : a + b < 18446744073709551616) : add64 a b = a + b := by
  unfold add64
  omega

theorem readBullet_eq_ok (g : Game) (i : Nat) (b : Bullet) :
    readBullet g i = Except.ok b ↔ g.bullets[i]? = some b := by
  unfold readBullet
  cases h : g.bullets[i]? <;> simp

theorem readAlien_eq_ok (g : Game) (i : Nat) (a : Alien) :
    readAlien g i = Except.ok a ↔ g.aliens[i]? = some a := by
  unfold readAlien
  cases h : g.aliens[i]? <;> simp

/-! ## Swap-removal on the bullet array -/

/-- Overwriting position `i` of a list by `v` trades the old entry for `v`. -/
theorem set_perm {α : Type} (l : List α) (i : Nat) (b v : α) (h : l[i]? = some b) :
    List.Perm (b :: l.set i v) (v :: l) := by
  induction l generalizing i with
  | nil => simp at h
  | cons a t ih =>
    cases i with
    | zero =>
      simp at h
      subst h
      simpa using List.Perm.swap v a t
    | succ i =>
      simp at h
      have h1 := ih i h
      have h2 : List.Perm (b :: a :: t.set i v) (a :: b :: t.set i v) := List.Perm.swap a b _
      have h3 : List.Perm (a :: b :: t.set i v) (a :: v :: t) := List.Perm.cons a h1
      have h4 : List.Perm (a :: v :: t) (v :: a :: t) := List.Perm.swap v a t
      simpa using (h2.trans h3).trans h4

/-- The live prefix after one swap-with-last removal, together with the removed
entry, is a rearrangement of the live prefix before it. -/
theorem swap_remove_perm {α : Type} (l : List α) (N i : Nat) (b last : α)
    (hi : i < N) (hb : l[i]? = some b) (hl : l[N - 1]? = some last) :
    List.Perm (b :: (l.set i last).take (N - 1)) (l.take N) := by
  obtain ⟨n, rfl⟩ : ∃ n, N = n + 1 := ⟨N - 1, by omega⟩
  simp only [Nat.add_sub_cancel] at hl ⊢
  rw [List.take_succ, hl]
  simp only [Option.toList]
  by_cases hin : i = n
  · subst hin
    rw [hb] at hl
    cases hl
    rw [List.set_take]
    have : (List.take i l).set i b = List.take i l := by
      apply List.ext_getElem?
      intro j
      rw [List.getElem?_set]
      split
      · subst_vars
        simp [List.getElem?_take]
      · rfl
    rw [this]
    exact (List.perm_append_singleton b _).symm
  · have hlt : i < n := by omega
    rw [List.set_take]
    have hb1 : (List.take n l)[i]? = some b := by
      rw [List.getElem?_take]
      simp [hlt, hb]
    exact (set_perm _ i b last hb1).trans (List.perm_append_singleton last _).symm

theorem perm_cons_to_erase {α : Type} [DecidableEq α] (b : α) (xs ys : List α)
    (h : List.Perm (b :: xs) ys) :
    (↑xs : Multiset α) = (↑ys : Multiset α).erase b := by
  have h1 : (↑ys : Multiset α) = b ::ₘ (↑xs : Multiset α) := by
    rw [Multiset.cons_coe]
    exact (Multiset.coe_eq_coe.mpr h).symm
  rw [h1, Multiset.erase_cons_head]

theorem writeBullet_eq_ok (g : Game) (i : Nat) (b : Bullet) (h : i < g.bullets.length) :
    writeBullet g i b = Except.ok { g with bullets := g.bullets.set i b } := by
  unfold writeBullet
  simp [h]

theorem getElem?_of_lt_length {α : Type} (l : List α) (i : Nat) (h : i < l.length) :
    ∃ a, l[i]? = some a := ⟨l[i], by simp [h]⟩

/-- C3. Swap-with-last removal of the live bullet at index `i` (with `N > 0` live
bullets, `i < N`, in the 128-slot array) succeeds, leaves `N - 1` live bullets, and
the live bullets afterwards are, as a multiset, the live bullets before with the
removed bullet taken out once; aliens and player are untouched. -/
theorem removeBullet_keeps_others (g : Game) (N i : Nat)
    (hN : g.num_bullets = N) (hlen : g.bullets.length = GAME_MAX_BULLETS)
    (hcap : N ≤ GAME_MAX_BULLETS) (hpos : 0 < N) (hi : i < N) :
    ∃ g' b, removeBullet g i = Except.ok g' ∧ g.bullets[i]? = some b ∧
      g'.num_bullets = N - 1 ∧
      (↑(g'.bullets.take (N - 1)) : Multiset Bullet)
        = (↑(g.bullets.take N) : Multiset Bullet).erase b ∧
      g'.bullets.length = GAME_MAX_BULLETS ∧ g'.aliens = g.aliens ∧ g'.player = g.player := by
  have hcap1 : N ≤ 128 := hcap
  have hlen1 : g.bullets.length = 128 := hlen
  obtain ⟨b, hb⟩ := getElem?_of_lt_length g.bullets i (by omega)
  obtain ⟨last, hl⟩ := getElem?_of_lt_length g.bullets (N - 1) (by omega)
  have hs : sub64 g.num_bullets 1 = N - 1 := by
    rw [hN]
    exact sub64_of_le N 1 hpos (by omega)
  refine ⟨{ g with bullets := g.bullets.set i last, num_bullets := N - 1 }, b, ?_, hb, rfl, ?_,
    ?_, rfl, rfl⟩
  · unfold removeBullet
    rw [hs, (readBullet_eq_ok g (N - 1) last).mpr hl, bind_ok_eq,
      writeBullet_eq_ok g i last (by omega), bind_ok_eq]
    rfl
  · exact perm_cons_to_erase b _ _ (swap_remove_perm g.bullets N i b last hi hb hl)
  · simpa using hlen

theorem removeBullet_keeps_others_witness :
    ∃ g' b, removeBullet twoBulletGame 0 = Except.ok g' ∧ twoBulletGame.bullets[0]? = some b ∧
      g'.num_bullets = 2 - 1 ∧
      (↑(g'.bullets.take (2 - 1)) : Multiset Bullet)
        = (↑(twoBulletGame.bullets.take 2) : Multiset Bullet).erase b ∧
      g'.bullets.length = GAME_MAX_BULLETS ∧ g'.aliens = twoBulletGame.aliens ∧
      g'.player = twoBulletGame.player :=
  removeBullet_keeps_others twoBulletGame 2 0 rfl rfl (by decide) (by decide) (by decide)

/-- C2. With `n ≥ 2` live bullets and distinct live indices `bi`, `bj`, the pair
removal succeeds, leaves `n - 2` live bullets, and the live bullets afterwards are,
as a multiset, the live bullets before with the bullets of `bi` and of `bj` each
taken out once; with exactly two live bullets none is left. -/
theorem pairRemove_keeps_others (g : Game) (n bi bj : Nat)
    (hn : g.num_bullets = n) (hlen : g.bullets.length = GAME_MAX_BULLETS)
    (hcap : n ≤ GAME_MAX_BULLETS) (h2 : 2 ≤ n) (hbi : bi < n) (hbj : bj < n)
    (hne : bi ≠ bj) :
    ∃ g' b_i b_j, pairRemove g bi bj = Except.ok g' ∧
      g.bullets[bi]? = some b_i ∧ g.bullets[bj]? = some b_j ∧
      g'.num_bullets = n - 2 ∧
      (↑(g'.bullets.take (n - 2)) : Multiset Bullet)
        = ((↑(g.bullets.take n) : Multiset Bullet).erase b_i).erase b_j ∧
      (n = 2 → g'.num_bullets = 0 ∧ g'.bullets.take g'.num_bullets = []) ∧
      g'.bullets.length = GAME_MAX_BULLETS ∧ g'.aliens = g.aliens ∧ g'.player = g.player := by
  have hcap1 : n ≤ 128 := hcap
  have hlen1 : g.bullets.length = 128 := hlen
  obtain ⟨b_i, hb_i⟩ := getElem?_of_lt_length g.bullets bi (by omega)
  obtain ⟨b_j, hb_j⟩ := getElem?_of_lt_length g.bullets bj (by omega)
  obtain ⟨v1, hv1⟩ := getElem?_of_lt_length g.bullets (n - 1) (by omega)
  obtain ⟨v2, hv2⟩ := getElem?_of_lt_length g.bullets (n - 2) (by omega)
  have hs1 : sub64 g.num_bullets 1 = n - 1 := by
    rw [hn]
    exact sub64_of_le n 1 (by omega) (by omega)
  have hs2 : sub64 g.num_bullets 2 = n - 2 := by
    rw [hn]
    exact sub64_of_le n 2 h2 (by omega)
  -- the bullet array after the removal, and the rearrangement it satisfies
  have key : ∃ l', pairRemove g bi bj = Except.ok { g with bullets := l', num_bullets := n - 2 } ∧
      l'.length = g.bullets.length ∧
      List.Perm (b_i :: b_j :: l'.take (n - 2)) (g.bullets.take n) := by
    have hsplit : g.bullets.take n = g.bullets.take (n - 1) ++ [v1] := by
      have : n = (n - 1) + 1 := by omega
      rw [this, List.take_succ]
      simp [hv1]
    by_cases hj : bj = n - 1
    · -- `bj` is the last live slot
      refine ⟨g.bullets.set bi v2, ?_, by simp, ?_⟩
      · unfold pairRemove
        rw [hs1, hs2, if_pos hj, (readBullet_eq_ok g (n - 2) v2).mpr hv2, bind_ok_eq,
          writeBullet_eq_ok g bi v2 (by omega), bind_ok_eq]
        simp only [pure_eq_ok]
        rw [hs2]
      · have hvj : v1 = b_j := by
          rw [hj] at hb_j
          rw [hb_j] at hv1
          exact (Option.some.inj hv1).symm
        have hp := swap_remove_perm g.bullets (n - 1) bi b_i v2 (by omega) hb_i
          (by simpa [Nat.sub_sub] using hv2)
        rw [Nat.sub_sub] at hp
        rw [hsplit, hvj]
        exact ((List.Perm.swap b_j b_i _).trans (List.Perm.cons b_j hp)).trans
          (List.perm_append_singleton b_j _).symm
    · by_cases hi : bi = n - 1
      · -- `bi` is the last live slot
        refine ⟨g.bullets.set bj v2, ?_, by simp, ?_⟩
        · unfold pairRemove
          rw [hs1, hs2, if_neg hj, if_pos hi, (readBullet_eq_ok g (n - 2) v2).mpr hv2,
            bind_ok_eq, writeBullet_eq_ok g bj v2 (by omega), bind_ok_eq]
          simp only [pure_eq_ok]
          rw [hs2]
        · have hvi : v1 = b_i := by
            rw [hi] at hb_i
            rw [hb_i] at hv1
            exact (Option.some.inj hv1).symm
          have hp := swap_remove_perm g.bullets (n - 1) bj b_j v2 (by omega) hb_j
            (by simpa [Nat.sub_sub] using hv2)
          rw [Nat.sub_sub] at hp
          rw [hsplit, hvi]
          exact (List.Perm.cons b_i hp).trans (List.perm_append_singleton b_i _).symm
      · -- both indices lie below the last live slot
        let lo := if bi < bj then bi else bj
        let hi' := if bi < bj then bj else bi
        have hlo : lo < hi' := by
          simp only [lo, hi']
          split <;> omega
        have hhi : hi' < n - 1 := by
          simp only [hi']
          split <;> omega
        let l1 := g.bullets.set lo v1
        obtain ⟨w2, hw2⟩ := getElem?_of_lt_length l1 (n - 2) (by simp [l1]; omega)
        obtain ⟨b_lo, hb_lo⟩ := getElem?_of_lt_length g.bullets lo (by omega)
        obtain ⟨b_hi, hb_hi⟩ := getElem?_of_lt_length g.bullets hi' (by omega)
        have hb_hi1 : l1[hi']? = some b_hi := by
          simp only [l1]
          rw [List.getElem?_set_ne (by omega)]
          exact hb_hi
        refine ⟨l1.set hi' w2, ?_, by simp [l1], ?_⟩
        · unfold pairRemove
          rw [hs1, if_neg hj, if_neg hi, (readBullet_eq_ok g (n - 1) v1).mpr hv1, bind_ok_eq,
            writeBullet_eq_ok g lo v1 (by omega), bind_ok_eq]
          simp only []
          rw [hs2, (readBullet_eq_ok _ (n - 2) w2).mpr hw2, bind_ok_eq,
            writeBullet_eq_ok _ hi' w2 (by simp; omega), bind_ok_eq]
          simp only [pure_eq_ok]
          rw [hs2]
        · have hp1 := swap_remove_perm g.bullets n lo b_lo v1 (by omega) hb_lo hv1
          have hp2 := swap_remove_perm l1 (n - 1) hi' b_hi w2 hhi hb_hi1
            (by simpa [Nat.sub_sub] using hw2)
          rw [Nat.sub_sub] at hp2
          have hp : List.Perm (b_lo :: b_hi :: (l1.set hi' w2).take (n - 2))
              (g.bullets.take n) := (List.Perm.cons b_lo hp2).trans hp1
          by_cases hlt : bi < bj
          · have e1 : lo = bi := by simp [lo, hlt]
            have e2 : hi' = bj := by simp [hi', hlt]
            rw [e1, hb_i] at hb_lo
            rw [e2, hb_j] at hb_hi
            rw [← Option.some.inj hb_lo, ← Option.some.inj hb_hi] at hp
            exact hp
          · have e1 : lo = bj := by simp [lo, hlt]
            have e2 : hi' = bi := by simp [hi', hlt]
            rw [e1, hb_j] at hb_lo
            rw [e2, hb_i] at hb_hi
            rw [← Option.some.inj hb_lo, ← Option.some.inj hb_hi] at hp
            exact (List.Perm.swap b_j b_i _).trans hp
  obtain ⟨l', hok, hlen', hperm⟩ := key
  refine ⟨_, b_i, b_j, hok, hb_i, hb_j, rfl, ?_, ?_, ?_, rfl, rfl⟩
  · have h1 := perm_cons_to_erase b_i _ _ hperm
    have h2 := perm_cons_to_erase b_j _ _ (List.Perm.refl (b_j :: l'.take (n - 2)))
    rw [← h1]
    exact h2
  · intro hn2
    subst hn2
    simp
  · simpa [hlen'] using hlen

theorem pairRemove_keeps_others_witness :
    (∃ g' b_i b_j, pairRemove twoBulletGame 0 1 = Except.ok g' ∧
      twoBulletGame.bullets[0]? = some b_i ∧ twoBulletGame.bullets[1]? = some b_j ∧
      g'.num_bullets = 2 - 2 ∧
      (↑(g'.bullets.take (2 - 2)) : Multiset Bullet)
        = ((↑(twoBulletGame.bullets.take 2) : Multiset Bullet).erase b_i).erase b_j ∧
      (2 = 2 → g'.num_bullets = 0 ∧ g'.bullets.take g'.num_bullets = []) ∧
      g'.bullets.length = GAME_MAX_BULLETS ∧ g'.aliens = twoBulletGame.aliens ∧
      g'.player = twoBulletGame.player) ∧
    (∃ g' b_i b_j, pairRemove twoBulletGame 1 0 = Except.ok g' ∧
      twoBulletGame.bullets[1]? = some b_i ∧ twoBulletGame.bullets[0]? = some b_j ∧
      g'.num_bullets = 2 - 2 ∧
      (↑(g'.bullets.take (2 - 2)) : Multiset Bullet)
        = ((↑(twoBulletGame.bullets.take 2) : Multiset Bullet).erase b_i).erase b_j ∧
      (2 = 2 → g'.num_bullets = 0 ∧ g'.bullets.take g'.num_bullets = []) ∧
      g'.bullets.length = GAME_MAX_BULLETS ∧ g'.aliens = twoBulletGame.aliens ∧
      g'.player = twoBulletGame.player) :=
  ⟨pairRemove_keeps_others twoBulletGame 2 0 1 rfl rfl (by decide) (by decide)
      (by decide) (by decide) (by decide),
    pairRemove_keeps_others twoBulletGame 2 1 0 rfl rfl (by decide) (by decide)
      (by decide) (by decide) (by decide)⟩

/-! ## The alien-hit test -/

theorem testAlien_of_misses (s : State) (bi j : Nat) (h : Misses s bi j) :
    testAlien s bi j = Except.ok none := by
  obtain ⟨a, ha, hmiss⟩ := h
  unfold testAlien
  rw [(readAlien_eq_ok s.game j a).mpr ha, bind_ok_eq]
  by_cases hd : a.type = ALIEN_DEAD
  · rw [if_pos hd]
    rfl
  · rcases hmiss with hdead | ⟨sp, b, hsp, hb, hov⟩
    · exact absurd hdead hd
    · rw [if_neg hd, hsp, bind_ok_eq, (readBullet_eq_ok s.game bi b).mpr hb, bind_ok_eq, hov]
      rfl

theorem checkHit_skip (s : State) (bi : Nat) (pre rest : List Nat)
    (h : ∀ j, j ∈ pre → Misses s bi j) :
    checkHit s bi (pre ++ rest) = checkHit s bi rest := by
  induction pre with
  | nil => rfl
  | cons j pre ih =>
    have ih1 := ih (fun k hk => h k (List.mem_cons_of_mem j hk))
    rw [List.cons_append, checkHit, testAlien_of_misses s bi j (h j (List.mem_cons_self j pre))]
    exact ih1

theorem range_split (n ai : Nat) (h : ai < n) :
    List.range n = List.range ai ++ ai :: List.range' (ai + 1) (n - ai - 1) := by
  rw [List.range_eq_range', List.range_eq_range']
  have h1 : ai :: List.range' (ai + 1) (n - ai - 1) = List.range' ai (n - ai) := by
    obtain ⟨k, hk⟩ : ∃ k, n - ai = k + 1 := ⟨n - ai - 1, by omega⟩
    rw [hk, List.range'_succ, Nat.add_sub_cancel]
  rw [h1]
  have h2 := List.range'_append 0 ai (n - ai) 1
  simp only [Nat.zero_add, Nat.one_mul] at h2
  rw [h2]
  congr 1
  omega

theorem writeAlien_eq_ok (g : Game) (i : Nat) (a : Alien) (h : i < g.aliens.length) :
    writeAlien g i a = Except.ok { g with aliens := g.aliens.set i a } := by
  unfold writeAlien
  simp [h]

theorem lt_length_of_getElem? {α : Type} (l : List α) (i : Nat) (a : α)
    (h : l[i]? = some a) : i < l.length := by
  rw [List.getElem?_eq_some] at h
  exact h.1

theorem removeBullet_eq_ok (g : Game) (bi : Nat) (last : Bullet)
    (hpos : 0 < g.num_bullets) (hn : g.num_bullets < 18446744073709551616)
    (hlast : g.bullets[g.num_bullets - 1]? = some last) (hbi : bi < g.bullets.length) :
    removeBullet g bi
      = Except.ok { g with bullets := g.bullets.set bi last, num_bullets := g.num_bullets - 1 } := by
  unfold removeBullet
  rw [sub64_of_le _ 1 hpos hn, (readBullet_eq_ok g _ last).mpr hlast, bind_ok_eq,
    writeBullet_eq_ok g bi last hbi, bind_ok_eq]
  rfl

theorem hitAlien_eq_ok (s : State) (bi ai : Nat) (sp : Sprite) (alien : Alien) (last : Bullet)
    (halien : s.game.aliens[ai]? = some alien)
    (hpos : 0 < s.game.num_bullets) (hn : s.game.num_bullets < 18446744073709551616)
    (hlast : s.game.bullets[s.game.num_bullets - 1]? = some last)
    (hbi : bi < s.game.bullets.length) :
    hitAlien s bi ai sp = Except.ok
      { s with
        game := { s.game with
          aliens := s.game.aliens.set ai
            { alien with
              type := ALIEN_DEAD
              x := sub64 alien.x (sub64 alien_death_sprite.width sp.width / 2) }
          bullets := s.game.bullets.set bi last
          num_bullets := s.game.num_bullets - 1 }
        score := hitScore s.score alien.type
        aliens_killed := add64 s.aliens_killed 1
        should_change_speed :=
          if add64 s.aliens_killed 1 % 15 = 0 then true else s.should_change_speed } := by
  have hrb := removeBullet_eq_ok
    { s.game with
      aliens := s.game.aliens.set ai
        { alien with
          type := ALIEN_DEAD
          x := sub64 alien.x (sub64 alien_death_sprite.width sp.width / 2) } }
    bi last hpos hn hlast hbi
  unfold hitAlien
  rw [(readAlien_eq_ok s.game ai alien).mpr halien, bind_ok_eq,
    writeAlien_eq_ok _ _ _ (lt_length_of_getElem? _ _ _ halien), bind_ok_eq, hrb, bind_ok_eq]
  rfl

/-- C1. When the hit test of the player bullet at `bi` reaches a living alien at
index `ai` whose current frame overlaps the bullet (every alien before it being
dead or not overlapping), the test succeeds, the score grows by 40 for an alien of
type 1, by 20 for type 2 and by 10 for type 3 (in `size_t` arithmetic, so exactly
by that amount unless the sum passes `2 ^ 64`), the alien's type becomes
`ALIEN_DEAD` and the kill counter grows by 1. -/
theorem checkHit_awards_by_tier (s : State) (bi ai : Nat) (alien : Alien) (sp : Sprite)
    (b : Bullet)
    (hai : ai < num_aliens)
    (halien : s.game.aliens[ai]? = some alien)
    (hliving : alien.type ≠ ALIEN_DEAD)
    (hsp : alienFrameSprite s alien.type = Except.ok sp)
    (hb : s.game.bullets[bi]? = some b)
    (hlen : s.game.bullets.length = GAME_MAX_BULLETS)
    (hnb : 0 < s.game.num_bullets ∧ s.game.num_bullets ≤ GAME_MAX_BULLETS)
    (hov : sprite_overlap_check player_bullet_sprite b.x b.y sp alien.x alien.y = true)
    (hfirst : ∀ j, j < ai → Misses s bi j) :
    ∃ s', checkHit s bi (List.range num_aliens) = Except.ok s' ∧
      (alien.type = 1 → s'.score = (s.score + 40) % 18446744073709551616 ∧
        (s.score + 40 < 18446744073709551616 → s'.score = s.score + 40)) ∧
      (alien.type = 2 → s'.score = (s.score + 20) % 18446744073709551616 ∧
        (s.score + 20 < 18446744073709551616 → s'.score = s.score + 20)) ∧
      (alien.type = 3 → s'.score = (s.score + 10) % 18446744073709551616 ∧
        (s.score + 10 < 18446744073709551616 → s'.score = s.score + 10)) ∧
      (∃ a', s'.game.aliens[ai]? = some a' ∧ a'.type = ALIEN_DEAD) ∧
      s'.aliens_killed = (s.aliens_killed + 1) % 18446744073709551616 ∧
      (s.aliens_killed + 1 < 18446744073709551616 → s'.aliens_killed = s.aliens_killed + 1) := by
  have hlen1 : s.game.bullets.length = 128 := hlen
  have hnb1 : s.game.num_bullets ≤ 128 := hnb.2
  have hailen := lt_length_of_getElem? _ _ _ halien
  have hbilen := lt_length_of_getElem? _ _ _ hb
  obtain ⟨last, hlast⟩ := getElem?_of_lt_length s.game.bullets (s.game.num_bullets - 1) (by omega)
  have hs1 : sub64 s.game.num_bullets 1 = s.game.num_bullets - 1 :=
    sub64_of_le _ 1 hnb.1 (by omega)
  -- the loop runs through the aliens before `ai` without effect
  rw [range_split num_aliens ai hai,
    checkHit_skip s bi _ _ (fun j hj => hfirst j (List.mem_range.mp hj))]
  rw [checkHit]
  unfold testAlien
  rw [(readAlien_eq_ok s.game ai alien).mpr halien, bind_ok_eq, if_neg hliving, hsp, bind_ok_eq,
    (readBullet_eq_ok s.game bi b).mpr hb, bind_ok_eq, hov, if_pos rfl]
  rw [hitAlien_eq_ok s bi ai sp alien last halien hnb.1 (by omega) hlast hbilen, bind_ok_eq]
  simp only [pure_eq_ok]
  refine ⟨_, rfl, ?_, ?_, ?_, ?_, ?_, ?_⟩
  · intro h1
    have e : hitScore s.score alien.type = (s.score + 40) % 18446744073709551616 := by
      rw [h1]
      rfl
    exact ⟨e, fun h => e.trans (Nat.mod_eq_of_lt h)⟩
  · intro h2
    have e : hitScore s.score alien.type = (s.score + 20) % 18446744073709551616 := by
      rw [h2]
      rfl
    exact ⟨e, fun h => e.trans (Nat.mod_eq_of_lt h)⟩
  · intro h3
    have e : hitScore s.score alien.type = (s.score + 10) % 18446744073709551616 := by
      rw [h3]
      rfl
    exact ⟨e, fun h => e.trans (Nat.mod_eq_of_lt h)⟩
  · refine ⟨{ alien with
        type := ALIEN_DEAD
        x := sub64 alien.x (sub64 alien_death_sprite.width sp.width / 2) }, ?_, rfl⟩
    simp [List.getElem?_set, hailen]
  · rfl
  · intro h
    simp only [add64]
    exact Nat.mod_eq_of_lt h

/-! ## The wave-start grid and concrete states -/

theorem layoutAliens_start : layoutAliens 24 = Except.ok (gridAliens 24) := by
  rfl

theorem startAliens_start : startAliens 24 = Except.ok (gridAliens 24) := by
  rfl

theorem initialState_eq (hs : Nat) (bullets : List Bullet) :
    initialState hs bullets = Except.ok (startState hs bullets) := by
  unfold initialState
  rw [startAliens_start]
  rfl

set_option maxRecDepth 8192 in
theorem checkHit_awards_by_tier_witness :
    ∃ s', checkHit hitDemo 0 (List.range num_aliens) = Except.ok s' ∧
      s'.score = hitDemo.score + 10 ∧ s'.aliens_killed = hitDemo.aliens_killed + 1 ∧
      ∃ a', s'.game.aliens[0]? = some a' ∧ a'.type = ALIEN_DEAD := by
  obtain ⟨s', h, _, _, h3, h4, _, h6⟩ :=
    checkHit_awards_by_tier hitDemo 0 0 { x := 24, y := 128, type := 3 } _
      { x := 30, y := 126, dir := 2 } (by decide) rfl (by decide) rfl rfl rfl
      ⟨by decide, by decide⟩ rfl (fun j hj => absurd hj (Nat.not_lt_zero j))
  exact ⟨s', h, (h3 rfl).2 (by decide), h6 (by decide), h4⟩

/-! ## The swarm advance -/

theorem toInt32_of_range (z : Int) (h1 : -2147483648 ≤ z) (h2 : z < 2147483648) :
    toInt32 z = z := by
  unfold toInt32
  omega

theorem wrap64_cast (z : Int) : ((wrap64 z : Nat) : Int) = z % 18446744073709551616 := by
  unfold wrap64
  omega

theorem sub64_cast (a b : Nat) :
    ((sub64 a b : Nat) : Int) = ((a : Int) - b) % 18446744073709551616 := by
  unfold sub64
  omega

/-- C4, counterexample. At the left edge (`offset + direction = 0 - 4 < 0`) an alien
at `y = 0` is not moved to a `y` that is 8 less: `alien.y -= 8` wraps, and the
alien ends at `y = 2 ^ 64 - 8`. -/
theorem moveSwarm_descent_wraps :
    ∃ a a', lowSwarm.game.aliens[0]? = some a ∧ (moveSwarm lowSwarm).game.aliens[0]? = some a' ∧
      (lowSwarm.alien_swarm_position : Int) + lowSwarm.alien_move_dir < 0 ∧
      a.y = 0 ∧ a'.y = 18446744073709551608 ∧ ¬ (a'.y + 8 = a.y) :=
  ⟨{ x := 0, y := 0, type := 3 }, { x := 4, y := 18446744073709551608, type := 3 },
    by decide, by decide, by decide, rfl, rfl, by decide⟩

/-- C4, amended. For a swarm whose position, bound and direction are in the range
where the `int` cast and the `size_t` subtraction of the two tests are exact: if
`offset + direction < 0` the direction is negated and every alien's `y` becomes
`y - 8` modulo `2 ^ 64` (exactly `y - 8` when `y ≥ 8`); otherwise, if
`offset > max_bound - direction`, the direction is negated and no `y` changes;
otherwise the direction and every `y` are unchanged. In all cases the offset and
every alien's `x` become the old value plus the resulting direction, modulo
`2 ^ 64`, and no alien's type changes. -/
theorem moveSwarm_effect (s : State)
    (hdir : -2147483648 < s.alien_move_dir ∧ s.alien_move_dir < 2147483648)
    (hpos : (s.alien_swarm_position : Int) < 2147483648 ∧
      (s.alien_swarm_position : Int) + s.alien_move_dir < 2147483648)
    (hmax : 0 ≤ (s.alien_swarm_max_position : Int) - s.alien_move_dir ∧
      (s.alien_swarm_max_position : Int) - s.alien_move_dir < 18446744073709551616) :
    ((s.alien_swarm_position : Int) + s.alien_move_dir < 0 →
      (moveSwarm s).alien_move_dir = -s.alien_move_dir ∧
      ∀ (i : Nat) (a : Alien), s.game.aliens[i]? = some a →
        ∃ a', (moveSwarm s).game.aliens[i]? = some a' ∧
          (a'.y : Int) = ((a.y : Int) - 8) % 18446744073709551616 ∧
          (8 ≤ a.y → a.y < 18446744073709551616 → a'.y = a.y - 8)) ∧
    (¬ (s.alien_swarm_position : Int) + s.alien_move_dir < 0 →
      (s.alien_swarm_position : Int) > (s.alien_swarm_max_position : Int) - s.alien_move_dir →
      (moveSwarm s).alien_move_dir = -s.alien_move_dir ∧
      ∀ (i : Nat) (a : Alien), s.game.aliens[i]? = some a →
        ∃ a', (moveSwarm s).game.aliens[i]? = some a' ∧ a'.y = a.y) ∧
    (¬ (s.alien_swarm_position : Int) + s.alien_move_dir < 0 →
      ¬ (s.alien_swarm_position : Int) > (s.alien_swarm_max_position : Int) - s.alien_move_dir →
      (moveSwarm s).alien_move_dir = s.alien_move_dir ∧
      ∀ (i : Nat) (a : Alien), s.game.aliens[i]? = some a →
        ∃ a', (moveSwarm s).game.aliens[i]? = some a' ∧ a'.y = a.y) ∧
    ((moveSwarm s).alien_swarm_position : Int)
      = ((s.alien_swarm_position : Int) + (moveSwarm s).alien_move_dir) % 18446744073709551616 ∧
    (∀ (i : Nat) (a : Alien), s.game.aliens[i]? = some a →
      ∃ a', (moveSwarm s).game.aliens[i]? = some a' ∧ a'.type = a.type ∧
        (a'.x : Int) = ((a.x : Int) + (moveSwarm s).alien_move_dir) % 18446744073709551616) ∧
    (moveSwarm s).game.aliens.length = s.game.aliens.length := by
  have hc1 : toInt32 (toInt32 s.alien_swarm_position + s.alien_move_dir)
      = (s.alien_swarm_position : Int) + s.alien_move_dir := by
    rw [toInt32_of_range (s.alien_swarm_position : Int) (by omega) hpos.1]
    exact toInt32_of_range _ (by omega) hpos.2
  have hc2 : ((subInt64 s.alien_swarm_max_position s.alien_move_dir : Nat) : Int)
      = (s.alien_swarm_max_position : Int) - s.alien_move_dir := by
    unfold subInt64
    rw [wrap64_cast]
    omega
  have hneg : toInt32 (s.alien_move_dir * -1) = -s.alien_move_dir := by
    rw [toInt32_of_range _ (by omega) (by omega)]
    omega
  by_cases h1 : (s.alien_swarm_position : Int) + s.alien_move_dir < 0
  · have hm : moveSwarm s =
        { s with
          alien_move_dir := -s.alien_move_dir
          alien_swarm_position := addInt64 s.alien_swarm_position (-s.alien_move_dir)
          game := { s.game with
            aliens := (s.game.aliens.map (fun alien => { alien with y := sub64 alien.y 8 })).map
              (fun alien => { alien with x := addInt64 alien.x (-s.alien_move_dir) }) } } := by
      unfold moveSwarm
      simp only [hc1, h1, if_true, hneg]
    rw [hm]
    refine ⟨fun _ => ⟨rfl, ?_⟩, fun h => absurd h1 h, fun h => absurd h1 h, ?_, ?_, ?_⟩
    · intro i a ha
      refine ⟨{ a with y := sub64 a.y 8, x := addInt64 a.x (-s.alien_move_dir) }, ?_, ?_, ?_⟩
      · simp [List.getElem?_map, ha]
      · exact sub64_cast a.y 8
      · intro h8 hlt
        exact sub64_of_le a.y 8 h8 hlt
    · simp only [addInt64]
      exact wrap64_cast _
    · intro i a ha
      refine ⟨{ a with y := sub64 a.y 8, x := addInt64 a.x (-s.alien_move_dir) }, ?_, rfl, ?_⟩
      · simp [List.getElem?_map, ha]
      · simp only [addInt64]
        exact wrap64_cast _
    · simp
  · by_cases h2 : (s.alien_swarm_position : Int)
        > (s.alien_swarm_max_position : Int) - s.alien_move_dir
    · have hgt : s.alien_swarm_position > subInt64 s.alien_swarm_max_position s.alien_move_dir := by
        omega
      have hm : moveSwarm s =
          { s with
            alien_move_dir := -s.alien_move_dir
            alien_swarm_position := addInt64 s.alien_swarm_position (-s.alien_move_dir)
            game := { s.game with
              aliens := s.game.aliens.map
                (fun alien => { alien with x := addInt64 alien.x (-s.alien_move_dir) }) } } := by
        unfold moveSwarm
        simp only [hc1, h1, if_false, hgt, if_true, hneg]
      rw [hm]
      refine ⟨fun h => absurd h h1, fun _ _ => ⟨rfl, ?_⟩, fun _ h => absurd h2 h, ?_, ?_, ?_⟩
      · intro i a ha
        exact ⟨{ a with x := addInt64 a.x (-s.alien_move_dir) },
          by simp [List.getElem?_map, ha], rfl⟩
      · simp only [addInt64]
        exact wrap64_cast _
      · intro i a ha
        refine ⟨{ a with x := addInt64 a.x (-s.alien_move_dir) }, ?_, rfl, ?_⟩
        · simp [List.getElem?_map, ha]
        · simp only [addInt64]
          exact wrap64_cast _
      · simp
    · have hgt : ¬ s.alien_swarm_position
          > subInt64 s.alien_swarm_max_position s.alien_move_dir := by
        omega
      have hm : moveSwarm s =
          { s with
            alien_swarm_position := addInt64 s.alien_swarm_position s.alien_move_dir
            game := { s.game with
              aliens := s.game.aliens.map
                (fun alien => { alien with x := addInt64 alien.x s.alien_move_dir }) } } := by
        unfold moveSwarm
        simp only [hc1, h1, if_false, hgt]
      rw [hm]
      refine ⟨fun h => absurd h h1, fun _ h => absurd h h2, fun _ _ => ⟨rfl, ?_⟩, ?_, ?_, ?_⟩
      · intro i a ha
        exact ⟨{ a with x := addInt64 a.x s.alien_move_dir },
          by simp [List.getElem?_map, ha], rfl⟩
      · simp only [addInt64]
        exact wrap64_cast _
      · intro i a ha
        refine ⟨{ a with x := addInt64 a.x s.alien_move_dir }, ?_, rfl, ?_⟩
        · simp [List.getElem?_map, ha]
        · simp only [addInt64]
          exact wrap64_cast _
      · simp

theorem moveSwarm_effect_witness :
    (moveSwarm lowSwarm).alien_move_dir = 4 ∧
    ((moveSwarm lowSwarm).alien_swarm_position : Int) = 4 ∧
    (∀ (i : Nat) (a : Alien), lowSwarm.game.aliens[i]? = some a →
        ∃ a', (moveSwarm lowSwarm).game.aliens[i]? = some a' ∧
          (a'.y : Int) = ((a.y : Int) - 8) % 18446744073709551616 ∧
          (8 ≤ a.y → a.y < 18446744073709551616 → a'.y = a.y - 8)) := by
  have h := moveSwarm_effect lowSwarm ⟨by decide, by decide⟩ ⟨by decide, by decide⟩
    ⟨by decide, by decide⟩
  have h1 := h.1 (by decide)
  have h4 := h.2.2.2.1
  rw [h1.1] at h4
  exact ⟨h1.1, h4, h1.2⟩

/-! ## Input polling and the fire step -/

theorem InputFrame.refl_input (s : State) : InputFrame s s := rfl

theorem InputFrame.trans_input {s s1 s2 : State} (h1 : InputFrame s s1) (h2 : InputFrame s1 s2) :
    InputFrame s s2 := by
  unfold InputFrame at *
  rw [h2, h1]

theorem key_callback_frame (s : State) (e : KeyEvent) : InputFrame s (key_callback s e) := by
  unfold key_callback
  cases e.key <;> simp only [] <;> (repeat' split) <;> rfl

theorem glfwPollEvents_frame (s : State) (evs : List KeyEvent) :
    InputFrame s (glfwPollEvents s evs) := by
  unfold glfwPollEvents
  induction evs generalizing s with
  | nil => exact InputFrame.refl_input s
  | cons e evs ih =>
    rw [List.foldl_cons]
    exact (key_callback_frame s e).trans_input (ih (key_callback s e))

theorem processFire_frame (s s' : State) (h : processFire s = Except.ok s') :
    FireFrame s s' := by
  unfold processFire at h
  split at h
  · rw [bind_eq_ok] at h
    obtain ⟨g1, hg, h3⟩ := h
    cases h3
    unfold writeBullet at hg
    split at hg
    · cases hg
      rfl
    · cases hg
  · cases h
    rfl

theorem processFire_ok (s : State) (h : s.game.num_bullets < s.game.bullets.length) :
    ∃ s', processFire s = Except.ok s' := by
  unfold processFire
  by_cases hf : s.fire_pressed = true ∧ s.game.num_bullets < GAME_MAX_BULLETS
  · rw [if_pos hf, writeBullet_eq_ok _ _ _ h]
    exact ⟨_, rfl⟩
  · rw [if_neg hf]
    exact ⟨_, rfl⟩

/-! ## Wave clear -/

theorem levelFrequency_le8 (l : Nat) (h : l ≤ 8) : levelFrequency l = 120 - 10 * l := by
  unfold levelFrequency sub64 mul64
  rw [if_pos h]
  omega

theorem levelFrequency_le36 (l : Nat) (h1 : 9 ≤ l) (h2 : l ≤ 36) :
    levelFrequency l = 40 - l := by
  unfold levelFrequency sub64 mul64
  rw [if_neg (by omega), if_pos h2]
  omega

theorem levelFrequency_gt36 (l : Nat) (h : 36 < l) : levelFrequency l = 4 := by
  unfold levelFrequency
  rw [if_neg (by omega), if_neg (by omega)]

theorem nextWave_no_reset (s : State) (hr : s.reset = false) :
    nextWave s = Except.ok
      { s with
        should_change_speed := true
        level := add64 s.level 1
        game := { s.game with num_bullets := 0, aliens := gridAliens 24 }
        alien_swarm_max_position := 45
        alien_update_frequency := levelFrequency (add64 s.level 1)
        alien_swarm_position := 24
        aliens_killed := 0
        alien_update_timer := 0
        alien_move_dir := 4
        death_counters := List.replicate num_aliens 10 } := by
  have ha : applyReset s = s := by
    unfold applyReset
    rw [if_neg (by rw [hr]; decide)]
  unfold nextWave
  rw [layoutAliens_start, bind_ok_eq, ha]
  rfl

theorem progression_clear (s : State) (hk : num_aliens ≤ s.aliens_killed) :
    progression s = nextWave s := by
  unfold progression
  rw [if_neg]
  intro h
  have := h.1
  omega

/-- C6. When the progression step runs with the kill counter at the alien count
(or beyond) and no reset pending, it succeeds; the level grows by 1 (in `size_t`
arithmetic) and, with `L` the new level, the cadence is `120 - 10 * L` for
`L ≤ 8`, `40 - L` for `9 ≤ L ≤ 36` and 4 beyond; the bullet count is 0, the offset
24, the direction 4, the advance timer 0, the kill counter 0 and the maximum bound
`45 = 224 - 16 * 11 - 3`. The aliens are those of a fresh layout, every death
counter is 10, and the speed-up flag is raised. -/
theorem progression_wave_clear (s : State)
    (hk : num_aliens ≤ s.aliens_killed) (hr : s.reset = false) :
    ∃ s', progression s = Except.ok s' ∧
      s'.level = (s.level + 1) % 18446744073709551616 ∧
      (s.level + 1 < 18446744073709551616 → s'.level = s.level + 1) ∧
      (s'.level ≤ 8 → s'.alien_update_frequency = 120 - 10 * s'.level) ∧
      (9 ≤ s'.level → s'.level ≤ 36 → s'.alien_update_frequency = 40 - s'.level) ∧
      (36 < s'.level → s'.alien_update_frequency = 4) ∧
      s'.game.num_bullets = 0 ∧ s'.alien_swarm_position = 24 ∧ s'.alien_move_dir = 4 ∧
      s'.alien_update_timer = 0 ∧ s'.aliens_killed = 0 ∧
      s'.alien_swarm_max_position = 45 ∧ 45 = game_width - 16 * 11 - 3 ∧
      layoutAliens 24 = Except.ok s'.game.aliens ∧
      s'.death_counters = List.replicate num_aliens 10 ∧
      s'.should_change_speed = true ∧ s'.score = s.score ∧
      s'.game.player = s.game.player := by
  rw [progression_clear s hk, nextWave_no_reset s hr]
  refine ⟨_, rfl, rfl, ?_, ?_, ?_, ?_, rfl, rfl, rfl, rfl, rfl, rfl, by decide,
    layoutAliens_start, rfl, rfl, rfl, rfl⟩
  · intro h
    exact add64_of_lt _ _ h
  · intro h
    exact levelFrequency_le8 _ h
  · intro h1 h2
    exact levelFrequency_le36 _ h1 h2
  · intro h
    exact levelFrequency_gt36 _ h

theorem progression_wave_clear_witness :
    ∃ s', progression (clearedWave 1) = Except.ok s' ∧ s'.level = 2 ∧
      s'.alien_update_frequency = 100 ∧ s'.game.num_bullets = 0 ∧
      s'.alien_swarm_position = 24 ∧ s'.alien_move_dir = 4 ∧ s'.alien_update_timer = 0 ∧
      s'.aliens_killed = 0 ∧ s'.alien_swarm_max_position = 45 := by
  obtain ⟨s', h, _, hl, h8, _, _, hb, hp, hd, ht, hk, hm, _⟩ :=
    progression_wave_clear (clearedWave 1) (by decide) rfl
  have hl2 : s'.level = 2 := hl (by decide)
  have hf := h8 (by omega)
  rw [hl2] at hf
  exact ⟨s', h, hl2, hf, hb, hp, hd, ht, hk, hm⟩

set_option maxRecDepth 100000 in
/-- C7, counterexample. In the tick that kills the last alien at level 3 with no
reset pending, the progression step runs with 55 kills and the cadence after the
tick is 80, not 90: the level is incremented to 4 before the cadence is computed. -/
theorem wave_clear_level3_cadence :
    (tick 0 (lastAlienState 3 0 0) []).toOption.map
        (fun s => (s.level, s.alien_update_frequency)) = some (4, 80) ∧
      (simulateBullets (GAME_MAX_BULLETS + 1) 0 (lastAlienState 3 0 0)).toOption.map
        (fun s => (s.aliens_killed, s.reset, s.level)) = some (55, false, 3) ∧
      ¬ ((tick 0 (lastAlienState 3 0 0) []).toOption.map
        (fun s => s.alien_update_frequency) = some 90) := by
  decide

/-- C7, amended. If the progression step runs with the kill counter at the alien
count (or beyond) and no reset pending, then, whatever the fire step and the
event poll that end the tick do, the cadence after the tick is the level formula at
the incremented level: 80 for level 3, 29 for level 10 and 4 for level 50; the
values 90 and 30 are those for levels 2 and 9. -/
theorem wave_clear_cadence (s : State) (evs : List KeyEvent)
    (hk : num_aliens ≤ s.aliens_killed) (hr : s.reset = false)
    (hlen : s.game.bullets.length = GAME_MAX_BULLETS) :
    ∃ s1 s2, progression s = Except.ok s1 ∧ processFire s1 = Except.ok s2 ∧
      (s.level = 3 → (glfwPollEvents s2 evs).alien_update_frequency = 80) ∧
      (s.level = 10 → (glfwPollEvents s2 evs).alien_update_frequency = 29) ∧
      (s.level = 50 → (glfwPollEvents s2 evs).alien_update_frequency = 4) ∧
      (s.level = 2 → (glfwPollEvents s2 evs).alien_update_frequency = 90) ∧
      (s.level = 9 → (glfwPollEvents s2 evs).alien_update_frequency = 30) ∧
      (glfwPollEvents s2 evs).alien_update_frequency = levelFrequency (add64 s.level 1) := by
  have h1 := nextWave_no_reset s hr
  rw [← progression_clear s hk] at h1
  obtain ⟨s2, h2⟩ := processFire_ok
    { s with
      should_change_speed := true
      level := add64 s.level 1
      game := { s.game with num_bullets := 0, aliens := gridAliens 24 }
      alien_swarm_max_position := 45
      alien_update_frequency := levelFrequency (add64 s.level 1)
      alien_swarm_position := 24
      aliens_killed := 0
      alien_update_timer := 0
      alien_move_dir := 4
      death_counters := List.replicate num_aliens 10 }
    (by
      show 0 < s.game.bullets.length
      rw [hlen]
      decide)
  have hf := processFire_frame _ _ h2
  have hp := glfwPollEvents_frame s2 evs
  unfold FireFrame at hf
  unfold InputFrame at hp
  have e : (glfwPollEvents s2 evs).alien_update_frequency = levelFrequency (add64 s.level 1) := by
    have e1 := congrArg State.alien_update_frequency hp
    have e2 := congrArg State.alien_update_frequency hf
    exact e1.trans e2
  refine ⟨_, s2, h1, h2, ?_, ?_, ?_, ?_, ?_, e⟩ <;> intro hl <;> rw [e, hl] <;> rfl

theorem wave_clear_cadence_witness :
    ∃ s1 s2, progression (clearedWave 3) = Except.ok s1 ∧ processFire s1 = Except.ok s2 ∧
      (glfwPollEvents s2 []).alien_update_frequency = 80 := by
  obtain ⟨s1, s2, h1, h2, h3, _⟩ := wave_clear_cadence (clearedWave 3) [] (by decide) rfl rfl
  exact ⟨s1, s2, h1, h2, h3 rfl⟩

/-! ## What the bullet phase can change -/

theorem BulletsOnly.refl_bullets (g : Game) : BulletsOnly g g := ⟨rfl, rfl, rfl⟩

theorem BulletsOnly.trans_bullets {g g1 g2 : Game} (h1 : BulletsOnly g g1) (h2 : BulletsOnly g1 g2) :
    BulletsOnly g g2 :=
  ⟨h2.1.trans h1.1, h2.2.1.trans h1.2.1, h2.2.2.trans h1.2.2⟩

theorem writeBullet_only (g g' : Game) (i : Nat) (b : Bullet)
    (h : writeBullet g i b = Except.ok g') : BulletsOnly g g' := by
  unfold writeBullet at h
  split at h
  · cases h
    exact ⟨rfl, rfl, List.length_set _ _ _⟩
  · cases h

theorem removeBullet_only (g g' : Game) (bi : Nat) (h : removeBullet g bi = Except.ok g') :
    BulletsOnly g g' := by
  unfold removeBullet at h
  rw [bind_eq_ok] at h
  obtain ⟨last, _, h⟩ := h
  rw [bind_eq_ok] at h
  obtain ⟨g1, hw, h⟩ := h
  have hg : g' = { g1 with num_bullets := sub64 g.num_bullets 1 } := (Except.ok.inj h).symm
  have h1 := writeBullet_only _ _ _ _ hw
  rw [hg]
  exact ⟨h1.1, h1.2⟩

theorem pairRemove_only (g g' : Game) (bi bj : Nat) (h : pairRemove g bi bj = Except.ok g') :
    BulletsOnly g g' := by
  unfold pairRemove at h
  simp only [] at h
  rw [bind_eq_ok] at h
  obtain ⟨g1, hm, h⟩ := h
  have hg : g' = { g1 with num_bullets := sub64 g1.num_bullets 2 } := (Except.ok.inj h).symm
  have h1 : BulletsOnly g g1 := by
    split at hm
    · rw [bind_eq_ok] at hm
      obtain ⟨v, _, hw⟩ := hm
      exact writeBullet_only _ _ _ _ hw
    · split at hm
      · rw [bind_eq_ok] at hm
        obtain ⟨v, _, hw⟩ := hm
        exact writeBullet_only _ _ _ _ hw
      · rw [bind_eq_ok] at hm
        obtain ⟨v1, _, hm⟩ := hm
        rw [bind_eq_ok] at hm
        obtain ⟨g2, hw1, hm⟩ := hm
        rw [bind_eq_ok] at hm
        obtain ⟨v2, _, hw2⟩ := hm
        exact (writeBullet_only _ _ _ _ hw1).trans_bullets (writeBullet_only _ _ _ _ hw2)
  rw [hg]
  exact ⟨h1.1, h1.2⟩

theorem bulletVsBullet_only (fuel bj bi : Nat) (g g' : Game)
    (h : bulletVsBullet fuel bj bi g = Except.ok g') : BulletsOnly g g' := by
  induction fuel generalizing bj with
  | zero =>
    rw [bulletVsBullet] at h
    cases h
  | succ fuel ih =>
    rw [bulletVsBullet] at h
    split at h
    · split at h
      · exact ih _ h
      · rw [bind_eq_ok] at h
        obtain ⟨a, _, h⟩ := h
        rw [bind_eq_ok] at h
        obtain ⟨b, _, h⟩ := h
        split at h
        · exact pairRemove_only _ _ _ _ h
        · exact ih _ h
    · cases h
      exact BulletsOnly.refl_bullets g

theorem BulletRel.refl_rel (s : State) : BulletRel s s where
  frame := ⟨_, _, _, _, rfl⟩
  len := rfl
  bullets_len := rfl
  kept := fun _ _ h _ => h
  kills := fun _ => ⟨rfl, Nat.le_refl _, by
    constructor
    · intro h
      exact Or.inl h
    · rintro (h | ⟨m, h1, h2, _⟩)
      · exact h
      · omega⟩

theorem BulletRel.trans_rel {s s1 s2 : State} (h1 : BulletRel s s1) (h2 : BulletRel s1 s2) :
    BulletRel s s2 where
  frame := by
    obtain ⟨g1, c1, k1, f1, e1⟩ := h1.frame
    obtain ⟨g2, c2, k2, f2, e2⟩ := h2.frame
    rw [e2, e1]
    exact ⟨_, _, _, _, rfl⟩
  len := h2.len.trans h1.len
  bullets_len := h2.bullets_len.trans h1.bullets_len
  kept := fun i a h hl => h1.kept i a (h2.kept i a h hl) hl
  kills := by
    intro hw
    obtain ⟨k1, l1, f1⟩ := h1.kills hw
    obtain ⟨k2, l2, f2⟩ := h2.kills (by omega)
    refine ⟨by omega, by omega, ?_⟩
    rw [f2, f1]
    constructor
    · rintro ((h | ⟨m, a, b, c⟩) | ⟨m, a, b, c⟩)
      · exact Or.inl h
      · exact Or.inr ⟨m, a, by omega, c⟩
      · exact Or.inr ⟨m, by omega, b, c⟩
    · rintro (h | ⟨m, a, b, c⟩)
      · exact Or.inl (Or.inl h)
      · by_cases hm : m ≤ s1.aliens_killed
        · exact Or.inl (Or.inr ⟨m, a, hm, c⟩)
        · exact Or.inr ⟨m, by omega, b, c⟩

/-- Replacing `game` by one with the same aliens is a bullet-phase change. -/
theorem BulletRel.of_game (s : State) (g : Game) (h : g.aliens = s.game.aliens)
    (hb : g.bullets.length = s.game.bullets.length) :
    BulletRel s { s with game := g } where
  frame := ⟨_, _, _, _, rfl⟩
  bullets_len := hb
  len := by
    show g.aliens.length = s.game.aliens.length
    rw [h]
  kept := by
    intro i a ha _
    have : g.aliens[i]? = some a := ha
    rw [h] at this
    exact this
  kills := by
    intro _
    show s.aliens_killed + livingCount g.aliens = _ ∧ _ ∧ _
    rw [h]
    exact (BulletRel.refl_rel s).kills (by assumption)

theorem livingCount_set_dead (l : List Alien) (i : Nat) (a a' : Alien)
    (ha : l[i]? = some a) (hl : a.type ≠ ALIEN_DEAD) (hd : a'.type = ALIEN_DEAD) :
    livingCount (l.set i a') + 1 = livingCount l := by
  have hi : i < l.length := lt_length_of_getElem? l i a ha
  have hget : l[i] = a := by
    rw [List.getElem?_eq_some] at ha
    exact ha.2
  unfold livingCount
  rw [List.countP_set _ l i a' hi, hget]
  have hpos : 0 < List.countP (fun alien => decide (alien.type ≠ ALIEN_DEAD)) l := by
    rw [List.countP_pos_iff]
    refine ⟨a, ?_, by simpa using hl⟩
    rw [← hget]
    exact List.getElem_mem _
  have hp1 : decide (a.type ≠ ALIEN_DEAD) = true := by simpa using hl
  have hp2 : decide (a'.type ≠ ALIEN_DEAD) = false := by simp [hd]
  simp only [hp1, hp2, if_true, Bool.false_eq_true, if_false] at hpos ⊢
  omega

theorem hitAlien_rel (s s1 : State) (bi ai : Nat) (sp : Sprite) (a : Alien)
    (ha : s.game.aliens[ai]? = some a) (hl : a.type ≠ ALIEN_DEAD)
    (h : hitAlien s bi ai sp = Except.ok s1) : BulletRel s s1 := by
  unfold hitAlien at h
  rw [(readAlien_eq_ok s.game ai a).mpr ha, bind_ok_eq,
    writeAlien_eq_ok _ _ _ (lt_length_of_getElem? _ _ _ ha), bind_ok_eq, bind_eq_ok] at h
  obtain ⟨g2, hr, h⟩ := h
  have hs1 := (Except.ok.inj h).symm
  have hg := (removeBullet_only _ _ _ hr).1
  have hgb := (removeBullet_only _ _ _ hr).2.2
  simp only [] at hg hgb
  have hcount := livingCount_set_dead s.game.aliens ai a
    { a with
      type := ALIEN_DEAD
      x := sub64 a.x (sub64 alien_death_sprite.width sp.width / 2) } ha hl rfl
  rw [← hg] at hcount
  rw [hs1]
  refine ⟨⟨_, _, _, _, rfl⟩, ?_, hgb, ?_, ?_⟩
  · show g2.aliens.length = s.game.aliens.length
    rw [hg, List.length_set]
  · intro i b hb hbl
    have hb1 : g2.aliens[i]? = some b := hb
    rw [hg, List.getElem?_set] at hb1
    split at hb1
    · split at hb1
      · cases hb1
        exact absurd rfl hbl
      · cases hb1
    · exact hb1
  · intro hw
    have hk : add64 s.aliens_killed 1 = s.aliens_killed + 1 := add64_of_lt _ _ (by omega)
    rw [hk]
    dsimp only
    refine ⟨by omega, by omega, ?_⟩
    constructor
    · intro hf
      split at hf
      · exact Or.inr ⟨s.aliens_killed + 1, by omega, by omega, by assumption⟩
      · exact Or.inl hf
    · rintro (hf | ⟨m, h1, h2, h3⟩)
      · split
        · rfl
        · exact hf
      · have : m = s.aliens_killed + 1 := by omega
        rw [this] at h3
        rw [if_pos h3]

theorem testAlien_rel (s s1 : State) (bi ai : Nat)
    (h : testAlien s bi ai = Except.ok (some s1)) : BulletRel s s1 := by
  unfold testAlien at h
  rw [bind_eq_ok] at h
  obtain ⟨a, ha, h⟩ := h
  rw [readAlien_eq_ok] at ha
  split at h
  · cases h
  · rw [bind_eq_ok] at h
    obtain ⟨sp, _, h⟩ := h
    rw [bind_eq_ok] at h
    obtain ⟨b, _, h⟩ := h
    split at h
    · rw [bind_eq_ok] at h
      obtain ⟨s2, hh, h⟩ := h
      cases h
      exact hitAlien_rel s s1 bi ai sp a ha (by assumption) hh
    · cases h

theorem checkHit_rel (s s1 : State) (bi : Nat) (ais : List Nat)
    (h : checkHit s bi ais = Except.ok s1) : BulletRel s s1 := by
  induction ais with
  | nil =>
    rw [checkHit] at h
    cases h
    exact BulletRel.refl_rel s
  | cons ai rest ih =>
    rw [checkHit] at h
    split at h
    · cases h
    · rename_i s2 heq
      cases h
      exact testAlien_rel s s1 bi ai heq
    · exact ih h

theorem simulateBullet_rel (s s1 : State) (bi : Nat) (brk : Bool)
    (h : simulateBullet s bi = Except.ok (s1, brk)) : BulletRel s s1 := by
  unfold simulateBullet at h
  rw [bind_eq_ok] at h
  obtain ⟨b, _, h⟩ := h
  rw [bind_eq_ok] at h
  obtain ⟨g1, hw, h⟩ := h
  have h1 := writeBullet_only _ _ _ _ hw
  split at h
  · rw [bind_eq_ok] at h
    obtain ⟨g2, hr, h⟩ := h
    have h2 := removeBullet_only _ _ _ hr
    have e := (Prod.mk.inj (Except.ok.inj h)).1
    rw [← e]
    exact BulletRel.of_game s g2 (h1.trans_bullets h2).1 (h1.trans_bullets h2).2.2
  · split at h
    · split at h
      · rw [bind_eq_ok] at h
        obtain ⟨g2, hr, h⟩ := h
        have h2 := removeBullet_only _ _ _ hr
        have e := (Prod.mk.inj (Except.ok.inj h)).1
        rw [← e]
        exact BulletRel.of_game s g2 (h2.1.trans h1.1) (h2.2.2.trans h1.2.2)
      · have e := (Prod.mk.inj (Except.ok.inj h)).1
        rw [← e]
        exact BulletRel.of_game s g1 h1.1 h1.2.2
    · rw [bind_eq_ok] at h
      obtain ⟨g2, hb, h⟩ := h
      rw [bind_eq_ok] at h
      obtain ⟨s3, hc, h⟩ := h
      have h2 := bulletVsBullet_only _ _ _ _ _ hb
      have e := (Prod.mk.inj (Except.ok.inj h)).1
      rw [← e]
      exact (BulletRel.of_game s g2 (h1.trans_bullets h2).1 (h1.trans_bullets h2).2.2).trans_rel (checkHit_rel _ _ _ _ hc)

theorem simulateBullets_rel (fuel bi : Nat) (s s1 : State)
    (h : simulateBullets fuel bi s = Except.ok s1) : BulletRel s s1 := by
  induction fuel generalizing bi s with
  | zero =>
    rw [simulateBullets] at h
    cases h
  | succ fuel ih =>
    rw [simulateBullets] at h
    split at h
    · split at h
      · cases h
      · rename_i s2 heq
        cases h
        exact simulateBullet_rel s s1 bi true heq
      · rename_i s2 heq
        exact (simulateBullet_rel s s2 bi false heq).trans_rel (ih _ _ h)
    · cases h
      exact BulletRel.refl_rel _

/-! ## What the other steps of a tick can change -/

theorem SameCore.refl_core (s : State) : SameCore s s :=
  ⟨rfl, rfl, rfl, rfl, rfl, rfl, rfl, rfl, rfl, rfl, rfl, rfl⟩

theorem SameCore.trans_core {s s1 s2 : State} (h1 : SameCore s s1) (h2 : SameCore s1 s2) :
    SameCore s s2 :=
  ⟨h2.aliens.trans h1.aliens, h2.position.trans h1.position,
    h2.max_position.trans h1.max_position, h2.dir.trans h1.dir,
    h2.frequency.trans h1.frequency, h2.level.trans h1.level, h2.killed.trans h1.killed,
    h2.flag.trans h1.flag, h2.reset.trans h1.reset, h2.score.trans h1.score,
    h2.high_score.trans h1.high_score, h2.bullets_len.trans h1.bullets_len⟩

theorem updateDeathCounters_core (s : State) : SameCore s (updateDeathCounters s) :=
  ⟨rfl, rfl, rfl, rfl, rfl, rfl, rfl, rfl, rfl, rfl, rfl, rfl⟩

theorem updateAnimations_core (s : State) : SameCore s (updateAnimations s) :=
  ⟨rfl, rfl, rfl, rfl, rfl, rfl, rfl, rfl, rfl, rfl, rfl, rfl⟩

theorem simulatePlayer_eq (s : State) :
    ∃ pmd x, simulatePlayer s =
      { s with
        player_move_dir := pmd
        game := { s.game with player := { s.game.player with x := x } } } := by
  unfold simulatePlayer
  by_cases h1 : toInt32 (2 * s.move_dir) ≠ 0
  · by_cases h2 : addInt64 (add64 s.game.player.x player_sprite.width) (toInt32 (2 * s.move_dir))
        ≥ game_width
    · refine ⟨toInt32 (2 * s.move_dir), sub64 game_width player_sprite.width, ?_⟩
      simp only [h1, h2, if_true, ne_eq, not_false_eq_true]
    · by_cases h3 : toInt32 (toInt32 s.game.player.x + toInt32 (2 * s.move_dir)) ≤ 0
      · refine ⟨toInt32 (2 * s.move_dir), 0, ?_⟩
        simp only [h1, h2, h3, if_true, if_false, ne_eq, not_false_eq_true]
      · refine ⟨toInt32 (2 * s.move_dir),
          addInt64 s.game.player.x (toInt32 (2 * s.move_dir)), ?_⟩
        simp only [h1, h2, h3, if_true, if_false, ne_eq, not_false_eq_true]
  · refine ⟨toInt32 (2 * s.move_dir), s.game.player.x, ?_⟩
    simp only [h1, if_false]

theorem simulatePlayer_core (s : State) : SameCore s (simulatePlayer s) := by
  obtain ⟨pmd, x, h⟩ := simulatePlayer_eq s
  rw [h]
  exact ⟨rfl, rfl, rfl, rfl, rfl, rfl, rfl, rfl, rfl, rfl, rfl, rfl⟩

theorem processFire_core (s s' : State) (h : processFire s = Except.ok s') : SameCore s s' := by
  have hf := processFire_frame s s' h
  unfold FireFrame at hf
  have hbl : s'.game.bullets.length = s.game.bullets.length := by
    unfold processFire at h
    split at h
    · rw [bind_eq_ok] at h
      obtain ⟨g1, hg, h3⟩ := h
      have e := (Except.ok.inj h3).symm
      rw [e]
      exact (writeBullet_only _ _ _ _ hg).2.2
    · have e := (Except.ok.inj h).symm
      rw [e]
  rw [hf] at hbl ⊢
  exact ⟨rfl, rfl, rfl, rfl, rfl, rfl, rfl, rfl, rfl, rfl, rfl, hbl⟩

theorem alienShoot_core (s s' : State) (rai : Nat) (h : alienShoot s rai = Except.ok s') :
    SameCore s s' := by
  unfold alienShoot at h
  rw [bind_eq_ok] at h
  obtain ⟨alien, _, h⟩ := h
  split at h
  · rw [bind_eq_ok] at h
    obtain ⟨sp, _, h⟩ := h
    rw [bind_eq_ok] at h
    obtain ⟨g1, hw, h⟩ := h
    have ha := (writeBullet_only _ _ _ _ hw).1
    have hbl := (writeBullet_only _ _ _ _ hw).2.2
    have e := (Except.ok.inj h).symm
    rw [e]
    exact ⟨ha, rfl, rfl, rfl, rfl, rfl, rfl, rfl, rfl, rfl, rfl, hbl⟩
  · cases h

theorem alienFire_core (fuel : Nat) (s s' : State) (h : alienFire fuel s = Except.ok s') :
    SameCore s s' := by
  unfold alienFire at h
  split at h
  · rw [bind_eq_ok] at h
    obtain ⟨d, _, h⟩ := h
    split at h
    · exact (show SameCore s { s with rng := d.2 } from
        ⟨rfl, rfl, rfl, rfl, rfl, rfl, rfl, rfl, rfl, rfl, rfl, rfl⟩).trans_core (alienShoot_core _ _ _ h)
    · have e := (Except.ok.inj h).symm
      rw [e]
      exact ⟨rfl, rfl, rfl, rfl, rfl, rfl, rfl, rfl, rfl, rfl, rfl, rfl⟩
  · have e := (Except.ok.inj h).symm
    rw [e]
    exact SameCore.refl_core s

theorem key_callback_reset (s : State) (e : KeyEvent)
    (h : ¬ (e.key = Key.r ∧ e.action = Action.release)) :
    (key_callback s e).reset = s.reset := by
  unfold key_callback
  cases hk : e.key <;> simp only [] <;> (repeat' split) <;> first | rfl | (exact absurd ⟨hk, by assumption⟩ h)

theorem glfwPollEvents_reset (s : State) (evs : List KeyEvent) (h : NoResetKey evs) :
    (glfwPollEvents s evs).reset = s.reset := by
  unfold glfwPollEvents
  induction evs generalizing s with
  | nil => rfl
  | cons e evs ih =>
    rw [List.foldl_cons, ih _ (fun e1 he1 => h e1 (List.mem_cons_of_mem e he1))]
    exact key_callback_reset s e (h e (List.mem_cons_self e evs))

theorem glfwPollEvents_core (s : State) (evs : List KeyEvent) :
    (glfwPollEvents s evs).game = s.game ∧
    (glfwPollEvents s evs).alien_swarm_position = s.alien_swarm_position ∧
    (glfwPollEvents s evs).alien_swarm_max_position = s.alien_swarm_max_position ∧
    (glfwPollEvents s evs).alien_move_dir = s.alien_move_dir ∧
    (glfwPollEvents s evs).alien_update_frequency = s.alien_update_frequency ∧
    (glfwPollEvents s evs).level = s.level ∧
    (glfwPollEvents s evs).aliens_killed = s.aliens_killed ∧
    (glfwPollEvents s evs).should_change_speed = s.should_change_speed ∧
    (glfwPollEvents s evs).score = s.score ∧
    (glfwPollEvents s evs).high_score = s.high_score := by
  have hp := glfwPollEvents_frame s evs
  unfold InputFrame at hp
  rw [hp]
  exact ⟨rfl, rfl, rfl, rfl, rfl, rfl, rfl, rfl, rfl, rfl⟩

/-! ## The formation as a grid -/

theorem alienBaseSprite_of_type (t : Nat) (h : t = 1 ∨ t = 2 ∨ t = 3) :
    ∃ sp, alienBaseSprite t = Except.ok sp ∧ sp.width = typeWidth t := by
  rcases h with h | h | h <;> subst h <;> exact ⟨_, rfl, rfl⟩

theorem gridAliens_getElem? (pos i : Nat) (a : Alien) (h : (gridAliens pos)[i]? = some a) :
    a.type = (5 - i % 5) / 2 + 1 ∧
    a.x = 16 * (i / 5) + pos + (13 - typeWidth a.type) / 2 ∧
    a.y = 17 * (i % 5) + 128 ∧ i < num_aliens := by
  unfold gridAliens at h
  rw [List.getElem?_map] at h
  by_cases hi : i < num_aliens
  · rw [List.getElem?_range hi] at h
    simp only [Option.map_some'] at h
    have e := (Option.some.inj h).symm
    rw [e]
    exact ⟨rfl, rfl, rfl, hi⟩
  · rw [List.getElem?_eq_none (by simpa using hi)] at h
    cases h

theorem gridAliens_grid : AlienGrid (gridAliens 24) := by
  refine ⟨24, ?_⟩
  intro i a h _
  obtain ⟨ht, hx, _, hi⟩ := gridAliens_getElem? 24 i a h
  have hi1 : i < 55 := hi
  have hm : i % 5 < 5 := Nat.mod_lt _ (by decide)
  have htype : a.type = 1 ∨ a.type = 2 ∨ a.type = 3 := by omega
  refine ⟨htype, ?_⟩
  rw [hx]
  have hw : (13 - typeWidth a.type) / 2 ≤ 6 := by omega
  omega

theorem gridAliens_length (pos : Nat) : (gridAliens pos).length = num_aliens := by
  unfold gridAliens
  simp

/-! ## The advance -/

theorem moveSwarm_eq (s : State) :
    ∃ (d : Int) (ys : Alien → Nat), moveSwarm s =
      { s with
        alien_move_dir := d
        alien_swarm_position := addInt64 s.alien_swarm_position d
        game := { s.game with
          aliens := s.game.aliens.map
            (fun alien => { alien with x := addInt64 alien.x d, y := ys alien }) } } := by
  by_cases h1 : toInt32 (toInt32 s.alien_swarm_position + s.alien_move_dir) < 0
  · refine ⟨toInt32 (s.alien_move_dir * -1), fun alien => sub64 alien.y 8, ?_⟩
    unfold moveSwarm
    simp only [h1, if_true, List.map_map]
    rfl
  · by_cases h2 : s.alien_swarm_position
        > subInt64 s.alien_swarm_max_position s.alien_move_dir
    · refine ⟨toInt32 (s.alien_move_dir * -1), fun alien => alien.y, ?_⟩
      unfold moveSwarm
      simp only [h1, if_false, h2, if_true]
    · refine ⟨s.alien_move_dir, fun alien => alien.y, ?_⟩
      unfold moveSwarm
      simp only [h1, if_false, h2]

/-- A shifted copy of a grid is a grid. -/
theorem AlienGrid.shift (aliens : List Alien) (d : Int) (ys : Alien → Nat)
    (h : AlienGrid aliens) :
    AlienGrid (aliens.map (fun alien => { alien with x := addInt64 alien.x d, y := ys alien })) := by
  obtain ⟨off, hoff⟩ := h
  refine ⟨wrap64 ((off : Int) + d), ?_⟩
  intro i a' ha' hl
  rw [List.getElem?_map] at ha'
  cases ha : aliens[i]? with
  | none =>
    rw [ha] at ha'
    cases ha'
  | some a =>
    rw [ha] at ha'
    simp only [Option.map_some'] at ha'
    have e := (Option.some.inj ha').symm
    rw [e] at hl ⊢
    obtain ⟨ht, hx⟩ := hoff i a ha hl
    refine ⟨ht, ?_⟩
    show addInt64 a.x d = _
    have hty : ({ a with x := addInt64 a.x d, y := ys a } : Alien).type = a.type := rfl
    rw [hty, hx]
    unfold addInt64 wrap64
    omega

theorem livingCount_map (aliens : List Alien) (f : Alien → Alien)
    (h : ∀ a, (f a).type = a.type) : livingCount (aliens.map f) = livingCount aliens := by
  unfold livingCount
  rw [List.countP_map]
  congr 1
  funext a
  simp [h a]

theorem AdvanceRel.of_core {s s' : State} (h : SameCore s s') : AdvanceRel s s' :=
  ⟨h.max_position, h.frequency, h.level, h.killed, h.flag, h.reset, h.score, h.high_score,
    by rw [h.aliens], by rw [h.aliens], h.bullets_len, fun hg => by rw [h.aliens]; exact hg⟩

theorem AdvanceRel.trans_adv {s s1 s2 : State} (h1 : AdvanceRel s s1) (h2 : AdvanceRel s1 s2) :
    AdvanceRel s s2 :=
  ⟨h2.max_position.trans h1.max_position, h2.frequency.trans h1.frequency,
    h2.level.trans h1.level, h2.killed.trans h1.killed, h2.flag.trans h1.flag,
    h2.reset.trans h1.reset, h2.score.trans h1.score, h2.high_score.trans h1.high_score,
    h2.len.trans h1.len, h2.living.trans h1.living, h2.bullets_len.trans h1.bullets_len,
    fun hg => h2.grid (h1.grid hg)⟩

theorem moveSwarm_rel (s : State) : AdvanceRel s (moveSwarm s) := by
  obtain ⟨d, ys, h⟩ := moveSwarm_eq s
  rw [h]
  refine ⟨rfl, rfl, rfl, rfl, rfl, rfl, rfl, rfl, ?_, ?_, rfl, ?_⟩
  · simp
  · exact livingCount_map _ _ (fun _ => rfl)
  · intro hg
    exact AlienGrid.shift _ d ys hg

theorem advance_rel (fuel : Nat) (s s' : State) (h : advance fuel s = Except.ok s') :
    AdvanceRel s s' := by
  unfold advance at h
  split at h
  · have h1 : AdvanceRel s
        { s with
          move_audio_i := if add64 s.move_audio_i 1 = 4 then 0 else add64 s.move_audio_i 1
          alien_update_timer := 0 } :=
      AdvanceRel.of_core ⟨rfl, rfl, rfl, rfl, rfl, rfl, rfl, rfl, rfl, rfl, rfl, rfl⟩
    exact (h1.trans_adv (moveSwarm_rel _)).trans_adv (AdvanceRel.of_core (alienFire_core _ _ _ h))
  · have e := (Except.ok.inj h).symm
    rw [e]
    exact AdvanceRel.of_core (SameCore.refl_core s)

/-! ## Faults a step cannot raise -/

theorem Avoids.ok {α : Type} (f : Fault) (a : α) : Avoids f (Except.ok a : Except Fault α) := by
  intro h
  cases h

theorem Avoids.oob {α : Type} {f : Fault} (hf : Internal f) :
    Avoids f (Except.error Fault.outOfBounds : Except Fault α) := by
  intro h
  rcases hf with hf | hf <;> subst hf <;> cases h

theorem Avoids.div {α : Type} {f : Fault} (hf : Internal f) :
    Avoids f (Except.error Fault.divByZero : Except Fault α) := by
  intro h
  rcases hf with hf | hf <;> subst hf <;> cases h

theorem Avoids.bind {α β : Type} {f : Fault} {x : Except Fault α} {k : α → Except Fault β}
    (hx : Avoids f x) (hk : ∀ a, x = Except.ok a → Avoids f (k a)) : Avoids f (x >>= k) := by
  cases x with
  | error e =>
    intro h
    apply hx
    rw [bind_error_eq] at h
    cases h
    rfl
  | ok a => exact hk a rfl

/-- An error passed on from a step that cannot raise `f`. -/
theorem Avoids.pass {α β : Type} {f : Fault} {x : Except Fault α} {e : Fault}
    (hx : Avoids f x) (h : x = Except.error e) :
    Avoids f (Except.error e : Except Fault β) := by
  intro h1
  apply hx
  rw [h]
  cases h1
  rfl

theorem NoAssert.ok_result {α : Type} (a : α) : NoAssert (Except.ok a : Except Fault α) :=
  Avoids.ok _ a

theorem NoAssert.fuel {α : Type} : NoAssert (Except.error Fault.outOfFuel : Except Fault α) := by
  intro h
  cases h

theorem NoAssert.bind_result {α β : Type} {x : Except Fault α} {k : α → Except Fault β}
    (hx : NoAssert x) (hk : ∀ a, NoAssert (k a)) : NoAssert (x >>= k) :=
  Avoids.bind hx (fun a _ => hk a)

theorem NoAssert.pass_error {α β : Type} {x : Except Fault α} {e : Fault} (hx : NoAssert x)
    (h : x = Except.error e) : NoAssert (Except.error e : Except Fault β) :=
  Avoids.pass hx h

theorem internal_assert : Internal Fault.assertFailed := Or.inl rfl

theorem internal_fuel : Internal Fault.outOfFuel := Or.inr rfl

theorem readBullet_avoids (f : Fault) (hf : Internal f) (g : Game) (i : Nat) :
    Avoids f (readBullet g i) := by
  unfold readBullet
  split
  · exact Avoids.ok f _
  · exact Avoids.oob hf

theorem writeBullet_avoids (f : Fault) (hf : Internal f) (g : Game) (i : Nat) (b : Bullet) :
    Avoids f (writeBullet g i b) := by
  unfold writeBullet
  split
  · exact Avoids.ok f _
  · exact Avoids.oob hf

theorem readAlien_avoids (f : Fault) (hf : Internal f) (g : Game) (i : Nat) :
    Avoids f (readAlien g i) := by
  unfold readAlien
  split
  · exact Avoids.ok f _
  · exact Avoids.oob hf

theorem writeAlien_avoids (f : Fault) (hf : Internal f) (g : Game) (i : Nat) (a : Alien) :
    Avoids f (writeAlien g i a) := by
  unfold writeAlien
  split
  · exact Avoids.ok f _
  · exact Avoids.oob hf

theorem alienSprite_avoids (f : Fault) (hf : Internal f) (i : Nat) : Avoids f (alienSprite i) := by
  unfold alienSprite
  split
  · exact Avoids.ok f _
  · exact Avoids.oob hf

theorem alienFrameSprite_avoids (f : Fault) (hf : Internal f) (s : State) (t : Nat) :
    Avoids f (alienFrameSprite s t) := by
  unfold alienFrameSprite
  split
  · split
    · exact Avoids.div hf
    · split
      · exact alienSprite_avoids f hf _
      · exact Avoids.oob hf
  · exact Avoids.oob hf

theorem alienBaseSprite_avoids (f : Fault) (hf : Internal f) (t : Nat) :
    Avoids f (alienBaseSprite t) :=
  alienSprite_avoids f hf _

theorem drawAlien_avoids (f : Fault) (hf : Internal f) (s : State) (ai : Nat) :
    Avoids f (drawAlien s ai) := by
  unfold drawAlien
  split
  · exact Avoids.oob hf
  · split
    · exact Avoids.ok f _
    · split
      · rename_i e heq
        exact Avoids.pass (readAlien_avoids f hf _ _) heq
      · split
        · exact Avoids.ok f _
        · split
          · rename_i e heq
            exact Avoids.pass (alienFrameSprite_avoids f hf _ _) heq
          · exact Avoids.ok f _

theorem drawAliens_avoids (f : Fault) (hf : Internal f) (s : State) (ais : List Nat) :
    Avoids f (drawAliens s ais) := by
  induction ais with
  | nil =>
    rw [drawAliens]
    exact Avoids.ok f _
  | cons ai rest ih =>
    rw [drawAliens]
    split
    · rename_i e heq
      exact Avoids.pass (drawAlien_avoids f hf _ _) heq
    · exact ih

theorem drawBullet_avoids (f : Fault) (hf : Internal f) (s : State) (bi : Nat) :
    Avoids f (drawBullet s bi) := by
  unfold drawBullet
  split
  · rename_i e heq
    exact Avoids.pass (readBullet_avoids f hf _ _) heq
  · split
    · exact Avoids.ok f _
    · split
      · exact Avoids.div hf
      · split
        · exact Avoids.ok f _
        · exact Avoids.oob hf

theorem drawBullets_noAssert (s : State) (fuel bi : Nat) :
    NoAssert (drawBullets s fuel bi) := by
  induction fuel generalizing bi with
  | zero =>
    rw [drawBullets]
    exact NoAssert.fuel
  | succ fuel ih =>
    rw [drawBullets]
    split
    · split
      · rename_i e heq
        exact NoAssert.pass_error (drawBullet_avoids _ internal_assert _ _) heq
      · exact ih _
    · exact NoAssert.ok_result _

theorem removeBullet_avoids (f : Fault) (hf : Internal f) (g : Game) (bi : Nat) :
    Avoids f (removeBullet g bi) := by
  unfold removeBullet
  exact Avoids.bind (readBullet_avoids f hf _ _) fun _ _ =>
    Avoids.bind (writeBullet_avoids f hf _ _ _) fun _ _ => Avoids.ok f _

theorem pairRemove_avoids (f : Fault) (hf : Internal f) (g : Game) (bi bj : Nat) :
    Avoids f (pairRemove g bi bj) := by
  unfold pairRemove
  refine Avoids.bind ?_ fun _ _ => Avoids.ok f _
  split
  · exact Avoids.bind (readBullet_avoids f hf _ _) fun _ _ => writeBullet_avoids f hf _ _ _
  · split
    · exact Avoids.bind (readBullet_avoids f hf _ _) fun _ _ => writeBullet_avoids f hf _ _ _
    · exact Avoids.bind (readBullet_avoids f hf _ _) fun _ _ =>
        Avoids.bind (writeBullet_avoids f hf _ _ _) fun _ _ =>
          Avoids.bind (readBullet_avoids f hf _ _) fun _ _ => writeBullet_avoids f hf _ _ _

theorem bulletVsBullet_noAssert (fuel bj bi : Nat) (g : Game) :
    NoAssert (bulletVsBullet fuel bj bi g) := by
  induction fuel generalizing bj with
  | zero =>
    rw [bulletVsBullet]
    exact NoAssert.fuel
  | succ fuel ih =>
    rw [bulletVsBullet]
    split
    · split
      · exact ih _
      · refine NoAssert.bind_result (readBullet_avoids _ internal_assert _ _) fun a =>
          NoAssert.bind_result (readBullet_avoids _ internal_assert _ _) fun b => ?_
        split
        · exact pairRemove_avoids _ internal_assert _ _ _
        · exact ih _
    · exact NoAssert.ok_result _

theorem hitAlien_avoids (f : Fault) (hf : Internal f) (s : State) (bi ai : Nat) (sp : Sprite) :
    Avoids f (hitAlien s bi ai sp) := by
  unfold hitAlien
  exact Avoids.bind (readAlien_avoids f hf _ _) fun _ _ =>
    Avoids.bind (writeAlien_avoids f hf _ _ _) fun _ _ =>
      Avoids.bind (removeBullet_avoids f hf _ _) fun _ _ => Avoids.ok f _

theorem testAlien_avoids (f : Fault) (hf : Internal f) (s : State) (bi ai : Nat) :
    Avoids f (testAlien s bi ai) := by
  unfold testAlien
  refine Avoids.bind (readAlien_avoids f hf _ _) fun a _ => ?_
  split
  · exact Avoids.ok f _
  · refine Avoids.bind (alienFrameSprite_avoids f hf _ _) fun sp _ =>
      Avoids.bind (readBullet_avoids f hf _ _) fun b _ => ?_
    split
    · exact Avoids.bind (hitAlien_avoids f hf _ _ _ _) fun _ _ => Avoids.ok f _
    · exact Avoids.ok f _

theorem checkHit_avoids (f : Fault) (hf : Internal f) (s : State) (bi : Nat) (ais : List Nat) :
    Avoids f (checkHit s bi ais) := by
  induction ais with
  | nil =>
    rw [checkHit]
    exact Avoids.ok f _
  | cons ai rest ih =>
    rw [checkHit]
    split
    · rename_i e heq
      exact Avoids.pass (testAlien_avoids f hf _ _ _) heq
    · exact Avoids.ok f _
    · exact ih

theorem simulateBullet_noAssert (s : State) (bi : Nat) : NoAssert (simulateBullet s bi) := by
  unfold simulateBullet
  refine NoAssert.bind_result (readBullet_avoids _ internal_assert _ _) fun b =>
    NoAssert.bind_result (writeBullet_avoids _ internal_assert _ _ _) fun g1 => ?_
  split
  · exact NoAssert.bind_result (removeBullet_avoids _ internal_assert _ _) fun _ => NoAssert.ok_result _
  · split
    · split
      · exact NoAssert.bind_result (removeBullet_avoids _ internal_assert _ _) fun _ => NoAssert.ok_result _
      · exact NoAssert.ok_result _
    · exact NoAssert.bind_result (bulletVsBullet_noAssert _ _ _ _) fun _ =>
        NoAssert.bind_result (checkHit_avoids _ internal_assert _ _ _) fun _ => NoAssert.ok_result _

theorem simulateBullets_noAssert (fuel bi : Nat) (s : State) :
    NoAssert (simulateBullets fuel bi s) := by
  induction fuel generalizing bi s with
  | zero =>
    rw [simulateBullets]
    exact NoAssert.fuel
  | succ fuel ih =>
    rw [simulateBullets]
    split
    · split
      · rename_i e heq
        exact NoAssert.pass_error (simulateBullet_noAssert _ _) heq
      · exact NoAssert.ok_result _
      · exact ih _ _
    · exact NoAssert.ok_result _

theorem pickAlien_noAssert (fuel rng : Nat) (aliens : List Alien) :
    NoAssert (pickAlien fuel rng aliens) := by
  induction fuel generalizing rng with
  | zero =>
    rw [pickAlien]
    exact NoAssert.fuel
  | succ fuel ih =>
    rw [pickAlien]
    split
    · exact Avoids.oob internal_assert
    · split
      · exact ih _
      · exact NoAssert.ok_result _

theorem alienShoot_avoids (f : Fault) (hf : Internal f) (s : State) (rai : Nat) :
    Avoids f (alienShoot s rai) := by
  unfold alienShoot
  refine Avoids.bind (readAlien_avoids f hf _ _) fun a _ => ?_
  split
  · exact Avoids.bind (alienSprite_avoids f hf _) fun _ _ =>
      Avoids.bind (writeBullet_avoids f hf _ _ _) fun _ _ => Avoids.ok f _
  · exact Avoids.oob hf

theorem alienFire_noAssert (fuel : Nat) (s : State) : NoAssert (alienFire fuel s) := by
  unfold alienFire
  split
  · refine NoAssert.bind_result (pickAlien_noAssert _ _ _) fun d => ?_
    split
    · exact alienShoot_avoids _ internal_assert _ _
    · exact NoAssert.ok_result _
  · exact NoAssert.ok_result _

theorem advance_noAssert (fuel : Nat) (s : State) : NoAssert (advance fuel s) := by
  unfold advance
  split
  · exact alienFire_noAssert _ _
  · exact NoAssert.ok_result _

theorem processFire_avoids (f : Fault) (hf : Internal f) (s : State) :
    Avoids f (processFire s) := by
  unfold processFire
  split
  · exact Avoids.bind (writeBullet_avoids f hf _ _ _) fun _ _ => Avoids.ok f _
  · exact Avoids.ok f _

theorem firstLiving_avoids (f : Fault) (hf : Internal f) (aliens : List Alien) (ai : Nat) :
    Avoids f (firstLiving aliens ai) := by
  induction aliens generalizing ai with
  | nil =>
    rw [firstLiving]
    exact Avoids.oob hf
  | cons a rest ih =>
    rw [firstLiving]
    split
    · exact ih _
    · exact Avoids.ok f _

theorem lastLiving_avoids (f : Fault) (hf : Internal f) (aliens : List Alien) (ai : Nat) :
    Avoids f (lastLiving aliens ai) := by
  induction ai with
  | zero =>
    rw [lastLiving]
    split
    · exact Avoids.oob hf
    · split
      · exact Avoids.oob hf
      · exact Avoids.ok f _
  | succ ai ih =>
    rw [lastLiving]
    split
    · exact Avoids.oob hf
    · split
      · exact ih
      · exact Avoids.ok f _

theorem leftBound_avoids (f : Fault) (hf : Internal f) (aliens : List Alien) :
    Avoids f (leftBound aliens) := by
  unfold leftBound
  refine Avoids.bind (firstLiving_avoids f hf _ _) fun ai _ => Avoids.bind ?_ fun a _ =>
    Avoids.bind (alienBaseSprite_avoids f hf _) fun _ _ => Avoids.ok f _
  split
  · exact Avoids.ok f _
  · exact Avoids.oob hf

theorem rightBound_avoids (f : Fault) (hf : Internal f) (aliens : List Alien) (pos : Nat) :
    Avoids f (rightBound aliens pos) := by
  unfold rightBound
  refine Avoids.bind (lastLiving_avoids f hf _ _) fun ai _ => Avoids.bind ?_ fun a _ =>
    Avoids.ok f _
  split
  · exact Avoids.ok f _
  · exact Avoids.oob hf

theorem drawAliens_noAssert (s : State) (ais : List Nat) : NoAssert (drawAliens s ais) :=
  drawAliens_avoids _ internal_assert s ais

theorem processFire_noAssert (s : State) : NoAssert (processFire s) :=
  processFire_avoids _ internal_assert s

theorem leftBound_noAssert (aliens : List Alien) : NoAssert (leftBound aliens) :=
  leftBound_avoids _ internal_assert aliens

theorem rightBound_noAssert (aliens : List Alien) (pos : Nat) :
    NoAssert (rightBound aliens pos) :=
  rightBound_avoids _ internal_assert aliens pos

/-! ## Bounds tracking -/

theorem firstLiving_spec (aliens : List Alien) (k ai : Nat)
    (h : firstLiving aliens k = Except.ok ai) :
    ∃ j a, ai = k + j ∧ aliens[j]? = some a ∧ a.type ≠ ALIEN_DEAD ∧
      ∀ (j' : Nat) (a' : Alien), j' < j → aliens[j']? = some a' → a'.type = ALIEN_DEAD := by
  induction aliens generalizing k with
  | nil =>
    rw [firstLiving] at h
    cases h
  | cons a rest ih =>
    rw [firstLiving] at h
    split at h
    · rename_i hd
      obtain ⟨j, b, e, hb, hl, hfirst⟩ := ih _ h
      refine ⟨j + 1, b, by omega, by simpa using hb, hl, ?_⟩
      intro j' a' hj' ha'
      cases j' with
      | zero =>
        simp at ha'
        rw [← ha']
        exact hd
      | succ j' =>
        simp at ha'
        exact hfirst j' a' (by omega) ha'
    · rename_i hd
      have e := (Except.ok.inj h).symm
      exact ⟨0, a, by omega, by simp, hd, fun j' _ hj' _ => absurd hj' (Nat.not_lt_zero j')⟩

theorem lastLiving_spec (aliens : List Alien) (n aj : Nat)
    (h : lastLiving aliens n = Except.ok aj) :
    aj ≤ n ∧ ∃ a, aliens[aj]? = some a ∧ a.type ≠ ALIEN_DEAD := by
  induction n with
  | zero =>
    rw [lastLiving] at h
    split at h
    · cases h
    · rename_i a ha
      split at h
      · cases h
      · rename_i hl
        have e := (Except.ok.inj h).symm
        rw [e]
        exact ⟨Nat.le_refl 0, a, ha, hl⟩
  | succ n ih =>
    rw [lastLiving] at h
    split at h
    · cases h
    · rename_i a ha
      split at h
      · obtain ⟨h1, h2⟩ := ih h
        exact ⟨by omega, h2⟩
      · rename_i hl
        have e := (Except.ok.inj h).symm
        rw [e]
        exact ⟨Nat.le_refl _, a, ha, hl⟩

theorem typeWidth_cases (t : Nat) (h : t = 1 ∨ t = 2 ∨ t = 3) :
    typeWidth t = 8 ∨ typeWidth t = 11 ∨ typeWidth t = 12 := by
  rcases h with h | h | h <;> subst h <;> decide

/-- On a grid of aliens the right-hand bound computed by bounds tracking is at
most 211. -/
theorem bounds_le (aliens : List Alien) (pos pos2 : Nat) (hg : AlienGrid aliens)
    (h1 : leftBound aliens = Except.ok pos) (h2 : rightBound aliens pos = Except.ok pos2) :
    pos2 ≤ 211 := by
  obtain ⟨off, hoff⟩ := hg
  unfold leftBound at h1
  rw [bind_eq_ok] at h1
  obtain ⟨ai, hfirst, h1⟩ := h1
  rw [bind_eq_ok] at h1
  obtain ⟨a, ha, h1⟩ := h1
  rw [bind_eq_ok] at h1
  obtain ⟨sp, hsp, h1⟩ := h1
  have hpos := (Except.ok.inj h1).symm
  obtain ⟨j, a0, hj, ha0, hl0, hdead⟩ := firstLiving_spec _ _ _ hfirst
  have hai : ai = j := by omega
  subst hai
  have haa : aliens[ai]? = some a := by
    split at ha
    · rename_i b hb
      rw [hb]
      exact congrArg some (Except.ok.inj ha)
    · cases ha
  rw [haa] at ha0
  have e0 := Option.some.inj ha0
  subst e0
  obtain ⟨hta, hxa⟩ := hoff ai a haa hl0
  obtain ⟨sp', hsp', hw⟩ := alienBaseSprite_of_type a.type hta
  rw [hsp] at hsp'
  have esp := Except.ok.inj hsp'
  subst esp
  unfold rightBound at h2
  rw [bind_eq_ok] at h2
  obtain ⟨aj, hlast, h2⟩ := h2
  rw [bind_eq_ok] at h2
  obtain ⟨b, hb, h2⟩ := h2
  have hpos2 := (Except.ok.inj h2).symm
  obtain ⟨hle, b0, hb0, hlb⟩ := lastLiving_spec _ _ _ hlast
  have hbb : aliens[aj]? = some b := by
    split at hb
    · rename_i c hc
      rw [hc]
      exact congrArg some (Except.ok.inj hb)
    · cases hb
  rw [hbb] at hb0
  have e1 := Option.some.inj hb0
  subst e1
  obtain ⟨htb, hxb⟩ := hoff aj b hbb hlb
  have hij : ai ≤ aj := by
    by_contra hlt
    exact hlb (hdead aj b (by omega) hbb)
  have h54 : sub64 num_aliens 1 = 54 := by decide
  rw [h54] at hle
  have hwa := typeWidth_cases a.type hta
  have hwb := typeWidth_cases b.type htb
  have hd13 : alien_death_sprite.width = 13 := rfl
  have hgw : game_width = 224 := rfl
  rw [hw, hd13] at hpos
  rw [hgw] at hpos2
  have hc1 : ai / 5 ≤ aj / 5 := Nat.div_le_div_right hij
  have hc2 : aj / 5 ≤ 10 := by omega
  generalize ai / 5 = cF at hxa hc1
  generalize aj / 5 = cL at hxb hc1 hc2
  generalize typeWidth a.type = wa at hxa hpos hwa
  generalize typeWidth b.type = wb at hxb hwb
  generalize a.x = xa at hxa hpos
  generalize b.x = xb at hxb hpos2
  unfold add64 sub64 at hpos2
  unfold sub64 at hpos
  rcases hwa with hwa | hwa | hwa <;> rcases hwb with hwb | hwb | hwb <;> subst hwa <;>
    subst hwb <;> omega

theorem updateHighScore_core (s : State) :
    (updateHighScore s).game = s.game ∧
    (updateHighScore s).alien_swarm_max_position = s.alien_swarm_max_position ∧
    (updateHighScore s).alien_swarm_position = s.alien_swarm_position ∧
    (updateHighScore s).alien_update_frequency = s.alien_update_frequency ∧
    (updateHighScore s).level = s.level ∧
    (updateHighScore s).aliens_killed = s.aliens_killed ∧
    (updateHighScore s).should_change_speed = s.should_change_speed ∧
    (updateHighScore s).reset = s.reset ∧
    (updateHighScore s).score = s.score := by
  unfold updateHighScore
  split <;> exact ⟨rfl, rfl, rfl, rfl, rfl, rfl, rfl, rfl, rfl⟩

theorem trackBounds_inv (s : State) (hinv : BoundsInv s) :
    NoAssert (trackBounds s) ∧ ∀ s', trackBounds s = Except.ok s' → BoundsInv s' := by
  obtain ⟨hlen, hmax, hgrid⟩ := hinv
  have hcore := updateHighScore_core s
  have key : ∀ pos pos2, leftBound s.game.aliens = Except.ok pos →
      rightBound s.game.aliens pos = Except.ok pos2 →
      (if pos2 > (updateHighScore s).alien_swarm_max_position then pos2
        else (updateHighScore s).alien_swarm_max_position) ≤ 211 := by
    intro pos pos2 h1 h2
    have hb := bounds_le _ _ _ hgrid h1 h2
    rw [hcore.2.1]
    split <;> omega
  constructor
  · unfold trackBounds
    cases h1 : leftBound s.game.aliens with
    | error e => exact NoAssert.pass_error (leftBound_noAssert _) h1
    | ok pos =>
      rw [bind_ok_eq]
      cases h2 : rightBound s.game.aliens pos with
      | error e => exact NoAssert.pass_error (rightBound_noAssert _ _) h2
      | ok pos2 =>
        rw [bind_ok_eq]
        unfold raiseBounds
        have hk := key pos pos2 h1 h2
        have hgw : game_width = 224 := rfl
        rw [if_pos (by omega)]
        exact NoAssert.ok_result _
  · intro s' h
    unfold trackBounds at h
    rw [bind_eq_ok] at h
    obtain ⟨pos, h1, h⟩ := h
    rw [bind_eq_ok] at h
    obtain ⟨pos2, h2, h⟩ := h
    have hk := key pos pos2 h1 h2
    unfold raiseBounds at h
    have hgw : game_width = 224 := rfl
    rw [if_pos (by omega)] at h
    have e := (Except.ok.inj h).symm
    rw [e]
    refine ⟨?_, hk, ?_⟩
    · show (updateHighScore s).game.aliens.length = num_aliens
      rw [hcore.1]
      exact hlen
    · show AlienGrid (updateHighScore s).game.aliens
      rw [hcore.1]
      exact hgrid

theorem nextWave_inv (s s' : State) (h : nextWave s = Except.ok s') : BoundsInv s' := by
  unfold nextWave at h
  rw [layoutAliens_start, bind_ok_eq] at h
  have e := (Except.ok.inj h).symm
  rw [e]
  refine ⟨gridAliens_length 24, ?_, gridAliens_grid⟩
  show sub64 (sub64 game_width (mul64 16 11)) 3 ≤ 211
  decide

theorem nextWave_noAssert (s : State) : NoAssert (nextWave s) := by
  unfold nextWave
  rw [layoutAliens_start, bind_ok_eq]
  exact NoAssert.ok_result _

theorem progression_inv (s : State) (hinv : BoundsInv s) :
    NoAssert (progression s) ∧ ∀ s', progression s = Except.ok s' → BoundsInv s' := by
  unfold progression
  split
  · exact trackBounds_inv s hinv
  · exact ⟨nextWave_noAssert s, fun s' h => nextWave_inv s s' h⟩

/-! ## The invariant along a tick -/

theorem BoundsInv.of_eq_bounds {s s' : State} (h : BoundsInv s)
    (ha : s'.game.aliens = s.game.aliens)
    (hm : s'.alien_swarm_max_position = s.alien_swarm_max_position) : BoundsInv s' := by
  unfold BoundsInv at *
  rw [ha, hm]
  exact h

theorem BulletRel.max_position {s s' : State} (h : BulletRel s s') :
    s'.alien_swarm_max_position = s.alien_swarm_max_position := by
  obtain ⟨g, c, k, f, e⟩ := h.frame
  rw [e]

theorem BulletRel.inv_bullets {s s' : State} (h : BulletRel s s') (hinv : BoundsInv s) :
    BoundsInv s' := by
  obtain ⟨hlen, hmax, off, hoff⟩ := hinv
  refine ⟨h.len.trans hlen, by rw [h.max_position]; exact hmax, off, ?_⟩
  intro i a ha hl
  exact hoff i a (h.kept i a ha hl) hl

theorem AdvanceRel.inv_adv {s s' : State} (h : AdvanceRel s s') (hinv : BoundsInv s) :
    BoundsInv s' :=
  ⟨h.len.trans hinv.1, by rw [h.max_position]; exact hinv.2.1, h.grid hinv.2.2⟩

theorem changeSpeed_core (s : State) :
    (changeSpeed s).game = s.game ∧
    (changeSpeed s).alien_swarm_max_position = s.alien_swarm_max_position ∧
    (changeSpeed s).level = s.level ∧
    (changeSpeed s).aliens_killed = s.aliens_killed ∧
    (changeSpeed s).reset = s.reset ∧
    (changeSpeed s).score = s.score ∧
    (changeSpeed s).high_score = s.high_score ∧
    (changeSpeed s).should_change_speed = false ∧
    (changeSpeed s).alien_update_frequency
      = if s.should_change_speed = true then s.alien_update_frequency / 2
        else s.alien_update_frequency := by
  unfold changeSpeed
  by_cases hf : s.should_change_speed = true
  · rw [if_pos hf, if_pos hf]
    exact ⟨rfl, rfl, rfl, rfl, rfl, rfl, rfl, rfl, rfl⟩
  · rw [if_neg hf, if_neg hf]
    exact ⟨rfl, rfl, rfl, rfl, rfl, rfl, rfl, by simpa using hf, rfl⟩

theorem playTick_inv (fuel : Nat) (s : State) (hinv : BoundsInv s) :
    NoAssert (playTick fuel s) ∧ ∀ s', playTick fuel s = Except.ok s' → BoundsInv s' := by
  have mid1 : ∀ s1, simulateBullets (GAME_MAX_BULLETS + 1) 0 s = Except.ok s1 →
      BoundsInv (updateDeathCounters (changeSpeed s1)) := by
    intro s1 h1
    have i1 := (simulateBullets_rel _ _ _ _ h1).inv_bullets hinv
    have hc := changeSpeed_core s1
    have i2 : BoundsInv (changeSpeed s1) := i1.of_eq_bounds (by rw [hc.1]) hc.2.1
    exact i2.of_eq_bounds (updateDeathCounters_core _).aliens (updateDeathCounters_core _).max_position
  have mid2 : ∀ s1 s2, BoundsInv s1 → advance fuel s1 = Except.ok s2 →
      BoundsInv (simulatePlayer (updateAnimations s2)) := by
    intro s1 s2 i1 h2
    have i2 := (advance_rel _ _ _ h2).inv_adv i1
    have c := (updateAnimations_core s2).trans_core (simulatePlayer_core (updateAnimations s2))
    exact i2.of_eq_bounds c.aliens c.max_position
  constructor
  · unfold playTick
    refine NoAssert.bind_result (drawAliens_noAssert _ _) fun _ =>
      NoAssert.bind_result (drawBullets_noAssert _ _ _) fun _ => ?_
    cases h1 : simulateBullets (GAME_MAX_BULLETS + 1) 0 s with
    | error e => exact NoAssert.pass_error (simulateBullets_noAssert _ _ _) h1
    | ok s1 =>
      rw [bind_ok_eq]
      cases h2 : advance fuel (updateDeathCounters (changeSpeed s1)) with
      | error e => exact NoAssert.pass_error (advance_noAssert _ _) h2
      | ok s2 =>
        rw [bind_ok_eq]
        have i3 := mid2 _ s2 (mid1 s1 h1) h2
        exact NoAssert.bind_result (progression_inv _ i3).1 fun _ => processFire_noAssert _
  · intro s' h
    unfold playTick at h
    rw [bind_eq_ok] at h
    obtain ⟨_, _, h⟩ := h
    rw [bind_eq_ok] at h
    obtain ⟨_, _, h⟩ := h
    rw [bind_eq_ok] at h
    obtain ⟨s1, h1, h⟩ := h
    rw [bind_eq_ok] at h
    obtain ⟨s2, h2, h⟩ := h
    rw [bind_eq_ok] at h
    obtain ⟨s3, h3, h⟩ := h
    have i3 := mid2 _ s2 (mid1 s1 h1) h2
    have i4 := (progression_inv _ i3).2 s3 h3
    have c := processFire_core s3 s' h
    exact i4.of_eq_bounds c.aliens c.max_position

theorem forceGameOver_inv (s : State) (h : BoundsInv s) : BoundsInv (forceGameOver s) := by
  unfold forceGameOver
  split
  · exact h.of_eq_bounds rfl rfl
  · exact h

theorem gameOverTick_inv (s : State) (evs : List KeyEvent) (h : BoundsInv s) :
    BoundsInv (gameOverTick s evs) := by
  have hp := glfwPollEvents_core { s with game_over := false } evs
  have i1 : BoundsInv (glfwPollEvents { s with game_over := false } evs) :=
    h.of_eq_bounds (by rw [hp.1]) hp.2.2.1
  unfold gameOverTick
  split
  · exact i1.of_eq_bounds rfl rfl
  · exact i1

theorem tick_inv (fuel : Nat) (s : State) (evs : List KeyEvent) (hinv : BoundsInv s) :
    NoAssert (tick fuel s evs) ∧ ∀ s', tick fuel s evs = Except.ok s' → BoundsInv s' := by
  have i0 := forceGameOver_inv s hinv
  unfold tick
  split
  · refine ⟨NoAssert.ok_result _, fun s' h => ?_⟩
    have e := (Except.ok.inj h).symm
    rw [e]
    exact gameOverTick_inv _ evs i0
  · have hp := playTick_inv fuel _ i0
    refine ⟨NoAssert.bind_result hp.1 fun _ => NoAssert.ok_result _, fun s' h => ?_⟩
    rw [bind_eq_ok] at h
    obtain ⟨s1, h1, h⟩ := h
    have e := (Except.ok.inj h).symm
    rw [e]
    have hc := glfwPollEvents_core s1 evs
    exact (hp.2 s1 h1).of_eq_bounds (by rw [hc.1]) hc.2.2.1

theorem startState_inv (hs : Nat) (bullets : List Bullet) : BoundsInv (startState hs bullets) :=
  ⟨gridAliens_length 24, (by decide : (45 : Nat) ≤ 211), gridAliens_grid⟩

theorem Reachable.inv_reach {s : State} (h : Reachable s) : BoundsInv s := by
  induction h with
  | start hs bullets s _ _ h0 =>
    rw [initialState_eq] at h0
    have e := (Except.ok.inj h0).symm
    rw [e]
    exact startState_inv hs bullets
  | step fuel s s' evs _ ht ih => exact (tick_inv fuel s evs ih).2 s' ht

/-- C5. In every state reachable from the start-up state by ticks with any inputs,
the tracked maximum swarm bound is at most the playfield width 224 (it is at most
211), and no tick from such a state ends in the failed `ASSERT` of bounds
tracking. -/
theorem swarm_max_within_width (s : State) (h : Reachable s) :
    s.alien_swarm_max_position ≤ game_width ∧
    s.alien_swarm_max_position ≤ 211 ∧
    ∀ (fuel : Nat) (evs : List KeyEvent),
      tick fuel s evs ≠ Except.error Fault.assertFailed := by
  have hinv := h.inv_reach
  have hgw : game_width = 224 := rfl
  have hm := hinv.2.1
  exact ⟨by omega, hm, fun fuel evs => (tick_inv fuel s evs hinv).1⟩

theorem swarm_max_within_width_witness :
    (startState 0 (List.replicate 128 { x := 0, y := 0, dir := 0 })).alien_swarm_max_position
        ≤ game_width ∧
    (startState 0 (List.replicate 128 { x := 0, y := 0, dir := 0 })).alien_swarm_max_position
        ≤ 211 ∧
    ∀ (fuel : Nat) (evs : List KeyEvent),
      tick fuel (startState 0 (List.replicate 128 { x := 0, y := 0, dir := 0 })) evs
        ≠ Except.error Fault.assertFailed :=
  swarm_max_within_width _
    (Reachable.start 0 (List.replicate 128 { x := 0, y := 0, dir := 0 }) _ (by decide)
      (List.length_replicate 128 _) (initialState_eq 0 _))

/-! ## The cadence during the first wave -/

theorem BulletRel.core {s s' : State} (h : BulletRel s s') :
    s'.alien_update_frequency = s.alien_update_frequency ∧ s'.level = s.level ∧
    s'.reset = s.reset ∧ s'.high_score = s.high_score := by
  obtain ⟨g, c, k, f, e⟩ := h.frame
  rw [e]
  exact ⟨rfl, rfl, rfl, rfl⟩

theorem trackBounds_core (s s' : State) (h : trackBounds s = Except.ok s') :
    s'.game = s.game ∧ s'.alien_update_frequency = s.alien_update_frequency ∧
    s'.level = s.level ∧ s'.aliens_killed = s.aliens_killed ∧
    s'.should_change_speed = s.should_change_speed ∧ s'.reset = s.reset ∧
    s'.score = s.score ∧ s'.high_score = (updateHighScore s).high_score := by
  unfold trackBounds at h
  rw [bind_eq_ok] at h
  obtain ⟨pos, _, h⟩ := h
  rw [bind_eq_ok] at h
  obtain ⟨pos2, _, h⟩ := h
  unfold raiseBounds at h
  have hc := updateHighScore_core s
  by_cases hle : (if pos2 > (updateHighScore s).alien_swarm_max_position then pos2
      else (updateHighScore s).alien_swarm_max_position) ≤ game_width
  · rw [if_pos hle] at h
    have e := (Except.ok.inj h).symm
    rw [e]
    exact ⟨hc.1, hc.2.2.2.1, hc.2.2.2.2.1, hc.2.2.2.2.2.1, hc.2.2.2.2.2.2.1,
      hc.2.2.2.2.2.2.2.1, hc.2.2.2.2.2.2.2.2, rfl⟩
  · rw [if_neg hle] at h
    cases h

theorem nextWave_level (s s' : State) (hr : s.reset = false) (h : nextWave s = Except.ok s') :
    s'.level = add64 s.level 1 := by
  rw [nextWave_no_reset s hr] at h
  have e := (Except.ok.inj h).symm
  rw [e]

theorem forceGameOver_core (s : State) :
    (forceGameOver s).game.aliens = s.game.aliens ∧
    (forceGameOver s).alien_update_frequency = s.alien_update_frequency ∧
    (forceGameOver s).level = s.level ∧
    (forceGameOver s).aliens_killed = s.aliens_killed ∧
    (forceGameOver s).should_change_speed = s.should_change_speed ∧
    (forceGameOver s).reset = s.reset ∧
    (forceGameOver s).score = s.score ∧
    (forceGameOver s).high_score = s.high_score := by
  unfold forceGameOver
  split <;> exact ⟨rfl, rfl, rfl, rfl, rfl, rfl, rfl, rfl⟩

theorem FirstWaveInv.of_eq_wave {s s' : State} (h : FirstWaveInv s)
    (h1 : s'.reset = s.reset) (h2 : s'.level = s.level)
    (h3 : s'.should_change_speed = s.should_change_speed)
    (h4 : s'.aliens_killed = s.aliens_killed)
    (h5 : livingCount s'.game.aliens = livingCount s.game.aliens)
    (h6 : s'.alien_update_frequency = s.alien_update_frequency) : FirstWaveInv s' := by
  unfold FirstWaveInv at *
  rw [h1, h2, h3, h4, h5, h6]
  exact h

/-- The bullet phase followed by the speed-change block keeps the first-wave
invariant: the cadence is halved exactly when the kill counter passes 15. -/
theorem bullets_changeSpeed_inv (s s1 : State) (hinv : FirstWaveInv s)
    (h : simulateBullets (GAME_MAX_BULLETS + 1) 0 s = Except.ok s1) :
    FirstWaveInv (changeSpeed s1) := by
  obtain ⟨hr, hl, hf, hk, h120, h60⟩ := hinv
  have rel := simulateBullets_rel _ _ _ _ h
  obtain ⟨k1, k2, k3⟩ := rel.kills (by omega)
  obtain ⟨c1, c2, c3, _⟩ := rel.core
  have hc := changeSpeed_core s1
  refine ⟨by rw [hc.2.2.2.2.1, c3, hr], by rw [hc.2.2.1, c2, hl], hc.2.2.2.2.2.2.2.1, ?_, ?_, ?_⟩
  · rw [hc.2.2.2.1, hc.1]
    omega
  · rw [hc.2.2.2.1, hc.2.2.2.2.2.2.2.2]
    intro hlt
    have hnf : ¬ s1.should_change_speed = true := by
      rw [k3]
      rintro (h0 | ⟨m, m1, m2, m3⟩)
      · rw [hf] at h0
        cases h0
      · omega
    rw [if_neg hnf, c1]
    exact h120 (by omega)
  · rw [hc.2.2.2.1, hc.2.2.2.2.2.2.2.2]
    intro hge hlt
    by_cases hk15 : s.aliens_killed < 15
    · have hyes : s1.should_change_speed = true := by
        rw [k3]
        exact Or.inr ⟨15, hk15, hge, rfl⟩
      rw [if_pos hyes, c1, h120 hk15]
    · have hnf : ¬ s1.should_change_speed = true := by
        rw [k3]
        rintro (h0 | ⟨m, m1, m2, m3⟩)
        · rw [hf] at h0
          cases h0
        · omega
      rw [if_neg hnf, c1]
      exact h60 (by omega) (by omega)

theorem playTick_firstWave (fuel : Nat) (s s' : State) (hinv : FirstWaveInv s)
    (h : playTick fuel s = Except.ok s') (hlevel : s'.level = 1) : FirstWaveInv s' := by
  unfold playTick at h
  rw [bind_eq_ok] at h
  obtain ⟨_, _, h⟩ := h
  rw [bind_eq_ok] at h
  obtain ⟨_, _, h⟩ := h
  rw [bind_eq_ok] at h
  obtain ⟨s1, h1, h⟩ := h
  rw [bind_eq_ok] at h
  obtain ⟨s2, h2, h⟩ := h
  rw [bind_eq_ok] at h
  obtain ⟨s3, h3, h⟩ := h
  have i1 := bullets_changeSpeed_inv s s1 hinv h1
  have d := updateDeathCounters_core (changeSpeed s1)
  have i2 : FirstWaveInv (updateDeathCounters (changeSpeed s1)) :=
    i1.of_eq_wave d.reset d.level d.flag d.killed (by rw [d.aliens]) d.frequency
  have a := advance_rel _ _ _ h2
  have i3 : FirstWaveInv s2 := i2.of_eq_wave a.reset a.level a.flag a.killed a.living a.frequency
  have c := (updateAnimations_core s2).trans_core (simulatePlayer_core (updateAnimations s2))
  have i4 : FirstWaveInv (simulatePlayer (updateAnimations s2)) :=
    i3.of_eq_wave c.reset c.level c.flag c.killed (by rw [c.aliens]) c.frequency
  have f := processFire_core s3 s' h
  have i5 : FirstWaveInv s3 := by
    unfold progression at h3
    split at h3
    · have t := trackBounds_core _ _ h3
      exact i4.of_eq_wave t.2.2.2.2.2.1 t.2.2.1 t.2.2.2.2.1 t.2.2.2.1 (by rw [t.1]) t.2.1
    · have hl3 := nextWave_level _ _ i4.1 h3
      rw [i4.2.1, ← f.level, hlevel] at hl3
      exact absurd hl3 (by decide)
  exact i5.of_eq_wave f.reset f.level f.flag f.killed (by rw [f.aliens]) f.frequency

theorem tick_firstWave (fuel : Nat) (s s' : State) (evs : List KeyEvent)
    (hinv : FirstWaveInv s) (hev : NoResetKey evs)
    (h : tick fuel s evs = Except.ok s') (hlevel : s'.level = 1) : FirstWaveInv s' := by
  have g := forceGameOver_core s
  have i0 : FirstWaveInv (forceGameOver s) :=
    hinv.of_eq_wave g.2.2.2.2.2.1 g.2.2.1 g.2.2.2.2.1 g.2.2.2.1 (by rw [g.1]) g.2.1
  unfold tick at h
  split at h
  · have e := (Except.ok.inj h).symm
    have hp := glfwPollEvents_core { forceGameOver s with game_over := false } evs
    have hrs := glfwPollEvents_reset { forceGameOver s with game_over := false } evs hev
    have i1 : FirstWaveInv (glfwPollEvents { forceGameOver s with game_over := false } evs) :=
      i0.of_eq_wave hrs hp.2.2.2.2.2.1 hp.2.2.2.2.2.2.2.1 hp.2.2.2.2.2.2.1 (by rw [hp.1])
        hp.2.2.2.2.1
    rw [e]
    unfold gameOverTick
    rw [if_neg (by rw [i1.1]; decide)]
    exact i1
  · rw [bind_eq_ok] at h
    obtain ⟨s1, h1, h⟩ := h
    have e := (Except.ok.inj h).symm
    have hp := glfwPollEvents_core s1 evs
    have hrs := glfwPollEvents_reset s1 evs hev
    have hl1 : s1.level = 1 := by
      rw [e, hp.2.2.2.2.2.1] at hlevel
      exact hlevel
    have i1 := playTick_firstWave fuel _ s1 i0 h1 hl1
    rw [e]
    exact i1.of_eq_wave hrs hp.2.2.2.2.2.1 hp.2.2.2.2.2.2.2.1 hp.2.2.2.2.2.2.1 (by rw [hp.1])
      hp.2.2.2.2.1

theorem livingCount_gridAliens : livingCount (gridAliens 24) = 55 := by
  decide

theorem FirstWave.inv_wave {s : State} (h : FirstWave s) : FirstWaveInv s := by
  induction h with
  | start hs bullets s _ _ h0 =>
    rw [initialState_eq] at h0
    have e := (Except.ok.inj h0).symm
    rw [e]
    exact ⟨rfl, rfl, rfl, livingCount_gridAliens, fun _ => rfl, fun hge => absurd hge (Nat.not_succ_le_zero 14)⟩
  | step fuel s s' evs _ hev ht hl ih => exact tick_firstWave fuel s s' evs ih hev ht hl

set_option maxRecDepth 100000 in
/-- C8, counterexample. From the start-up state, a release of the reset key during
the first tick makes the second tick take the reset branch: with no alien killed
the cadence is 110 after the second tick and 55 after the third, not 120. -/
theorem reset_changes_cadence :
    ((tick 0 (startState 0 (List.replicate 128 { x := 0, y := 0, dir := 0 }))
        [{ key := Key.r, action := Action.release }]) >>= fun s1 =>
      tick 0 s1 []).toOption.map (fun s => (s.aliens_killed, s.alien_update_frequency))
        = some (0, 110) ∧
    ((tick 0 (startState 0 (List.replicate 128 { x := 0, y := 0, dir := 0 }))
        [{ key := Key.r, action := Action.release }]) >>= fun s1 =>
      tick 0 s1 [] >>= fun s2 =>
      tick 0 s2 []).toOption.map (fun s => (s.aliens_killed, s.alien_update_frequency))
        = some (0, 55) := by
  decide

/-- C8, amended. Along every sequence of ticks of the first wave (from the
start-up state, no release of the reset key among the events, level still 1) the
cadence is 120 while the kill counter is below 15 and 60 while it is from 15 to
29, and the speed-up flag is clear between ticks. Inside a tick: when the bullet
phase takes the counter from below 15 to 15..29 it raises the flag with the cadence
still 120, and the speed-change block that follows it (before the advance test)
halves the cadence once, to 60, and clears the flag. -/
theorem first_wave_cadence (s : State) (h : FirstWave s) :
    (s.aliens_killed < 15 → s.alien_update_frequency = 120) ∧
    (15 ≤ s.aliens_killed → s.aliens_killed < 30 → s.alien_update_frequency = 60) ∧
    s.should_change_speed = false ∧
    ∀ s1, simulateBullets (GAME_MAX_BULLETS + 1) 0 (forceGameOver s) = Except.ok s1 →
      (s.aliens_killed < 15 → 15 ≤ s1.aliens_killed →
        s1.should_change_speed = true ∧ s1.alien_update_frequency = 120) ∧
      (s1.aliens_killed < 15 → (changeSpeed s1).alien_update_frequency = 120) ∧
      (15 ≤ s1.aliens_killed → s1.aliens_killed < 30 →
        (changeSpeed s1).alien_update_frequency = 60) ∧
      (changeSpeed s1).should_change_speed = false ∧
      (changeSpeed s1).aliens_killed = s1.aliens_killed := by
  have hinv := h.inv_wave
  refine ⟨hinv.2.2.2.2.1, hinv.2.2.2.2.2, hinv.2.2.1, ?_⟩
  intro s1 h1
  have g := forceGameOver_core s
  have i0 : FirstWaveInv (forceGameOver s) :=
    hinv.of_eq_wave g.2.2.2.2.2.1 g.2.2.1 g.2.2.2.2.1 g.2.2.2.1 (by rw [g.1]) g.2.1
  have i1 := bullets_changeSpeed_inv _ s1 i0 h1
  have hc := changeSpeed_core s1
  have rel := simulateBullets_rel _ _ _ _ h1
  obtain ⟨_, _, k3⟩ := rel.kills (by
    have := i0.2.2.2.1
    omega)
  refine ⟨?_, ?_, ?_, i1.2.2.1, hc.2.2.2.1⟩
  · intro hlt hge
    constructor
    · rw [k3]
      exact Or.inr ⟨15, by rw [g.2.2.2.1]; exact hlt, hge, rfl⟩
    · rw [rel.core.1, g.2.1]
      exact hinv.2.2.2.2.1 hlt
  · intro hlt
    exact i1.2.2.2.2.1 (by rw [hc.2.2.2.1]; exact hlt)
  · intro hge hlt
    exact i1.2.2.2.2.2 (by rw [hc.2.2.2.1]; exact hge) (by rw [hc.2.2.2.1]; exact hlt)

theorem first_wave_cadence_witness :
    (startState 0 (List.replicate 128 { x := 0, y := 0, dir := 0 })).alien_update_frequency
      = 120 ∧
    (startState 0 (List.replicate 128 { x := 0, y := 0, dir := 0 })).should_change_speed
      = false :=
  ⟨(first_wave_cadence _
      (FirstWave.start 0 (List.replicate 128 { x := 0, y := 0, dir := 0 }) _ (by decide)
        (List.length_replicate 128 _) (initialState_eq 0 _))).1 (by decide),
    (first_wave_cadence _
      (FirstWave.start 0 (List.replicate 128 { x := 0, y := 0, dir := 0 }) _ (by decide)
        (List.length_replicate 128 _) (initialState_eq 0 _))).2.2.1⟩

/-! ## The high score -/

set_option maxRecDepth 100000 in
/-- The narrowing of `high_score.hs = score` beyond the 32-bit range, at a score far
above those of play: with score and high score both 4294967290 and a shot about
to kill a type-3 alien, one tick takes the score to 4294967300 and stores it in the
32-bit high score as 4. -/
theorem high_score_drops :
    (shotState 4294967290 4294967290).game.player.life = 3 ∧
    (shotState 4294967290 4294967290).high_score = 4294967290 ∧
    (tick 0 (shotState 4294967290 4294967290) []).toOption.map
        (fun s => (s.score, s.high_score)) = some (4294967300, 4) := by
  decide

set_option maxRecDepth 100000 in
/-- C10, failing input. Entering a tick with 3 lives, no reset pending, score and
high score 100 and a shot about to kill the wave's last alien, the tick ends with
score 110 and high score still 100: the branch taken at 55 kills does not update
the high score. If the reset key is released during that tick, the next tick zeroes
the score and the 10 points never reach the high score. -/
theorem high_score_lags_at_wave_clear :
    (lastAlienState 1 100 100).game.player.life = 3 ∧
    (lastAlienState 1 100 100).reset = false ∧
    (tick 0 (lastAlienState 1 100 100) []).toOption.map
        (fun s => (s.score, s.high_score, s.level, s.reset)) = some (110, 100, 2, false) ∧
    ((tick 0 (lastAlienState 1 100 100) [{ key := Key.r, action := Action.release }])
        >>= fun s1 => tick 0 s1 []).toOption.map
        (fun s => (s.score, s.high_score)) = some (0, 100) := by
  decide

/-! ## The iteration budgets of the bullet loops are never exhausted -/

theorem bulletVsBullet_fuel (fuel bj bi : Nat) (g : Game)
    (hfuel : GAME_MAX_BULLETS + 1 ≤ fuel + bj) (hbj : bj ≤ g.bullets.length)
    (hbi : bi < g.bullets.length) (hlen : g.bullets.length ≤ GAME_MAX_BULLETS) :
    Avoids Fault.outOfFuel (bulletVsBullet fuel bj bi g) := by
  have hmax : GAME_MAX_BULLETS = 128 := rfl
  induction fuel generalizing bj with
  | zero => omega
  | succ fuel ih =>
    rw [bulletVsBullet]
    split
    · split
      · exact ih (bj + 1) (by omega) (by omega)
      · refine Avoids.bind (readBullet_avoids _ internal_fuel _ _) fun a _ =>
          Avoids.bind (readBullet_avoids _ internal_fuel _ _) fun b hb => ?_
        have hlt := lt_length_of_getElem? _ _ _ ((readBullet_eq_ok g bj b).mp hb)
        split
        · exact pairRemove_avoids _ internal_fuel _ _ _
        · exact ih (bj + 1) (by omega) (by omega)
    · exact Avoids.ok _ _

theorem simulateBullet_fuel (s : State) (bi : Nat)
    (hlen : s.game.bullets.length ≤ GAME_MAX_BULLETS) :
    Avoids Fault.outOfFuel (simulateBullet s bi) := by
  unfold simulateBullet
  refine Avoids.bind (readBullet_avoids _ internal_fuel _ _) fun b hb =>
    Avoids.bind (writeBullet_avoids _ internal_fuel _ _ _) fun g1 hw => ?_
  have hlt := lt_length_of_getElem? _ _ _ ((readBullet_eq_ok s.game bi b).mp hb)
  have hl1 := (writeBullet_only _ _ _ _ hw).2.2
  split
  · exact Avoids.bind (removeBullet_avoids _ internal_fuel _ _) fun _ _ => Avoids.ok _ _
  · split
    · split
      · exact Avoids.bind (removeBullet_avoids _ internal_fuel _ _) fun _ _ => Avoids.ok _ _
      · exact Avoids.ok _ _
    · refine Avoids.bind
        (bulletVsBullet_fuel _ 0 bi g1 (by omega) (by omega) (by omega) (by omega)) fun _ _ =>
          Avoids.bind (checkHit_avoids _ internal_fuel _ _ _) fun _ _ => Avoids.ok _ _

theorem simulateBullet_index (s s1 : State) (bi : Nat) (brk : Bool)
    (h : simulateBullet s bi = Except.ok (s1, brk)) : bi < s.game.bullets.length := by
  unfold simulateBullet at h
  rw [bind_eq_ok] at h
  obtain ⟨b, hb, _⟩ := h
  exact lt_length_of_getElem? _ _ _ ((readBullet_eq_ok s.game bi b).mp hb)

theorem simulateBullets_fuel (fuel bi : Nat) (s : State)
    (hfuel : GAME_MAX_BULLETS + 1 ≤ fuel + bi) (hbi : bi ≤ s.game.bullets.length)
    (hlen : s.game.bullets.length ≤ GAME_MAX_BULLETS) :
    Avoids Fault.outOfFuel (simulateBullets fuel bi s) := by
  have hmax : GAME_MAX_BULLETS = 128 := rfl
  induction fuel generalizing bi s with
  | zero => omega
  | succ fuel ih =>
    rw [simulateBullets]
    split
    · split
      · rename_i e heq
        exact Avoids.pass (simulateBullet_fuel s bi hlen) heq
      · exact Avoids.ok _ _
      · rename_i s2 heq
        have hi := simulateBullet_index _ _ _ _ heq
        have hl := (simulateBullet_rel _ _ _ _ heq).bullets_len
        exact ih (bi + 1) s2 (by omega) (by omega) (by omega)
    · exact Avoids.ok _ _

theorem drawBullets_fuel (s : State) (fuel bi : Nat)
    (hfuel : GAME_MAX_BULLETS + 1 ≤ fuel + bi) (hbi : bi ≤ s.game.bullets.length)
    (hlen : s.game.bullets.length ≤ GAME_MAX_BULLETS) :
    Avoids Fault.outOfFuel (drawBullets s fuel bi) := by
  have hmax : GAME_MAX_BULLETS = 128 := rfl
  induction fuel generalizing bi with
  | zero => omega
  | succ fuel ih =>
    rw [drawBullets]
    split
    · split
      · rename_i e heq
        exact Avoids.pass (drawBullet_avoids _ internal_fuel s bi) heq
      · rename_i u heq
        have hi : bi < s.game.bullets.length := by
          unfold drawBullet at heq
          split at heq
          · cases heq
          · rename_i b hb
            exact lt_length_of_getElem? _ _ _ ((readBullet_eq_ok s.game bi b).mp hb)
        exact ih (bi + 1) (by omega) (by omega)
    · exact Avoids.ok _ _

theorem nextWave_bullets (s s' : State) (h : nextWave s = Except.ok s') :
    s'.game.bullets.length = s.game.bullets.length := by
  unfold nextWave at h
  rw [layoutAliens_start, bind_ok_eq] at h
  have e := (Except.ok.inj h).symm
  rw [e]
  show (applyReset s).game.bullets.length = s.game.bullets.length
  unfold applyReset
  split <;> rfl

theorem progression_bullets (s s' : State) (h : progression s = Except.ok s') :
    s'.game.bullets.length = s.game.bullets.length := by
  unfold progression at h
  split at h
  · rw [(trackBounds_core _ _ h).1]
  · exact nextWave_bullets s s' h

theorem forceGameOver_bullets (s : State) :
    (forceGameOver s).game.bullets.length = s.game.bullets.length := by
  unfold forceGameOver
  split <;> rfl

theorem tick_bullets (fuel : Nat) (s s' : State) (evs : List KeyEvent)
    (h : tick fuel s evs = Except.ok s') :
    s'.game.bullets.length = s.game.bullets.length := by
  unfold tick at h
  split at h
  · have e := (Except.ok.inj h).symm
    have hp := (glfwPollEvents_core { forceGameOver s with game_over := false } evs).1
    rw [e]
    unfold gameOverTick
    split
    · show (glfwPollEvents { forceGameOver s with game_over := false } evs).game.bullets.length = _
      rw [hp]
      exact forceGameOver_bullets s
    · rw [hp]
      exact forceGameOver_bullets s
  · rw [bind_eq_ok] at h
    obtain ⟨s4, h4, h⟩ := h
    have e := (Except.ok.inj h).symm
    rw [e, (glfwPollEvents_core s4 evs).1]
    unfold playTick at h4
    rw [bind_eq_ok] at h4
    obtain ⟨_, _, h4⟩ := h4
    rw [bind_eq_ok] at h4
    obtain ⟨_, _, h4⟩ := h4
    rw [bind_eq_ok] at h4
    obtain ⟨s1, h1, h4⟩ := h4
    rw [bind_eq_ok] at h4
    obtain ⟨s2, h2, h4⟩ := h4
    rw [bind_eq_ok] at h4
    obtain ⟨s3, h3, h4⟩ := h4
    have e1 := (simulateBullets_rel _ _ _ _ h1).bullets_len
    have e2 : (updateDeathCounters (changeSpeed s1)).game.bullets.length
        = s1.game.bullets.length := by
      rw [(updateDeathCounters_core _).bullets_len, (changeSpeed_core s1).1]
    have e3 := (advance_rel _ _ _ h2).bullets_len
    have e4 := ((updateAnimations_core s2).trans_core
      (simulatePlayer_core (updateAnimations s2))).bullets_len
    have e5 := progression_bullets _ _ h3
    have e6 := (processFire_core _ _ h4).bullets_len
    rw [e6, e5, e4, e3, e2, e1]
    exact forceGameOver_bullets s

theorem reachable_bullets {s : State} (h : Reachable s) :
    s.game.bullets.length = GAME_MAX_BULLETS := by
  induction h with
  | start hs bullets s _ hb h0 =>
    rw [initialState_eq] at h0
    have e := (Except.ok.inj h0).symm
    rw [e]
    exact hb
  | step fuel s s' evs _ ht ih =>
    rw [tick_bullets fuel s s' evs ht]
    exact ih

/-- In a reachable state the bullet array has its 128 slots, and neither the
bullet drawing loop nor the bullet phase of the next tick is cut off by its
iteration budget: an `outOfFuel` result of a tick can only come from the alien
selection loop. -/
theorem reachable_budget (s : State) (h : Reachable s) :
    s.game.bullets.length = GAME_MAX_BULLETS ∧
    Avoids Fault.outOfFuel (drawBullets (forceGameOver s) (GAME_MAX_BULLETS + 1) 0) ∧
    Avoids Fault.outOfFuel (simulateBullets (GAME_MAX_BULLETS + 1) 0 (forceGameOver s)) := by
  have hl := reachable_bullets h
  have hf := forceGameOver_bullets s
  exact ⟨hl, drawBullets_fuel _ _ 0 (by omega) (by omega) (by omega),
    simulateBullets_fuel _ 0 _ (by omega) (by omega) (by omega)⟩

/-! ## The random source -/

theorem xor_shl_ne_zero (x k : Nat) (hk : 0 < k) (hx : x ≠ 0) (hlt : x < 4294967296) :
    x ^^^ ((x <<< k) % 4294967296) ≠ 0 := by
  intro h
  rw [Nat.xor_eq_zero, Nat.shiftLeft_eq] at h
  have hle : x ≤ x * 2 ^ k := Nat.le_mul_of_pos_right x (Nat.two_pow_pos k)
  have hmod : x * 2 ^ k % 4294967296 = x % 4294967296 := by
    rw [← h, Nat.mod_eq_of_lt hlt]
  have hdvd : 4294967296 ∣ x * 2 ^ k - x := (Nat.modEq_iff_dvd' hle).mp hmod.symm
  have hfac : x * 2 ^ k - x = (2 ^ k - 1) * x := by
    rw [Nat.sub_mul, Nat.one_mul, Nat.mul_comm]
  rw [hfac] at hdvd
  have hodd : Nat.Coprime 4294967296 (2 ^ k - 1) := by
    have h2 : Nat.Coprime 2 (2 ^ k - 1) := by
      rw [Nat.coprime_two_left]
      obtain ⟨j, rfl⟩ : ∃ j, k = j + 1 := ⟨k - 1, by omega⟩
      exact ⟨2 ^ j - 1, by have := Nat.two_pow_pos j; rw [pow_succ]; omega⟩
    have h32 : (4294967296 : Nat) = 2 ^ 32 := by norm_num
    rw [h32]
    exact Nat.Coprime.pow_left 32 h2
  have hx2 : 4294967296 ∣ x := hodd.dvd_of_dvd_mul_left hdvd
  exact hx (Nat.eq_zero_of_dvd_of_lt hx2 hlt)

theorem xor_shr_ne_zero (x k : Nat) (hk : 0 < k) (hx : x ≠ 0) : x ^^^ (x >>> k) ≠ 0 := by
  intro h
  rw [Nat.xor_eq_zero, Nat.shiftRight_eq_div_pow] at h
  have hlt : x / 2 ^ k < x :=
    Nat.div_lt_self (Nat.pos_of_ne_zero hx) (Nat.one_lt_two_pow (by omega))
  omega

theorem shr_le (x k : Nat) : x >>> k ≤ x := by
  rw [Nat.shiftRight_eq_div_pow]
  exact Nat.div_le_self x (2 ^ k)

theorem xor_lt_word (a b : Nat) (ha : a < 4294967296) (hb : b < 4294967296) :
    a ^^^ b < 4294967296 := by
  have h32 : (4294967296 : Nat) = 2 ^ 32 := by norm_num
  rw [h32] at ha hb ⊢
  exact Nat.xor_lt_two_pow ha hb

theorem xorshift32_lt (x : Nat) (hlt : x < 4294967296) : xorshift32 x < 4294967296 := by
  have hm : ∀ y : Nat, y % 4294967296 < 4294967296 := fun y => Nat.mod_lt _ (by decide)
  have ha := xor_lt_word x _ hlt (hm (x <<< 13))
  have hb := xor_lt_word _ _ ha
    (Nat.lt_of_le_of_lt (shr_le (x ^^^ ((x <<< 13) % 4294967296)) 17) ha)
  exact xor_lt_word _ _ hb (hm _)

theorem xorshift32_ne_zero (x : Nat) (hx : x ≠ 0) (hlt : x < 4294967296) :
    xorshift32 x ≠ 0 := by
  have hm : ∀ y : Nat, y % 4294967296 < 4294967296 := fun y => Nat.mod_lt _ (by decide)
  have ha := xor_lt_word x _ hlt (hm (x <<< 13))
  have ha0 := xor_shl_ne_zero x 13 (by decide) hx hlt
  have hb := xor_lt_word _ _ ha
    (Nat.lt_of_le_of_lt (shr_le (x ^^^ ((x <<< 13) % 4294967296)) 17) ha)
  have hb0 := xor_shr_ne_zero _ 17 (by decide) ha0
  exact xor_shl_ne_zero _ 5 (by decide) hb0 hb

theorem xorshift32_iterate (n x : Nat) (hx : x ≠ 0) (hlt : x < 4294967296) :
    xorshift32^[n] x ≠ 0 ∧ xorshift32^[n] x < 4294967296 := by
  induction n generalizing x with
  | zero => exact ⟨hx, hlt⟩
  | succ n ih =>
    rw [Function.iterate_succ_apply]
    exact ih (xorshift32 x) (xorshift32_ne_zero x hx hlt) (xorshift32_lt x hlt)

/-- The selection loop leaves the generator at a later point of the orbit of the
word it started from: it draws at least once. -/
theorem pickAlien_rng (fuel rng : Nat) (aliens : List Alien) (d : Nat × Nat)
    (h : pickAlien fuel rng aliens = Except.ok d) :
    ∃ n, d.2 = xorshift32^[n + 1] rng := by
  induction fuel generalizing rng with
  | zero =>
    rw [pickAlien] at h
    cases h
  | succ fuel ih =>
    rw [pickAlien] at h
    split at h
    · cases h
    · split at h
      · obtain ⟨n, hn⟩ := ih _ h
        refine ⟨n + 1, ?_⟩
        rw [hn, Function.iterate_succ_apply (n := n + 1)]
        rfl
      · have e := (Except.ok.inj h).symm
        rw [e]
        exact ⟨0, rfl⟩

theorem alienShoot_rng (s s' : State) (rai : Nat) (h : alienShoot s rai = Except.ok s') :
    s'.rng = s.rng := by
  unfold alienShoot at h
  rw [bind_eq_ok] at h
  obtain ⟨alien, _, h⟩ := h
  split at h
  · rw [bind_eq_ok] at h
    obtain ⟨sp, _, h⟩ := h
    rw [bind_eq_ok] at h
    obtain ⟨g1, _, h⟩ := h
    have e := (Except.ok.inj h).symm
    rw [e]
  · cases h

theorem alienFire_rng (fuel : Nat) (s s' : State) (h : alienFire fuel s = Except.ok s') :
    ∃ n, s'.rng = xorshift32^[n] s.rng := by
  unfold alienFire at h
  split at h
  · rw [bind_eq_ok] at h
    obtain ⟨d, hd, h⟩ := h
    obtain ⟨n, hn⟩ := pickAlien_rng _ _ _ _ hd
    refine ⟨n + 1, ?_⟩
    split at h
    · rw [alienShoot_rng _ _ _ h]
      exact hn
    · have e := (Except.ok.inj h).symm
      rw [e]
      exact hn
  · have e := (Except.ok.inj h).symm
    rw [e]
    exact ⟨0, rfl⟩

theorem advance_rng (fuel : Nat) (s s' : State) (h : advance fuel s = Except.ok s') :
    ∃ n, s'.rng = xorshift32^[n] s.rng := by
  unfold advance at h
  split at h
  · obtain ⟨n, hn⟩ := alienFire_rng _ _ _ h
    refine ⟨n, ?_⟩
    rw [hn]
    obtain ⟨d, ys, hm⟩ := moveSwarm_eq
      { s with
        move_audio_i := if add64 s.move_audio_i 1 = 4 then 0 else add64 s.move_audio_i 1
        alien_update_timer := 0 }
    rw [hm]
  · have e := (Except.ok.inj h).symm
    rw [e]
    exact ⟨0, rfl⟩

theorem changeSpeed_rng (s : State) : (changeSpeed s).rng = s.rng := by
  unfold changeSpeed
  split <;> rfl

theorem simulatePlayer_rng (s : State) : (simulatePlayer s).rng = s.rng := by
  obtain ⟨pmd, x, h⟩ := simulatePlayer_eq s
  rw [h]

theorem applyReset_rng (s : State) : (applyReset s).rng = s.rng := by
  unfold applyReset
  split <;> rfl

theorem updateHighScore_rng (s : State) : (updateHighScore s).rng = s.rng := by
  unfold updateHighScore
  split <;> rfl

theorem progression_rng (s s' : State) (h : progression s = Except.ok s') :
    s'.rng = s.rng := by
  unfold progression at h
  split at h
  · unfold trackBounds at h
    rw [bind_eq_ok] at h
    obtain ⟨pos, _, h⟩ := h
    rw [bind_eq_ok] at h
    obtain ⟨pos2, _, h⟩ := h
    unfold raiseBounds at h
    by_cases hle : (if pos2 > (updateHighScore s).alien_swarm_max_position then pos2
        else (updateHighScore s).alien_swarm_max_position) ≤ game_width
    · rw [if_pos hle] at h
      have e := (Except.ok.inj h).symm
      rw [e]
      exact updateHighScore_rng s
    · rw [if_neg hle] at h
      cases h
  · unfold nextWave at h
    rw [layoutAliens_start, bind_ok_eq] at h
    have e := (Except.ok.inj h).symm
    rw [e]
    exact applyReset_rng s

theorem processFire_rng (s s' : State) (h : processFire s = Except.ok s') :
    s'.rng = s.rng := by
  have hf := processFire_frame s s' h
  unfold FireFrame at hf
  rw [hf]

theorem glfwPollEvents_rng (s : State) (evs : List KeyEvent) :
    (glfwPollEvents s evs).rng = s.rng := by
  have hf := glfwPollEvents_frame s evs
  unfold InputFrame at hf
  rw [hf]

theorem forceGameOver_rng (s : State) : (forceGameOver s).rng = s.rng := by
  unfold forceGameOver
  split <;> rfl

theorem playTick_rng (fuel : Nat) (s s' : State) (h : playTick fuel s = Except.ok s') :
    ∃ n, s'.rng = xorshift32^[n] s.rng := by
  unfold playTick at h
  rw [bind_eq_ok] at h
  obtain ⟨_, _, h⟩ := h
  rw [bind_eq_ok] at h
  obtain ⟨_, _, h⟩ := h
  rw [bind_eq_ok] at h
  obtain ⟨s1, h1, h⟩ := h
  rw [bind_eq_ok] at h
  obtain ⟨s2, h2, h⟩ := h
  rw [bind_eq_ok] at h
  obtain ⟨s3, h3, h⟩ := h
  obtain ⟨g, c, k, f, e1⟩ := (simulateBullets_rel _ _ _ _ h1).frame
  have r1 : s1.rng = s.rng := by rw [e1]
  obtain ⟨n, hn⟩ := advance_rng _ _ _ h2
  have r2 : (updateDeathCounters (changeSpeed s1)).rng = s1.rng := changeSpeed_rng s1
  have r3 : (simulatePlayer (updateAnimations s2)).rng = s2.rng := simulatePlayer_rng _
  refine ⟨n, ?_⟩
  rw [processFire_rng _ _ h, progression_rng _ _ h3, r3, hn, r2, r1]

theorem tick_rng (fuel : Nat) (s s' : State) (evs : List KeyEvent)
    (h : tick fuel s evs = Except.ok s') :
    ∃ n, s'.rng = xorshift32^[n] s.rng := by
  unfold tick at h
  split at h
  · have e := (Except.ok.inj h).symm
    refine ⟨0, ?_⟩
    rw [e]
    unfold gameOverTick
    split
    · show (glfwPollEvents { forceGameOver s with game_over := false } evs).rng = _
      rw [glfwPollEvents_rng]
      exact forceGameOver_rng s
    · rw [glfwPollEvents_rng]
      exact forceGameOver_rng s
  · rw [bind_eq_ok] at h
    obtain ⟨s4, h4, h⟩ := h
    have e := (Except.ok.inj h).symm
    obtain ⟨n, hn⟩ := playTick_rng _ _ _ h4
    refine ⟨n, ?_⟩
    rw [e, glfwPollEvents_rng, hn, forceGameOver_rng]

/-- The generator word of a reachable state lies on the orbit of the seed 13. -/
theorem reachable_rng {s : State} (h : Reachable s) : ∃ n, s.rng = xorshift32^[n] 13 := by
  induction h with
  | start hs bullets s _ _ h0 =>
    rw [initialState_eq] at h0
    have e := (Except.ok.inj h0).symm
    rw [e]
    exact ⟨0, rfl⟩
  | step fuel s s' evs _ ht ih =>
    obtain ⟨n, hn⟩ := ih
    obtain ⟨m, hm⟩ := tick_rng fuel s s' evs ht
    refine ⟨m + n, ?_⟩
    rw [hm, hn, Function.iterate_add_apply]

/-- C11. `xorshift32` is the composition of the three steps `x ^= x << 13`,
`x ^= x >> 17`, `x ^= x << 5` on 32-bit words, and `random` returns its result,
divided by `UINT32_MAX`, together with the same word as the new generator state.
`xorshift32` maps 0 to 0 and every nonzero 32-bit word to a nonzero 32-bit word.
Hence no number of draws takes the seed 13 to the zero word, and the generator
word of every reachable state is a nonzero 32-bit word. -/
theorem xorshift32_zero_free :
    (∀ x : Nat, xorshift32 x =
      (fun c => c ^^^ ((c <<< 5) % 4294967296))
        ((fun b => b ^^^ (b >>> 17)) ((fun a => a ^^^ ((a <<< 13) % 4294967296)) x))) ∧
    (∀ x : Nat, random x = ((xorshift32 x : ℚ) / 4294967295, xorshift32 x)) ∧
    xorshift32 0 = 0 ∧
    (∀ x : Nat, x ≠ 0 → x < 4294967296 →
      xorshift32 x ≠ 0 ∧ xorshift32 x < 4294967296) ∧
    (∀ n : Nat, xorshift32^[n] 13 ≠ 0) ∧
    (∀ s : State, Reachable s → s.rng ≠ 0 ∧ s.rng < 4294967296) := by
  refine ⟨fun x => rfl, fun x => rfl, by decide,
    fun x hx hlt => ⟨xorshift32_ne_zero x hx hlt, xorshift32_lt x hlt⟩,
    fun n => (xorshift32_iterate n 13 (by decide) (by decide)).1, ?_⟩
  intro s hs
  obtain ⟨n, hn⟩ := reachable_rng hs
  rw [hn]
  exact xorshift32_iterate n 13 (by decide) (by decide)

theorem xorshift32_zero_free_witness :
    xorshift32 13 ≠ 0 ∧ xorshift32 13 < 4294967296 ∧
    (startState 0 (List.replicate 128 { x := 0, y := 0, dir := 0 })).rng ≠ 0 :=
  ⟨(xorshift32_zero_free.2.2.2.1 13 (by decide) (by decide)).1,
    (xorshift32_zero_free.2.2.2.1 13 (by decide) (by decide)).2,
    (xorshift32_zero_free.2.2.2.2.2 _
      (Reachable.start 0 (List.replicate 128 { x := 0, y := 0, dir := 0 }) _ (by decide)
        (List.length_replicate 128 _) (initialState_eq 0 _))).1⟩

/-- The range of `random` on nonzero 32-bit generator words: the value is positive
and at most 1, and it is 1 exactly when the generator returns `UINT32_MAX`. -/
theorem random_range (x : Nat) (hx : x ≠ 0) (hlt : x < 4294967296) :
    0 < (random x).1 ∧ (random x).1 ≤ 1 ∧
    ((random x).1 = 1 ↔ xorshift32 x = 4294967295) := by
  have h0 : xorshift32 x ≠ 0 := xorshift32_ne_zero x hx hlt
  have h1 : xorshift32 x < 4294967296 := xorshift32_lt x hlt
  have hq0 : (0 : ℚ) < (xorshift32 x : ℚ) := by
    exact_mod_cast Nat.pos_of_ne_zero h0
  have hq1 : (xorshift32 x : ℚ) ≤ 4294967295 := by
    exact_mod_cast Nat.le_of_lt_succ h1
  show 0 < (xorshift32 x : ℚ) / 4294967295 ∧ (xorshift32 x : ℚ) / 4294967295 ≤ 1 ∧
    ((xorshift32 x : ℚ) / 4294967295 = 1 ↔ xorshift32 x = 4294967295)
  refine ⟨by positivity, (div_le_one (by norm_num)).mpr hq1, ?_⟩
  rw [div_eq_one_iff_eq (by norm_num)]
  exact_mod_cast Iff.rfl

theorem random_range_witness :
    0 < (random 13).1 ∧ (random 13).1 ≤ 1 ∧
    ((random 13).1 = 1 ↔ xorshift32 13 = 4294967295) :=
  random_range 13 (by decide) (by decide)

theorem xorshift32_max : xorshift32 1584200935 = 4294967295 := by decide

theorem random_max : random 1584200935 = (1, 4294967295) := by
  show ((xorshift32 1584200935 : ℚ) / 4294967295, xorshift32 1584200935) = (1, 4294967295)
  rw [xorshift32_max]
  norm_num

theorem randomAlienIndex_max : randomAlienIndex 1584200935 = (55, 4294967295) := by
  show (Int.toNat (Rat.floor ((num_aliens : ℚ) * (random 1584200935).1)),
    (random 1584200935).2) = (55, 4294967295)
  rw [random_max]
  show (Int.toNat (Rat.floor ((num_aliens : ℚ) * 1)), 4294967295) = (55, 4294967295)
  rw [mul_one]
  rfl

/-- C12, failing input. The generator word 1584200935 is a nonzero 32-bit word
whose successor is `UINT32_MAX`; there `random` returns exactly 1, not a value
below 1, and the alien index drawn from it is 55, one past the last alien. -/
theorem random_reaches_one :
    (1584200935 : Nat) ≠ 0 ∧ (1584200935 : Nat) < 4294967296 ∧
    xorshift32 1584200935 = 4294967295 ∧
    (random 1584200935).1 = 1 ∧ ¬ ((random 1584200935).1 < 1) ∧
    (randomAlienIndex 1584200935).1 = num_aliens := by
  refine ⟨by decide, by decide, xorshift32_max, ?_, ?_, ?_⟩
  · rw [random_max]
  · rw [random_max]
    exact lt_irrefl 1
  · rw [randomAlienIndex_max]
    rfl

/-! ## The collision oracle -/

/-- C13. For sprites of positive width and height at positions where no sum
leaves the `size_t` range, `sprite_overlap_check` is true exactly when the four
inequalities hold, which is exactly when the two pixel rectangles share a pixel;
replacing the pixel data of either sprite does not change the result. -/
theorem sprite_overlap_check_iff (sp_a sp_b : Sprite) (x_a y_a x_b y_b : Nat)
    (hwa : 0 < sp_a.width) (hha : 0 < sp_a.height)
    (hwb : 0 < sp_b.width) (hhb : 0 < sp_b.height)
    (hxa : x_a + sp_a.width < 18446744073709551616)
    (hya : y_a + sp_a.height < 18446744073709551616)
    (hxb : x_b + sp_b.width < 18446744073709551616)
    (hyb : y_b + sp_b.height < 18446744073709551616) :
    (sprite_overlap_check sp_a x_a y_a sp_b x_b y_b = true ↔
      (x_a < x_b + sp_b.width ∧ x_a + sp_a.width > x_b ∧
        y_a < y_b + sp_b.height ∧ y_a + sp_a.height > y_b)) ∧
    (sprite_overlap_check sp_a x_a y_a sp_b x_b y_b = true ↔
      ∃ px py : Nat,
        (x_a ≤ px ∧ px < x_a + sp_a.width ∧ y_a ≤ py ∧ py < y_a + sp_a.height) ∧
        (x_b ≤ px ∧ px < x_b + sp_b.width ∧ y_b ≤ py ∧ py < y_b + sp_b.height)) ∧
    (∀ da db : List Nat,
      sprite_overlap_check { sp_a with data := da } x_a y_a { sp_b with data := db } x_b y_b
        = sprite_overlap_check sp_a x_a y_a sp_b x_b y_b) := by
  have h1 : sprite_overlap_check sp_a x_a y_a sp_b x_b y_b = true ↔
      (x_a < x_b + sp_b.width ∧ x_a + sp_a.width > x_b ∧
        y_a < y_b + sp_b.height ∧ y_a + sp_a.height > y_b) := by
    unfold sprite_overlap_check
    rw [add64_of_lt _ _ hxa, add64_of_lt _ _ hya, add64_of_lt _ _ hxb, add64_of_lt _ _ hyb]
    split
    · rename_i h
      exact ⟨fun _ => h, fun _ => rfl⟩
    · rename_i h
      exact ⟨fun hf => absurd hf (by decide), fun hc => absurd hc h⟩
  refine ⟨h1, ?_, fun da db => rfl⟩
  rw [h1]
  constructor
  · rintro ⟨h1, h2, h3, h4⟩
    refine ⟨max x_a x_b, max y_a y_b, ?_, ?_⟩ <;>
      (refine ⟨?_, ?_, ?_, ?_⟩ <;> omega)
  · rintro ⟨px, py, ⟨a1, a2, a3, a4⟩, b1, b2, b3, b4⟩
    refine ⟨?_, ?_, ?_, ?_⟩ <;> omega

theorem sprite_overlap_check_iff_witness :
    (sprite_overlap_check player_bullet_sprite 30 126 alien_bullet_sprite_0 29 122 = true ↔
      ((30 : Nat) < 29 + alien_bullet_sprite_0.width ∧ 30 + player_bullet_sprite.width > 29 ∧
        (126 : Nat) < 122 + alien_bullet_sprite_0.height ∧
        126 + player_bullet_sprite.height > 122)) ∧
    sprite_overlap_check player_bullet_sprite 30 126 alien_bullet_sprite_0 29 122 = true :=
  ⟨(sprite_overlap_check_iff player_bullet_sprite alien_bullet_sprite_0 30 126 29 122
      (by decide) (by decide) (by decide) (by decide)
      (by decide) (by decide) (by decide) (by decide)).1, by decide⟩

/-! ## The wave layout -/

theorem nextWave_layout (s : State) :
    ∃ s', nextWave s = Except.ok s' ∧ s'.game.aliens = gridAliens 24 ∧
      s'.death_counters = List.replicate num_aliens 10 := by
  unfold nextWave
  rw [layoutAliens_start, bind_ok_eq]
  exact ⟨_, rfl, rfl, rfl⟩

theorem gridAliens_rows :
    ∀ (xi : Fin 11) (yi : Fin 5), ∃ sp,
      alienBaseSprite ((5 - yi.val) / 2 + 1) = Except.ok sp ∧
      (gridAliens 24)[5 * xi.val + yi.val]? = some
        { type := (5 - yi.val) / 2 + 1
          x := 16 * xi.val + 24 + (13 - sp.width) / 2
          y := 17 * yi.val + 128 } ∧
      (List.replicate num_aliens 10)[5 * xi.val + yi.val]? = some 10 := by
  intro xi yi
  fin_cases xi <;> fin_cases yi <;> exact ⟨_, rfl, rfl, rfl⟩

/-- C20. The layout of start-up and the re-layout of a wave clear or reset both
succeed and produce the same aliens and death counters. There are 55 of each; for
column `xi` in 0..10 and row `yi` in 0..4 the alien at index `5 * xi + yi` has type
`(5 - yi) / 2 + 1`, `x = 16 * xi + 24 + (13 - w) / 2` with `w` the width of the
sprite `alien_sprites[2 * (type - 1)]`, `y = 17 * yi + 128`, and death counter 10.
Rows 0 and 1 have type 3, rows 2 and 3 type 2, row 4 type 1; the sprite widths of
the types 1, 2, 3 are 8, 11, 12; no alien is dead. -/
theorem wave_layout (hs : Nat) (bullets : List Bullet) (s : State) :
    ∃ s0 s1, initialState hs bullets = Except.ok s0 ∧ nextWave s = Except.ok s1 ∧
      s0.game.aliens = s1.game.aliens ∧ s0.death_counters = s1.death_counters ∧
      s1.game.aliens.length = 55 ∧ s1.death_counters.length = 55 ∧
      (∀ (xi : Fin 11) (yi : Fin 5), ∃ sp,
        alienBaseSprite ((5 - yi.val) / 2 + 1) = Except.ok sp ∧
        s1.game.aliens[5 * xi.val + yi.val]? = some
          { type := (5 - yi.val) / 2 + 1
            x := 16 * xi.val + 24 + (13 - sp.width) / 2
            y := 17 * yi.val + 128 } ∧
        s1.death_counters[5 * xi.val + yi.val]? = some 10) ∧
      (∀ xi : Fin 11,
        (s1.game.aliens.map (fun a => a.type))[5 * xi.val]? = some 3 ∧
        (s1.game.aliens.map (fun a => a.type))[5 * xi.val + 1]? = some 3 ∧
        (s1.game.aliens.map (fun a => a.type))[5 * xi.val + 2]? = some 2 ∧
        (s1.game.aliens.map (fun a => a.type))[5 * xi.val + 3]? = some 2 ∧
        (s1.game.aliens.map (fun a => a.type))[5 * xi.val + 4]? = some 1) ∧
      ((alienBaseSprite 1).map (fun sp => sp.width) = Except.ok 8 ∧
        (alienBaseSprite 2).map (fun sp => sp.width) = Except.ok 11 ∧
        (alienBaseSprite 3).map (fun sp => sp.width) = Except.ok 12) ∧
      (∀ a, a ∈ s1.game.aliens → a.type ≠ ALIEN_DEAD) := by
  obtain ⟨s1, h1, ha, hd⟩ := nextWave_layout s
  refine ⟨startState hs bullets, s1, initialState_eq hs bullets, h1, ?_, ?_, ?_⟩
  · rw [ha]
    rfl
  · rw [hd]
    rfl
  rw [ha, hd]
  refine ⟨rfl, rfl, gridAliens_rows, ?_, ⟨rfl, rfl, rfl⟩, ?_⟩
  · intro xi
    fin_cases xi <;> exact ⟨rfl, rfl, rfl, rfl, rfl⟩
  · decide

theorem wave_layout_witness :
    ∃ s0 s1,
      initialState 0 (List.replicate 128 { x := 0, y := 0, dir := 0 }) = Except.ok s0 ∧
      nextWave (clearedWave 1) = Except.ok s1 ∧ s0.game.aliens = s1.game.aliens ∧
      s1.game.aliens.length = 55 ∧ ∀ a, a ∈ s1.game.aliens → a.type ≠ ALIEN_DEAD := by
  obtain ⟨s0, s1, h0, h1, h2, _, h4, _, _, _, _, h9⟩ :=
    wave_layout 0 (List.replicate 128 { x := 0, y := 0, dir := 0 }) (clearedWave 1)
  exact ⟨s0, s1, h0, h1, h2, h4, h9⟩

/-! ## The manual reset -/

theorem nextWave_reset (s : State) (hr : s.reset = true) :
    nextWave s = Except.ok
      { s with
        reset := false
        score := 0
        fire_pressed := false
        should_change_speed := true
        level := 1
        game := { s.game with
          player := { s.game.player with life := 3 }
          num_bullets := 0
          aliens := gridAliens 24 }
        alien_swarm_max_position := 45
        alien_update_frequency := 110
        alien_swarm_position := 24
        aliens_killed := 0
        alien_update_timer := 0
        alien_move_dir := 4
        death_counters := List.replicate num_aliens 10 } := by
  have ha : applyReset s =
      { s with
        reset := false
        game := { s.game with player := { s.game.player with life := 3 } }
        score := 0
        fire_pressed := false
        level := 0 } := by
    unfold applyReset
    rw [if_pos hr]
  have h1 : levelFrequency (add64 0 1) = 110 := rfl
  have h2 : add64 0 1 = 1 := rfl
  unfold nextWave
  rw [layoutAliens_start, bind_ok_eq, ha]
  show Except.ok
      { s with
        reset := false
        score := 0
        fire_pressed := false
        should_change_speed := true
        level := add64 0 1
        game := { s.game with
          player := { s.game.player with life := 3 }
          num_bullets := 0
          aliens := gridAliens 24 }
        alien_swarm_max_position := 45
        alien_update_frequency := levelFrequency (add64 0 1)
        alien_swarm_position := 24
        aliens_killed := 0
        alien_update_timer := 0
        alien_move_dir := 4
        death_counters := List.replicate num_aliens 10 } = _
  rw [h1, h2]

/-- The reset flag seen by the progression step of a tick is the one the tick
was entered with. -/
theorem playTick_reset_kept (fuel : Nat) (s s1 s2 : State)
    (h1 : simulateBullets (GAME_MAX_BULLETS + 1) 0 s = Except.ok s1)
    (h2 : advance fuel (updateDeathCounters (changeSpeed s1)) = Except.ok s2) :
    (simulatePlayer (updateAnimations s2)).reset = s.reset := by
  rw [(simulatePlayer_core _).reset, (updateAnimations_core _).reset,
    (advance_rel _ _ _ h2).reset, (updateDeathCounters_core _).reset,
    (changeSpeed_core s1).2.2.2.2.1, (simulateBullets_rel _ _ _ _ h1).core.2.2.1]

/-- C14. Take a tick entered with lives left, the game-over flag clear and the
reset flag set. If the steps before the progression step complete (drawing, bullet
phase, advance), the tick completes. When it completes it ends as follows,
whatever its bullet phase did: before the events of the tick are polled, `reset`
and `fire_pressed` are false; the score is 0, the lives are 3, the level is 1, no
bullet is live, the kill counter is 0, the swarm position is 24, the direction 4,
the advance timer 0, the cadence 110, and every death counter is 10. The aliens
are the 55 of the wave-start grid: for column `xi` in 0..10 and row `yi` in 0..4
the alien at index `5 * xi + yi` has type `(5 - yi) / 2 + 1` (3, 3, 2, 2, 1 from
row 0 to row 4), `x = 16 * xi + 24 + (13 - w) / 2` with `w` the width of its
sprite (8, 11, 12 for the types 1, 2, 3) and `y = 17 * yi + 128`; none is dead, and
they are what the layout loops return. The events polled at the end of the tick
can set `reset` and `fire_pressed` again; without a release of the reset key among
them `reset` is false after the tick. -/
theorem reset_tick (fuel : Nat) (s s' : State) (evs : List KeyEvent)
    (hlife : s.game.player.life ≠ 0) (hgo : s.game_over = false) (hreset : s.reset = true)
    (h : tick fuel s evs = Except.ok s') :
    (∃ s1, playTick fuel s = Except.ok s1 ∧ s' = glfwPollEvents s1 evs ∧
      s1.reset = false ∧ s1.fire_pressed = false) ∧
    s'.score = 0 ∧ s'.game.player.life = 3 ∧ s'.level = 1 ∧ s'.game.num_bullets = 0 ∧
    s'.aliens_killed = 0 ∧ s'.alien_swarm_position = 24 ∧ s'.alien_move_dir = 4 ∧
    s'.alien_update_timer = 0 ∧ s'.alien_update_frequency = 110 ∧
    (s'.game.aliens.length = 55 ∧
      (∀ (xi : Fin 11) (yi : Fin 5), ∃ sp,
        alienBaseSprite ((5 - yi.val) / 2 + 1) = Except.ok sp ∧
        s'.game.aliens[5 * xi.val + yi.val]? = some
          { type := (5 - yi.val) / 2 + 1
            x := 16 * xi.val + 24 + (13 - sp.width) / 2
            y := 17 * yi.val + 128 }) ∧
      (∀ xi : Fin 11,
        (s'.game.aliens.map (fun a => (a.type, a.x, a.y)))[5 * xi.val]?
          = some (3, 16 * xi.val + 24, 128) ∧
        (s'.game.aliens.map (fun a => (a.type, a.x, a.y)))[5 * xi.val + 1]?
          = some (3, 16 * xi.val + 24, 145) ∧
        (s'.game.aliens.map (fun a => (a.type, a.x, a.y)))[5 * xi.val + 2]?
          = some (2, 16 * xi.val + 25, 162) ∧
        (s'.game.aliens.map (fun a => (a.type, a.x, a.y)))[5 * xi.val + 3]?
          = some (2, 16 * xi.val + 25, 179) ∧
        (s'.game.aliens.map (fun a => (a.type, a.x, a.y)))[5 * xi.val + 4]?
          = some (1, 16 * xi.val + 26, 196)) ∧
      ((alienBaseSprite 1).map (fun sp => sp.width) = Except.ok 8 ∧
        (alienBaseSprite 2).map (fun sp => sp.width) = Except.ok 11 ∧
        (alienBaseSprite 3).map (fun sp => sp.width) = Except.ok 12) ∧
      (∀ a, a ∈ s'.game.aliens → a.type ≠ ALIEN_DEAD) ∧
      layoutAliens 24 = Except.ok s'.game.aliens) ∧
    s'.death_counters = List.replicate num_aliens 10 ∧
    (NoResetKey evs → s'.reset = false) ∧
    (∀ s1 s2, drawAliens s (List.range num_aliens) = Except.ok () →
      drawBullets s (GAME_MAX_BULLETS + 1) 0 = Except.ok () →
      simulateBullets (GAME_MAX_BULLETS + 1) 0 s = Except.ok s1 →
      advance fuel (updateDeathCounters (changeSpeed s1)) = Except.ok s2 →
      ∃ s3, tick fuel s evs = Except.ok s3) := by
  have hf : forceGameOver s = s := by
    unfold forceGameOver
    rw [if_neg (by rw [hgo]; decide)]
  unfold tick at h
  rw [hf, if_neg hlife, bind_eq_ok] at h
  obtain ⟨s4, h4, h⟩ := h
  have e := (Except.ok.inj h).symm
  have hp := h4
  unfold playTick at hp
  rw [bind_eq_ok] at hp
  obtain ⟨_, _, hp⟩ := hp
  rw [bind_eq_ok] at hp
  obtain ⟨_, _, hp⟩ := hp
  rw [bind_eq_ok] at hp
  obtain ⟨s1, h1, hp⟩ := hp
  rw [bind_eq_ok] at hp
  obtain ⟨s2, h2, hp⟩ := hp
  rw [bind_eq_ok] at hp
  obtain ⟨s3, h3, hp⟩ := hp
  have hr : (simulatePlayer (updateAnimations s2)).reset = true := by
    rw [playTick_reset_kept fuel s s1 s2 h1 h2, hreset]
  unfold progression at h3
  rw [if_neg (by rw [hr]; simp), nextWave_reset _ hr] at h3
  have e3 := (Except.ok.inj h3).symm
  have hfire : s3.fire_pressed = false := by rw [e3]
  unfold processFire at hp
  rw [if_neg (by rw [hfire]; simp)] at hp
  have e4 := (Except.ok.inj hp).symm
  have hpoll := glfwPollEvents_core s4 evs
  have hin := glfwPollEvents_frame s4 evs
  have q1 : s4.reset = false := by rw [e4, e3]
  have q2 : s4.fire_pressed = false := by rw [e4]
  have q3 : s4.score = 0 := by rw [e4, e3]
  have q4 : s4.game = { (simulatePlayer (updateAnimations s2)).game with
      player := { (simulatePlayer (updateAnimations s2)).game.player with life := 3 }
      num_bullets := 0
      aliens := gridAliens 24 } := by rw [e4, e3]
  have q5 : s4.level = 1 := by rw [e4, e3]
  have q6 : s4.aliens_killed = 0 := by rw [e4, e3]
  have q7 : s4.alien_swarm_position = 24 := by rw [e4, e3]
  have q8 : s4.alien_move_dir = 4 := by rw [e4, e3]
  have q9 : s4.alien_update_timer = 0 := by rw [e4, e3]
  have q10 : s4.alien_update_frequency = 110 := by rw [e4, e3]
  have q11 : s4.death_counters = List.replicate num_aliens 10 := by rw [e4, e3]
  have t9 : s'.alien_update_timer = 0 := by
    unfold InputFrame at hin
    rw [e, hin]
    exact q9
  have t11 : s'.death_counters = List.replicate num_aliens 10 := by
    unfold InputFrame at hin
    rw [e, hin]
    exact q11
  have tg : s'.game = s4.game := by rw [e, hpoll.1]
  have total : ∀ s1 s2, drawAliens s (List.range num_aliens) = Except.ok () →
      drawBullets s (GAME_MAX_BULLETS + 1) 0 = Except.ok () →
      simulateBullets (GAME_MAX_BULLETS + 1) 0 s = Except.ok s1 →
      advance fuel (updateDeathCounters (changeSpeed s1)) = Except.ok s2 →
      ∃ s3, tick fuel s evs = Except.ok s3 := by
    intro r1 r2 d1 d2 b1 b2
    have hr2 : (simulatePlayer (updateAnimations r2)).reset = true := by
      rw [playTick_reset_kept fuel s r1 r2 b1 b2, hreset]
    unfold tick
    rw [hf, if_neg hlife]
    unfold playTick
    rw [d1, bind_ok_eq, d2, bind_ok_eq, b1, bind_ok_eq, b2, bind_ok_eq]
    unfold progression
    rw [if_neg (by rw [hr2]; simp), nextWave_reset _ hr2, bind_ok_eq]
    unfold processFire
    rw [if_neg (by simp), bind_ok_eq]
    exact ⟨_, rfl⟩
  refine ⟨⟨s4, h4, e, q1, q2⟩, ?_, ?_, ?_, ?_, ?_, ?_, ?_, t9, ?_, ?_, t11, ?_, total⟩
  · rw [e, hpoll.2.2.2.2.2.2.2.2.1, q3]
  · rw [tg, q4]
  · rw [e, hpoll.2.2.2.2.2.1, q5]
  · rw [tg, q4]
  · rw [e, hpoll.2.2.2.2.2.2.1, q6]
  · rw [e, hpoll.2.1, q7]
  · rw [e, hpoll.2.2.2.1, q8]
  · rw [e, hpoll.2.2.2.2.1, q10]
  · have ha : s'.game.aliens = gridAliens 24 := by rw [tg, q4]
    rw [ha]
    refine ⟨rfl, ?_, ?_, ⟨rfl, rfl, rfl⟩, ?_, layoutAliens_start⟩
    · intro xi yi
      obtain ⟨sp, g1, g2, _⟩ := gridAliens_rows xi yi
      exact ⟨sp, g1, g2⟩
    · intro xi
      fin_cases xi <;> exact ⟨rfl, rfl, rfl, rfl, rfl⟩
    · decide
  · intro hk
    rw [e, glfwPollEvents_reset s4 evs hk, q1]

theorem exists_ok_of_isSome {α : Type} {x : Except Fault α}
    (h : x.toOption.isSome = true) : ∃ a, x = Except.ok a := by
  cases x with
  | error e => cases h
  | ok a => exact ⟨a, rfl⟩

set_option maxRecDepth 100000 in
theorem reset_tick_witness :
    ∃ s', tick 0 resetDemo [] = Except.ok s' ∧ s'.score = 0 ∧ s'.game.player.life = 3 ∧
      s'.level = 1 ∧ s'.game.num_bullets = 0 ∧ s'.alien_update_frequency = 110 ∧
      s'.reset = false ∧ s'.game.aliens.length = 55 ∧
      (s'.game.aliens.map (fun a => (a.type, a.x, a.y)))[0]? = some (3, 24, 128) ∧
      (s'.game.aliens.map (fun a => (a.type, a.x, a.y)))[54]? = some (1, 186, 196) := by
  obtain ⟨s', h⟩ : ∃ s', tick 0 resetDemo [] = Except.ok s' :=
    exists_ok_of_isSome (by decide)
  obtain ⟨_, h1, h2, h3, h4, _, _, _, _, h9, ⟨a1, _, a3, _⟩, _, h12, _⟩ :=
    reset_tick 0 resetDemo s' [] (by decide) rfl rfl h
  exact ⟨s', h, h1, h2, h3, h4, h9, h12 (fun e he => absurd he (List.not_mem_nil e)), a1,
    (a3 0).1, (a3 10).2.2.2.2⟩

/-! ## The game-over branch -/

theorem key_callback_game_over (s : State) (e : KeyEvent)
    (h : ¬ (e.key = Key.g ∧ e.action = Action.release)) :
    (key_callback s e).game_over = s.game_over := by
  unfold key_callback
  cases hk : e.key <;> simp only [] <;> (repeat' split) <;>
    first | rfl | (exact absurd ⟨hk, by assumption⟩ h)

theorem glfwPollEvents_game_over (s : State) (evs : List KeyEvent) (h : NoGameOverKey evs) :
    (glfwPollEvents s evs).game_over = s.game_over := by
  unfold glfwPollEvents
  induction evs generalizing s with
  | nil => rfl
  | cons e rest ih =>
    rw [List.foldl_cons, ih _ (fun e' he' => h e' (List.mem_cons_of_mem e he'))]
    exact key_callback_game_over s e (h e (List.mem_cons_self e rest))

theorem forceGameOver_life (s : State) (h : s.game.player.life = 0 ∨ s.game_over = true) :
    (forceGameOver s).game.player.life = 0 := by
  unfold forceGameOver
  by_cases hg : s.game_over = true
  · rw [if_pos hg]
  · rw [if_neg hg]
    rcases h with h | h
    · exact h
    · exact absurd h hg

/-- What `forceGameOver` leaves alone: everything but the lives. -/
theorem forceGameOver_eq (s : State) :
    ∃ life, forceGameOver s =
      { s with game := { s.game with player := { s.game.player with life := life } } } := by
  unfold forceGameOver
  split
  · exact ⟨0, rfl⟩
  · exact ⟨s.game.player.life, rfl⟩

/-- The fields of the simulation that polling leaves alone, besides those of
`glfwPollEvents_core`. -/
theorem glfwPollEvents_rest (s : State) (evs : List KeyEvent) :
    (glfwPollEvents s evs).death_counters = s.death_counters ∧
    (glfwPollEvents s evs).alien_update_timer = s.alien_update_timer ∧
    (glfwPollEvents s evs).alien_animation = s.alien_animation ∧
    (glfwPollEvents s evs).alien_bullet_animation = s.alien_bullet_animation ∧
    (glfwPollEvents s evs).move_audio_i = s.move_audio_i ∧
    (glfwPollEvents s evs).player_move_dir = s.player_move_dir := by
  have hp := glfwPollEvents_frame s evs
  unfold InputFrame at hp
  rw [hp]
  exact ⟨rfl, rfl, rfl, rfl, rfl, rfl⟩

/-- What the game-over branch does to a state whose lives are 0: polling the
events after clearing the force flag, then setting the lives to 1 if the reset
flag is set. -/
theorem gameOverTick_fields (s : State) (evs : List KeyEvent) :
    (gameOverTick s evs).game.aliens = s.game.aliens ∧
    (gameOverTick s evs).game.bullets = s.game.bullets ∧
    (gameOverTick s evs).game.num_bullets = s.game.num_bullets ∧
    (gameOverTick s evs).game.player.x = s.game.player.x ∧
    (gameOverTick s evs).game.player.y = s.game.player.y ∧
    (gameOverTick s evs).game.player.life
      = (if (glfwPollEvents { s with game_over := false } evs).reset = true then 1
        else s.game.player.life) ∧
    (gameOverTick s evs).reset = (glfwPollEvents { s with game_over := false } evs).reset ∧
    (gameOverTick s evs).game_over
      = (glfwPollEvents { s with game_over := false } evs).game_over ∧
    (gameOverTick s evs).score = s.score ∧
    (gameOverTick s evs).high_score = s.high_score ∧
    (gameOverTick s evs).level = s.level ∧
    (gameOverTick s evs).death_counters = s.death_counters ∧
    (gameOverTick s evs).alien_swarm_position = s.alien_swarm_position ∧
    (gameOverTick s evs).alien_swarm_max_position = s.alien_swarm_max_position ∧
    (gameOverTick s evs).alien_move_dir = s.alien_move_dir ∧
    (gameOverTick s evs).alien_update_frequency = s.alien_update_frequency ∧
    (gameOverTick s evs).alien_update_timer = s.alien_update_timer ∧
    (gameOverTick s evs).aliens_killed = s.aliens_killed ∧
    (gameOverTick s evs).should_change_speed = s.should_change_speed ∧
    (gameOverTick s evs).rng = s.rng ∧
    (gameOverTick s evs).alien_animation = s.alien_animation ∧
    (gameOverTick s evs).alien_bullet_animation = s.alien_bullet_animation := by
  have hc := glfwPollEvents_core { s with game_over := false } evs
  have hr := glfwPollEvents_rest { s with game_over := false } evs
  have hg := glfwPollEvents_rng { s with game_over := false } evs
  obtain ⟨c1, c2, c3, c4, c5, c6, c7, c8, c9, c10⟩ := hc
  obtain ⟨r1, r2, r3, r4, _, _⟩ := hr
  unfold gameOverTick
  by_cases hreset : (glfwPollEvents { s with game_over := false } evs).reset = true
  · rw [if_pos hreset, if_pos hreset]
    refine ⟨?_, ?_, ?_, ?_, ?_, rfl, rfl, rfl, c9, c10, c6, r1, c2, c3, c4, c5, r2, c7, c8,
      hg, r3, r4⟩
    · show (glfwPollEvents { s with game_over := false } evs).game.aliens = _
      rw [c1]
    · show (glfwPollEvents { s with game_over := false } evs).game.bullets = _
      rw [c1]
    · show (glfwPollEvents { s with game_over := false } evs).game.num_bullets = _
      rw [c1]
    · show (glfwPollEvents { s with game_over := false } evs).game.player.x = _
      rw [c1]
    · show (glfwPollEvents { s with game_over := false } evs).game.player.y = _
      rw [c1]
  · rw [if_neg hreset, if_neg hreset]
    refine ⟨?_, ?_, ?_, ?_, ?_, ?_, rfl, rfl, c9, c10, c6, r1, c2, c3, c4, c5, r2, c7, c8,
      hg, r3, r4⟩ <;> rw [c1]

/-- C15. A tick entered with no lives left or with the force-game-over flag set
completes, and leaves score, high score, level, aliens, death counters, bullet
array and bullet count, player position, swarm position, direction and maximum
bound, cadence, advance timer and kill counter as they were. The force flag is
cleared before the events of the tick are polled, so it is clear afterwards unless
a release of the force key is among them. The reset flag is the one at entry
unless a release of the reset key is among the events; the lives afterwards are
0 if the reset flag is then clear and 1 if it is set. -/
theorem game_over_tick (fuel : Nat) (s : State) (evs : List KeyEvent)
    (h : s.game.player.life = 0 ∨ s.game_over = true) :
    ∃ s', tick fuel s evs = Except.ok s' ∧
      s'.score = s.score ∧ s'.high_score = s.high_score ∧ s'.level = s.level ∧
      s'.game.aliens = s.game.aliens ∧ s'.death_counters = s.death_counters ∧
      s'.game.bullets = s.game.bullets ∧ s'.game.num_bullets = s.game.num_bullets ∧
      s'.game.player.x = s.game.player.x ∧ s'.game.player.y = s.game.player.y ∧
      s'.alien_swarm_position = s.alien_swarm_position ∧
      s'.alien_move_dir = s.alien_move_dir ∧
      s'.alien_swarm_max_position = s.alien_swarm_max_position ∧
      s'.alien_update_frequency = s.alien_update_frequency ∧
      s'.alien_update_timer = s.alien_update_timer ∧
      s'.aliens_killed = s.aliens_killed ∧
      s'.game.player.life = (if s'.reset = true then 1 else 0) ∧
      (NoResetKey evs → s'.reset = s.reset) ∧
      (NoGameOverKey evs → s'.game_over = false) := by
  have hl := forceGameOver_life s h
  obtain ⟨life, hf⟩ := forceGameOver_eq s
  have hfields := gameOverTick_fields (forceGameOver s) evs
  obtain ⟨f1, f2, f3, f4, f5, f6, f7, f8, f9, f10, f11, f12, f13, f14, f15, f16, f17, f18,
    _, _, _, _⟩ := hfields
  refine ⟨gameOverTick (forceGameOver s) evs, ?_, ?_⟩
  · unfold tick
    rw [if_pos hl]
  have g : (forceGameOver s).score = s.score ∧ (forceGameOver s).high_score = s.high_score ∧
      (forceGameOver s).level = s.level ∧ (forceGameOver s).game.aliens = s.game.aliens ∧
      (forceGameOver s).death_counters = s.death_counters ∧
      (forceGameOver s).game.bullets = s.game.bullets ∧
      (forceGameOver s).game.num_bullets = s.game.num_bullets ∧
      (forceGameOver s).game.player.x = s.game.player.x ∧
      (forceGameOver s).game.player.y = s.game.player.y ∧
      (forceGameOver s).alien_swarm_position = s.alien_swarm_position ∧
      (forceGameOver s).alien_move_dir = s.alien_move_dir ∧
      (forceGameOver s).alien_swarm_max_position = s.alien_swarm_max_position ∧
      (forceGameOver s).alien_update_frequency = s.alien_update_frequency ∧
      (forceGameOver s).alien_update_timer = s.alien_update_timer ∧
      (forceGameOver s).aliens_killed = s.aliens_killed ∧
      (forceGameOver s).reset = s.reset := by
    rw [hf]
    exact ⟨rfl, rfl, rfl, rfl, rfl, rfl, rfl, rfl, rfl, rfl, rfl, rfl, rfl, rfl, rfl, rfl⟩
  obtain ⟨g1, g2, g3, g4, g5, g6, g7, g8, g9, g10, g11, g12, g13, g14, g15, g16⟩ := g
  have hlife : (gameOverTick (forceGameOver s) evs).game.player.life
      = (if (gameOverTick (forceGameOver s) evs).reset = true then 1 else 0) := by
    rw [f6, f7, hl]
  refine ⟨f9.trans g1, f10.trans g2, f11.trans g3, f1.trans g4, f12.trans g5, f2.trans g6,
    f3.trans g7, f4.trans g8, f5.trans g9, f13.trans g10, f15.trans g11, f14.trans g12,
    f16.trans g13, f17.trans g14, f18.trans g15, hlife, ?_, ?_⟩
  · intro hk
    rw [f7, glfwPollEvents_reset _ evs hk]
    exact g16
  · intro hk
    rw [f8, glfwPollEvents_game_over _ evs hk]

theorem game_over_tick_witness :
    ∃ s', tick 0 { shotState 50 50 with game_over := true } [] = Except.ok s' ∧
      s'.score = 50 ∧ s'.game.num_bullets = 1 ∧ s'.game.player.life = 0 ∧
      s'.game_over = false := by
  obtain ⟨s', h, h1, _, _, _, _, _, h7, _, _, _, _, _, _, _, _, h16, h17, h18⟩ :=
    game_over_tick 0 { shotState 50 50 with game_over := true } [] (Or.inr rfl)
  have hn : NoResetKey [] := fun e he => absurd he (List.not_mem_nil e)
  have hr : s'.reset = false := h17 hn
  rw [hr] at h16
  exact ⟨s', h, h1, h7, h16, h18 (fun e he => absurd he (List.not_mem_nil e))⟩

/-! ## Alien shots and the player -/

theorem hitAlien_player (s s1 : State) (bi ai : Nat) (sp : Sprite)
    (h : hitAlien s bi ai sp = Except.ok s1) : s1.game.player = s.game.player := by
  unfold hitAlien at h
  rw [bind_eq_ok] at h
  obtain ⟨a, ha, h⟩ := h
  rw [readAlien_eq_ok] at ha
  rw [writeAlien_eq_ok _ _ _ (lt_length_of_getElem? _ _ _ ha), bind_ok_eq, bind_eq_ok] at h
  obtain ⟨g2, hr, h⟩ := h
  have hs1 := (Except.ok.inj h).symm
  have hg := (removeBullet_only _ _ _ hr).2.1
  rw [hs1]
  exact hg

theorem testAlien_player (s s1 : State) (bi ai : Nat)
    (h : testAlien s bi ai = Except.ok (some s1)) : s1.game.player = s.game.player := by
  unfold testAlien at h
  rw [bind_eq_ok] at h
  obtain ⟨a, _, h⟩ := h
  split at h
  · cases h
  · rw [bind_eq_ok] at h
    obtain ⟨sp, _, h⟩ := h
    rw [bind_eq_ok] at h
    obtain ⟨b, _, h⟩ := h
    split at h
    · rw [bind_eq_ok] at h
      obtain ⟨s2, hh, h⟩ := h
      cases h
      exact hitAlien_player s s1 bi ai sp hh
    · cases h

theorem checkHit_player (s s1 : State) (bi : Nat) (ais : List Nat)
    (h : checkHit s bi ais = Except.ok s1) : s1.game.player = s.game.player := by
  induction ais with
  | nil =>
    rw [checkHit] at h
    cases h
    rfl
  | cons ai rest ih =>
    rw [checkHit] at h
    split at h
    · cases h
    · rename_i s2 heq
      cases h
      exact testAlien_player s s1 bi ai heq
    · exact ih h

/-- One pass of the bullet loop leaves the player alone unless it ends in
`break`, and then it has taken one life. -/
theorem simulateBullet_life (s s1 : State) (bi : Nat) (brk : Bool)
    (h : simulateBullet s bi = Except.ok (s1, brk)) :
    (brk = false → s1.game.player = s.game.player) ∧
    (brk = true → s1.game.player
      = { s.game.player with life := sub64 s.game.player.life 1 }) := by
  unfold simulateBullet at h
  rw [bind_eq_ok] at h
  obtain ⟨b, _, h⟩ := h
  rw [bind_eq_ok] at h
  obtain ⟨g1, hw, h⟩ := h
  have h1 := (writeBullet_only _ _ _ _ hw).2.1
  split at h
  · rw [bind_eq_ok] at h
    obtain ⟨g2, hr, h⟩ := h
    have h2 := (removeBullet_only _ _ _ hr).2.1
    have e := Prod.mk.inj (Except.ok.inj h)
    rw [← e.1, ← e.2]
    exact ⟨fun _ => h2.trans h1, fun hf => absurd hf (by decide)⟩
  · split at h
    · split at h
      · rw [bind_eq_ok] at h
        obtain ⟨g2, hr, h⟩ := h
        have h2 := (removeBullet_only _ _ _ hr).2.1
        have e := Prod.mk.inj (Except.ok.inj h)
        rw [← e.1, ← e.2]
        refine ⟨fun hf => absurd hf (by decide), fun _ => ?_⟩
        show g2.player = _
        rw [h2, ← h1]
      · have e := Prod.mk.inj (Except.ok.inj h)
        rw [← e.1, ← e.2]
        exact ⟨fun _ => h1, fun hf => absurd hf (by decide)⟩
    · rw [bind_eq_ok] at h
      obtain ⟨g2, hb, h⟩ := h
      rw [bind_eq_ok] at h
      obtain ⟨s3, hc, h⟩ := h
      have h2 := (bulletVsBullet_only _ _ _ _ _ hb).2.1
      have h3 := checkHit_player _ _ _ _ hc
      have e := Prod.mk.inj (Except.ok.inj h)
      rw [← e.1, ← e.2]
      refine ⟨fun _ => ?_, fun hf => absurd hf (by decide)⟩
      rw [h3]
      exact h2.trans h1

/-- The bullet phase takes at most one life: it leaves the player alone or ends
at the first alien shot that hits, having taken one life. -/
theorem simulateBullets_life (fuel bi : Nat) (s s1 : State)
    (h : simulateBullets fuel bi s = Except.ok s1) :
    s1.game.player = s.game.player ∨
    s1.game.player = { s.game.player with life := sub64 s.game.player.life 1 } := by
  induction fuel generalizing bi s with
  | zero =>
    rw [simulateBullets] at h
    cases h
  | succ fuel ih =>
    rw [simulateBullets] at h
    split at h
    · split at h
      · cases h
      · rename_i s2 heq
        cases h
        exact Or.inr ((simulateBullet_life _ _ _ _ heq).2 rfl)
      · rename_i s2 heq
        have hp := (simulateBullet_life _ _ _ _ heq).1 rfl
        rw [← hp]
        exact ih _ _ h
    · cases h
      exact Or.inl rfl

/-- An alien shot that overlaps the player standing in row 32 is inside the rows
in which shots are kept. -/
theorem overlap_player_in_rows (x y px : Nat) (hy : y < 18446744073709551616)
    (h : sprite_overlap_check alien_bullet_sprite_0 x y player_sprite px 32 = true) :
    ¬ (y ≥ game_height ∨ y < player_bullet_sprite.height) := by
  unfold sprite_overlap_check at h
  split at h
  · rename_i hc
    obtain ⟨_, _, h3, h4⟩ := hc
    have e1 : add64 32 player_sprite.height = 39 := rfl
    have e2 : alien_bullet_sprite_0.height = 7 := rfl
    have e3 : game_height = 256 := rfl
    have e4 : player_bullet_sprite.height = 3 := rfl
    rw [e1] at h3
    rw [e2] at h4
    unfold add64 at h4
    omega
  · cases h

theorem addInt64_lt (a : Nat) (d : Int) : addInt64 a d < 18446744073709551616 := by
  unfold addInt64 wrap64
  omega

/-- The pass of the bullet loop for an alien shot that hits the player. -/
theorem simulateBullet_player_hit (s : State) (i : Nat) (b last : Bullet)
    (hi : i < s.game.num_bullets) (hn : s.game.num_bullets ≤ s.game.bullets.length)
    (hlen : s.game.bullets.length ≤ GAME_MAX_BULLETS)
    (hb : s.game.bullets[i]? = some b) (hdir : b.dir < 0)
    (hrow : s.game.player.y = 32)
    (hlast : (s.game.bullets.set i { b with y := addInt64 b.y b.dir })[s.game.num_bullets - 1]?
      = some last)
    (hover : sprite_overlap_check alien_bullet_sprite_0 b.x (addInt64 b.y b.dir)
      player_sprite s.game.player.x s.game.player.y = true) :
    simulateBullet s i = Except.ok
      ({ s with game := { s.game with
          player := { s.game.player with life := sub64 s.game.player.life 1 }
          bullets := s.game.bullets.set i last
          num_bullets := s.game.num_bullets - 1 } }, true) := by
  have hmax : GAME_MAX_BULLETS = 128 := rfl
  have hil : i < s.game.bullets.length := lt_length_of_getElem? _ _ _ hb
  have hrange : ¬ (addInt64 b.y b.dir ≥ game_height
      ∨ addInt64 b.y b.dir < player_bullet_sprite.height) := by
    rw [hrow] at hover
    exact overlap_player_in_rows _ _ _ (addInt64_lt _ _) hover
  unfold simulateBullet
  rw [(readBullet_eq_ok s.game i b).mpr hb, bind_ok_eq]
  simp only []
  rw [writeBullet_eq_ok _ _ _ hil, bind_ok_eq]
  simp only []
  rw [if_neg hrange, if_pos hdir, if_pos hover,
    removeBullet_eq_ok _ i last (by exact hi.trans_le' (Nat.zero_le _)) (by
      show s.game.num_bullets < 18446744073709551616
      omega) hlast (by
      show i < (s.game.bullets.set i _).length
      rw [List.length_set]
      exact hil), bind_ok_eq, List.set_set]
  rfl

/-- C16. Let the bullet at a live index `i` be an alien shot (`dir < 0`) that,
once advanced, overlaps the player (who stands in row 32, where `main` puts the
ship). Then the pass of the bullet loop for `i` succeeds and ends in `break`, so
the bullet phase started at `i` returns the state of that pass: no later index is
processed. In that state the lives are reduced by 1 (in `size_t`; by exactly 1 if
they were not 0), the count is reduced by 1, the game is the result of the
swap-with-last removal of slot `i`, every other slot of the bullet array is as
before, slot `i` holds the bullet that was last (when `i` was not the last), and
aliens, score and kill counter are unchanged. Moreover any bullet phase leaves
the lives alone or takes exactly one life, and the bullet phase of a tick that
completes starts with lives that are not 0, so it never decrements from 0. -/
theorem alien_shot_hits_player (s : State) (i : Nat) (b : Bullet)
    (hi : i < s.game.num_bullets) (hn : s.game.num_bullets ≤ s.game.bullets.length)
    (hlen : s.game.bullets.length ≤ GAME_MAX_BULLETS)
    (hb : s.game.bullets[i]? = some b) (hdir : b.dir < 0)
    (hrow : s.game.player.y = 32)
    (hover : sprite_overlap_check alien_bullet_sprite_0 b.x (addInt64 b.y b.dir)
      player_sprite s.game.player.x s.game.player.y = true) :
    (∃ s1, simulateBullet s i = Except.ok (s1, true) ∧
      (∀ fuel, simulateBullets (fuel + 1) i s = Except.ok s1) ∧
      s1.game.player.life = sub64 s.game.player.life 1 ∧
      (0 < s.game.player.life → s.game.player.life < 18446744073709551616 →
        s1.game.player.life + 1 = s.game.player.life) ∧
      s1.game.num_bullets + 1 = s.game.num_bullets ∧
      removeBullet
        { s.game with
          bullets := s.game.bullets.set i { b with y := addInt64 b.y b.dir }
          player := { s.game.player with life := sub64 s.game.player.life 1 } } i
        = Except.ok s1.game ∧
      (∀ j, j ≠ i → s1.game.bullets[j]? = s.game.bullets[j]?) ∧
      (i < s.game.num_bullets - 1 →
        s1.game.bullets[i]? = s.game.bullets[s.game.num_bullets - 1]?) ∧
      s1.game.aliens = s.game.aliens ∧ s1.score = s.score ∧
      s1.aliens_killed = s.aliens_killed) ∧
    (∀ (fuel bi : Nat) (t t' : State), simulateBullets fuel bi t = Except.ok t' →
      t'.game.player.life = t.game.player.life ∨
      t'.game.player.life = sub64 t.game.player.life 1) ∧
    (∀ (fuel : Nat) (t t' : State) (evs : List KeyEvent),
      t.game.player.life ≠ 0 → t.game_over = false →
      t.game.player.life < 18446744073709551616 →
      tick fuel t evs = Except.ok t' →
      ∃ t1, simulateBullets (GAME_MAX_BULLETS + 1) 0 t = Except.ok t1 ∧
        (t1.game.player.life = t.game.player.life ∨
          t1.game.player.life + 1 = t.game.player.life)) := by
  have hmax : GAME_MAX_BULLETS = 128 := rfl
  have hil : i < s.game.bullets.length := lt_length_of_getElem? _ _ _ hb
  have hphase : ∀ (fuel bi : Nat) (t t' : State), simulateBullets fuel bi t = Except.ok t' →
      t'.game.player.life = t.game.player.life ∨
      t'.game.player.life = sub64 t.game.player.life 1 := by
    intro fuel bi t t' ht
    rcases simulateBullets_life fuel bi t t' ht with hp | hp
    · exact Or.inl (by rw [hp])
    · exact Or.inr (by rw [hp])
  obtain ⟨last, hlast⟩ := getElem?_of_lt_length
    (s.game.bullets.set i { b with y := addInt64 b.y b.dir }) (s.game.num_bullets - 1)
    (by rw [List.length_set]; omega)
  have hsim := simulateBullet_player_hit s i b last hi hn hlen hb hdir hrow hlast hover
  refine ⟨⟨_, hsim, ?_, rfl, ?_, ?_, ?_, ?_, ?_, rfl, rfl, rfl⟩, hphase, ?_⟩
  · intro fuel
    rw [simulateBullets, if_pos hi, hsim]
  · intro h0 h1
    show sub64 s.game.player.life 1 + 1 = s.game.player.life
    rw [sub64_of_le _ 1 h0 h1]
    omega
  · show s.game.num_bullets - 1 + 1 = s.game.num_bullets
    omega
  · rw [removeBullet_eq_ok _ i last (by exact Nat.lt_of_le_of_lt (Nat.zero_le _) hi) (by
      show s.game.num_bullets < 18446744073709551616
      omega) hlast (by
      show i < (s.game.bullets.set i _).length
      rw [List.length_set]
      exact hil), List.set_set]
  · intro j hj
    show (s.game.bullets.set i last)[j]? = _
    rw [List.getElem?_set_ne (Ne.symm hj)]
  · intro hlt
    show (s.game.bullets.set i last)[i]? = _
    rw [List.getElem?_set_ne (by omega)] at hlast
    rw [List.getElem?_set_eq_of_lt _ hil, hlast]
  · intro fuel t t' evs hl hg hlt ht
    have hf : forceGameOver t = t := by
      unfold forceGameOver
      rw [if_neg (by rw [hg]; decide)]
    unfold tick at ht
    rw [hf, if_neg hl, bind_eq_ok] at ht
    obtain ⟨t4, h4, _⟩ := ht
    unfold playTick at h4
    rw [bind_eq_ok] at h4
    obtain ⟨_, _, h4⟩ := h4
    rw [bind_eq_ok] at h4
    obtain ⟨_, _, h4⟩ := h4
    rw [bind_eq_ok] at h4
    obtain ⟨t1, h1, _⟩ := h4
    refine ⟨t1, h1, ?_⟩
    rcases hphase _ _ _ _ h1 with hp | hp
    · exact Or.inl hp
    · refine Or.inr ?_
      rw [hp, sub64_of_le _ 1 (Nat.pos_of_ne_zero hl) hlt]
      have := Nat.pos_of_ne_zero hl
      omega

set_option maxRecDepth 100000 in
theorem alien_shot_hits_player_witness :
    ∃ s1, simulateBullets (GAME_MAX_BULLETS + 1) 0 playerHitDemo = Except.ok s1 ∧
      s1.game.player.life = 2 ∧ s1.game.num_bullets = 0 := by
  obtain ⟨⟨s1, _, h2, h3, _, h5, _⟩, _, _⟩ :=
    alien_shot_hits_player playerHitDemo 0 { x := 110, y := 40, dir := -2 }
      (by decide) (by decide) (by decide) rfl (by decide) rfl (by decide)
  refine ⟨s1, h2 _, ?_, ?_⟩
  · rw [h3]
    rfl
  · have h6 : s1.game.num_bullets + 1 = 1 := h5
    omega

/-! ## The player's row -/

theorem alienFire_player (fuel : Nat) (s s' : State) (h : alienFire fuel s = Except.ok s') :
    s'.game.player = s.game.player := by
  unfold alienFire at h
  split at h
  · rw [bind_eq_ok] at h
    obtain ⟨d, _, h⟩ := h
    split at h
    · unfold alienShoot at h
      rw [bind_eq_ok] at h
      obtain ⟨alien, _, h⟩ := h
      split at h
      · rw [bind_eq_ok] at h
        obtain ⟨sp, _, h⟩ := h
        rw [bind_eq_ok] at h
        obtain ⟨g1, hw, h⟩ := h
        have hp := (writeBullet_only _ _ _ _ hw).2.1
        have e := (Except.ok.inj h).symm
        rw [e]
        exact hp
      · cases h
    · have e := (Except.ok.inj h).symm
      rw [e]
  · have e := (Except.ok.inj h).symm
    rw [e]

theorem advance_player (fuel : Nat) (s s' : State) (h : advance fuel s = Except.ok s') :
    s'.game.player = s.game.player := by
  unfold advance at h
  split at h
  · rw [alienFire_player _ _ _ h]
    obtain ⟨d, ys, hm⟩ := moveSwarm_eq
      { s with
        move_audio_i := if add64 s.move_audio_i 1 = 4 then 0 else add64 s.move_audio_i 1
        alien_update_timer := 0 }
    rw [hm]
  · have e := (Except.ok.inj h).symm
    rw [e]

theorem progression_row (s s' : State) (h : progression s = Except.ok s') :
    s'.game.player.y = s.game.player.y := by
  unfold progression at h
  split at h
  · rw [(trackBounds_core _ _ h).1]
  · unfold nextWave at h
    rw [layoutAliens_start, bind_ok_eq] at h
    have e := (Except.ok.inj h).symm
    rw [e]
    show (applyReset s).game.player.y = s.game.player.y
    unfold applyReset
    split <;> rfl

theorem playTick_row (fuel : Nat) (s s' : State) (h : playTick fuel s = Except.ok s') :
    s'.game.player.y = s.game.player.y := by
  unfold playTick at h
  rw [bind_eq_ok] at h
  obtain ⟨_, _, h⟩ := h
  rw [bind_eq_ok] at h
  obtain ⟨_, _, h⟩ := h
  rw [bind_eq_ok] at h
  obtain ⟨s1, h1, h⟩ := h
  rw [bind_eq_ok] at h
  obtain ⟨s2, h2, h⟩ := h
  rw [bind_eq_ok] at h
  obtain ⟨s3, h3, h⟩ := h
  have r1 : s1.game.player.y = s.game.player.y := by
    rcases simulateBullets_life _ _ _ _ h1 with hp | hp <;> rw [hp]
  have r2 : (updateDeathCounters (changeSpeed s1)).game.player.y = s1.game.player.y := by
    show (changeSpeed s1).game.player.y = _
    rw [(changeSpeed_core s1).1]
  have r3 : s2.game.player.y = (updateDeathCounters (changeSpeed s1)).game.player.y := by
    rw [advance_player _ _ _ h2]
  have r4 : (simulatePlayer (updateAnimations s2)).game.player.y = s2.game.player.y := by
    obtain ⟨pmd, x, hx⟩ := simulatePlayer_eq (updateAnimations s2)
    rw [hx]
    rfl
  have r5 := progression_row _ _ h3
  have r6 : s'.game.player.y = s3.game.player.y := by
    have hf := processFire_frame _ _ h
    unfold FireFrame at hf
    rw [hf]
  rw [r6, r5, r4, r3, r2, r1]

theorem tick_row (fuel : Nat) (s s' : State) (evs : List KeyEvent)
    (h : tick fuel s evs = Except.ok s') : s'.game.player.y = s.game.player.y := by
  obtain ⟨life, hf⟩ := forceGameOver_eq s
  have hfy : (forceGameOver s).game.player.y = s.game.player.y := by rw [hf]
  unfold tick at h
  split at h
  · have e := (Except.ok.inj h).symm
    rw [e, (gameOverTick_fields _ evs).2.2.2.2.1, hfy]
  · rw [bind_eq_ok] at h
    obtain ⟨s4, h4, h⟩ := h
    have e := (Except.ok.inj h).symm
    rw [e, (glfwPollEvents_core s4 evs).1, playTick_row _ _ _ h4, hfy]

/-- The ship never leaves row 32. -/
theorem reachable_player_row {s : State} (h : Reachable s) : s.game.player.y = 32 := by
  induction h with
  | start hs bullets s _ _ h0 =>
    rw [initialState_eq] at h0
    have e := (Except.ok.inj h0).symm
    rw [e]
    rfl
  | step fuel s s' evs _ ht ih =>
    rw [tick_row fuel s s' evs ht]
    exact ih

/-! ## Runs of several ticks

The two loops over the 55 aliens dominate the evaluation of a tick. Each gets
a cheap test under which it is known to do nothing; `tickQuick` is the tick with
the loops skipped when their test holds, and equals `tick`. -/

theorem drawAlien_of_guard (s : State) (h : drawGuard s = true) (ai : Nat)
    (hai : ai < num_aliens) : drawAlien s ai = Except.ok () := by
  unfold drawGuard at h
  simp only [Bool.and_eq_true, decide_eq_true_eq, List.all_eq_true] at h
  obtain ⟨⟨⟨⟨hla, hld⟩, hfd⟩, hfr⟩, hty⟩ := h
  obtain ⟨dc, hdc⟩ := getElem?_of_lt_length s.death_counters ai (by omega)
  obtain ⟨alien, hal⟩ := getElem?_of_lt_length s.game.aliens ai (by omega)
  have hmem : alien ∈ s.game.aliens := List.getElem?_mem hal
  have ht : alien.type ≤ 3 := hty alien hmem
  unfold drawAlien
  rw [hdc]
  simp only []
  by_cases h0 : dc = 0
  · rw [if_pos h0]
  · rw [if_neg h0, (readAlien_eq_ok s.game ai alien).mpr hal]
    simp only []
    by_cases hd : alien.type = ALIEN_DEAD
    · rw [if_pos hd]
    · rw [if_neg hd]
      have hd0 : alien.type ≠ 0 := hd
      have hsub : sub64 alien.type 1 = alien.type - 1 :=
        sub64_of_le _ 1 (by omega) (by omega)
      have hfs : ∃ sp, alienFrameSprite s alien.type = Except.ok sp := by
        unfold alienFrameSprite
        rw [hsub, if_pos (by omega), if_neg hfd, if_pos hfr]
        unfold alienSprite
        obtain ⟨sp, hsp⟩ := getElem?_of_lt_length alien_sprites
          (2 * (alien.type - 1)
            + s.alien_animation.time / s.alien_animation.frame_duration)
          (by
            have hl : alien_sprites.length = 6 := rfl
            omega)
        rw [hsp]
        exact ⟨sp, rfl⟩
      obtain ⟨sp, hsp⟩ := hfs
      rw [hsp]

theorem drawAliens_of_guard (s : State) (h : drawGuard s = true) (ais : List Nat)
    (hais : ∀ ai, ai ∈ ais → ai < num_aliens) : drawAliens s ais = Except.ok () := by
  induction ais with
  | nil => rfl
  | cons ai rest ih =>
    rw [drawAliens, drawAlien_of_guard s h ai (hais ai (List.mem_cons_self ai rest))]
    exact ih (fun a ha => hais a (List.mem_cons_of_mem ai ha))

theorem drawAliensQuick_eq (s : State) :
    drawAliensQuick s = drawAliens s (List.range num_aliens) := by
  unfold drawAliensQuick
  split
  · rename_i h
    rw [drawAliens_of_guard s h _ (fun ai hai => List.mem_range.mp hai)]
  · rfl

/-- The frames of an alien type in 1..3 are 8 high and `typeWidth` wide. -/
theorem alienFrameSprite_box (s : State) (t : Nat) (h0 : t ≠ 0) (h3 : t ≤ 3)
    (hfd : s.alien_animation.frame_duration ≠ 0)
    (hfr : s.alien_animation.time / s.alien_animation.frame_duration < 2) :
    ∃ sp, alienFrameSprite s t = Except.ok sp ∧ sp.width = typeWidth t ∧ sp.height = 8 := by
  have hsub : sub64 t 1 = t - 1 := sub64_of_le _ 1 (by omega) (by omega)
  unfold alienFrameSprite
  rw [hsub, if_pos (by omega), if_neg hfd, if_pos hfr]
  generalize s.alien_animation.time / s.alien_animation.frame_duration = f at hfr
  have ht : t = 1 ∨ t = 2 ∨ t = 3 := by omega
  have hf : f = 0 ∨ f = 1 := by omega
  rcases ht with ht | ht | ht <;> rcases hf with hf | hf <;> subst ht <;> subst hf <;>
    exact ⟨_, rfl, rfl, rfl⟩

theorem sprite_overlap_check_box (sp_a sp_b sp_c : Sprite) (x_a y_a x_b y_b : Nat)
    (hw : sp_b.width = sp_c.width) (hh : sp_b.height = sp_c.height) :
    sprite_overlap_check sp_a x_a y_a sp_b x_b y_b
      = sprite_overlap_check sp_a x_a y_a sp_c x_b y_b := by
  unfold sprite_overlap_check
  rw [hw, hh]

theorem testAlien_of_guard (s : State) (bi : Nat) (h : missGuard s bi = true) (ai : Nat)
    (hai : ai < num_aliens) : testAlien s bi ai = Except.ok none := by
  unfold missGuard at h
  split at h
  · cases h
  · rename_i b hb
    simp only [Bool.and_eq_true, decide_eq_true_eq, List.all_eq_true, Bool.or_eq_true,
      Bool.not_eq_true'] at h
    obtain ⟨⟨⟨hla, hfd⟩, hfr⟩, hty⟩ := h
    obtain ⟨alien, hal⟩ := getElem?_of_lt_length s.game.aliens ai (by omega)
    have hmem : alien ∈ s.game.aliens := List.getElem?_mem hal
    unfold testAlien
    rw [(readAlien_eq_ok s.game ai alien).mpr hal, bind_ok_eq]
    rcases hty alien hmem with hd | ⟨ht, hov⟩
    · rw [if_pos hd]
      rfl
    · by_cases hd : alien.type = ALIEN_DEAD
      · rw [if_pos hd]
        rfl
      · rw [if_neg hd]
        obtain ⟨sp, hfs, hw, hh⟩ := alienFrameSprite_box s alien.type hd ht hfd hfr
        rw [← sprite_overlap_check_box player_bullet_sprite sp _ b.x b.y alien.x alien.y
          hw hh] at hov
        rw [hfs, bind_ok_eq, (readBullet_eq_ok s.game bi b).mpr hb, bind_ok_eq, hov]
        rfl

theorem checkHit_of_guard (s : State) (bi : Nat) (h : missGuard s bi = true) (ais : List Nat)
    (hais : ∀ ai, ai ∈ ais → ai < num_aliens) : checkHit s bi ais = Except.ok s := by
  induction ais with
  | nil => rfl
  | cons ai rest ih =>
    rw [checkHit, testAlien_of_guard s bi h ai (hais ai (List.mem_cons_self ai rest))]
    exact ih (fun a ha => hais a (List.mem_cons_of_mem ai ha))

theorem checkHitQuick_eq (s : State) (bi : Nat) :
    checkHitQuick s bi = checkHit s bi (List.range num_aliens) := by
  unfold checkHitQuick
  split
  · rename_i h
    rw [checkHit_of_guard s bi h _ (fun ai hai => List.mem_range.mp hai)]
  · rfl

theorem simulateBulletQuick_eq (s : State) (bi : Nat) :
    simulateBulletQuick s bi = simulateBullet s bi := by
  unfold simulateBulletQuick simulateBullet
  simp only [checkHitQuick_eq]

theorem simulateBulletsQuick_eq (fuel bi : Nat) (s : State) :
    simulateBulletsQuick fuel bi s = simulateBullets fuel bi s := by
  induction fuel generalizing bi s with
  | zero => rfl
  | succ fuel ih =>
    rw [simulateBulletsQuick, simulateBullets, simulateBulletQuick_eq]
    by_cases hb : bi < s.game.num_bullets
    · rw [if_pos hb, if_pos hb]
      cases simulateBullet s bi with
      | error e => rfl
      | ok p =>
        obtain ⟨s1, brk⟩ := p
        cases brk
        · exact ih _ _
        · rfl
    · rw [if_neg hb, if_neg hb]

theorem tickQuick_eq (fuel : Nat) (s : State) (evs : List KeyEvent) :
    tickQuick fuel s evs = tick fuel s evs := by
  unfold tickQuick tick playTick
  rw [drawAliensQuick_eq, simulateBulletsQuick_eq]

/-- A run of ticks leads from reachable states to reachable states. -/
theorem reachable_of_runTicks (fuel : Nat) (evss : List (List KeyEvent)) (s s' : State)
    (hs : Reachable s) (h : runTicks fuel s evss = some s') : Reachable s' := by
  induction evss generalizing s with
  | nil =>
    rw [runTicks] at h
    rw [← Option.some.inj h]
    exact hs
  | cons evs rest ih =>
    rw [runTicks] at h
    split at h
    · rename_i s1 h1
      rw [tickQuick_eq] at h1
      exact ih s1 (Reachable.step fuel s s1 evs hs h1) h
    · cases h

/-! ## A player shot that meets an alien shot next to an alien -/

theorem eq_error_of_faultOf {α : Type} {x : Except Fault α} {f : Fault}
    (h : faultOf x = some f) : x = Except.error f := by
  cases x with
  | error e =>
    rw [Option.some.inj h]
  | ok a => cases h

theorem eq_ok_of_toOption {α : Type} {x : Except Fault α} {a : α}
    (h : x.toOption = some a) : x = Except.ok a := by
  cases x with
  | error e => cases h
  | ok b =>
    rw [Option.some.inj h]

set_option maxRecDepth 1000000 in
theorem collisionState_run :
    runTicks 1 (startState 0 zeroBullets) collisionTrace = some collisionState := by
  decide!

theorem collisionState_reachable : Reachable collisionState :=
  reachable_of_runTicks 1 collisionTrace _ _
    (Reachable.start 0 zeroBullets _ (by decide) (List.length_replicate 128 _)
      (initialState_eq 0 _))
    collisionState_run

set_option maxRecDepth 1000000 in
theorem crossfireState_run :
    runTicks 1 (startState 0 zeroBullets) crossfireTrace = some crossfireState := by
  decide!

theorem crossfireState_reachable : Reachable crossfireState :=
  reachable_of_runTicks 1 crossfireTrace _ _
    (Reachable.start 0 zeroBullets _ (by decide) (List.length_replicate 128 _)
      (initialState_eq 0 _))
    crossfireState_run

set_option maxRecDepth 1000000 in
/-- C17, failing input. The state `crossfireState` is reached from start-up by
121 ticks of play and has three live bullets, no score and no kill. In the next
bullet phase the pass for slot 0 only advances that shot. In the pass for slot 1,
the ship's shot, the bullet-vs-bullet loop finds the alien shot of slot 2 and
removes the pair, which leaves one live bullet; the hit test runs all the same,
on the slot of the removed shot, and finds the alien of column 0, row 0: the pass
ends with that alien dead, 10 points, one kill and no live bullet, so the shot of
slot 0, still on the playfield, is gone as well. The tick ends the same way. -/
theorem hit_test_after_pair_removal :
    Reachable crossfireState ∧
    crossfireState.game.num_bullets = 3 ∧ crossfireState.score = 0 ∧
    crossfireState.aliens_killed = 0 ∧
    (simulateBullet crossfireState 0).toOption = some (crossfireMid, false) ∧
    (bulletVsBullet (GAME_MAX_BULLETS + 1) 0 1
        { crossfireMid.game with
          bullets := crossfireMid.game.bullets.set 1 { x := 36, y := 127, dir := 2 } }
      ).toOption.map (fun g => g.num_bullets) = some 1 ∧
    (simulateBullet crossfireMid 1).toOption.map
        (fun r => (r.1.game.num_bullets, r.1.score, r.1.aliens_killed,
          r.1.game.aliens[0]?.map (fun a => a.type), r.2))
      = some (0, 10, 1, some ALIEN_DEAD, false) ∧
    (tick 1 crossfireState []).toOption.map
        (fun s => (s.game.num_bullets, s.score, s.aliens_killed))
      = some (0, 10, 1) := by
  refine ⟨crossfireState_reachable, rfl, rfl, rfl, ?_, ?_, ?_, ?_⟩
  · decide!
  · decide!
  · decide!
  · decide!

set_option maxRecDepth 1000000 in
/-- C19, failing input. The state `collisionState` is reached from start-up by
121 ticks of play and has two live bullets. In the next tick the ship's shot in
slot 0 overlaps the alien shot in slot 1 and the alien above both. The
bullet-vs-bullet loop removes the pair and leaves the count at 0; the hit test
then finds the alien and removes the bullet once more, which reads
`game.bullets[game.num_bullets - 1]` with the count at 0, that is index
`2 ^ 64 - 1`: the tick ends in an access outside the bullet array, for every
iteration budget and every list of events. -/
theorem bullet_index_leaves_array :
    Reachable collisionState ∧ collisionState.game.num_bullets = 2 ∧
    (bulletVsBullet (GAME_MAX_BULLETS + 1) 0 0
        { collisionState.game with
          bullets := collisionState.game.bullets.set 0 { x := 36, y := 127, dir := 2 } }
      ).toOption.map (fun g => (g.num_bullets, g.bullets.length)) = some (0, 128) ∧
    sub64 0 1 = 18446744073709551615 ∧ ¬ (sub64 0 1 < GAME_MAX_BULLETS) ∧
    (∀ (g : Game) (bi : Nat), g.num_bullets = 0 → g.bullets.length = GAME_MAX_BULLETS →
      removeBullet g bi = Except.error Fault.outOfBounds) ∧
    (∀ (fuel : Nat) (evs : List KeyEvent),
      tick fuel collisionState evs = Except.error Fault.outOfBounds) := by
  refine ⟨collisionState_reachable, rfl, by decide!, by decide, by decide, ?_, ?_⟩
  · intro g bi h0 hl
    unfold removeBullet readBullet
    rw [h0, List.getElem?_eq_none (by rw [hl]; decide)]
    rfl
  · intro fuel evs
    have hd : drawAliens collisionState (List.range num_aliens) = Except.ok () :=
      eq_ok_of_toOption (by decide!)
    have hb : drawBullets collisionState (GAME_MAX_BULLETS + 1) 0 = Except.ok () :=
      eq_ok_of_toOption (by decide!)
    have hs : simulateBullets (GAME_MAX_BULLETS + 1) 0 collisionState
        = Except.error Fault.outOfBounds :=
      eq_error_of_faultOf (by decide!)
    have hf : forceGameOver collisionState = collisionState := rfl
    unfold tick
    rw [hf, if_neg (by decide), playTick, hd, bind_ok_eq, hb, bind_ok_eq, hs]
    rfl

/-! ## The alien that fires -/

theorem pickAlien_past_end (fuel : Nat) (aliens : List Alien) (h : aliens.length = num_aliens) :
    pickAlien (fuel + 1) 1584200935 aliens = Except.error Fault.outOfBounds := by
  have hnone : aliens[55]? = none := List.getElem?_eq_none (by rw [h]; decide)
  rw [pickAlien]
  simp only [randomAlienIndex_max, hnone]

theorem alienFire_past_end (fuel : Nat) (s : State) (hk : s.aliens_killed < num_aliens)
    (hr : s.rng = 1584200935) (hl : s.game.aliens.length = num_aliens) :
    alienFire (fuel + 1) s = Except.error Fault.outOfBounds := by
  unfold alienFire
  rw [if_pos hk, hr, pickAlien_past_end fuel _ hl]
  rfl

set_option maxRecDepth 1000000 in
/-- C18, failing input. In `fireDemo` an advance is due, no alien has been killed
and the generator word is a nonzero 32-bit word. The index drawn for the alien
that fires is 55, which is not below `num_aliens`: the selection loop reads
`game.aliens[55]`, outside the array of 55 aliens, and the tick ends in that
access for every iteration budget of at least one draw and every list of events. -/
theorem alien_index_past_end :
    fireDemo.aliens_killed < num_aliens ∧
    fireDemo.rng ≠ 0 ∧ fireDemo.rng < 4294967296 ∧
    fireDemo.alien_update_timer ≥ fireDemo.alien_update_frequency ∧
    fireDemo.game.aliens.length = num_aliens ∧
    (randomAlienIndex fireDemo.rng).1 = 55 ∧
    ¬ ((randomAlienIndex fireDemo.rng).1 < num_aliens) ∧
    (∀ fuel : Nat, pickAlien (fuel + 1) fireDemo.rng fireDemo.game.aliens
      = Except.error Fault.outOfBounds) ∧
    (∀ (fuel : Nat) (evs : List KeyEvent),
      tick (fuel + 1) fireDemo evs = Except.error Fault.outOfBounds) := by
  have hidx : (randomAlienIndex fireDemo.rng).1 = 55 := by
    show (randomAlienIndex 1584200935).1 = 55
    rw [randomAlienIndex_max]
  refine ⟨by decide, by decide, by decide, by decide, rfl, hidx, ?_, ?_, ?_⟩
  · rw [hidx]
    decide
  · intro fuel
    exact pickAlien_past_end fuel _ rfl
  · intro fuel evs
    have hd : drawAliens fireDemo (List.range num_aliens) = Except.ok () :=
      eq_ok_of_toOption (by decide!)
    have hb : drawBullets fireDemo (GAME_MAX_BULLETS + 1) 0 = Except.ok () :=
      eq_ok_of_toOption (by decide!)
    have hs : simulateBullets (GAME_MAX_BULLETS + 1) 0 fireDemo = Except.ok fireDemo :=
      eq_ok_of_toOption (by decide!)
    have hf : forceGameOver fireDemo = fireDemo := rfl
    have ha : advance (fuel + 1) (updateDeathCounters (changeSpeed fireDemo))
        = Except.error Fault.outOfBounds := by
      unfold advance
      rw [if_pos (by decide)]
      exact alienFire_past_end fuel _ (by decide) (by decide) (by decide)
    unfold tick
    rw [hf, if_neg (by decide), playTick, hd, bind_ok_eq, hb, bind_ok_eq, hs, bind_ok_eq, ha]
    rfl

/-! ## The bullet count on ticks that complete -/

theorem writeBullet_count (g g' : Game) (i : Nat) (b : Bullet)
    (h : writeBullet g i b = Except.ok g') :
    g'.num_bullets = g.num_bullets ∧ g'.bullets.length = g.bullets.length ∧
    i < g.bullets.length := by
  unfold writeBullet at h
  split at h
  · rename_i hi
    have e := (Except.ok.inj h).symm
    rw [e]
    exact ⟨rfl, List.length_set _ _ _, hi⟩
  · cases h

theorem removeBullet_count (g g' : Game) (bi : Nat)
    (h : removeBullet g bi = Except.ok g') (hinv : CountInv g) :
    g'.num_bullets + 1 = g.num_bullets ∧ CountInv g' := by
  have hmax : GAME_MAX_BULLETS = 128 := rfl
  obtain ⟨hn, hl⟩ := hinv
  unfold removeBullet at h
  rw [bind_eq_ok] at h
  obtain ⟨last, hr, h⟩ := h
  rw [bind_eq_ok] at h
  obtain ⟨g1, hw, h⟩ := h
  have hlt := lt_length_of_getElem? _ _ _ ((readBullet_eq_ok _ _ _).mp hr)
  obtain ⟨_, w2, _⟩ := writeBullet_count _ _ _ _ hw
  have e := (Except.ok.inj h).symm
  have hsub : sub64 g.num_bullets 1 + 1 = g.num_bullets := by
    unfold sub64 at hlt ⊢
    omega
  rw [e]
  refine ⟨hsub, ?_, ?_⟩
  · show sub64 g.num_bullets 1 ≤ GAME_MAX_BULLETS
    omega
  · show g1.bullets.length = GAME_MAX_BULLETS
    rw [w2, hl]

theorem pairRemove_count (g g' : Game) (bi bj : Nat) (hinv : CountInv g)
    (h : pairRemove g bi bj = Except.ok g') :
    g'.num_bullets + 2 = g.num_bullets ∧ CountInv g' := by
  have hmax : GAME_MAX_BULLETS = 128 := rfl
  obtain ⟨hn, hl⟩ := hinv
  unfold pairRemove at h
  simp only [] at h
  rw [bind_eq_ok] at h
  obtain ⟨g1, hm, h⟩ := h
  have e := (Except.ok.inj h).symm
  have key : g1.num_bullets = g.num_bullets ∧ g1.bullets.length = g.bullets.length ∧
      sub64 g.num_bullets 2 < g.bullets.length := by
    split at hm
    · rw [bind_eq_ok] at hm
      obtain ⟨v, hr, hw⟩ := hm
      obtain ⟨w1, w2, _⟩ := writeBullet_count _ _ _ _ hw
      exact ⟨w1, w2, lt_length_of_getElem? _ _ _ ((readBullet_eq_ok _ _ _).mp hr)⟩
    · split at hm
      · rw [bind_eq_ok] at hm
        obtain ⟨v, hr, hw⟩ := hm
        obtain ⟨w1, w2, _⟩ := writeBullet_count _ _ _ _ hw
        exact ⟨w1, w2, lt_length_of_getElem? _ _ _ ((readBullet_eq_ok _ _ _).mp hr)⟩
      · rw [bind_eq_ok] at hm
        obtain ⟨v1, _, hm⟩ := hm
        rw [bind_eq_ok] at hm
        obtain ⟨g2, hw1, hm⟩ := hm
        rw [bind_eq_ok] at hm
        obtain ⟨v2, hr2, hw2⟩ := hm
        obtain ⟨a1, a2, _⟩ := writeBullet_count _ _ _ _ hw1
        obtain ⟨b1, b2, _⟩ := writeBullet_count _ _ _ _ hw2
        have hlt := lt_length_of_getElem? _ _ _ ((readBullet_eq_ok _ _ _).mp hr2)
        rw [a1, a2] at hlt
        exact ⟨b1.trans a1, b2.trans a2, hlt⟩
  obtain ⟨k1, k2, k3⟩ := key
  have hsub : sub64 g.num_bullets 2 + 2 = g.num_bullets := by
    unfold sub64 at k3 ⊢
    omega
  rw [e]
  refine ⟨?_, ?_, ?_⟩
  · show sub64 g1.num_bullets 2 + 2 = g.num_bullets
    rw [k1]
    exact hsub
  · show sub64 g1.num_bullets 2 ≤ GAME_MAX_BULLETS
    rw [k1]
    omega
  · show g1.bullets.length = GAME_MAX_BULLETS
    rw [k2, hl]

theorem bulletVsBullet_count (fuel bj bi : Nat) (g g' : Game) (hinv : CountInv g)
    (h : bulletVsBullet fuel bj bi g = Except.ok g') :
    g'.num_bullets ≤ g.num_bullets ∧ CountInv g' := by
  induction fuel generalizing bj with
  | zero =>
    rw [bulletVsBullet] at h
    cases h
  | succ fuel ih =>
    rw [bulletVsBullet] at h
    split at h
    · split at h
      · exact ih _ h
      · rw [bind_eq_ok] at h
        obtain ⟨a, _, h⟩ := h
        rw [bind_eq_ok] at h
        obtain ⟨b, _, h⟩ := h
        split at h
        · obtain ⟨c1, c2⟩ := pairRemove_count _ _ _ _ hinv h
          exact ⟨by omega, c2⟩
        · exact ih _ h
    · cases h
      exact ⟨Nat.le_refl _, hinv⟩

theorem hitAlien_count (s s1 : State) (bi ai : Nat) (sp : Sprite) (hinv : CountInv s.game)
    (h : hitAlien s bi ai sp = Except.ok s1) :
    s1.game.num_bullets ≤ s.game.num_bullets ∧ CountInv s1.game := by
  unfold hitAlien at h
  rw [bind_eq_ok] at h
  obtain ⟨a, ha, h⟩ := h
  rw [readAlien_eq_ok] at ha
  rw [writeAlien_eq_ok _ _ _ (lt_length_of_getElem? _ _ _ ha), bind_ok_eq, bind_eq_ok] at h
  obtain ⟨g2, hr, h⟩ := h
  have hs1 := (Except.ok.inj h).symm
  obtain ⟨c1, c2⟩ := removeBullet_count _ _ _ hr ⟨hinv.1, hinv.2⟩
  rw [hs1]
  refine ⟨?_, c2⟩
  show g2.num_bullets ≤ s.game.num_bullets
  have c3 : g2.num_bullets + 1 = s.game.num_bullets := c1
  omega

theorem checkHit_count (s s1 : State) (bi : Nat) (ais : List Nat) (hinv : CountInv s.game)
    (h : checkHit s bi ais = Except.ok s1) :
    s1.game.num_bullets ≤ s.game.num_bullets ∧ CountInv s1.game := by
  induction ais with
  | nil =>
    rw [checkHit] at h
    cases h
    exact ⟨Nat.le_refl _, hinv⟩
  | cons ai rest ih =>
    rw [checkHit] at h
    split at h
    · cases h
    · rename_i s2 heq
      cases h
      unfold testAlien at heq
      rw [bind_eq_ok] at heq
      obtain ⟨a, _, heq⟩ := heq
      split at heq
      · cases heq
      · rw [bind_eq_ok] at heq
        obtain ⟨sp, _, heq⟩ := heq
        rw [bind_eq_ok] at heq
        obtain ⟨b, _, heq⟩ := heq
        split at heq
        · rw [bind_eq_ok] at heq
          obtain ⟨s2, hh, heq⟩ := heq
          cases heq
          exact hitAlien_count s s1 bi ai sp hinv hh
        · cases heq
    · exact ih h

theorem simulateBullet_count (s s1 : State) (bi : Nat) (brk : Bool) (hinv : CountInv s.game)
    (h : simulateBullet s bi = Except.ok (s1, brk)) :
    s1.game.num_bullets ≤ s.game.num_bullets ∧ CountInv s1.game := by
  unfold simulateBullet at h
  rw [bind_eq_ok] at h
  obtain ⟨b, _, h⟩ := h
  rw [bind_eq_ok] at h
  obtain ⟨g1, hw, h⟩ := h
  obtain ⟨w1, w2, _⟩ := writeBullet_count _ _ _ _ hw
  have hinv1 : CountInv g1 := ⟨by rw [w1]; exact hinv.1, by rw [w2]; exact hinv.2⟩
  split at h
  · rw [bind_eq_ok] at h
    obtain ⟨g2, hr, h⟩ := h
    obtain ⟨c1, c2⟩ := removeBullet_count _ _ _ hr hinv1
    have e := (Prod.mk.inj (Except.ok.inj h)).1
    rw [← e]
    exact ⟨by show g2.num_bullets ≤ s.game.num_bullets; omega, c2⟩
  · split at h
    · split at h
      · rw [bind_eq_ok] at h
        obtain ⟨g2, hr, h⟩ := h
        obtain ⟨c1, c2⟩ := removeBullet_count _ _ _ hr ⟨hinv1.1, hinv1.2⟩
        have c3 : g2.num_bullets + 1 = g1.num_bullets := c1
        have e := (Prod.mk.inj (Except.ok.inj h)).1
        rw [← e]
        exact ⟨by show g2.num_bullets ≤ s.game.num_bullets; omega, c2⟩
      · have e := (Prod.mk.inj (Except.ok.inj h)).1
        rw [← e]
        exact ⟨by show g1.num_bullets ≤ s.game.num_bullets; omega, hinv1⟩
    · rw [bind_eq_ok] at h
      obtain ⟨g2, hb, h⟩ := h
      rw [bind_eq_ok] at h
      obtain ⟨s3, hc, h⟩ := h
      obtain ⟨c1, c2⟩ := bulletVsBullet_count _ _ _ _ _ hinv1 hb
      obtain ⟨d1, d2⟩ := checkHit_count _ _ _ _ (show CountInv _ from c2) hc
      have d3 : s3.game.num_bullets ≤ g2.num_bullets := d1
      have e := (Prod.mk.inj (Except.ok.inj h)).1
      rw [← e]
      exact ⟨by omega, d2⟩

theorem simulateBullets_count (fuel bi : Nat) (s s1 : State) (hinv : CountInv s.game)
    (h : simulateBullets fuel bi s = Except.ok s1) :
    s1.game.num_bullets ≤ s.game.num_bullets ∧ CountInv s1.game := by
  induction fuel generalizing bi s with
  | zero =>
    rw [simulateBullets] at h
    cases h
  | succ fuel ih =>
    rw [simulateBullets] at h
    split at h
    · split at h
      · cases h
      · rename_i s2 heq
        cases h
        exact simulateBullet_count _ _ _ _ hinv heq
      · rename_i s2 heq
        obtain ⟨c1, c2⟩ := simulateBullet_count _ _ _ _ hinv heq
        obtain ⟨d1, d2⟩ := ih _ _ c2 h
        exact ⟨by omega, d2⟩
    · cases h
      exact ⟨Nat.le_refl _, hinv⟩

/-- What the alien fire step does: the index drawn last is inside the alien array
and names a living alien; if the bullet array has room, one bullet with direction
-2 is written to the first free slot, below the middle of that alien's base sprite,
and the count grows by 1; otherwise the game is unchanged. -/
theorem alienFire_effect (fuel : Nat) (s s' : State) (hk : s.aliens_killed < num_aliens)
    (h : alienFire fuel s = Except.ok s') :
    ∃ rai rng' alien, pickAlien fuel s.rng s.game.aliens = Except.ok (rai, rng') ∧
      s.game.aliens[rai]? = some alien ∧ rai < s.game.aliens.length ∧
      alien.type ≠ ALIEN_DEAD ∧ s'.rng = rng' ∧ s'.game.aliens = s.game.aliens ∧
      (s.game.num_bullets < GAME_MAX_BULLETS →
        ∃ sp, alienSprite (2 * sub64 alien.type 1) = Except.ok sp ∧
          s'.game.num_bullets = add64 s.game.num_bullets 1 ∧
          s'.game.bullets = s.game.bullets.set s.game.num_bullets
            { x := add64 alien.x (sp.width / 2)
              y := sub64 alien.y alien_bullet_sprite_0.height
              dir := -2 }) ∧
      (¬ s.game.num_bullets < GAME_MAX_BULLETS → s'.game = s.game) := by
  have hpick : ∀ (fuel rng : Nat) (aliens : List Alien) (d : Nat × Nat),
      pickAlien fuel rng aliens = Except.ok d →
      ∃ alien, aliens[d.1]? = some alien ∧ alien.type ≠ ALIEN_DEAD := by
    intro fuel
    induction fuel with
    | zero =>
      intro rng aliens d hd
      rw [pickAlien] at hd
      cases hd
    | succ fuel ih =>
      intro rng aliens d hd
      rw [pickAlien] at hd
      split at hd
      · cases hd
      · rename_i alien hal
        split at hd
        · exact ih _ _ _ hd
        · rename_i hlive
          have e := (Except.ok.inj hd).symm
          rw [e]
          exact ⟨alien, hal, hlive⟩
  unfold alienFire at h
  rw [if_pos hk, bind_eq_ok] at h
  obtain ⟨d, hd, h⟩ := h
  obtain ⟨alien, hal, hlive⟩ := hpick _ _ _ _ hd
  refine ⟨d.1, d.2, alien, hd, hal, lt_length_of_getElem? _ _ _ hal, hlive, ?_⟩
  by_cases hroom : s.game.num_bullets < GAME_MAX_BULLETS
  · rw [if_pos hroom] at h
    unfold alienShoot at h
    rw [(readAlien_eq_ok _ _ _).mpr (show ({ s with rng := d.2 } : State).game.aliens[d.1]?
      = some alien from hal), bind_ok_eq] at h
    split at h
    · rw [bind_eq_ok] at h
      obtain ⟨sp, hsp, h⟩ := h
      rw [bind_eq_ok] at h
      obtain ⟨g1, hw, h⟩ := h
      have e := (Except.ok.inj h).symm
      unfold writeBullet at hw
      split at hw
      · have eg := (Except.ok.inj hw).symm
        rw [e, eg]
        exact ⟨rfl, rfl, fun _ => ⟨sp, hsp, rfl, rfl⟩, fun hn => absurd hroom hn⟩
      · cases hw
    · cases h
  · rw [if_neg hroom] at h
    have e := (Except.ok.inj h).symm
    rw [e]
    exact ⟨rfl, rfl, fun hr => absurd hr hroom, fun _ => rfl⟩

theorem alienFire_count (fuel : Nat) (s s' : State) (hinv : CountInv s.game)
    (h : alienFire fuel s = Except.ok s') : CountInv s'.game := by
  have hmax : GAME_MAX_BULLETS = 128 := rfl
  by_cases hk : s.aliens_killed < num_aliens
  · obtain ⟨rai, rng', alien, _, _, _, _, _, _, h1, h2⟩ := alienFire_effect fuel s s' hk h
    by_cases hroom : s.game.num_bullets < GAME_MAX_BULLETS
    · obtain ⟨sp, _, hn, hb⟩ := h1 hroom
      refine ⟨?_, ?_⟩
      · rw [hn]
        unfold add64
        omega
      · rw [hb, List.length_set]
        exact hinv.2
    · rw [h2 hroom]
      exact hinv
  · unfold alienFire at h
    rw [if_neg hk] at h
    have e := (Except.ok.inj h).symm
    rw [e]
    exact hinv

theorem advance_count (fuel : Nat) (s s' : State) (hinv : CountInv s.game)
    (h : advance fuel s = Except.ok s') : CountInv s'.game := by
  unfold advance at h
  split at h
  · refine alienFire_count _ _ _ ?_ h
    obtain ⟨d, ys, hm⟩ := moveSwarm_eq
      { s with
        move_audio_i := if add64 s.move_audio_i 1 = 4 then 0 else add64 s.move_audio_i 1
        alien_update_timer := 0 }
    rw [hm]
    exact hinv
  · have e := (Except.ok.inj h).symm
    rw [e]
    exact hinv

theorem progression_count (s s' : State) (hinv : CountInv s.game)
    (h : progression s = Except.ok s') : CountInv s'.game := by
  unfold progression at h
  split at h
  · rw [(trackBounds_core _ _ h).1]
    exact hinv
  · unfold nextWave at h
    rw [layoutAliens_start, bind_ok_eq] at h
    have e := (Except.ok.inj h).symm
    rw [e]
    refine ⟨Nat.zero_le _, ?_⟩
    show (applyReset s).game.bullets.length = GAME_MAX_BULLETS
    unfold applyReset
    split
    · exact hinv.2
    · exact hinv.2

theorem processFire_count (s s' : State) (hinv : CountInv s.game)
    (h : processFire s = Except.ok s') : CountInv s'.game := by
  have hmax : GAME_MAX_BULLETS = 128 := rfl
  unfold processFire at h
  split at h
  · rename_i hc
    rw [bind_eq_ok] at h
    obtain ⟨g1, hw, h⟩ := h
    obtain ⟨w1, w2, _⟩ := writeBullet_count _ _ _ _ hw
    have e := (Except.ok.inj h).symm
    rw [e]
    refine ⟨?_, ?_⟩
    · show add64 g1.num_bullets 1 ≤ GAME_MAX_BULLETS
      rw [w1]
      unfold add64
      have := hc.2
      omega
    · show g1.bullets.length = GAME_MAX_BULLETS
      rw [w2]
      exact hinv.2
  · have e := (Except.ok.inj h).symm
    rw [e]
    exact hinv

theorem playTick_count (fuel : Nat) (s s' : State) (hinv : CountInv s.game)
    (h : playTick fuel s = Except.ok s') : CountInv s'.game := by
  unfold playTick at h
  rw [bind_eq_ok] at h
  obtain ⟨_, _, h⟩ := h
  rw [bind_eq_ok] at h
  obtain ⟨_, _, h⟩ := h
  rw [bind_eq_ok] at h
  obtain ⟨s1, h1, h⟩ := h
  rw [bind_eq_ok] at h
  obtain ⟨s2, h2, h⟩ := h
  rw [bind_eq_ok] at h
  obtain ⟨s3, h3, h⟩ := h
  have i1 := (simulateBullets_count _ _ _ _ hinv h1).2
  have i2 : CountInv (updateDeathCounters (changeSpeed s1)).game := by
    show CountInv (changeSpeed s1).game
    rw [(changeSpeed_core s1).1]
    exact i1
  have i3 := advance_count _ _ _ i2 h2
  have i4 : CountInv (simulatePlayer (updateAnimations s2)).game := by
    obtain ⟨pmd, x, hx⟩ := simulatePlayer_eq (updateAnimations s2)
    rw [hx]
    exact i3
  exact processFire_count _ _ (progression_count _ _ i4 h3) h

theorem tick_count (fuel : Nat) (s s' : State) (evs : List KeyEvent)
    (hinv : CountInv s.game) (h : tick fuel s evs = Except.ok s') : CountInv s'.game := by
  obtain ⟨life, hf⟩ := forceGameOver_eq s
  have hfi : CountInv (forceGameOver s).game := by
    rw [hf]
    exact hinv
  unfold tick at h
  split at h
  · have e := (Except.ok.inj h).symm
    have hg := gameOverTick_fields (forceGameOver s) evs
    rw [e]
    exact ⟨by rw [hg.2.2.1]; exact hfi.1, by rw [hg.2.1]; exact hfi.2⟩
  · rw [bind_eq_ok] at h
    obtain ⟨s4, h4, h⟩ := h
    have e := (Except.ok.inj h).symm
    rw [e, (glfwPollEvents_core s4 evs).1]
    exact playTick_count _ _ _ hfi h4

/-- In every reachable state the bullet count is at most the capacity 128 of the
bullet array: a tick that would take it outside ends in a fault instead. -/
theorem reachable_count {s : State} (h : Reachable s) :
    s.game.num_bullets ≤ GAME_MAX_BULLETS ∧ s.game.bullets.length = GAME_MAX_BULLETS := by
  induction h with
  | start hs bullets s _ hb h0 =>
    rw [initialState_eq] at h0
    have e := (Except.ok.inj h0).symm
    rw [e]
    exact ⟨Nat.zero_le _, hb⟩
  | step fuel s s' evs _ ht ih => exact tick_count fuel s s' evs ih ht

/-! ## The level curve -/

/-- C22. The cadence of a level, as `main` computes it in `size_t`, is
`120 - 10 * L` for `L ≤ 8`, `40 - L` for `9 ≤ L ≤ 36` and 4 above, without
wrap-around in any subtraction; it does not increase with the level, it is at
least 4 at every level, and it is 4 exactly from level 36 on. -/
theorem levelFrequency_curve :
    (∀ l : Nat, l ≤ 8 → levelFrequency l = 120 - 10 * l ∧ 10 * l ≤ 120) ∧
    (∀ l : Nat, 9 ≤ l → l ≤ 36 → levelFrequency l = 40 - l ∧ 80 + l ≤ 120) ∧
    (∀ l : Nat, 36 < l → levelFrequency l = 4) ∧
    (∀ l m : Nat, l ≤ m → levelFrequency m ≤ levelFrequency l) ∧
    (∀ l : Nat, 4 ≤ levelFrequency l) ∧
    (∀ l : Nat, levelFrequency l = 4 ↔ 36 ≤ l) := by
  have hval : ∀ l : Nat, levelFrequency l
      = if l ≤ 8 then 120 - 10 * l else if l ≤ 36 then 40 - l else 4 := by
    intro l
    by_cases h8 : l ≤ 8
    · rw [if_pos h8, levelFrequency_le8 l h8]
    · by_cases h36 : l ≤ 36
      · rw [if_neg h8, if_pos h36, levelFrequency_le36 l (by omega) h36]
      · rw [if_neg h8, if_neg h36, levelFrequency_gt36 l (by omega)]
  refine ⟨fun l h => ⟨levelFrequency_le8 l h, by omega⟩,
    fun l h1 h2 => ⟨levelFrequency_le36 l h1 h2, by omega⟩,
    fun l h => levelFrequency_gt36 l h, ?_, ?_, ?_⟩
  · intro l m hlm
    rw [hval l, hval m]
    split <;> split <;> (try split) <;> (try split) <;> omega
  · intro l
    rw [hval l]
    split <;> (try split) <;> omega
  · intro l
    rw [hval l]
    split <;> (try split) <;> omega

theorem levelFrequency_curve_witness :
    levelFrequency 8 = 120 - 10 * 8 ∧ levelFrequency 36 = 40 - 36 ∧
    levelFrequency 50 = 4 ∧ levelFrequency 9 ≤ levelFrequency 8 :=
  ⟨(levelFrequency_curve.1 8 (by decide)).1,
    (levelFrequency_curve.2.1 36 (by decide) (by decide)).1,
    levelFrequency_curve.2.2.1 50 (by decide),
    levelFrequency_curve.2.2.2.1 8 9 (by decide)⟩

/-! ## The player step -/

theorem toInt32_bounds (z : Int) : -2147483648 ≤ toInt32 z ∧ toInt32 z < 2147483648 := by
  unfold toInt32
  omega

theorem addInt64_ge_width (x : Nat) (p : Int) (hx : x ≤ 213)
    (hp1 : -2147483648 ≤ p) (hp2 : p < 2147483648) :
    addInt64 (x + 11) p ≥ 224 ↔ ((x : Int) + 11 + p < 0 ∨ 224 ≤ (x : Int) + 11 + p) := by
  unfold addInt64 wrap64
  omega

theorem toInt32_sum_le (x : Nat) (p : Int) (hx : x ≤ 213)
    (hp1 : -2147483648 ≤ p) (hp2 : p < 2147483648) :
    toInt32 ((x : Int) + p) ≤ 0 ↔ ((x : Int) + p ≤ 0 ∨ 2147483648 ≤ (x : Int) + p) := by
  unfold toInt32
  omega

theorem addInt64_exact (x : Nat) (p : Int) (h1 : 0 ≤ (x : Int) + p)
    (h2 : (x : Int) + p < 18446744073709551616) : (addInt64 x p : Int) = (x : Int) + p := by
  unfold addInt64 wrap64
  omega

/-- The `x` of the ship after the player step. -/
theorem simulatePlayer_x (s : State) (hx : s.game.player.x ≤ 213) :
    (simulatePlayer s).game.player.x ≤ 213 ∧
    (s.move_dir = -1 ∨ s.move_dir = 0 ∨ s.move_dir = 1 →
      ((simulatePlayer s).game.player.x : Int)
        = max 0 (min 213 ((s.game.player.x : Int) + 2 * s.move_dir))) := by
  have hw : player_sprite.width = 11 := rfl
  have hg : game_width = 224 := rfl
  have hadd : add64 s.game.player.x 11 = s.game.player.x + 11 :=
    add64_of_lt _ _ (by omega)
  have hxi : toInt32 (s.game.player.x : Int) = (s.game.player.x : Int) := by
    unfold toInt32
    omega
  have hmd : (s.move_dir = -1 ∨ s.move_dir = 0 ∨ s.move_dir = 1) →
      toInt32 (2 * s.move_dir) = 2 * s.move_dir := by
    intro h
    rcases h with h | h | h <;> rw [h] <;> rfl
  obtain ⟨hp1, hp2⟩ := toInt32_bounds (2 * s.move_dir)
  unfold simulatePlayer
  simp only []
  rw [hw, hg, hadd, hxi]
  generalize toInt32 (2 * s.move_dir) = p at hp1 hp2 hmd
  have hA := addInt64_ge_width s.game.player.x p hx hp1 hp2
  have hB := toInt32_sum_le s.game.player.x p hx hp1 hp2
  by_cases h1 : p ≠ 0
  · rw [if_pos h1]
    by_cases h2 : addInt64 (s.game.player.x + 11) p ≥ 224
    · rw [if_pos h2]
      have h2' := hA.mp h2
      have e : sub64 224 11 = 213 := rfl
      refine ⟨?_, ?_⟩
      · show sub64 224 11 ≤ 213
        rw [e]
      · intro hcase
        have hp := hmd hcase
        show ((sub64 224 11 : Nat) : Int) = _
        rw [e]
        omega
    · rw [if_neg h2]
      have h2' : ¬ ((s.game.player.x : Int) + 11 + p < 0
          ∨ 224 ≤ (s.game.player.x : Int) + 11 + p) := fun hc => h2 (hA.mpr hc)
      by_cases h3 : toInt32 ((s.game.player.x : Int) + p) ≤ 0
      · rw [if_pos h3]
        have h3' := hB.mp h3
        refine ⟨Nat.zero_le _, ?_⟩
        intro hcase
        have hp := hmd hcase
        show ((0 : Nat) : Int) = _
        omega
      · rw [if_neg h3]
        have h3' : ¬ ((s.game.player.x : Int) + p ≤ 0
            ∨ 2147483648 ≤ (s.game.player.x : Int) + p) := fun hc => h3 (hB.mpr hc)
        have hC := addInt64_exact s.game.player.x p (by omega) (by omega)
        refine ⟨?_, ?_⟩
        · show addInt64 s.game.player.x p ≤ 213
          omega
        · intro hcase
          have hp := hmd hcase
          show ((addInt64 s.game.player.x p : Nat) : Int) = _
          omega
  · rw [if_neg h1]
    refine ⟨hx, ?_⟩
    intro hcase
    have hp := hmd hcase
    show (s.game.player.x : Int) = _
    have h0 : p = 0 := by
      by_contra hc
      exact h1 hc
    omega

/-- C30. A ship at `x ≤ 213` is at `x ≤ 213` after the player step, for every
value of `move_dir`, and its `y` and lives are unchanged. For `move_dir` in
-1, 0, 1 the new `x` is `x + 2 * move_dir` clamped to the range 0..213. -/
theorem simulatePlayer_in_field (s : State) (hx : s.game.player.x ≤ 213) :
    (simulatePlayer s).game.player.x ≤ 213 ∧
    (simulatePlayer s).game.player.y = s.game.player.y ∧
    (simulatePlayer s).game.player.life = s.game.player.life ∧
    (s.move_dir = -1 ∨ s.move_dir = 0 ∨ s.move_dir = 1 →
      ((simulatePlayer s).game.player.x : Int)
        = max 0 (min 213 ((s.game.player.x : Int) + 2 * s.move_dir))) := by
  obtain ⟨h1, h2⟩ := simulatePlayer_x s hx
  obtain ⟨pmd, x, he⟩ := simulatePlayer_eq s
  refine ⟨h1, ?_, ?_, h2⟩
  · rw [he]
  · rw [he]

theorem simulatePlayer_in_field_witness :
    (simulatePlayer { startState 0 zeroBullets with move_dir := -1 }).game.player.x ≤ 213 ∧
    ((simulatePlayer { startState 0 zeroBullets with move_dir := -1 }).game.player.x : Int)
      = max 0 (min 213 (((107 : Nat) : Int) + 2 * -1)) :=
  ⟨(simulatePlayer_in_field { startState 0 zeroBullets with move_dir := -1 }
      (Nat.le_of_ble_eq_true rfl)).1,
    (simulatePlayer_in_field { startState 0 zeroBullets with move_dir := -1 }
      (Nat.le_of_ble_eq_true rfl)).2.2.2 (Or.inl rfl)⟩

/-! ## The fixed-timestep loop -/

theorem updateLoop_eq (fuel : Nat) (n : Nat) (d : ℚ) (s : State)
    (evss : List (List KeyEvent)) (budget : Nat)
    (h0 : 0 ≤ d) (hn : ⌊d⌋₊ = n) (hb : n < budget) :
    updateLoop fuel budget d s evss
      = tickSeq fuel n s evss >>= fun s1 => Except.ok (d - n, s1) := by
  induction n generalizing d s evss budget with
  | zero =>
    obtain ⟨b, rfl⟩ : ∃ b, budget = b + 1 := ⟨budget - 1, by omega⟩
    have hlt : d < 1 := by
      have := Nat.floor_eq_zero.mp hn
      exact_mod_cast this
    rw [updateLoop, if_neg (not_le.mpr hlt), tickSeq, bind_ok_eq]
    simp
  | succ n ih =>
    obtain ⟨b, rfl⟩ : ∃ b, budget = b + 1 := ⟨budget - 1, by omega⟩
    have hge : (1 : ℚ) ≤ d := by
      have h1 : 1 ≤ ⌊d⌋₊ := by omega
      exact_mod_cast (Nat.one_le_floor_iff d).mp h1
    have hfl : ⌊d - 1⌋₊ = n := by
      rw [Nat.floor_sub_one, hn]
      rfl
    rw [updateLoop, if_pos hge, tickSeq]
    cases ht : tick fuel s (evss.headD []) with
    | error e => rfl
    | ok s1 =>
      rw [bind_ok_eq, bind_ok_eq, ih (d - 1) s1 evss.tail b (by linarith) hfl (by omega)]
      congr 1
      funext s2
      push_cast
      ring_nf

/-- C23. With the time debt `d` a non-negative rational number, the update loop
of one pass, given room for more than `floor d` iterations, runs the tick body
exactly `floor d` times in a row, each time after taking one tick off the debt;
it ends in the fault of a tick that meets one, and otherwise returns the state
after those ticks with the debt `d - floor d`, which is at least 0 and below 1. -/
theorem updateLoop_runs_floor (fuel : Nat) (d : ℚ) (s : State)
    (evss : List (List KeyEvent)) (budget : Nat) (h0 : 0 ≤ d) (hb : ⌊d⌋₊ < budget) :
    updateLoop fuel budget d s evss
      = (tickSeq fuel ⌊d⌋₊ s evss >>= fun s1 => Except.ok (d - ⌊d⌋₊, s1)) ∧
    0 ≤ d - ⌊d⌋₊ ∧ d - ⌊d⌋₊ < 1 ∧
    (∀ (n : Nat) (t : State) (es : List (List KeyEvent)) (e : ℚ), 1 ≤ e →
      updateLoop fuel (n + 1) e t es
        = tick fuel t (es.headD []) >>= fun t1 => updateLoop fuel n (e - 1) t1 es.tail) ∧
    (∀ (n : Nat) (t : State) (es : List (List KeyEvent)) (e : ℚ), e < 1 →
      updateLoop fuel (n + 1) e t es = Except.ok (e, t)) := by
  refine ⟨updateLoop_eq fuel _ d s evss budget h0 rfl hb, ?_, ?_, ?_, ?_⟩
  · exact sub_nonneg.mpr (Nat.floor_le h0)
  · have := Nat.lt_floor_add_one d
    linarith
  · intro n t es e he
    rw [updateLoop, if_pos he]
  · intro n t es e he
    rw [updateLoop, if_neg (not_le.mpr he)]

set_option maxRecDepth 100000 in
theorem updateLoop_runs_floor_witness :
    ∃ s2, updateLoop 0 3 (5 / 2) (startState 0 zeroBullets) [] = Except.ok (1 / 2, s2) ∧
      tickSeq 0 2 (startState 0 zeroBullets) [] = Except.ok s2 := by
  have hfl : ⌊(5 / 2 : ℚ)⌋₊ = 2 := by
    rw [Nat.floor_eq_iff (by norm_num)]
    norm_num
  obtain ⟨s2, h2⟩ : ∃ s2, tickSeq 0 2 (startState 0 zeroBullets) [] = Except.ok s2 :=
    exists_ok_of_isSome (by decide)
  have h := (updateLoop_runs_floor 0 (5 / 2) (startState 0 zeroBullets) [] 3
    (by norm_num) (by rw [hfl]; decide)).1
  rw [hfl, h2, bind_ok_eq] at h
  refine ⟨s2, ?_, h2⟩
  rw [h]
  norm_num

/-! ## A bullet moved into a freed slot, and two shots of the ship that meet -/

set_option maxRecDepth 1000000 in
theorem skipState_run :
    runTicks 1 (startState 0 zeroBullets) skipTrace = some skipState := by
  decide!

theorem skipState_reachable : Reachable skipState :=
  reachable_of_runTicks 1 skipTrace _ _
    (Reachable.start 0 zeroBullets _ (by decide) (List.length_replicate 128 _)
      (initialState_eq 0 _))
    skipState_run

set_option maxRecDepth 1000000 in
theorem doubleShotState_run :
    runTicks 1 (startState 0 zeroBullets) doubleShotTrace = some doubleShotState := by
  decide!

theorem doubleShotState_reachable : Reachable doubleShotState :=
  reachable_of_runTicks 1 doubleShotTrace _ _
    (Reachable.start 0 zeroBullets _ (by decide) (List.length_replicate 128 _)
      (initialState_eq 0 _))
    doubleShotState_run

set_option maxRecDepth 1000000 in
/-- C24, failing input. The state `skipState` is reached from start-up by 121
ticks of play and has two live bullets: the ship's shot in slot 0 and an alien
shot at `(34, 121)` in slot 1. In the next bullet phase the pass for slot 0
advances the ship's shot to `y = 257`, which is off the playfield, and removes it
by moving the alien shot from the last slot into slot 0; the loop goes on with
slot 1, which is no longer live, and ends. The alien shot, live before and after
the phase, has not been advanced: its `y` is still 121, not 119. No alien shot
hits the player in that tick, whose lives stay 3. -/
theorem swapped_bullet_not_advanced :
    Reachable skipState ∧ skipState.game.num_bullets = 2 ∧
    skipState.game.bullets[0]? = some { x := 102, y := 255, dir := 2 } ∧
    skipState.game.bullets[1]? = some { x := 34, y := 121, dir := -2 } ∧
    skipState.game.player.life = 3 ∧
    (simulateBullet skipState 0).toOption.map
        (fun r => (r.1.game.num_bullets, r.1.game.bullets[0]?, r.2))
      = some (1, some { x := 34, y := 121, dir := -2 }, false) ∧
    (simulateBullets (GAME_MAX_BULLETS + 1) 0 skipState).toOption.map
        (fun s => (s.game.num_bullets, s.game.bullets[0]?, s.game.player.life))
      = some (1, some { x := 34, y := 121, dir := -2 }, 3) ∧
    (tick 1 skipState []).toOption.map
        (fun s => (s.game.num_bullets, s.game.bullets[0]?, s.game.player.life))
      = some (1, some { x := 34, y := 121, dir := -2 }, 3) := by
  refine ⟨skipState_reachable, rfl, rfl, rfl, rfl, ?_, ?_, ?_⟩
  · decide!
  · decide!
  · decide!

set_option maxRecDepth 1000000 in
/-- C25, failing input. The state `doubleShotState` is reached from start-up by
three ticks of play in which the fire key is released twice; its two live bullets
are both shots of the ship (`dir = 2`), at `(112, 41)` and `(112, 39)`, and there
is no alien shot. In the next bullet phase the pass for slot 0 advances the first
shot to `(112, 43)`; the bullet-vs-bullet loop tests it against slot 1 with the
alien-shot sprite, without looking at the direction of that bullet, finds an
overlap and removes the pair: the pass, the bullet phase and the tick end with no
live bullet, no kill and no score. -/
theorem player_shots_remove_each_other :
    Reachable doubleShotState ∧ doubleShotState.game.num_bullets = 2 ∧
    doubleShotState.game.bullets[0]? = some { x := 112, y := 41, dir := 2 } ∧
    doubleShotState.game.bullets[1]? = some { x := 112, y := 39, dir := 2 } ∧
    sprite_overlap_check player_bullet_sprite 112 43 alien_bullet_sprite_0 112 39 = true ∧
    (bulletVsBullet (GAME_MAX_BULLETS + 1) 0 0
        { doubleShotState.game with
          bullets := doubleShotState.game.bullets.set 0 { x := 112, y := 43, dir := 2 } }
      ).toOption.map (fun g => g.num_bullets) = some 0 ∧
    (simulateBullet doubleShotState 0).toOption.map
        (fun r => (r.1.game.num_bullets, r.1.score, r.1.aliens_killed, r.2))
      = some (0, 0, 0, false) ∧
    (simulateBullets (GAME_MAX_BULLETS + 1) 0 doubleShotState).toOption.map
        (fun s => (s.game.num_bullets, s.score, s.aliens_killed)) = some (0, 0, 0) ∧
    (tick 1 doubleShotState []).toOption.map
        (fun s => (s.game.num_bullets, s.score, s.aliens_killed, s.game.player.life))
      = some (0, 0, 0, 3) := by
  refine ⟨doubleShotState_reachable, rfl, rfl, rfl, by decide, ?_, ?_, ?_, ?_⟩
  · decide!
  · decide!
  · decide!
  · decide!

/-! ## The kill counter and the cadence along a run -/

theorem playTick_stages (fuel : Nat) (s s' : State) (h : playTick fuel s = Except.ok s') :
    ∃ s1 s2 s3, simulateBullets (GAME_MAX_BULLETS + 1) 0 s = Except.ok s1 ∧
      advance fuel (updateDeathCounters (changeSpeed s1)) = Except.ok s2 ∧
      progression (simulatePlayer (updateAnimations s2)) = Except.ok s3 ∧
      processFire s3 = Except.ok s' := by
  unfold playTick at h
  rw [bind_eq_ok] at h
  obtain ⟨_, _, h⟩ := h
  rw [bind_eq_ok] at h
  obtain ⟨_, _, h⟩ := h
  rw [bind_eq_ok] at h
  obtain ⟨s1, h1, h⟩ := h
  rw [bind_eq_ok] at h
  obtain ⟨s2, h2, h⟩ := h
  rw [bind_eq_ok] at h
  obtain ⟨s3, h3, h⟩ := h
  exact ⟨s1, s2, s3, h1, h2, h3, h⟩

theorem tick_stages (fuel : Nat) (s s' : State) (evs : List KeyEvent)
    (h : tick fuel s evs = Except.ok s') :
    ((forceGameOver s).game.player.life = 0 ∧ s' = gameOverTick (forceGameOver s) evs) ∨
    ((forceGameOver s).game.player.life ≠ 0 ∧
      ∃ p, playTick fuel (forceGameOver s) = Except.ok p ∧ s' = glfwPollEvents p evs) := by
  unfold tick at h
  by_cases hl : (forceGameOver s).game.player.life = 0
  · rw [if_pos hl] at h
    exact Or.inl ⟨hl, (Except.ok.inj h).symm⟩
  · rw [if_neg hl, bind_eq_ok] at h
    obtain ⟨p, hp, h⟩ := h
    exact Or.inr ⟨hl, p, hp, (Except.ok.inj h).symm⟩

theorem Halved.of_eq_fields {s s' : State} (h : Halved s)
    (h1 : s'.aliens_killed = s.aliens_killed)
    (h2 : s'.alien_update_frequency = s.alien_update_frequency)
    (h3 : s'.level = s.level) : Halved s' := by
  unfold Halved at *
  rw [h1, h2, h3]
  exact h

theorem MidInv.of_eq_mid {s s' : State} (h : MidInv s)
    (h1 : s'.aliens_killed = s.aliens_killed)
    (h2 : s'.alien_update_frequency = s.alien_update_frequency)
    (h3 : s'.level = s.level)
    (h4 : s'.should_change_speed = s.should_change_speed)
    (h5 : livingCount s'.game.aliens = livingCount s.game.aliens) : MidInv s' := by
  obtain ⟨a, b, c⟩ := h
  exact ⟨by rw [h1, h5]; exact a, by rw [h4]; exact b, c.of_eq_fields h1 h2 h3⟩

theorem CadenceInv.of_eq_cadence {s s' : State} (h : CadenceInv s)
    (h1 : s'.aliens_killed = s.aliens_killed)
    (h2 : s'.alien_update_frequency = s.alien_update_frequency)
    (h3 : s'.level = s.level)
    (h4 : s'.should_change_speed = s.should_change_speed)
    (h5 : livingCount s'.game.aliens = livingCount s.game.aliens) : CadenceInv s' := by
  obtain ⟨a, b, c⟩ := h
  refine ⟨by rw [h1, h5]; exact a, by rw [h1]; exact b, ?_⟩
  rcases c with ⟨c1, c2, c3⟩ | ⟨c1, c2⟩
  · exact Or.inl ⟨by rw [h4]; exact c1, by rw [h1]; exact c2, by rw [h2, h3]; exact c3⟩
  · exact Or.inr ⟨by rw [h4]; exact c1, c2.of_eq_fields h1 h2 h3⟩

theorem div_pow_succ (a h : Nat) : a / 2 ^ h / 2 = a / 2 ^ (h + 1) := by
  rw [Nat.div_div_eq_div_mul, pow_succ]

/-- The bullet phase followed by the speed-change block: the cadence is halved
once if the flag was raised before the tick or a kill of the tick took the counter
to a multiple of 15. -/
theorem bullets_changeSpeed_mid (s s1 : State) (hinv : CadenceInv s)
    (h : simulateBullets (GAME_MAX_BULLETS + 1) 0 s = Except.ok s1) :
    MidInv (changeSpeed s1) := by
  obtain ⟨hk, hlt, hc⟩ := hinv
  have rel := simulateBullets_rel _ _ _ _ h
  obtain ⟨k1, k2, k3⟩ := rel.kills (by omega)
  obtain ⟨c1, c2, _, _⟩ := rel.core
  obtain ⟨g1, _, g3, g4, _, _, _, g8, g9⟩ := changeSpeed_core s1
  refine ⟨by rw [g4, g1]; exact k1.trans hk, g8, ?_⟩
  unfold Halved
  rw [g4, g9, g3, c1, c2]
  rcases hc with ⟨f1, f2, f3⟩ | ⟨f1, hh, hle, hcad⟩
  · have hyes : s1.should_change_speed = true := k3.mpr (Or.inl f1)
    rw [if_pos hyes]
    refine ⟨0, Nat.zero_le _, Or.inr ?_⟩
    rw [f3]
    rfl
  · by_cases hyes : s1.should_change_speed = true
    · rw [if_pos hyes]
      have hm : s.aliens_killed / 15 + 1 ≤ s1.aliens_killed / 15 := by
        rcases k3.mp hyes with h0 | ⟨m, m1, m2, m3⟩
        · rw [f1] at h0
          cases h0
        · omega
      refine ⟨hh + 1, by omega, ?_⟩
      rcases hcad with e | e
      · exact Or.inl (by rw [e, div_pow_succ])
      · exact Or.inr (by rw [e, div_pow_succ])
    · rw [if_neg hyes]
      exact ⟨hh, by omega, hcad⟩

theorem nextWave_fresh (s s' : State) (h : nextWave s = Except.ok s') :
    s'.aliens_killed = 0 ∧ s'.game.aliens = gridAliens 24 ∧
    s'.should_change_speed = true ∧
    s'.alien_update_frequency = levelFrequency s'.level ∧
    s'.alien_animation = s.alien_animation ∧
    s'.alien_swarm_position = 24 ∧ s'.alien_swarm_max_position = 45 ∧
    s'.alien_move_dir = 4 := by
  by_cases hr : s.reset = true
  · rw [nextWave_reset s hr] at h
    have e := (Except.ok.inj h).symm
    rw [e]
    exact ⟨rfl, rfl, rfl, by show (110 : Nat) = levelFrequency 1; decide, rfl, rfl, rfl, rfl⟩
  · rw [nextWave_no_reset s (by simpa using hr)] at h
    have e := (Except.ok.inj h).symm
    rw [e]
    exact ⟨rfl, rfl, rfl, rfl, rfl, rfl, rfl, rfl⟩

/-- The kill counter and the cadence at the progression step of a tick. -/
theorem playTick_mid (fuel : Nat) (s s1 s2 : State) (hinv : CadenceInv s)
    (h1 : simulateBullets (GAME_MAX_BULLETS + 1) 0 s = Except.ok s1)
    (h2 : advance fuel (updateDeathCounters (changeSpeed s1)) = Except.ok s2) :
    MidInv (simulatePlayer (updateAnimations s2)) := by
  have i1 := bullets_changeSpeed_mid s s1 hinv h1
  have d := updateDeathCounters_core (changeSpeed s1)
  have i2 : MidInv (updateDeathCounters (changeSpeed s1)) :=
    i1.of_eq_mid d.killed d.frequency d.level d.flag (by rw [d.aliens])
  have a := advance_rel _ _ _ h2
  have i3 : MidInv s2 := i2.of_eq_mid a.killed a.frequency a.level a.flag a.living
  have c := (updateAnimations_core s2).trans_core (simulatePlayer_core (updateAnimations s2))
  exact i3.of_eq_mid c.killed c.frequency c.level c.flag (by rw [c.aliens])

theorem progression_cadence (s s' : State) (hinv : MidInv s)
    (h : progression s = Except.ok s') : CadenceInv s' := by
  unfold progression at h
  by_cases hc : s.aliens_killed < num_aliens ∧ s.reset = false
  · rw [if_pos hc] at h
    obtain ⟨t1, t2, t3, t4, t5, _, _, _⟩ := trackBounds_core _ _ h
    obtain ⟨a, b, c⟩ := hinv
    exact ⟨by rw [t4, t1]; exact a, by rw [t4]; exact hc.1,
      Or.inr ⟨by rw [t5]; exact b, c.of_eq_fields t4 t2 t3⟩⟩
  · rw [if_neg hc] at h
    obtain ⟨n1, n2, n3, n4, _⟩ := nextWave_fresh _ _ h
    refine ⟨by rw [n1, n2, livingCount_gridAliens], by rw [n1]; decide,
      Or.inl ⟨n3, n1, n4⟩⟩

theorem playTick_cadence (fuel : Nat) (s s' : State) (hinv : CadenceInv s)
    (h : playTick fuel s = Except.ok s') : CadenceInv s' := by
  obtain ⟨s1, s2, s3, h1, h2, h3, h4⟩ := playTick_stages fuel s s' h
  have i3 := progression_cadence _ _ (playTick_mid fuel s s1 s2 hinv h1 h2) h3
  have f := processFire_core s3 s' h4
  exact i3.of_eq_cadence f.killed f.frequency f.level f.flag (by rw [f.aliens])

theorem forceGameOver_cadence (s : State) (hinv : CadenceInv s) :
    CadenceInv (forceGameOver s) := by
  have g := forceGameOver_core s
  exact hinv.of_eq_cadence g.2.2.2.1 g.2.1 g.2.2.1 g.2.2.2.2.1 (by rw [g.1])

theorem tick_cadence (fuel : Nat) (s s' : State) (evs : List KeyEvent)
    (hinv : CadenceInv s) (h : tick fuel s evs = Except.ok s') : CadenceInv s' := by
  have i0 := forceGameOver_cadence s hinv
  rcases tick_stages fuel s s' evs h with ⟨_, e⟩ | ⟨_, p, hp, e⟩
  · have hg := gameOverTick_fields (forceGameOver s) evs
    rw [e]
    exact i0.of_eq_cadence hg.2.2.2.2.2.2.2.2.2.2.2.2.2.2.2.2.2.1
      hg.2.2.2.2.2.2.2.2.2.2.2.2.2.2.2.1 hg.2.2.2.2.2.2.2.2.2.2.1
      hg.2.2.2.2.2.2.2.2.2.2.2.2.2.2.2.2.2.2.1 (by rw [hg.1])
  · have hc := glfwPollEvents_core p evs
    rw [e]
    exact (playTick_cadence fuel _ p i0 hp).of_eq_cadence hc.2.2.2.2.2.2.1 hc.2.2.2.2.1
      hc.2.2.2.2.2.1 hc.2.2.2.2.2.2.2.1 (by rw [hc.1])

theorem startState_cadence (hs : Nat) (bullets : List Bullet) :
    CadenceInv (startState hs bullets) :=
  ⟨livingCount_gridAliens, by show (0 : Nat) < 55; decide,
    Or.inr ⟨rfl, 0, Nat.zero_le _, Or.inl rfl⟩⟩

theorem reachable_cadence {s : State} (h : Reachable s) : CadenceInv s := by
  induction h with
  | start hs bullets s _ _ h0 =>
    rw [initialState_eq] at h0
    have e := (Except.ok.inj h0).symm
    rw [e]
    exact startState_cadence hs bullets
  | step fuel s s' evs _ ht ih => exact tick_cadence fuel s s' evs ih ht

theorem deadCount_add_livingCount (aliens : List Alien) :
    deadCount aliens + livingCount aliens = aliens.length := by
  unfold deadCount livingCount
  rw [List.length_eq_countP_add_countP (fun alien => decide (alien.type = ALIEN_DEAD)) aliens]
  congr 2
  funext a
  simp

theorem exists_living (aliens : List Alien) (h : 0 < livingCount aliens) :
    ∃ (i : Nat) (a : Alien), aliens[i]? = some a ∧ a.type ≠ ALIEN_DEAD := by
  unfold livingCount at h
  obtain ⟨a, ha, hp⟩ := List.countP_pos_iff.mp h
  obtain ⟨i, hi, e⟩ := List.getElem_of_mem ha
  exact ⟨i, a, by rw [← e]; exact List.getElem?_eq_getElem hi, by simpa using hp⟩

theorem firstLiving_ok (aliens : List Alien) (k : Nat) (h : 0 < livingCount aliens) :
    ∃ ai, firstLiving aliens k = Except.ok ai ∧ k ≤ ai ∧ ai < k + aliens.length := by
  induction aliens generalizing k with
  | nil => exact absurd h (by decide)
  | cons a rest ih =>
    rw [firstLiving]
    by_cases hd : a.type = ALIEN_DEAD
    · rw [if_pos hd]
      have hr : 0 < livingCount rest := by
        unfold livingCount at h ⊢
        rw [List.countP_cons_of_neg] at h
        · exact h
        · simpa using hd
      obtain ⟨ai, e, h1, h2⟩ := ih (k + 1) hr
      exact ⟨ai, e, by omega, by rw [List.length_cons]; omega⟩
    · rw [if_neg hd]
      exact ⟨k, rfl, Nat.le_refl k, by rw [List.length_cons]; omega⟩

theorem lastLiving_ok (aliens : List Alien) (n : Nat) (hn : n < aliens.length)
    (h : ∃ (i : Nat) (a : Alien), i ≤ n ∧ aliens[i]? = some a ∧ a.type ≠ ALIEN_DEAD) :
    ∃ aj, lastLiving aliens n = Except.ok aj ∧ aj ≤ n := by
  induction n with
  | zero =>
    obtain ⟨i, a, hi, ha, hl⟩ := h
    have hi0 : i = 0 := by omega
    subst hi0
    rw [lastLiving, ha]
    simp only []
    rw [if_neg hl]
    exact ⟨0, rfl, Nat.le_refl 0⟩
  | succ n ih =>
    obtain ⟨b, hb⟩ := getElem?_of_lt_length aliens (n + 1) hn
    rw [lastLiving, hb]
    simp only []
    by_cases hd : b.type = ALIEN_DEAD
    · rw [if_pos hd]
      obtain ⟨i, a, hi, ha, hl⟩ := h
      have hin : i ≤ n := by
        by_contra hc
        have e : i = n + 1 := by omega
        rw [e, hb] at ha
        rw [Option.some.inj ha] at hd
        exact hl hd
      obtain ⟨aj, e, hle⟩ := ih (by omega) ⟨i, a, hin, ha, hl⟩
      exact ⟨aj, e, by omega⟩
    · rw [if_neg hd]
      exact ⟨n + 1, rfl, Nat.le_refl _⟩

/-- With 55 aliens of which fewer than 55 are dead, both scans of bounds tracking
end at an index inside the array. -/
theorem scans_ok (aliens : List Alien) (hlen : aliens.length = num_aliens)
    (h : 0 < livingCount aliens) :
    ∃ ai aj, firstLiving aliens 0 = Except.ok ai ∧ ai < num_aliens ∧
      lastLiving aliens (sub64 num_aliens 1) = Except.ok aj ∧ aj < num_aliens := by
  obtain ⟨ai, e1, _, h1⟩ := firstLiving_ok aliens 0 h
  obtain ⟨i, a, ha, hl⟩ := exists_living aliens h
  have hi := lt_length_of_getElem? _ _ _ ha
  have h54 : sub64 num_aliens 1 = 54 := rfl
  obtain ⟨aj, e2, h2⟩ := lastLiving_ok aliens 54 (by rw [hlen]; decide)
    ⟨i, a, by rw [hlen] at hi; have : num_aliens = 55 := rfl; omega, ha, hl⟩
  rw [h54]
  exact ⟨ai, aj, e1, by rw [hlen] at h1; omega, e2, by
    have : num_aliens = 55 := rfl
    omega⟩

/-- C27. In every reachable state the kill counter equals the number of dead
aliens among the 55 and is below 55. In the tick that follows, at the progression
step (after the bullet phase, the advance, the animation clocks and the player
step) the counter again equals the number of dead aliens and is at most 55, and
whenever it is below 55 the forward scan for the first living alien and the
backward scan for the last living alien both end, without a fault, at an index
below 55. -/
theorem kill_counter_counts_dead (s : State) (h : Reachable s) :
    s.aliens_killed = deadCount s.game.aliens ∧ s.aliens_killed < num_aliens ∧
    s.game.aliens.length = num_aliens ∧
    ∀ (fuel : Nat) (s1 s2 : State),
      simulateBullets (GAME_MAX_BULLETS + 1) 0 (forceGameOver s) = Except.ok s1 →
      advance fuel (updateDeathCounters (changeSpeed s1)) = Except.ok s2 →
      (simulatePlayer (updateAnimations s2)).aliens_killed
        = deadCount (simulatePlayer (updateAnimations s2)).game.aliens ∧
      (simulatePlayer (updateAnimations s2)).aliens_killed ≤ num_aliens ∧
      ((simulatePlayer (updateAnimations s2)).aliens_killed < num_aliens →
        ∃ ai aj,
          firstLiving (simulatePlayer (updateAnimations s2)).game.aliens 0 = Except.ok ai ∧
          ai < num_aliens ∧
          lastLiving (simulatePlayer (updateAnimations s2)).game.aliens (sub64 num_aliens 1)
            = Except.ok aj ∧
          aj < num_aliens) := by
  have hc := reachable_cadence h
  have hb := h.inv_reach
  have hn : num_aliens = 55 := rfl
  have hd := deadCount_add_livingCount s.game.aliens
  refine ⟨by have := hc.1; have := hb.1; omega, by have := hc.2.1; omega, hb.1, ?_⟩
  intro fuel s1 s2 h1 h2
  have hm := playTick_mid fuel _ s1 s2 (forceGameOver_cadence s hc) h1 h2
  have hlen : (simulatePlayer (updateAnimations s2)).game.aliens.length = num_aliens := by
    have c := (updateAnimations_core s2).trans_core (simulatePlayer_core (updateAnimations s2))
    rw [c.aliens, (advance_rel _ _ _ h2).len, (updateDeathCounters_core _).aliens,
      (changeSpeed_core s1).1, (simulateBullets_rel _ _ _ _ h1).len, (forceGameOver_core s).1]
    exact hb.1
  have hd2 := deadCount_add_livingCount (simulatePlayer (updateAnimations s2)).game.aliens
  have hk := hm.1
  refine ⟨by omega, by omega, ?_⟩
  intro hlt
  exact scans_ok _ hlen (by omega)

theorem kill_counter_counts_dead_witness :
    (startState 0 zeroBullets).aliens_killed = deadCount (startState 0 zeroBullets).game.aliens ∧
    (startState 0 zeroBullets).aliens_killed < num_aliens :=
  ⟨(kill_counter_counts_dead _
      (Reachable.start 0 zeroBullets _ (by decide) (List.length_replicate 128 _)
        (initialState_eq 0 _))).1,
    (kill_counter_counts_dead _
      (Reachable.start 0 zeroBullets _ (by decide) (List.length_replicate 128 _)
        (initialState_eq 0 _))).2.1⟩

/-! ## The cadence after a wave start, and its lower bound -/

set_option maxRecDepth 1000000 in
theorem resetState_run :
    runTicks 1 (startState 0 zeroBullets) resetTrace = some resetState := by
  decide!

theorem resetState_reachable : Reachable resetState :=
  reachable_of_runTicks 1 resetTrace _ _
    (Reachable.start 0 zeroBullets _ (by decide) (List.length_replicate 128 _)
      (initialState_eq 0 _))
    resetState_run

set_option maxRecDepth 1000000 in
/-- C26, counterexample. The state `resetState` is reached from start-up by two
ticks, the second of which takes the reset branch: the cadence is 110, the level
formula at level 1, no alien has been killed, and the speed-up flag is raised,
although no kill has taken the counter to a multiple of 15. In the next tick,
which kills no alien, the speed-change block halves the cadence: it is 55 after
the tick, not 110, and the flag is clear. -/
theorem wave_start_halves_cadence :
    Reachable resetState ∧ resetState.aliens_killed = 0 ∧ resetState.level = 1 ∧
    resetState.alien_update_frequency = levelFrequency resetState.level ∧
    resetState.alien_update_frequency = 110 ∧
    resetState.should_change_speed = true ∧
    (simulateBullets (GAME_MAX_BULLETS + 1) 0 resetState).toOption.map
        (fun s => s.aliens_killed) = some 0 ∧
    (tick 1 resetState []).toOption.map
        (fun s => (s.aliens_killed, s.level, s.alien_update_frequency, s.should_change_speed))
      = some (0, 1, 55, false) ∧
    ¬ ((tick 1 resetState []).toOption.map (fun s => s.alien_update_frequency)
      = some (levelFrequency 1)) := by
  refine ⟨resetState_reachable, rfl, rfl, by decide, rfl, rfl, ?_, ?_, ?_⟩
  · decide!
  · decide!
  · decide!

/-- The kill counter, cadence, level, flag and reset flag at the progression step
of a tick, in terms of the state after the bullet phase. -/
theorem progression_input (fuel : Nat) (s1 s2 : State)
    (h2 : advance fuel (updateDeathCounters (changeSpeed s1)) = Except.ok s2) :
    (simulatePlayer (updateAnimations s2)).aliens_killed = s1.aliens_killed ∧
    (simulatePlayer (updateAnimations s2)).alien_update_frequency
      = (if s1.should_change_speed = true then s1.alien_update_frequency / 2
        else s1.alien_update_frequency) ∧
    (simulatePlayer (updateAnimations s2)).level = s1.level ∧
    (simulatePlayer (updateAnimations s2)).should_change_speed = false ∧
    (simulatePlayer (updateAnimations s2)).reset = s1.reset := by
  have c := (updateAnimations_core s2).trans_core (simulatePlayer_core (updateAnimations s2))
  have a := advance_rel _ _ _ h2
  have d := updateDeathCounters_core (changeSpeed s1)
  obtain ⟨_, _, g3, g4, g5, _, _, g8, g9⟩ := changeSpeed_core s1
  exact ⟨by rw [c.killed, a.killed, d.killed, g4],
    by rw [c.frequency, a.frequency, d.frequency, g9],
    by rw [c.level, a.level, d.level, g3],
    by rw [c.flag, a.flag, d.flag, g8],
    by rw [c.reset, a.reset, d.reset, g5]⟩

/-- C26, amended. Take a gameplay tick from a reachable state. If the speed-up
flag is raised before the tick, then no alien of the wave has been killed and the
cadence is the level formula at the current level: the flag is raised by the
wave-clear and reset branch, not only by a kill. After the bullet phase the flag
is raised exactly if it was raised before or a kill took the counter to a multiple
of 15. If the tick takes the wave-clear or reset branch, it ends with the flag
raised, the counter 0 and the cadence equal to the level formula at the new level.
Otherwise it ends with the flag clear and the cadence halved once if the flag was
raised after the bullet phase, unchanged if not. In particular, without a kill,
the tick that follows a wave-clear or reset tick ends with half the level-formula
cadence, and a tick entered with the flag clear leaves the cadence as it is. -/
theorem wave_start_cadence (fuel : Nat) (s s' : State) (evs : List KeyEvent)
    (hr : Reachable s) (hplay : (forceGameOver s).game.player.life ≠ 0)
    (h : tick fuel s evs = Except.ok s') :
    (s.should_change_speed = true →
      s.aliens_killed = 0 ∧ s.alien_update_frequency = levelFrequency s.level) ∧
    ∃ s1, simulateBullets (GAME_MAX_BULLETS + 1) 0 (forceGameOver s) = Except.ok s1 ∧
      (s1.should_change_speed = true ↔
        (s.should_change_speed = true ∨
          ∃ m, s.aliens_killed < m ∧ m ≤ s1.aliens_killed ∧ m % 15 = 0)) ∧
      (¬ (s1.aliens_killed < num_aliens ∧ s.reset = false) →
        s'.should_change_speed = true ∧ s'.aliens_killed = 0 ∧
        s'.alien_update_frequency = levelFrequency s'.level) ∧
      (s1.aliens_killed < num_aliens ∧ s.reset = false →
        s'.should_change_speed = false ∧ s'.aliens_killed = s1.aliens_killed ∧
        s'.level = s.level ∧
        s'.alien_update_frequency
          = (if s1.should_change_speed = true then s.alien_update_frequency / 2
            else s.alien_update_frequency) ∧
        (s1.aliens_killed = s.aliens_killed → s.should_change_speed = true →
          s'.alien_update_frequency = levelFrequency s.level / 2) ∧
        (s1.aliens_killed = s.aliens_killed → s.should_change_speed = false →
          s'.alien_update_frequency = s.alien_update_frequency)) := by
  have hc := reachable_cadence hr
  have hflag : s.should_change_speed = true →
      s.aliens_killed = 0 ∧ s.alien_update_frequency = levelFrequency s.level := by
    intro hf
    rcases hc.2.2 with ⟨_, c2, c3⟩ | ⟨c1, _⟩
    · exact ⟨c2, c3⟩
    · rw [hf] at c1
      cases c1
  refine ⟨hflag, ?_⟩
  rcases tick_stages fuel s s' evs h with ⟨h0, _⟩ | ⟨_, p, hp, e⟩
  · exact absurd h0 hplay
  obtain ⟨s1, s2, s3, h1, h2, h3, h4⟩ := playTick_stages fuel _ p hp
  have g := forceGameOver_core s
  have i0 := forceGameOver_cadence s hc
  have rel := simulateBullets_rel _ _ _ _ h1
  obtain ⟨_, _, k3⟩ := rel.kills (by have := i0.1; omega)
  rw [g.2.2.2.1, g.2.2.2.2.1] at k3
  obtain ⟨r1, r2, r3, _⟩ := rel.core
  rw [g.2.1] at r1
  rw [g.2.2.1] at r2
  rw [g.2.2.2.2.2.1] at r3
  obtain ⟨q1, q2, q3, q4, q5⟩ := progression_input fuel s1 s2 h2
  have f := processFire_core s3 p h4
  have hpoll := glfwPollEvents_core p evs
  have e1 : s'.aliens_killed = s3.aliens_killed := by
    rw [e, hpoll.2.2.2.2.2.2.1, f.killed]
  have e2 : s'.alien_update_frequency = s3.alien_update_frequency := by
    rw [e, hpoll.2.2.2.2.1, f.frequency]
  have e3 : s'.level = s3.level := by
    rw [e, hpoll.2.2.2.2.2.1, f.level]
  have e4 : s'.should_change_speed = s3.should_change_speed := by
    rw [e, hpoll.2.2.2.2.2.2.2.1, f.flag]
  refine ⟨s1, h1, k3, ?_, ?_⟩
  · intro hn
    unfold progression at h3
    rw [if_neg (by rw [q1, q5, r3]; exact hn)] at h3
    obtain ⟨n1, _, n3, n4, _⟩ := nextWave_fresh _ _ h3
    exact ⟨by rw [e4, n3], by rw [e1, n1], by rw [e2, e3, n4]⟩
  · intro hy
    unfold progression at h3
    rw [if_pos (by rw [q1, q5, r3]; exact hy)] at h3
    obtain ⟨_, t2, t3, t4, t5, _, _, _⟩ := trackBounds_core _ _ h3
    have hcad : s'.alien_update_frequency
        = (if s1.should_change_speed = true then s.alien_update_frequency / 2
          else s.alien_update_frequency) := by
      rw [e2, t2, q2, r1]
    refine ⟨by rw [e4, t5, q4], by rw [e1, t4, q1], by rw [e3, t3, q3, r2], hcad, ?_, ?_⟩
    · intro hk hf
      rw [hcad, if_pos (k3.mpr (Or.inl hf)), (hflag hf).2]
    · intro hk hf
      have hno : ¬ s1.should_change_speed = true := by
        intro h1f
        rcases k3.mp h1f with h0 | ⟨m, m1, m2, m3⟩
        · rw [hf] at h0
          cases h0
        · omega
      rw [hcad, if_neg hno]

set_option maxRecDepth 1000000 in
theorem wave_start_cadence_witness :
    ∃ s', tick 1 resetState [] = Except.ok s' ∧
      (resetState.should_change_speed = true →
        resetState.aliens_killed = 0 ∧
        resetState.alien_update_frequency = levelFrequency resetState.level) := by
  obtain ⟨s', h⟩ : ∃ s', tick 1 resetState [] = Except.ok s' :=
    exists_ok_of_isSome (by decide!)
  exact ⟨s', h, (wave_start_cadence 1 resetState s' [] resetState_reachable (by decide) h).1⟩

/-- C21, amended. In every reachable state the cadence is a base value halved at
most four times: 120 halved at most three times, or the level formula at the
current level halved at most four times. It is at most 120; it is at least 4 as
long as the level is at most 5, and in general at least the sixteenth part of the
level formula or at least 15. -/
theorem cadence_floor (s : State) (h : Reachable s) :
    (∃ n, (n ≤ 3 ∧ s.alien_update_frequency = 120 / 2 ^ n) ∨
      (n ≤ 4 ∧ s.alien_update_frequency = levelFrequency s.level / 2 ^ n)) ∧
    s.alien_update_frequency ≤ 120 ∧
    (s.level ≤ 5 → 4 ≤ s.alien_update_frequency) ∧
    (15 ≤ s.alien_update_frequency ∨
      levelFrequency s.level / 16 ≤ s.alien_update_frequency) := by
  obtain ⟨_, hlt, hc⟩ := reachable_cadence h
  have hlf : levelFrequency s.level ≤ 120 ∧ (s.level ≤ 5 → 70 ≤ levelFrequency s.level) := by
    by_cases h8 : s.level ≤ 8
    · rw [levelFrequency_le8 _ h8]
      omega
    · by_cases h36 : s.level ≤ 36
      · rw [levelFrequency_le36 _ (by omega) h36]
        omega
      · rw [levelFrequency_gt36 _ (by omega)]
        omega
  have key : ∃ n, (n ≤ 3 ∧ s.alien_update_frequency = 120 / 2 ^ n) ∨
      (n ≤ 4 ∧ s.alien_update_frequency = levelFrequency s.level / 2 ^ n) := by
    rcases hc with ⟨_, _, c3⟩ | ⟨_, n, hn, c⟩
    · exact ⟨0, Or.inr ⟨by decide, by rw [c3, pow_zero, Nat.div_one]⟩⟩
    · rcases c with c | c
      · exact ⟨n, Or.inl ⟨by omega, c⟩⟩
      · exact ⟨n + 1, Or.inr ⟨by omega, c⟩⟩
  refine ⟨key, ?_, ?_, ?_⟩
  · obtain ⟨n, ⟨_, e⟩ | ⟨_, e⟩⟩ := key
    · rw [e]
      exact Nat.div_le_self _ _
    · rw [e]
      exact (Nat.div_le_self _ _).trans hlf.1
  · intro h5
    have h70 := hlf.2 h5
    obtain ⟨n, ⟨hn, e⟩ | ⟨hn, e⟩⟩ := key
    · rw [e]
      interval_cases n <;> decide
    · rw [e]
      interval_cases n <;> norm_num <;> omega
  · obtain ⟨n, ⟨hn, e⟩ | ⟨hn, e⟩⟩ := key
    · left
      rw [e]
      interval_cases n <;> decide
    · right
      rw [e]
      interval_cases n <;> norm_num <;> omega

theorem cadence_floor_witness :
    (startState 0 zeroBullets).level ≤ 5 ∧
    4 ≤ (startState 0 zeroBullets).alien_update_frequency :=
  ⟨by decide, (cadence_floor _
      (Reachable.start 0 zeroBullets _ (by decide) (List.length_replicate 128 _)
        (initialState_eq 0 _))).2.2.1 (by decide)⟩

/-! ## The frame duration of the alien animations -/

theorem AnimInv.of_eq_anim {s s' : State} (h : AnimInv s)
    (h1 : s'.alien_animation = s.alien_animation)
    (h2 : s'.alien_update_frequency = s.alien_update_frequency)
    (h3 : s'.should_change_speed = s.should_change_speed) : AnimInv s' := by
  unfold AnimInv at *
  rw [h1, h2, h3]
  exact h

theorem alienShoot_anim (s s' : State) (rai : Nat) (h : alienShoot s rai = Except.ok s') :
    s'.alien_animation = s.alien_animation := by
  unfold alienShoot at h
  rw [bind_eq_ok] at h
  obtain ⟨alien, _, h⟩ := h
  split at h
  · rw [bind_eq_ok] at h
    obtain ⟨sp, _, h⟩ := h
    rw [bind_eq_ok] at h
    obtain ⟨g1, _, h⟩ := h
    have e := (Except.ok.inj h).symm
    rw [e]
  · cases h

theorem alienFire_anim (fuel : Nat) (s s' : State) (h : alienFire fuel s = Except.ok s') :
    s'.alien_animation = s.alien_animation := by
  unfold alienFire at h
  split at h
  · rw [bind_eq_ok] at h
    obtain ⟨d, _, h⟩ := h
    split at h
    · exact (alienShoot_anim { s with rng := d.2 } s' d.1 h).trans rfl
    · have e := (Except.ok.inj h).symm
      rw [e]
  · have e := (Except.ok.inj h).symm
    rw [e]

theorem advance_anim (fuel : Nat) (s s' : State) (h : advance fuel s = Except.ok s') :
    s'.alien_animation = s.alien_animation := by
  unfold advance at h
  split at h
  · obtain ⟨d, ys, hm⟩ := moveSwarm_eq
      { s with
        move_audio_i := if add64 s.move_audio_i 1 = 4 then 0 else add64 s.move_audio_i 1
        alien_update_timer := 0 }
    have e := congrArg State.alien_animation hm
    exact (alienFire_anim _ _ _ h).trans e
  · have e := (Except.ok.inj h).symm
    rw [e]

theorem trackBounds_anim (s s' : State) (h : trackBounds s = Except.ok s') :
    s'.alien_animation = s.alien_animation := by
  unfold trackBounds at h
  rw [bind_eq_ok] at h
  obtain ⟨pos, _, h⟩ := h
  rw [bind_eq_ok] at h
  obtain ⟨pos2, _, h⟩ := h
  unfold raiseBounds at h
  have hu : (updateHighScore s).alien_animation = s.alien_animation := by
    unfold updateHighScore
    split <;> rfl
  by_cases hle : (if pos2 > (updateHighScore s).alien_swarm_max_position then pos2
      else (updateHighScore s).alien_swarm_max_position) ≤ game_width
  · rw [if_pos hle] at h
    have e := (Except.ok.inj h).symm
    rw [e]
    exact hu
  · rw [if_neg hle] at h
    cases h

theorem levelFrequency_le (l : Nat) : levelFrequency l ≤ 120 := by
  by_cases h8 : l ≤ 8
  · rw [levelFrequency_le8 _ h8]
    omega
  · by_cases h36 : l ≤ 36
    · rw [levelFrequency_le36 _ (by omega) h36]
      omega
    · rw [levelFrequency_gt36 _ (by omega)]
      decide

theorem stepAnimation_spec (a : SpriteAnimation) (h2 : a.num_frames = 2)
    (hfd : a.frame_duration ≤ 120) :
    (stepAnimation a).num_frames = 2 ∧
    (stepAnimation a).frame_duration = a.frame_duration ∧
    (a.frame_duration ≠ 0 → (stepAnimation a).time < 2 * a.frame_duration) := by
  have hm : mul64 a.num_frames a.frame_duration = 2 * a.frame_duration := by
    unfold mul64
    rw [h2]
    omega
  refine ⟨h2, rfl, ?_⟩
  intro h0
  show (if add64 a.time 1 ≥ mul64 a.num_frames a.frame_duration then 0 else add64 a.time 1)
    < 2 * a.frame_duration
  rw [hm]
  by_cases hge : add64 a.time 1 ≥ 2 * a.frame_duration
  · rw [if_pos hge]
    omega
  · rw [if_neg hge]
    omega

/-- The animation fields after the speed-change block. -/
theorem changeSpeed_anim (s : State) :
    (changeSpeed s).alien_animation.num_frames = s.alien_animation.num_frames ∧
    (changeSpeed s).alien_animation.time = s.alien_animation.time ∧
    (changeSpeed s).alien_animation.frame_duration
      = (if s.should_change_speed = true then s.alien_update_frequency / 2
        else s.alien_animation.frame_duration) := by
  unfold changeSpeed
  by_cases hf : s.should_change_speed = true
  · rw [if_pos hf, if_pos hf]
    exact ⟨rfl, rfl, rfl⟩
  · rw [if_neg hf, if_neg hf]
    exact ⟨rfl, rfl, rfl⟩

theorem playTick_anim (fuel : Nat) (s s' : State) (hc : CadenceInv s) (ha : AnimInv s)
    (h : playTick fuel s = Except.ok s') : AnimInv s' := by
  obtain ⟨s1, s2, s3, h1, h2, h3, h4⟩ := playTick_stages fuel s s' h
  obtain ⟨a1, a2, a3, a4, a5⟩ := ha
  have rel := simulateBullets_rel _ _ _ _ h1
  obtain ⟨_, _, k3⟩ := rel.kills (by have := hc.1; omega)
  obtain ⟨r1, _, _, _⟩ := rel.core
  have ranim : s1.alien_animation = s.alien_animation := by
    obtain ⟨g, c, k, f, e⟩ := rel.frame
    rw [e]
  obtain ⟨m1, m2, m3⟩ := changeSpeed_anim s1
  obtain ⟨_, _, _, _, _, _, _, g8, g9⟩ := changeSpeed_core s1
  have hfd : (changeSpeed s1).alien_animation.frame_duration
      = (changeSpeed s1).alien_update_frequency := by
    rw [m3, g9]
    by_cases hf : s1.should_change_speed = true
    · rw [if_pos hf, if_pos hf]
    · rw [if_neg hf, if_neg hf, ranim, r1]
      have hs : s.should_change_speed = false := by
        cases hb : s.should_change_speed with
        | false => rfl
        | true => exact absurd (k3.mpr (Or.inl hb)) hf
      exact a5 hs
  have hcad : (changeSpeed s1).alien_update_frequency ≤ 120 := by
    rw [g9, r1]
    split
    · omega
    · exact a3
  have d := updateDeathCounters_core (changeSpeed s1)
  have adv := advance_rel _ _ _ h2
  have aanim := advance_anim _ _ _ h2
  have danim : (updateDeathCounters (changeSpeed s1)).alien_animation
      = (changeSpeed s1).alien_animation := rfl
  have e2n : s2.alien_animation.num_frames = 2 := by
    rw [aanim, danim, m1, ranim]
    exact a1
  have e2f : s2.alien_animation.frame_duration = s2.alien_update_frequency := by
    rw [aanim, danim, adv.frequency, d.frequency]
    exact hfd
  have e2c : s2.alien_update_frequency ≤ 120 := by
    rw [adv.frequency, d.frequency]
    exact hcad
  have e2flag : s2.should_change_speed = false := by
    rw [adv.flag, d.flag]
    exact g8
  obtain ⟨t1, t2, t3⟩ := stepAnimation_spec s2.alien_animation e2n (by rw [e2f]; exact e2c)
  have c := (updateAnimations_core s2).trans_core (simulatePlayer_core (updateAnimations s2))
  have panim : (simulatePlayer (updateAnimations s2)).alien_animation
      = stepAnimation s2.alien_animation := by
    obtain ⟨pmd, x, hp⟩ := simulatePlayer_eq (updateAnimations s2)
    rw [hp]
    rfl
  have ip : AnimInv (simulatePlayer (updateAnimations s2)) := by
    unfold AnimInv
    rw [panim, c.frequency, c.flag, t2]
    exact ⟨t1, by rw [e2f]; exact e2c, e2c, t3, fun _ => e2f⟩
  have i3 : AnimInv s3 := by
    unfold progression at h3
    split at h3
    · obtain ⟨_, q2, _, _, q5, _, _, _⟩ := trackBounds_core _ _ h3
      exact ip.of_eq_anim (trackBounds_anim _ _ h3) q2 q5
    · obtain ⟨_, _, n3, n4, n5, _⟩ := nextWave_fresh _ _ h3
      obtain ⟨b1, b2, _, b4, _⟩ := ip
      unfold AnimInv
      rw [n5, n3, n4]
      exact ⟨b1, b2, levelFrequency_le _, b4, fun hf => by cases hf⟩
  have f := processFire_core s3 s' h4
  have fanim : s'.alien_animation = s3.alien_animation := by
    have hf := processFire_frame s3 s' h4
    unfold FireFrame at hf
    rw [hf]
  exact i3.of_eq_anim fanim f.frequency f.flag

theorem tick_anim (fuel : Nat) (s s' : State) (evs : List KeyEvent)
    (hc : CadenceInv s) (ha : AnimInv s) (h : tick fuel s evs = Except.ok s') :
    AnimInv s' := by
  have g := forceGameOver_core s
  obtain ⟨life, hf⟩ := forceGameOver_eq s
  have a0 : AnimInv (forceGameOver s) := ha.of_eq_anim (by rw [hf]) g.2.1 g.2.2.2.2.1
  rcases tick_stages fuel s s' evs h with ⟨_, e⟩ | ⟨_, p, hp, e⟩
  · have hg := gameOverTick_fields (forceGameOver s) evs
    rw [e]
    exact a0.of_eq_anim hg.2.2.2.2.2.2.2.2.2.2.2.2.2.2.2.2.2.2.2.2.1
      hg.2.2.2.2.2.2.2.2.2.2.2.2.2.2.2.1 hg.2.2.2.2.2.2.2.2.2.2.2.2.2.2.2.2.2.2.1
  · have hpoll := glfwPollEvents_core p evs
    have hfr := glfwPollEvents_frame p evs
    unfold InputFrame at hfr
    rw [e]
    exact (playTick_anim fuel _ p (forceGameOver_cadence s hc) a0 hp).of_eq_anim
      (by rw [hfr]) hpoll.2.2.2.2.1 hpoll.2.2.2.2.2.2.2.1

theorem reachable_anim {s : State} (h : Reachable s) : AnimInv s := by
  induction h with
  | start hs bullets s _ _ h0 =>
    rw [initialState_eq] at h0
    have e := (Except.ok.inj h0).symm
    rw [e]
    exact ⟨rfl, by show (120 : Nat) ≤ 120; decide, by show (120 : Nat) ≤ 120; decide,
      fun _ => by show (0 : Nat) < 2 * 120; decide, fun _ => rfl⟩
  | step fuel s s' evs hr ht ih => exact tick_anim fuel s s' evs (reachable_cadence hr) ih ht

/-! ## The swarm inside the playfield -/

theorem typeWidth_row (i : Nat) :
    (13 - typeWidth ((5 - i % 5) / 2 + 1)) / 2 = (i % 5) / 2 ∧
    sub64 alien_death_sprite.width (typeWidth ((5 - i % 5) / 2 + 1)) / 2 = (i % 5) / 2 ∧
    typeWidth ((5 - i % 5) / 2 + 1) + (i % 5) / 2 ≤ 12 ∧
    ((5 - i % 5) / 2 + 1 = 1 ∨ (5 - i % 5) / 2 + 1 = 2 ∨ (5 - i % 5) / 2 + 1 = 3) := by
  have h : i % 5 < 5 := Nat.mod_lt _ (by decide)
  generalize i % 5 = r at h
  interval_cases r <;> decide

theorem Field.grid_field : Field (gridAliens 24) 24 45 4 := by
  refine ⟨gridAliens_length 24, Or.inl rfl, by decide, by decide, by decide, 24, ?_⟩
  intro i a ha _
  obtain ⟨ht, hx, _, hi⟩ := gridAliens_getElem? 24 i a ha
  have hi1 : i < 55 := hi
  rw [ht, (typeWidth_row i).1] at hx
  refine ⟨ht, ?_, ?_, ?_⟩
  · rw [hx]
    push_cast
    omega
  · omega
  · omega

theorem Field.kept_field {aliens aliens' : List Alien} {pos max : Nat} {dir : Int}
    (h : Field aliens pos max dir) (hlen : aliens'.length = aliens.length)
    (hkept : ∀ (i : Nat) (a : Alien), aliens'[i]? = some a → a.type ≠ ALIEN_DEAD →
      aliens[i]? = some a) : Field aliens' pos max dir := by
  obtain ⟨h1, h2, h3, h4, h5, off, h6⟩ := h
  exact ⟨hlen.trans h1, h2, h3, h4, h5, off, fun i a ha hl => h6 i a (hkept i a ha hl) hl⟩

theorem Field.move_field {aliens : List Alien} {pos max : Nat} {dir : Int}
    (h : Field aliens pos max dir) (d : Int) (ys : Alien → Nat) (hd : d = 4 ∨ d = -4)
    (h0 : 0 ≤ (pos : Int) + d) (hle : (pos : Int) + d ≤ max) :
    Field (aliens.map (fun alien => { alien with x := addInt64 alien.x d, y := ys alien }))
      (addInt64 pos d) max d := by
  obtain ⟨h1, _, h3, h4, h5, off, h6⟩ := h
  have hp := addInt64_exact pos d h0 (by omega)
  refine ⟨by rw [List.length_map]; exact h1, hd, h3, h4, by omega, off + d, ?_⟩
  intro i a' ha' hl
  rw [List.getElem?_map] at ha'
  cases ha : aliens[i]? with
  | none =>
    rw [ha] at ha'
    cases ha'
  | some a =>
    rw [ha] at ha'
    simp only [Option.map_some'] at ha'
    have e := (Option.some.inj ha').symm
    rw [e] at hl ⊢
    obtain ⟨t1, t2, t3, t4⟩ := h6 i a ha hl
    have hx := addInt64_exact a.x d (by omega) (by omega)
    refine ⟨t1, ?_, ?_, ?_⟩
    · show ((addInt64 a.x d : Nat) : Int) = _
      rw [hx, t2]
      omega
    · omega
    · show addInt64 a.x d + max ≤ 211 + addInt64 pos d
      omega

/-- The boundary test and the shift of an advance, for a swarm that satisfies the
horizontal invariant: the shift is by 4 or -4 and keeps the offset from 0 to the
maximum bound. -/
theorem moveSwarm_step (s : State) (h : FieldInv s) :
    ∃ (d : Int) (ys : Alien → Nat), moveSwarm s =
      { s with
        alien_move_dir := d
        alien_swarm_position := addInt64 s.alien_swarm_position d
        game := { s.game with
          aliens := s.game.aliens.map
            (fun alien => { alien with x := addInt64 alien.x d, y := ys alien }) } } ∧
      (d = 4 ∨ d = -4) ∧ 0 ≤ (s.alien_swarm_position : Int) + d ∧
      (s.alien_swarm_position : Int) + d ≤ s.alien_swarm_max_position := by
  obtain ⟨_, hd, h3, h4, h5, _⟩ := h
  have hc1 : toInt32 (toInt32 s.alien_swarm_position + s.alien_move_dir)
      = (s.alien_swarm_position : Int) + s.alien_move_dir := by
    rw [toInt32_of_range (s.alien_swarm_position : Int) (by omega) (by omega)]
    exact toInt32_of_range _ (by omega) (by omega)
  have hc2 : ((subInt64 s.alien_swarm_max_position s.alien_move_dir : Nat) : Int)
      = (s.alien_swarm_max_position : Int) - s.alien_move_dir := by
    unfold subInt64
    rw [wrap64_cast]
    omega
  have hneg : toInt32 (s.alien_move_dir * -1) = -s.alien_move_dir := by
    rw [toInt32_of_range _ (by omega) (by omega)]
    omega
  by_cases h1 : toInt32 (toInt32 s.alien_swarm_position + s.alien_move_dir) < 0
  · refine ⟨toInt32 (s.alien_move_dir * -1), fun alien => sub64 alien.y 8, ?_, ?_, ?_, ?_⟩
    · unfold moveSwarm
      simp only [h1, if_true, List.map_map]
      rfl
    · rw [hneg]
      omega
    · rw [hneg]
      omega
    · rw [hneg]
      omega
  · by_cases h2 : s.alien_swarm_position
        > subInt64 s.alien_swarm_max_position s.alien_move_dir
    · refine ⟨toInt32 (s.alien_move_dir * -1), fun alien => alien.y, ?_, ?_, ?_, ?_⟩
      · unfold moveSwarm
        simp only [h1, if_false, h2, if_true]
      · rw [hneg]
        omega
      · rw [hneg]
        omega
      · rw [hneg]
        omega
    · refine ⟨s.alien_move_dir, fun alien => alien.y, ?_, hd, ?_, ?_⟩
      · unfold moveSwarm
        simp only [h1, if_false, h2]
      · omega
      · omega

theorem moveSwarm_field (s : State) (h : FieldInv s) : FieldInv (moveSwarm s) := by
  obtain ⟨d, ys, hm, hd, h0, hle⟩ := moveSwarm_step s h
  rw [hm]
  exact Field.move_field h d ys hd h0 hle

theorem advance_field (fuel : Nat) (s s' : State) (hinv : FieldInv s)
    (h : advance fuel s = Except.ok s') : FieldInv s' := by
  unfold advance at h
  split at h
  · have c := alienFire_core _ _ _ h
    have hm := moveSwarm_field
      { s with
        move_audio_i := if add64 s.move_audio_i 1 = 4 then 0 else add64 s.move_audio_i 1
        alien_update_timer := 0 } hinv
    unfold FieldInv at hm ⊢
    rw [c.aliens, c.position, c.max_position, c.dir]
    exact hm
  · have e := (Except.ok.inj h).symm
    rw [e]
    exact hinv

theorem lastLiving_after (aliens : List Alien) (n aj : Nat)
    (h : lastLiving aliens n = Except.ok aj) :
    ∀ (j : Nat) (a : Alien), aj < j → j ≤ n → aliens[j]? = some a → a.type = ALIEN_DEAD := by
  induction n with
  | zero =>
    intro j a h1 h2
    omega
  | succ n ih =>
    rw [lastLiving] at h
    split at h
    · cases h
    · rename_i b hb
      split at h
      · rename_i hdead
        intro j a h1 h2 ha
        by_cases hj : j = n + 1
        · rw [hj, hb] at ha
          rw [← Option.some.inj ha]
          exact hdead
        · exact ih h j a h1 (by omega) ha
      · have e := (Except.ok.inj h).symm
        intro j a h1 h2
        omega

/-- Bounds tracking on a swarm that satisfies the horizontal invariant: the new
offset is the left bound, and the invariant holds for the new offset and the new
maximum bound. -/
theorem Field.track_field {aliens : List Alien} {pos max : Nat} {dir : Int}
    (h : Field aliens pos max dir) (lb pos2 : Nat)
    (h1 : leftBound aliens = Except.ok lb) (h2 : rightBound aliens lb = Except.ok pos2) :
    (if lb > pos then lb else pos) = lb ∧
    Field aliens (if lb > pos then lb else pos) (if pos2 > max then pos2 else max) dir := by
  obtain ⟨hlen, hdir, h45, h211, hpm, off, hoff⟩ := h
  unfold leftBound at h1
  rw [bind_eq_ok] at h1
  obtain ⟨ai, hfirst, h1⟩ := h1
  rw [bind_eq_ok] at h1
  obtain ⟨a, ha, h1⟩ := h1
  rw [bind_eq_ok] at h1
  obtain ⟨sp, hsp, h1⟩ := h1
  have hlb := (Except.ok.inj h1).symm
  obtain ⟨j, a0, hj, ha0, hl0, hdead⟩ := firstLiving_spec _ _ _ hfirst
  have hai : ai = j := by omega
  subst hai
  have haa : aliens[ai]? = some a := by
    split at ha
    · rename_i b hb
      rw [hb]
      exact congrArg some (Except.ok.inj ha)
    · cases ha
  rw [haa] at ha0
  have e0 := Option.some.inj ha0
  subst e0
  obtain ⟨hta, hxa, hpa, hma⟩ := hoff ai a haa hl0
  obtain ⟨r1, r2, _, r4⟩ := typeWidth_row ai
  obtain ⟨sp', hsp', hw⟩ := alienBaseSprite_of_type a.type (by rw [hta]; exact r4)
  rw [hsp] at hsp'
  have esp := Except.ok.inj hsp'
  subst esp
  rw [hw, hta, r2] at hlb
  unfold rightBound at h2
  rw [bind_eq_ok] at h2
  obtain ⟨aj, hlast, h2⟩ := h2
  rw [bind_eq_ok] at h2
  obtain ⟨b, hb, h2⟩ := h2
  have hpos2 := (Except.ok.inj h2).symm
  obtain ⟨hle, b0, hb0, hlb0⟩ := lastLiving_spec _ _ _ hlast
  have hafter := lastLiving_after _ _ _ hlast
  have hbb : aliens[aj]? = some b := by
    split at hb
    · rename_i c hc
      rw [hc]
      exact congrArg some (Except.ok.inj hb)
    · cases hb
  rw [hbb] at hb0
  have e1 := Option.some.inj hb0
  subst e1
  obtain ⟨htb, hxb, hpb, hmb⟩ := hoff aj b hbb hlb0
  have hij : ai ≤ aj := by
    by_contra hlt
    exact hlb0 (hdead aj b (by omega) hbb)
  have h54 : sub64 num_aliens 1 = 54 := by decide
  rw [h54] at hle hafter
  have hgw : game_width = 224 := rfl
  rw [hgw] at hpos2
  have hlbv : (lb : Int) = off + 16 * ((ai / 5 : Nat) : Int) := by
    rw [hlb]
    unfold sub64
    omega
  have hp2v : pos2 + b.x = 211 + lb := by
    rw [hpos2]
    unfold add64 sub64
    omega
  have hnew : (if lb > pos then lb else pos) = lb := by
    split
    · rfl
    · omega
  refine ⟨hnew, ?_⟩
  rw [hnew]
  refine ⟨hlen, hdir, by split <;> omega, by split <;> omega, by split <;> omega, off, ?_⟩
  intro i c hc hl
  obtain ⟨t1, t2, t3, t4⟩ := hoff i c hc hl
  have hi1 : ai ≤ i := by
    by_contra hlt
    exact hl (hdead i c (by omega) hc)
  have hi2 : i ≤ aj := by
    by_contra hlt
    have hi55 := lt_length_of_getElem? _ _ _ hc
    rw [hlen] at hi55
    have hn : num_aliens = 55 := rfl
    exact hl (hafter i c (by omega) (by omega) hc)
  refine ⟨t1, t2, by omega, ?_⟩
  split
  · omega
  · omega

theorem trackBounds_field (s s' : State) (hinv : FieldInv s)
    (h : trackBounds s = Except.ok s') : EndInv s' := by
  have hcore := updateHighScore_core s
  have hdir : (updateHighScore s).alien_move_dir = s.alien_move_dir := by
    unfold updateHighScore
    split <;> rfl
  unfold trackBounds at h
  rw [bind_eq_ok] at h
  obtain ⟨lb, h1, h⟩ := h
  rw [bind_eq_ok] at h
  obtain ⟨pos2, h2, h⟩ := h
  obtain ⟨hnew, hf⟩ := Field.track_field hinv lb pos2 h1 h2
  unfold raiseBounds at h
  by_cases hle : (if pos2 > (updateHighScore s).alien_swarm_max_position then pos2
      else (updateHighScore s).alien_swarm_max_position) ≤ game_width
  · rw [if_pos hle] at h
    have e := (Except.ok.inj h).symm
    rw [e]
    unfold EndInv FieldInv
    show Field (updateHighScore s).game.aliens
        (if lb > (updateHighScore s).alien_swarm_position then lb
          else (updateHighScore s).alien_swarm_position)
        (if pos2 > (updateHighScore s).alien_swarm_max_position then pos2
          else (updateHighScore s).alien_swarm_max_position)
        (updateHighScore s).alien_move_dir ∧
      leftBound (updateHighScore s).game.aliens = Except.ok
        (if lb > (updateHighScore s).alien_swarm_position then lb
          else (updateHighScore s).alien_swarm_position)
    rw [hcore.1, hcore.2.1, hcore.2.2.1, hdir, hnew]
    rw [hnew] at hf
    exact ⟨hf, h1⟩
  · rw [if_neg hle] at h
    cases h

theorem leftBound_grid : leftBound (gridAliens 24) = Except.ok 24 :=
  eq_ok_of_toOption (by decide)

theorem progression_field (s s' : State) (hinv : FieldInv s)
    (h : progression s = Except.ok s') : EndInv s' := by
  unfold progression at h
  split at h
  · exact trackBounds_field s s' hinv h
  · obtain ⟨_, n2, _, _, _, n6, n7, n8⟩ := nextWave_fresh _ _ h
    unfold EndInv FieldInv
    rw [n2, n6, n7, n8]
    exact ⟨Field.grid_field, leftBound_grid⟩

theorem EndInv.of_eq_end {s s' : State} (h : EndInv s)
    (h1 : s'.game.aliens = s.game.aliens)
    (h2 : s'.alien_swarm_position = s.alien_swarm_position)
    (h3 : s'.alien_swarm_max_position = s.alien_swarm_max_position)
    (h4 : s'.alien_move_dir = s.alien_move_dir) : EndInv s' := by
  unfold EndInv FieldInv at *
  rw [h1, h2, h3, h4]
  exact h

theorem playTick_field (fuel : Nat) (s s' : State) (hinv : FieldInv s)
    (h : playTick fuel s = Except.ok s') : EndInv s' := by
  obtain ⟨s1, s2, s3, h1, h2, h3, h4⟩ := playTick_stages fuel s s' h
  have rel := simulateBullets_rel _ _ _ _ h1
  have i1 : FieldInv s1 := by
    obtain ⟨g, c, k, f, e⟩ := rel.frame
    have hk := Field.kept_field hinv rel.len rel.kept
    unfold FieldInv
    have e2 : s1.alien_swarm_position = s.alien_swarm_position := by rw [e]
    have e3 : s1.alien_swarm_max_position = s.alien_swarm_max_position := by rw [e]
    have e4 : s1.alien_move_dir = s.alien_move_dir := by rw [e]
    rw [e2, e3, e4]
    exact hk
  have i2 : FieldInv (updateDeathCounters (changeSpeed s1)) := by
    have hcs : (changeSpeed s1).game.aliens = s1.game.aliens ∧
        (changeSpeed s1).alien_swarm_position = s1.alien_swarm_position ∧
        (changeSpeed s1).alien_swarm_max_position = s1.alien_swarm_max_position ∧
        (changeSpeed s1).alien_move_dir = s1.alien_move_dir := by
      unfold changeSpeed
      split <;> exact ⟨rfl, rfl, rfl, rfl⟩
    have d := updateDeathCounters_core (changeSpeed s1)
    unfold FieldInv
    rw [d.aliens, d.position, d.max_position, d.dir, hcs.1, hcs.2.1, hcs.2.2.1, hcs.2.2.2]
    exact i1
  have i3 := advance_field fuel _ s2 i2 h2
  have c := (updateAnimations_core s2).trans_core (simulatePlayer_core (updateAnimations s2))
  have i4 : FieldInv (simulatePlayer (updateAnimations s2)) := by
    unfold FieldInv
    rw [c.aliens, c.position, c.max_position, c.dir]
    exact i3
  have i5 := progression_field _ s3 i4 h3
  have f := processFire_core s3 s' h4
  exact i5.of_eq_end f.aliens f.position f.max_position f.dir

theorem tick_field (fuel : Nat) (s s' : State) (evs : List KeyEvent)
    (hinv : EndInv s) (h : tick fuel s evs = Except.ok s') : EndInv s' := by
  obtain ⟨life, hf⟩ := forceGameOver_eq s
  have i0 : EndInv (forceGameOver s) :=
    hinv.of_eq_end (by rw [hf]) (by rw [hf]) (by rw [hf]) (by rw [hf])
  rcases tick_stages fuel s s' evs h with ⟨_, e⟩ | ⟨_, p, hp, e⟩
  · have hg := gameOverTick_fields (forceGameOver s) evs
    rw [e]
    exact i0.of_eq_end hg.1 hg.2.2.2.2.2.2.2.2.2.2.2.2.1 hg.2.2.2.2.2.2.2.2.2.2.2.2.2.1
      hg.2.2.2.2.2.2.2.2.2.2.2.2.2.2.1
  · have hpoll := glfwPollEvents_core p evs
    rw [e]
    exact (playTick_field fuel _ p i0.1 hp).of_eq_end (by rw [hpoll.1]) hpoll.2.1
      hpoll.2.2.1 hpoll.2.2.2.1

theorem reachable_field {s : State} (h : Reachable s) : EndInv s := by
  induction h with
  | start hs bullets s _ _ h0 =>
    rw [initialState_eq] at h0
    have e := (Except.ok.inj h0).symm
    rw [e]
    exact ⟨Field.grid_field, leftBound_grid⟩
  | step fuel s s' evs _ ht ih => exact tick_field fuel s s' evs ih ht

/-- C29. In every reachable state, that is at the end of every tick, every living
alien lies horizontally inside the playfield: its `x` is at least the swarm offset
(so it has not wrapped below 0), and `x` plus the width of its sprite is at most
223, below the playfield width 224. The swarm offset is the value that bounds
tracking computes: the `x` of the first living alien, which stands in the leftmost
living column, moved back by the centring of its sprite in the death sprite. The
offset does not exceed the tracked maximum bound, which is at most 211. -/
theorem swarm_inside_playfield (s : State) (h : Reachable s) :
    (∀ (i : Nat) (a : Alien), s.game.aliens[i]? = some a → a.type ≠ ALIEN_DEAD →
      s.alien_swarm_position ≤ a.x ∧ a.x + typeWidth a.type ≤ 223 ∧
      a.x + typeWidth a.type ≤ game_width ∧
      ∃ sp, alienBaseSprite a.type = Except.ok sp ∧ a.x + sp.width ≤ game_width) ∧
    leftBound s.game.aliens = Except.ok s.alien_swarm_position ∧
    (∃ (i : Nat) (a : Alien), firstLiving s.game.aliens 0 = Except.ok i ∧
      s.game.aliens[i]? = some a ∧ a.type ≠ ALIEN_DEAD ∧
      (∀ (j : Nat) (b : Alien), s.game.aliens[j]? = some b → b.type ≠ ALIEN_DEAD →
        i / 5 ≤ j / 5) ∧
      s.alien_swarm_position + (13 - typeWidth a.type) / 2 = a.x) ∧
    s.alien_swarm_position ≤ s.alien_swarm_max_position ∧
    s.alien_swarm_max_position ≤ 211 := by
  obtain ⟨⟨hlen, _, _, h211, hpm, off, hoff⟩, hlb⟩ := reachable_field h
  have hgw : game_width = 224 := rfl
  have hall : ∀ (i : Nat) (a : Alien), s.game.aliens[i]? = some a → a.type ≠ ALIEN_DEAD →
      s.alien_swarm_position ≤ a.x ∧ a.x + typeWidth a.type ≤ 223 := by
    intro i a ha hl
    obtain ⟨t1, t2, t3, t4⟩ := hoff i a ha hl
    obtain ⟨_, _, r3, _⟩ := typeWidth_row i
    rw [← t1] at r3
    constructor
    · omega
    · omega
  refine ⟨?_, hlb, ?_, hpm, h211⟩
  · intro i a ha hl
    obtain ⟨q1, q2⟩ := hall i a ha hl
    obtain ⟨t1, _⟩ := hoff i a ha hl
    obtain ⟨sp, hsp, hw⟩ := alienBaseSprite_of_type a.type (by
      rw [t1]
      exact (typeWidth_row i).2.2.2)
    exact ⟨q1, q2, by omega, sp, hsp, by omega⟩
  · have hlb2 := hlb
    unfold leftBound at hlb2
    rw [bind_eq_ok] at hlb2
    obtain ⟨ai, hfirst, h1⟩ := hlb2
    obtain ⟨j, a0, hj, ha0, hl0, hdead⟩ := firstLiving_spec _ _ _ hfirst
    have hai : ai = j := by omega
    subst hai
    obtain ⟨t1, t2, t3, t4⟩ := hoff ai a0 ha0 hl0
    refine ⟨ai, a0, hfirst, ha0, hl0, ?_, ?_⟩
    · intro k b hb hlb1
      have hk : ai ≤ k := by
        by_contra hlt
        exact hlb1 (hdead k b (by omega) hb)
      exact Nat.div_le_div_right hk
    · rw [ha0] at h1
      simp only [] at h1
      rw [bind_ok_eq, bind_eq_ok] at h1
      obtain ⟨sp, hsp, h1⟩ := h1
      have e := (Except.ok.inj h1).symm
      obtain ⟨r1, r2, _, r4⟩ := typeWidth_row ai
      obtain ⟨sp', hsp', hw⟩ := alienBaseSprite_of_type a0.type (by rw [t1]; exact r4)
      rw [hsp] at hsp'
      have esp := Except.ok.inj hsp'
      subst esp
      rw [hw, t1, r2] at e
      rw [t1, r1, e]
      unfold sub64
      omega

theorem swarm_inside_playfield_witness :
    leftBound (startState 0 zeroBullets).game.aliens
      = Except.ok (startState 0 zeroBullets).alien_swarm_position ∧
    (startState 0 zeroBullets).alien_swarm_position
      ≤ (startState 0 zeroBullets).alien_swarm_max_position :=
  ⟨(swarm_inside_playfield _
      (Reachable.start 0 zeroBullets _ (by decide) (List.length_replicate 128 _)
        (initialState_eq 0 _))).2.1,
    (swarm_inside_playfield _
      (Reachable.start 0 zeroBullets _ (by decide) (List.length_replicate 128 _)
        (initialState_eq 0 _))).2.2.2.1⟩

/-! ## Late in a wave of a higher level -/

theorem lateAliens_getElem? (i : Nat) (a : Alien) (h : lateAliens[i]? = some a) :
    i < num_aliens ∧
    a.type = (if i < 44 then ALIEN_DEAD else (5 - i % 5) / 2 + 1) ∧
    a.x = 16 * (i / 5) + 24 +
      (if i < 44 then 0 else (13 - typeWidth ((5 - i % 5) / 2 + 1)) / 2) := by
  unfold lateAliens at h
  rw [List.getElem?_map] at h
  by_cases hi : i < num_aliens
  · rw [List.getElem?_range hi] at h
    simp only [Option.map_some'] at h
    have e := (Option.some.inj h).symm
    rw [e]
    exact ⟨hi, rfl, rfl⟩
  · rw [List.getElem?_eq_none (by simpa using hi)] at h
    cases h

theorem lateAliens_field : Field lateAliens 152 177 4 := by
  refine ⟨by unfold lateAliens; rw [List.length_map, List.length_range], Or.inl rfl,
    by decide, by decide, by decide, 24, ?_⟩
  intro i a ha hl
  obtain ⟨hi, ht, hx⟩ := lateAliens_getElem? i a ha
  have hi1 : i < 55 := hi
  have h44 : ¬ i < 44 := by
    intro hlt
    rw [if_pos hlt] at ht
    exact hl ht
  rw [if_neg h44] at ht hx
  rw [(typeWidth_row i).1] at hx
  refine ⟨ht, ?_, ?_, ?_⟩
  · rw [hx]
    push_cast
    omega
  · omega
  · omega

theorem lateWaveState_end (level cadence : Nat) : EndInv (lateWaveState level cadence) := by
  constructor
  · exact lateAliens_field
  · show leftBound lateAliens = Except.ok 152
    exact eq_ok_of_toOption (by decide)

theorem lateWaveState_anim (level cadence : Nat) (h : cadence ≤ 120) :
    AnimInv (lateWaveState level cadence) := by
  refine ⟨rfl, h, h, ?_, fun _ => rfl⟩
  intro h0
  show 0 < 2 * cadence
  have h1 : cadence ≠ 0 := h0
  omega

set_option maxRecDepth 1000000 in
/-- C28, failing input. The level formula gives 15 at level 25, and the four
halvings of a wave take 15 to 7, 3, 1 and 0; the fourth halving gives 0 for every
level from 25 on and at least 1 for every level up to 24. The state
`lateWaveState 25 1` is the state of a wave of level 25 with 44 kills, cadence and
frame duration 1; it satisfies the invariants that hold in every reachable state.
The next tick kills the 45th alien and ends with cadence and frame duration 0, and
the tick after it divides by that frame duration when it selects the frame of the
first living alien it draws. What does hold in every reachable state: while the
frame duration is not 0, the animation clock is below twice the frame duration, so
the frame index is 0 or 1. -/
theorem frame_duration_reaches_zero :
    levelFrequency 25 = 15 ∧ 15 / 2 / 2 / 2 = 1 ∧ 1 / 2 = 0 ∧
    (∀ l : Nat, 25 ≤ l → levelFrequency l / 2 / 2 / 2 / 2 = 0) ∧
    (∀ l : Nat, l ≤ 24 → 1 ≤ levelFrequency l / 2 / 2 / 2 / 2) ∧
    CadenceInv (lateWaveState 25 1) ∧ AnimInv (lateWaveState 25 1) ∧
    EndInv (lateWaveState 25 1) ∧
    (lateWaveState 25 1).level = 25 ∧ (lateWaveState 25 1).aliens_killed = 44 ∧
    (lateWaveState 25 1).alien_update_frequency = 1 ∧
    (tick 100 (lateWaveState 25 1) []).toOption.map
        (fun s => (s.level, s.aliens_killed, s.alien_update_frequency,
          s.alien_animation.frame_duration)) = some (25, 45, 0, 0) ∧
    faultOf ((tick 100 (lateWaveState 25 1) []) >>= fun s =>
      drawAliens s (List.range num_aliens)) = some Fault.divByZero ∧
    faultOf ((tick 100 (lateWaveState 25 1) []) >>= fun s => tick 100 s [])
      = some Fault.divByZero ∧
    (∀ s : State, Reachable s → s.alien_animation.frame_duration ≠ 0 →
      s.alien_animation.time / s.alien_animation.frame_duration < 2) := by
  refine ⟨by decide, by decide, by decide, ?_, ?_,
    ⟨by decide, by decide, Or.inr ⟨rfl, 2, by decide, Or.inr (by decide)⟩⟩,
    lateWaveState_anim 25 1 (by decide), lateWaveState_end 25 1, rfl, rfl, rfl,
    ?_, ?_, ?_, ?_⟩
  · intro l hl
    by_cases h36 : l ≤ 36
    · rw [levelFrequency_le36 _ (by omega) h36]
      omega
    · rw [levelFrequency_gt36 _ (by omega)]
  · intro l hl
    by_cases h8 : l ≤ 8
    · rw [levelFrequency_le8 _ h8]
      omega
    · rw [levelFrequency_le36 _ (by omega) (by omega)]
      omega
  · decide!
  · decide!
  · decide!
  · intro s hr h0
    have ha := reachable_anim hr
    exact (Nat.div_lt_iff_lt_mul (Nat.pos_of_ne_zero h0)).mpr (ha.2.2.2.1 h0)

theorem frame_duration_reaches_zero_witness :
    levelFrequency 30 / 2 / 2 / 2 / 2 = 0 ∧ 1 ≤ levelFrequency 24 / 2 / 2 / 2 / 2 ∧
    (startState 0 zeroBullets).alien_animation.time
      / (startState 0 zeroBullets).alien_animation.frame_duration < 2 :=
  ⟨frame_duration_reaches_zero.2.2.2.1 30 (by decide),
    frame_duration_reaches_zero.2.2.2.2.1 24 (by decide),
    frame_duration_reaches_zero.2.2.2.2.2.2.2.2.2.2.2.2.2.2 _
      (Reachable.start 0 zeroBullets _ (by decide) (List.length_replicate 128 _)
        (initialState_eq 0 _)) (by decide)⟩

/-! ## The high score along a tick -/

theorem bool_casesOn_eq {α : Type} (b : Bool) (x y : α) :
    Bool.casesOn (motive := fun _ => α) b x y = bif b then y else x := by
  cases b <;> rfl

theorem option_casesOn_eq {α β : Type} (o : Option α) (x : β) (f : α → β) :
    Option.casesOn (motive := fun _ => β) o x f = o.elim x f := by
  cases o <;> rfl

theorem nat_add_eq (a b : Nat) : Nat.add a b = a + b := rfl
theorem nat_sub_eq (a b : Nat) : Nat.sub a b = a - b := rfl
theorem nat_mul_eq (a b : Nat) : Nat.mul a b = a * b := rfl
theorem nat_div_eq (a b : Nat) : Nat.div a b = a / b := rfl
theorem nat_mod_eq (a b : Nat) : Nat.mod a b = a % b := rfl

theorem nthK_eq {α : Type} (l : List α) (n : Nat) : nthK l n = l[n]? := by
  induction l generalizing n with
  | nil => rfl
  | cons a t ih =>
    cases n with
    | zero =>
      show some a = _
      simp
    | succ n =>
      show nthK t n = _
      rw [ih n]
      simp

theorem setK_eq {α : Type} (l : List α) (n : Nat) (v : α) : setK l n v = l.set n v := by
  induction l generalizing n with
  | nil => rfl
  | cons a t ih =>
    cases n with
    | zero => rfl
    | succ n =>
      show a :: setK t n v = _
      rw [ih n]
      rfl

theorem lastK_eq {α : Type} (l : List α) : lastK l = l.getLast? := by
  induction l with
  | nil => rfl
  | cons a t ih =>
    cases t with
    | nil => rfl
    | cons b t =>
      show lastK (b :: t) = _
      rw [ih]
      simp [List.getLast?_cons_cons]

theorem initK_eq {α : Type} (l : List α) : initK l = l.dropLast := by
  induction l with
  | nil => rfl
  | cons a t ih =>
    cases t with
    | nil => rfl
    | cons b t =>
      show a :: initK (b :: t) = _
      rw [ih]
      rfl

theorem revK_eq {α : Type} (l acc : List α) : revK l acc = l.reverse ++ acc := by
  induction l generalizing acc with
  | nil => rfl
  | cons a t ih =>
    show revK t (a :: acc) = _
    rw [ih]
    simp

theorem allClearK_eq (x y : Nat) (l : List KB) :
    allClearK x y l = true ↔ ∀ b, b ∈ l → clearK x y b.x b.y = true := by
  induction l with
  | nil => simp [allClearK]
  | cons a t ih =>
    have h : allClearK x y (a :: t) = (bif clearK x y a.x a.y then allClearK x y t else false) := by
      show Bool.casesOn (motive := fun _ => Bool) (clearK x y a.x a.y) false (allClearK x y t) = _
      rw [bool_casesOn_eq]
    rw [h]
    cases hc : clearK x y a.x a.y <;> simp [hc, ih]

theorem firstK_eq (al : List Alien) (k : Nat) :
    firstK (al.map (fun a => a.type)) k = (firstLiving al k).toOption := by
  induction al generalizing k with
  | nil => rfl
  | cons a t ih =>
    have h : firstK ((a :: t).map (fun a => a.type)) k
        = (bif Nat.beq a.type 0 then firstK (t.map (fun a => a.type)) (k + 1) else some k) := by
      show Bool.casesOn (motive := fun _ => Option Nat) (Nat.beq a.type 0) (some k)
        (firstK (t.map (fun a => a.type)) (Nat.succ k)) = _
      rw [bool_casesOn_eq]
    rw [h, firstLiving]
    by_cases hd : a.type = ALIEN_DEAD
    · have hd0 : a.type = 0 := hd
      rw [if_pos hd, hd0, ih]
      rfl
    · have hd0 : ¬ a.type = 0 := hd
      rw [if_neg hd]
      have : Nat.beq a.type 0 = false := by
        cases hb : Nat.beq a.type 0
        · rfl
        · exact absurd (Nat.eq_of_beq_eq_true hb) hd0
      rw [this]
      rfl

theorem lastLivingK_spec (l : List Nat) (k : Nat) (acc : Option Nat) (j : Nat)
    (h : lastLivingK l k acc = some j) :
    (∃ i t, j = k + i ∧ l[i]? = some t ∧ t ≠ 0 ∧
        ∀ (i' t' : Nat), i < i' → l[i']? = some t' → t' = 0) ∨
      (acc = some j ∧ ∀ (i' t' : Nat), l[i']? = some t' → t' = 0) := by
  induction l generalizing k acc with
  | nil => exact Or.inr ⟨h, fun i' t' ht => by simp at ht⟩
  | cons t0 l ih =>
    have e : lastLivingK (t0 :: l) k acc
        = (bif Nat.beq t0 0 then lastLivingK l (k + 1) acc
            else lastLivingK l (k + 1) (some k)) := by
      show Bool.casesOn (motive := fun _ => Option Nat) (Nat.beq t0 0)
        (lastLivingK l (Nat.succ k) (some k)) (lastLivingK l (Nat.succ k) acc) = _
      rw [bool_casesOn_eq]
    rw [e] at h
    have lift : ∀ i t, j = k + 1 + i → l[i]? = some t → t ≠ 0 →
        (∀ (i' t' : Nat), i < i' → l[i']? = some t' → t' = 0) →
        ∃ i t, j = k + i ∧ (t0 :: l)[i]? = some t ∧ t ≠ 0 ∧
          ∀ (i' t' : Nat), i < i' → (t0 :: l)[i']? = some t' → t' = 0 := by
      intro i t hj ht hne hall
      refine ⟨i + 1, t, by omega, by simpa using ht, hne, ?_⟩
      intro i' t' hi' ht'
      cases i' with
      | zero => omega
      | succ i' => exact hall i' t' (by omega) (by simpa using ht')
    cases hb : Nat.beq t0 0
    · rw [hb] at h
      have hne : t0 ≠ 0 := fun h0 => by rw [h0] at hb; cases hb
      rcases ih (k + 1) (some k) h with ⟨i, t, hj, ht, hn, hall⟩ | ⟨hacc, hall⟩
      · exact Or.inl (lift i t hj ht hn hall)
      · refine Or.inl ⟨0, t0, by have := Option.some.inj hacc; omega, by simp, hne, ?_⟩
        intro i' t' hi' ht'
        cases i' with
        | zero => omega
        | succ i' => exact hall i' t' (by simpa using ht')
    · rw [hb] at h
      have h0 : t0 = 0 := Nat.eq_of_beq_eq_true hb
      rcases ih (k + 1) acc h with ⟨i, t, hj, ht, hn, hall⟩ | ⟨hacc, hall⟩
      · exact Or.inl (lift i t hj ht hn hall)
      · refine Or.inr ⟨hacc, ?_⟩
        intro i' t' ht'
        cases i' with
        | zero =>
          simp at ht'
          omega
        | succ i' => exact hall i' t' (by simpa using ht')

theorem offK_widthK (t : Nat) :
    (t = 1 ∧ offK t = 2 ∧ widthK t = 8) ∨ (t = 2 ∧ offK t = 1 ∧ widthK t = 11) ∨
      (t ≠ 1 ∧ t ≠ 2 ∧ offK t = 0 ∧ widthK t = 12) := by
  by_cases h1 : t = 1
  · subst h1
    exact Or.inl ⟨rfl, rfl, rfl⟩
  · by_cases h2 : t = 2
    · subst h2
      exact Or.inr (Or.inl ⟨rfl, rfl, rfl⟩)
    · refine Or.inr (Or.inr ⟨h1, h2, ?_, ?_⟩)
      · unfold offK
        simp only [bool_casesOn_eq, cond_eq_if, Nat.beq_eq, h1, h2, if_false]
      · unfold widthK
        simp only [bool_casesOn_eq, cond_eq_if, Nat.beq_eq, h1, h2, if_false]

theorem widthK_eq (t : Nat) : widthK t = typeWidth t := by
  unfold typeWidth
  rcases offK_widthK t with ⟨h, _, hw⟩ | ⟨h, _, hw⟩ | ⟨h1, h2, _, hw⟩
  · rw [hw, if_pos h]
  · rw [hw, if_neg (by omega), if_pos h]
  · rw [hw, if_neg h1, if_neg h2]

theorem pointsK_eq (score t : Nat) (ht : t = 1 ∨ t = 2 ∨ t = 3) (hs : score ≤ 4000000000) :
    hitScore score t = score + pointsK t := by
  unfold hitScore
  rcases ht with h | h | h <;> subst h
  · rw [if_pos rfl, add64_of_lt _ _ (by omega)]
    rfl
  · rw [if_neg (by decide)]
    have e : mul64 10 (sub64 4 2) = 20 := by decide
    rw [e, add64_of_lt _ _ (by omega)]
    rfl
  · rw [if_neg (by decide)]
    have e : mul64 10 (sub64 4 3) = 10 := by decide
    rw [e, add64_of_lt _ _ (by omega)]
    rfl

theorem rowTypeK_cases (r : Nat) : rowTypeK r = 1 ∨ rowTypeK r = 2 ∨ rowTypeK r = 3 := by
  unfold rowTypeK
  simp only [bool_casesOn_eq, cond_eq_if, Nat.ble_eq]
  split
  · exact Or.inr (Or.inr rfl)
  · split
    · exact Or.inr (Or.inl rfl)
    · exact Or.inl rfl

theorem hitK_eq (c : KS) (x y : Nat) :
    hitK c x y =
      if c.gy ≤ y + 2 then
        if c.gx ≤ x + 1024 then
          if (y + 2 - c.gy) % 17 ≤ 9 then
            if (y + 2 - c.gy) / 17 < 5 then
              if (x + 1024 - c.gx) / 16 < 11 then
                c.types[5 * ((x + 1024 - c.gx) / 16) + (y + 2 - c.gy) / 17]?.elim none fun val =>
                  if val = 0 then none
                  else
                    if offK val ≤ (x + 1024 - c.gx) % 16 then
                      if (x + 1024 - c.gx) % 16 < offK val + widthK val then
                        some (5 * ((x + 1024 - c.gx) / 16) + (y + 2 - c.gy) / 17)
                      else none
                    else none
              else none
            else none
          else none
        else none
      else none := by
  unfold hitK
  simp only [bool_casesOn_eq, option_casesOn_eq, nat_add_eq, nat_sub_eq, nat_mul_eq, nat_div_eq,
    nat_mod_eq, nthK_eq, cond_eq_if, Nat.ble_eq, Nat.blt_eq, Nat.beq_eq]

theorem hitK_complete (c : KS) (x y j t : Nat) (hj : j < 55) (ht : c.types[j]? = some t)
    (h0 : t ≠ 0)
    (hx1 : c.gx + 16 * (j / 5) + offK t ≤ x + 1024)
    (hx2 : x + 1024 < c.gx + 16 * (j / 5) + offK t + widthK t)
    (hy1 : c.gy + 17 * (j % 5) ≤ y + 2) (hy2 : y < c.gy + 17 * (j % 5) + 8) :
    hitK c x y = some j := by
  have hw : offK t + widthK t ≤ 12 := by
    rcases offK_widthK t with ⟨_, h1, h2⟩ | ⟨_, h1, h2⟩ | ⟨_, _, h1, h2⟩ <;> omega
  have e1 : (x + 1024 - c.gx) / 16 = j / 5 := by omega
  have e2 : (y + 2 - c.gy) / 17 = j % 5 := by omega
  have e3 : 5 * (j / 5) + j % 5 = j := by omega
  rw [hitK_eq, if_pos (by omega), if_pos (by omega), if_pos (by omega), if_pos (by omega),
    if_pos (by omega), e1, e2, e3, ht]
  simp only [Option.elim]
  rw [if_neg h0, if_pos (by omega), if_pos (by omega)]

theorem hitK_sound (c : KS) (x y i : Nat) (h : hitK c x y = some i) :
    i < 55 ∧ ∃ t, c.types[i]? = some t ∧ t ≠ 0 ∧
      c.gx + 16 * (i / 5) + offK t ≤ x + 1024 ∧
      x + 1024 < c.gx + 16 * (i / 5) + offK t + widthK t ∧
      c.gy + 17 * (i % 5) ≤ y + 2 ∧ y < c.gy + 17 * (i % 5) + 8 := by
  rw [hitK_eq] at h
  split at h
  swap
  · cases h
  split at h
  swap
  · cases h
  split at h
  swap
  · cases h
  split at h
  swap
  · cases h
  split at h
  swap
  · cases h
  cases ht : c.types[5 * ((x + 1024 - c.gx) / 16) + (y + 2 - c.gy) / 17]? with
  | none =>
    rw [ht] at h
    cases h
  | some t =>
    rw [ht] at h
    simp only [Option.elim] at h
    split at h
    · cases h
    split at h
    swap
    · cases h
    split at h
    swap
    · cases h
    have e := Option.some.inj h
    have hw : offK t + widthK t ≤ 12 := by
      rcases offK_widthK t with ⟨_, h1, h2⟩ | ⟨_, h1, h2⟩ | ⟨_, _, h1, h2⟩ <;> omega
    subst e
    refine ⟨by omega, t, ht, by assumption, ?_, ?_, ?_, ?_⟩ <;> omega

theorem overlap_eq (sa sb : Sprite) (xa ya xb yb : Nat)
    (h1 : xb + sb.width < 18446744073709551616) (h2 : xa + sa.width < 18446744073709551616)
    (h3 : yb + sb.height < 18446744073709551616) (h4 : ya + sa.height < 18446744073709551616) :
    sprite_overlap_check sa xa ya sb xb yb
      = decide (xa < xb + sb.width ∧ xa + sa.width > xb ∧
          ya < yb + sb.height ∧ ya + sa.height > yb) := by
  unfold sprite_overlap_check
  rw [add64_of_lt _ _ h1, add64_of_lt _ _ h2, add64_of_lt _ _ h3, add64_of_lt _ _ h4]
  by_cases h : xa < xb + sb.width ∧ xa + sa.width > xb ∧
      ya < yb + sb.height ∧ ya + sa.height > yb
  · rw [if_pos h, decide_eq_true h]
  · rw [if_neg h, decide_eq_false h]

theorem clearK_eq (x y bx bY : Nat) :
    clearK x y bx bY = true ↔ ¬ (x < bx + 3 ∧ bx < x + 1 ∧ y < bY + 7 ∧ bY < y + 3) := by
  unfold clearK
  simp only [bool_casesOn_eq, nat_add_eq, cond_eq_if, Nat.ble_eq, Nat.blt_eq]
  split
  · split
    · split
      · simp only [Nat.ble_eq]
        omega
      · simp only [true_iff]
        omega
    · simp only [true_iff]
      omega
  · simp only [true_iff]
    omega

theorem shipClearK_eq (x y px : Nat) :
    shipClearK x y px = true ↔ ¬ (x < px + 11 ∧ px < x + 3 ∧ y < 39 ∧ 32 < y + 7) := by
  unfold shipClearK
  simp only [bool_casesOn_eq, nat_add_eq, cond_eq_if, Nat.ble_eq, Nat.blt_eq]
  split
  · split
    · split
      · simp only [Nat.ble_eq]
        omega
      · simp only [true_iff]
        omega
    · simp only [true_iff]
      omega
  · simp only [true_iff]
    omega

theorem toBullet_dir_up (b : KB) (h : b.up = true) : (toBullet b).dir = 2 := by
  unfold toBullet
  rw [h]

theorem toBullet_dir_down (b : KB) (h : b.up = false) : (toBullet b).dir = -2 := by
  unfold toBullet
  rw [h]

theorem simulateBullet_keep_down (s : State) (bi : Nat) (b : Bullet) (y1 : Nat)
    (hb : s.game.bullets[bi]? = some b) (hd : b.dir < 0) (hy1 : addInt64 b.y b.dir = y1)
    (hin : ¬ (y1 ≥ game_height ∨ y1 < player_bullet_sprite.height))
    (hov : sprite_overlap_check alien_bullet_sprite_0 b.x y1 player_sprite
      s.game.player.x s.game.player.y = false) :
    simulateBullet s bi
      = Except.ok ({ s with game := { s.game with
          bullets := s.game.bullets.set bi { b with y := y1 } } }, false) := by
  have hlt := lt_length_of_getElem? _ _ _ hb
  unfold simulateBullet
  rw [(readBullet_eq_ok _ _ _).mpr hb, bind_ok_eq]
  simp only [hy1]
  rw [writeBullet_eq_ok _ _ _ hlt, bind_ok_eq]
  simp only []
  rw [if_neg hin, if_pos hd, hov]
  rfl

theorem simulateBullet_remove (s : State) (bi : Nat) (b last : Bullet) (y1 : Nat)
    (hb : s.game.bullets[bi]? = some b) (hy1 : addInt64 b.y b.dir = y1)
    (hout : y1 ≥ game_height ∨ y1 < player_bullet_sprite.height)
    (hpos : 0 < s.game.num_bullets) (hn : s.game.num_bullets ≤ 128)
    (hlast : (s.game.bullets.set bi { b with y := y1 })[s.game.num_bullets - 1]? = some last) :
    simulateBullet s bi
      = Except.ok ({ s with game := { s.game with
          bullets := s.game.bullets.set bi last
          num_bullets := s.game.num_bullets - 1 } }, false) := by
  have hlt := lt_length_of_getElem? _ _ _ hb
  unfold simulateBullet
  rw [(readBullet_eq_ok _ _ _).mpr hb, bind_ok_eq]
  simp only [hy1]
  rw [writeBullet_eq_ok _ _ _ hlt, bind_ok_eq]
  simp only []
  rw [if_pos hout]
  have hrb := removeBullet_eq_ok
    { s.game with bullets := s.game.bullets.set bi { b with y := y1 } } bi last hpos
    (by show s.game.num_bullets < _; omega) hlast (by simpa using hlt)
  rw [hrb, bind_ok_eq]
  simp only [pure_eq_ok, List.set_set]

theorem simulateBullet_keep_up (s s1 : State) (bi : Nat) (b : Bullet) (y1 : Nat)
    (hb : s.game.bullets[bi]? = some b) (hd : ¬ b.dir < 0) (hy1 : addInt64 b.y b.dir = y1)
    (hin : ¬ (y1 ≥ game_height ∨ y1 < player_bullet_sprite.height))
    (hpair : bulletVsBullet (GAME_MAX_BULLETS + 1) 0 bi
        { s.game with bullets := s.game.bullets.set bi { b with y := y1 } }
      = Except.ok { s.game with bullets := s.game.bullets.set bi { b with y := y1 } })
    (hhit : checkHit { s with game := { s.game with
        bullets := s.game.bullets.set bi { b with y := y1 } } } bi (List.range num_aliens)
      = Except.ok s1) :
    simulateBullet s bi = Except.ok (s1, false) := by
  have hlt := lt_length_of_getElem? _ _ _ hb
  unfold simulateBullet
  rw [(readBullet_eq_ok _ _ _).mpr hb, bind_ok_eq]
  simp only [hy1]
  rw [writeBullet_eq_ok _ _ _ hlt, bind_ok_eq]
  simp only []
  rw [if_neg hin, if_neg hd, hpair, bind_ok_eq, hhit, bind_ok_eq]
  rfl

theorem bulletVsBullet_clear (fuel bj bi : Nat) (g : Game) (a : Bullet)
    (hfuel : g.num_bullets + 1 ≤ fuel + bj) (hbj : bj ≤ g.num_bullets)
    (ha : g.bullets[bi]? = some a)
    (hclear : ∀ j, bj ≤ j → j < g.num_bullets → j ≠ bi →
      ∃ q, g.bullets[j]? = some q ∧
        sprite_overlap_check player_bullet_sprite a.x a.y alien_bullet_sprite_0 q.x q.y
          = false) :
    bulletVsBullet fuel bj bi g = Except.ok g := by
  induction fuel generalizing bj with
  | zero => omega
  | succ fuel ih =>
    rw [bulletVsBullet]
    by_cases hlt : bj < g.num_bullets
    · rw [if_pos hlt]
      by_cases hij : bi = bj
      · rw [if_pos hij]
        exact ih (bj + 1) (by omega) (by omega)
          (fun j h1 h2 h3 => hclear j (by omega) h2 h3)
      · rw [if_neg hij]
        obtain ⟨q, hq, hov⟩ := hclear bj (Nat.le_refl _) hlt (fun e => hij e.symm)
        rw [(readBullet_eq_ok _ _ _).mpr ha, bind_ok_eq, (readBullet_eq_ok _ _ _).mpr hq,
          bind_ok_eq, hov]
        exact ih (bj + 1) (by omega) (by omega)
          (fun j h1 h2 h3 => hclear j (by omega) h2 h3)
    · rw [if_neg hlt]

theorem checkHit_none (s : State) (bi : Nat) (h : ∀ j, j < num_aliens → Misses s bi j) :
    checkHit s bi (List.range num_aliens) = Except.ok s := by
  have e := checkHit_skip s bi (List.range num_aliens) []
    (fun j hj => h j (List.mem_range.mp hj))
  rw [List.append_nil] at e
  rw [e]
  rfl

theorem checkHit_first (s : State) (bi ai : Nat) (alien : Alien) (sp : Sprite) (b last : Bullet)
    (hai : ai < num_aliens)
    (halien : s.game.aliens[ai]? = some alien)
    (hliving : alien.type ≠ ALIEN_DEAD)
    (hsp : alienFrameSprite s alien.type = Except.ok sp)
    (hb : s.game.bullets[bi]? = some b)
    (hpos : 0 < s.game.num_bullets) (hn : s.game.num_bullets ≤ 128)
    (hlast : s.game.bullets[s.game.num_bullets - 1]? = some last)
    (hov : sprite_overlap_check player_bullet_sprite b.x b.y sp alien.x alien.y = true)
    (hfirst : ∀ j, j < ai → Misses s bi j) :
    checkHit s bi (List.range num_aliens) = Except.ok
      { s with
        game := { s.game with
          aliens := s.game.aliens.set ai
            { alien with
              type := ALIEN_DEAD
              x := sub64 alien.x (sub64 alien_death_sprite.width sp.width / 2) }
          bullets := s.game.bullets.set bi last
          num_bullets := s.game.num_bullets - 1 }
        score := hitScore s.score alien.type
        aliens_killed := add64 s.aliens_killed 1
        should_change_speed :=
          if add64 s.aliens_killed 1 % 15 = 0 then true else s.should_change_speed } := by
  have hbilen := lt_length_of_getElem? _ _ _ hb
  rw [range_split num_aliens ai hai,
    checkHit_skip s bi _ _ (fun j hj => hfirst j (List.mem_range.mp hj))]
  rw [checkHit]
  unfold testAlien
  rw [(readAlien_eq_ok s.game ai alien).mpr halien, bind_ok_eq, if_neg hliving, hsp, bind_ok_eq,
    (readBullet_eq_ok s.game bi b).mpr hb, bind_ok_eq, hov, if_pos rfl]
  rw [hitAlien_eq_ok s bi ai sp alien last halien hpos (by omega) hlast hbilen, bind_ok_eq]
  rfl

theorem drawBullets_ok (s : State) (fuel bi : Nat)
    (hfuel : s.game.num_bullets + 1 ≤ fuel + bi) (hbi : bi ≤ s.game.num_bullets)
    (hlen : s.game.num_bullets ≤ s.game.bullets.length)
    (hfd : s.alien_bullet_animation.frame_duration ≠ 0)
    (hfr : s.alien_bullet_animation.time / s.alien_bullet_animation.frame_duration < 2) :
    drawBullets s fuel bi = Except.ok () := by
  induction fuel generalizing bi with
  | zero => omega
  | succ fuel ih =>
    rw [drawBullets]
    by_cases hlt : bi < s.game.num_bullets
    · rw [if_pos hlt]
      obtain ⟨b, hb⟩ := getElem?_of_lt_length s.game.bullets bi (by omega)
      have hd : drawBullet s bi = Except.ok () := by
        unfold drawBullet
        rw [(readBullet_eq_ok _ _ _).mpr hb]
        simp only []
        by_cases hdir : b.dir > 0
        · rw [if_pos hdir]
        · rw [if_neg hdir, if_neg hfd, if_pos hfr]
      rw [hd]
      exact ih (bi + 1) (by omega) (by omega)
    · rw [if_neg hlt]

theorem getElem?_mid {α : Type} (p t : List α) (b : α) : (p ++ b :: t)[p.length]? = some b := by
  rw [List.getElem?_append_right (Nat.le_refl _), Nat.sub_self]
  exact List.getElem?_cons_zero

theorem Live.read {bl : List Bullet} {p t : List KB} {b : KB} (h : Live bl (p ++ b :: t)) :
    bl[p.length]? = some (toBullet b) :=
  h.2.2.1 p.length b (getElem?_mid p t b)

theorem Live.keep {bl : List Bullet} {p t : List KB} {b : KB} (b' : KB)
    (h : Live bl (p ++ b :: t)) (hx : b'.x ≤ 1000) (hy : b'.y ≤ 255) :
    Live (bl.set p.length (toBullet b')) (p ++ b' :: t) := by
  obtain ⟨h1, h2, h3, h4⟩ := h
  have hlen : (p ++ b :: t).length = p.length + (t.length + 1) := by simp
  refine ⟨by simpa using h1, by simpa using h2, ?_, ?_⟩
  · intro i q hq
    rcases Nat.lt_trichotomy i p.length with hi | hi | hi
    · rw [List.getElem?_set_ne (by omega)]
      apply h3
      rw [List.getElem?_append_left hi] at hq ⊢
      exact hq
    · subst hi
      rw [List.getElem?_set_self (by omega)]
      rw [getElem?_mid] at hq
      rw [Option.some.inj hq]
    · rw [List.getElem?_set_ne (by omega)]
      apply h3
      rw [List.getElem?_append_right (by omega)] at hq ⊢
      obtain ⟨k, hk⟩ : ∃ k, i - p.length = k + 1 := ⟨i - p.length - 1, by omega⟩
      rw [hk] at hq ⊢
      simpa using hq
  · intro q hq
    simp only [List.mem_append, List.mem_cons] at hq
    rcases hq with hq | hq | hq
    · exact h4 q (by simp [hq])
    · rw [hq]
      exact ⟨hx, hy⟩
    · exact h4 q (by simp [hq])

theorem Live.drop_last {bl : List Bullet} {p : List KB} {b : KB} (x : Bullet)
    (h : Live bl (p ++ [b])) : Live (bl.set p.length x) p := by
  obtain ⟨h1, h2, h3, h4⟩ := h
  refine ⟨by simpa using h1, by simp at h2; omega, ?_, ?_⟩
  · intro i q hq
    have hi := lt_length_of_getElem? _ _ _ hq
    rw [List.getElem?_set_ne (by omega)]
    apply h3
    rw [List.getElem?_append_left hi]
    exact hq
  · intro q hq
    exact h4 q (by simp [hq])

theorem Live.swap {bl : List Bullet} {p t0 : List KB} {b l : KB}
    (h : Live bl (p ++ b :: (t0 ++ [l]))) :
    Live (bl.set p.length (toBullet l)) (p ++ l :: t0) := by
  obtain ⟨h1, h2, h3, h4⟩ := h
  have hlen : (p ++ b :: (t0 ++ [l])).length = p.length + (t0.length + 2) := by simp
  refine ⟨by simpa using h1, by simp at h2 ⊢; omega, ?_, ?_⟩
  · intro i q hq
    rcases Nat.lt_trichotomy i p.length with hi | hi | hi
    · rw [List.getElem?_set_ne (by omega)]
      apply h3
      rw [List.getElem?_append_left hi] at hq ⊢
      exact hq
    · subst hi
      rw [List.getElem?_set_self (by omega)]
      rw [getElem?_mid] at hq
      rw [Option.some.inj hq]
    · rw [List.getElem?_set_ne (by omega)]
      apply h3
      rw [List.getElem?_append_right (by omega)] at hq ⊢
      obtain ⟨k, hk⟩ : ∃ k, i - p.length = k + 1 := ⟨i - p.length - 1, by omega⟩
      rw [hk] at hq ⊢
      simp only [List.getElem?_cons_succ] at hq ⊢
      have hk' := lt_length_of_getElem? _ _ _ hq
      rw [List.getElem?_append_left hk']
      exact hq
  · intro q hq
    simp only [List.mem_append, List.mem_cons] at hq
    rcases hq with hq | hq | hq
    · exact h4 q (by simp [hq])
    · rw [hq]
      exact h4 l (by simp)
    · exact h4 q (by simp [hq])

theorem Live.last {bl : List Bullet} {p t0 : List KB} {b l : KB}
    (h : Live bl (p ++ b :: (t0 ++ [l]))) :
    bl[p.length + (t0.length + 1)]? = some (toBullet l) :=
  h.2.2.1 _ l (by
    rw [List.getElem?_append_right (by omega)]
    have e : p.length + (t0.length + 1) - p.length = t0.length + 1 := by omega
    rw [e]
    simp)

theorem lastK_split {α : Type} (t : List α) (l : α) (h : lastK t = some l) :
    t = initK t ++ [l] := by
  rw [lastK_eq] at h
  rw [initK_eq]
  exact (List.dropLast_append_getLast? l h).symm

theorem lastK_none {α : Type} (t : List α) (h : lastK t = none) : t = [] := by
  rw [lastK_eq] at h
  exact List.getLast?_eq_none_iff.mp h

theorem OnGrid.kill {types : List Nat} {gx gy : Nat} {al : List Alien} (i : Nat) (a' : Alien)
    (h : OnGrid types gx gy al) (ha : a'.type = 0) :
    OnGrid (types.set i 0) gx gy (al.set i a') := by
  obtain ⟨h1, h2, h3⟩ := h
  refine ⟨by simpa using h1, ?_, ?_⟩
  · rw [h2, List.map_set, ha]
  · intro j a hj hl
    by_cases hij : i = j
    · subst hij
      rw [List.getElem?_set] at hj
      split at hj
      · split at hj
        · rw [← Option.some.inj hj] at hl
          exact absurd ha hl
        · cases hj
      · exact absurd rfl (by assumption)
    · rw [List.getElem?_set_ne hij] at hj
      exact h3 j a hj hl

theorem bulletsK_zero (acc rest : List KB) (c : KS) : bulletsK 0 acc rest c = none := rfl

theorem bulletsK_nil (fuel : Nat) (acc : List KB) (c : KS) :
    bulletsK (fuel + 1) acc [] c = some { c with bullets := revK acc [] } := rfl

theorem bulletsK_cons (fuel : Nat) (acc t : List KB) (b : KB) (c : KS) :
    bulletsK (fuel + 1) acc (b :: t) c = bulletStepK (bulletsK fuel) acc b t c := rfl

theorem bulletStepK_eq (ih : List KB → List KB → KS → Option KS) (acc t : List KB) (b : KB)
    (c : KS) :
    bulletStepK ih acc b t c =
      if b.up = true then
        if 254 ≤ b.y ∨ b.y = 0 then afterRemovalK ih acc t c
        else
          if allClearK b.x (b.y + 2) acc = true ∧ allClearK b.x (b.y + 2) t = true then
            (hitK c b.x (b.y + 2)).elim (ih ({ x := b.x, y := b.y + 2, up := true } :: acc) t c)
              fun i => (killK c i).elim none (afterRemovalK ih acc t)
          else none
      else
        if b.y < 5 ∨ 258 ≤ b.y then afterRemovalK ih acc t c
        else
          if shipClearK b.x (b.y - 2) c.px = true then
            ih ({ x := b.x, y := b.y - 2, up := false } :: acc) t c
          else none := by
  unfold bulletStepK
  simp only [bool_casesOn_eq, option_casesOn_eq, nat_add_eq, nat_sub_eq, cond_eq_if,
    Nat.ble_eq, Nat.blt_eq, Nat.beq_eq]
  by_cases h1 : b.up = true
  · simp only [h1, if_true]
    by_cases h2 : 254 ≤ b.y
    · simp [h2]
    · by_cases h3 : b.y = 0
      · simp [h3]
      · have h4 : Nat.beq b.y 0 = false := by
          cases hb : Nat.beq b.y 0
          · rfl
          · exact absurd (Nat.eq_of_beq_eq_true hb) h3
        simp only [h2, h3, h4, if_false, or_self]
        by_cases h5 : allClearK b.x (b.y + 2) acc = true
        · simp [h5]
        · simp [h5]
  · simp only [h1, if_false]
    by_cases h2 : b.y < 5
    · simp [h2]
    · by_cases h3 : 258 ≤ b.y
      · simp [h3]
      · simp [h2, h3]

theorem killK_eq (c : KS) (i : Nat) :
    killK c i = (c.types[i]?).elim none fun t =>
      if c.kills ≤ 1000 ∧ c.score ≤ 4000000000 then
        some { c with
          types := c.types.set i 0
          score := c.score + pointsK t
          kills := c.kills + 1
          flag := if (c.kills + 1) % 15 = 0 then true else c.flag }
      else none := by
  unfold killK
  simp only [bool_casesOn_eq, option_casesOn_eq, nat_add_eq, nat_mod_eq, cond_eq_if,
    Nat.ble_eq, Nat.beq_eq, nthK_eq, setK_eq]
  cases c.types[i]? with
  | none => rfl
  | some t =>
    simp only [Option.elim]
    by_cases h1 : c.kills ≤ 1000
    · by_cases h2 : c.score ≤ 4000000000
      · simp [h1, h2]
      · simp [h1, h2]
    · simp [h1]

theorem conc_bullets (c : KS) (bs : List KB) (n : Nat) (bl : List Bullet) (al : List Alien)
    (dc : List Nat) (pmd : Int) :
    conc { c with bullets := bs } n bl al dc pmd = conc c n bl al dc pmd := rfl

theorem afterRemoval_sound (fuel : Nat) (IH : LoopSpec fuel) (acc t : List KB) (b : KB)
    (c1 c' : KS) (bl : List Bullet) (al1 : List Alien) (dc : List Nat) (pmd : Int)
    (b1 : Bullet)
    (hlive : Live bl (acc.reverse ++ b :: t)) (hgrid : OnGrid c1.types c1.gx c1.gy al1)
    (hfd : c1.fd ≠ 0) (hfr : c1.atime / c1.fd < 2) (hpx : c1.px ≤ 213) (hgx : c1.gx ≤ 2004)
    (hgy : c1.gy ≤ 128)
    (hk : afterRemovalK (bulletsK fuel) acc t c1 = some c') :
    ∃ last, (bl.set acc.length b1)[acc.length + (t.length + 1) - 1]? = some last ∧
      ∃ bl' al', simulateBullets fuel (acc.length + 1)
          (conc c1 (acc.length + (t.length + 1) - 1) (bl.set acc.length last) al1 dc pmd)
          = Except.ok (conc c' c'.bullets.length bl' al' dc pmd) ∧
        Live bl' c'.bullets ∧ OnGrid c'.types c'.gx c'.gy al' ∧
        c'.fd = c1.fd ∧ c'.atime = c1.atime ∧ c'.px = c1.px ∧ c'.gx = c1.gx ∧ c'.gy = c1.gy := by
  have hlen : acc.reverse.length = acc.length := List.length_reverse acc
  have hbl : bl.length = 128 := hlive.1
  have hn : (acc.reverse ++ b :: t).length ≤ 128 := hlive.2.1
  have hn' : acc.length + (t.length + 1) ≤ 128 := by simpa using hn
  unfold afterRemovalK at hk
  rw [option_casesOn_eq] at hk
  cases hl : lastK t with
  | none =>
    rw [hl] at hk
    simp only [Option.elim] at hk
    have ht := lastK_none t hl
    have e1 : acc.length + (t.length + 1) - 1 = acc.length := by
      rw [ht]
      simp
    rw [e1]
    rw [ht] at hlive
    cases fuel with
    | zero => cases hk
    | succ f =>
      rw [bulletsK_nil] at hk
      have e := (Option.some.inj hk).symm
      subst e
      refine ⟨b1, List.getElem?_set_self (by omega), bl.set acc.length b1, al1, ?_, ?_, hgrid,
        rfl, rfl, rfl, rfl, rfl⟩
      · rw [simulateBullets]
        have e2 : ¬ (acc.length + 1
            < (conc c1 acc.length (bl.set acc.length b1) al1 dc pmd).game.num_bullets) := by
          show ¬ (acc.length + 1 < acc.length)
          omega
        rw [if_neg e2]
        have e3 : (revK acc []).length = acc.length := by
          rw [revK_eq]
          simp
        show Except.ok _ = Except.ok (conc _ (revK acc []).length _ _ _ _)
        rw [e3]
        rfl
      · show Live _ (revK acc [])
        rw [revK_eq, List.append_nil, ← hlen]
        exact Live.drop_last b1 hlive
  | some l =>
    rw [hl] at hk
    simp only [Option.elim] at hk
    have ht := lastK_split t l hl
    have htl : t.length = (initK t).length + 1 := by
      conv_lhs => rw [ht]
      simp
    rw [ht] at hlive
    have hsw := Live.swap hlive
    have hla := Live.last hlive
    rw [hlen] at hsw hla
    have e0 : (l :: acc).reverse ++ initK t = acc.reverse ++ l :: initK t := by simp
    rw [← e0] at hsw
    obtain ⟨bl', al', h1, h2, h3, h4⟩ :=
      IH (l :: acc) (initK t) c1 c' (bl.set acc.length (toBullet l)) al1 dc pmd hsw hgrid hfd
        hfr hpx hgx hgy hk
    refine ⟨toBullet l, ?_, bl', al', ?_, h2, h3, h4⟩
    · have e1 : acc.length + (t.length + 1) - 1 = acc.length + ((initK t).length + 1) := by
        omega
      rw [e1, List.getElem?_set_ne (by omega)]
      exact hla
    · have e1 : acc.length + (t.length + 1) - 1 = (l :: acc).length + (initK t).length := by
        simp only [List.length_cons]
        omega
      rw [e1]
      exact h1

theorem OnGrid.types_get {types : List Nat} {gx gy : Nat} {al : List Alien}
    (h : OnGrid types gx gy al) (i : Nat) (a : Alien) (ha : al[i]? = some a) :
    types[i]? = some a.type := by
  rw [h.2.1, List.getElem?_map, ha]
  rfl

theorem OnGrid.alien_get {types : List Nat} {gx gy : Nat} {al : List Alien}
    (h : OnGrid types gx gy al) (i t : Nat) (ht : types[i]? = some t) :
    ∃ a, al[i]? = some a ∧ a.type = t := by
  rw [h.2.1, List.getElem?_map] at ht
  cases ha : al[i]? with
  | none =>
    rw [ha] at ht
    cases ht
  | some a =>
    rw [ha] at ht
    exact ⟨a, rfl, Option.some.inj ht⟩

theorem grid_overlap (c : KS) (al : List Alien) (x y i : Nat) (a : Alien) (sp : Sprite)
    (hg : OnGrid c.types c.gx c.gy al) (ha : al[i]? = some a) (hl : a.type ≠ 0)
    (hw : sp.width = widthK a.type) (hh : sp.height = 8)
    (hx : x ≤ 1000) (hy : y ≤ 300) (hgx : c.gx ≤ 2004) (hgy : c.gy ≤ 128) :
    sprite_overlap_check player_bullet_sprite x y sp a.x a.y = true ↔
      (c.gx + 16 * (i / 5) + offK a.type ≤ x + 1024 ∧
        x + 1024 < c.gx + 16 * (i / 5) + offK a.type + widthK a.type ∧
        c.gy + 17 * (i % 5) ≤ y + 2 ∧ y < c.gy + 17 * (i % 5) + 8) := by
  obtain ⟨h1, h2, h3⟩ := hg
  obtain ⟨_, hax, hay⟩ := h3 i a ha hl
  have hi : i < 55 := by
    have := lt_length_of_getElem? _ _ _ ha
    omega
  have hwb : offK a.type + widthK a.type ≤ 12 := by
    rcases offK_widthK a.type with ⟨_, e1, e2⟩ | ⟨_, e1, e2⟩ | ⟨_, _, e1, e2⟩ <;> omega
  have e1 : player_bullet_sprite.width = 1 := rfl
  have e2 : player_bullet_sprite.height = 3 := rfl
  rw [overlap_eq _ _ _ _ _ _ (by rw [hw]; omega) (by rw [e1]; omega) (by rw [hh]; omega)
    (by rw [e2]; omega), decide_eq_true_iff, hw, hh, e1, e2]
  omega

theorem misses_of_grid (c : KS) (n : Nat) (bl : List Bullet) (al : List Alien) (dc : List Nat)
    (pmd : Int) (bi j x y : Nat) (d : Int)
    (hg : OnGrid c.types c.gx c.gy al) (hfd : c.fd ≠ 0) (hfr : c.atime / c.fd < 2)
    (hb : bl[bi]? = some { x := x, y := y, dir := d })
    (hx : x ≤ 1000) (hy : y ≤ 300) (hgx : c.gx ≤ 2004) (hgy : c.gy ≤ 128) (hj : j < 55)
    (hno : hitK c x y ≠ some j) :
    Misses (conc c n bl al dc pmd) bi j := by
  obtain ⟨a, ha⟩ := getElem?_of_lt_length al j (by rw [hg.1]; exact hj)
  refine ⟨a, ha, ?_⟩
  by_cases hl : a.type = 0
  · exact Or.inl hl
  · right
    obtain ⟨ht, _, _⟩ := hg.2.2 j a ha hl
    have h3 : a.type ≤ 3 := by
      rcases rowTypeK_cases (j % 5) with e | e | e <;> omega
    obtain ⟨sp, hsp, hw, hh⟩ :=
      alienFrameSprite_box (conc c n bl al dc pmd) a.type hl h3 hfd hfr
    refine ⟨sp, _, hsp, hb, ?_⟩
    rw [← widthK_eq] at hw
    cases hov : sprite_overlap_check player_bullet_sprite x y sp a.x a.y
    · rfl
    · exfalso
      obtain ⟨k1, k2, k3, k4⟩ := (grid_overlap c al x y j a sp hg ha hl hw hh hx hy hgx hgy).mp hov
      exact hno (hitK_complete c x y j a.type hj (hg.types_get j a ha) hl k1 k2 k3 k4)

theorem mem_of_getElem?_ne {α : Type} (p t : List α) (b q : α) (j : Nat)
    (h : (p ++ b :: t)[j]? = some q) (hj : j ≠ p.length) : q ∈ p ∨ q ∈ t := by
  rcases Nat.lt_or_ge j p.length with hi | hi
  · rw [List.getElem?_append_left hi] at h
    exact Or.inl (List.getElem?_mem h)
  · rw [List.getElem?_append_right hi] at h
    obtain ⟨k, hk⟩ : ∃ k, j - p.length = k + 1 := ⟨j - p.length - 1, by omega⟩
    rw [hk, List.getElem?_cons_succ] at h
    exact Or.inr (List.getElem?_mem h)

theorem toBullet_moved (b : KB) (y1 : Nat) :
    ({ toBullet b with y := y1 } : Bullet) = toBullet (KB.mk b.x y1 b.up) := rfl

theorem pair_clear (c : KS) (bl : List Bullet) (acc t : List KB) (b : KB) (y1 : Nat)
    (hlive : Live bl (acc.reverse ++ b :: t)) (hy1 : y1 ≤ 300)
    (h1 : allClearK b.x y1 acc = true) (h2 : allClearK b.x y1 t = true)
    (al : List Alien) :
    bulletVsBullet (GAME_MAX_BULLETS + 1) 0 acc.length
        { num_bullets := acc.length + (t.length + 1), aliens := al,
          player := { x := c.px, y := 32, life := 3 },
          bullets := bl.set acc.length { toBullet b with y := y1 } }
      = Except.ok
        { num_bullets := acc.length + (t.length + 1), aliens := al,
          player := { x := c.px, y := 32, life := 3 },
          bullets := bl.set acc.length { toBullet b with y := y1 } } := by
  have hlen : acc.reverse.length = acc.length := List.length_reverse acc
  have hbl := hlive.1
  have hn : acc.length + (t.length + 1) ≤ 128 := by
    have := hlive.2.1
    simpa using this
  have hbb := hlive.2.2.2 b (by simp)
  refine bulletVsBullet_clear _ 0 acc.length _ { toBullet b with y := y1 }
    (by show acc.length + (t.length + 1) + 1 ≤ 128 + 1 + 0; omega) (Nat.zero_le _)
    (List.getElem?_set_self (by omega)) ?_
  intro j _ hj hne
  have hj' : j < acc.length + (t.length + 1) := hj
  obtain ⟨q, hq⟩ := getElem?_of_lt_length (acc.reverse ++ b :: t) j (by simp; omega)
  have hmem := mem_of_getElem?_ne acc.reverse t b q j hq (by omega)
  have hqb := hlive.2.2.2 q (List.getElem?_mem hq)
  refine ⟨toBullet q, ?_, ?_⟩
  · show (bl.set acc.length _)[j]? = _
    rw [List.getElem?_set_ne (by omega)]
    exact hlive.2.2.1 j q hq
  · have hc : clearK b.x y1 q.x q.y = true := by
      rcases hmem with hm | hm
      · exact (allClearK_eq _ _ _).mp h1 q (List.mem_reverse.mp hm)
      · exact (allClearK_eq _ _ _).mp h2 q hm
    have hc' := (clearK_eq _ _ _ _).mp hc
    have e1 : player_bullet_sprite.width = 1 := rfl
    have e2 : player_bullet_sprite.height = 3 := rfl
    have e3 : alien_bullet_sprite_0.width = 3 := rfl
    have e4 : alien_bullet_sprite_0.height = 7 := rfl
    show sprite_overlap_check player_bullet_sprite b.x y1 alien_bullet_sprite_0 q.x q.y = false
    rw [overlap_eq _ _ _ _ _ _ (by rw [e3]; omega) (by rw [e1]; omega) (by rw [e4]; omega)
      (by rw [e2]; omega), decide_eq_false_iff_not, e1, e2, e3, e4]
    omega

theorem ship_clear (b : KB) (px : Nat) (hx : b.x ≤ 1000) (hy : b.y ≤ 300) (hpx : px ≤ 213)
    (h : shipClearK b.x (b.y - 2) px = true) :
    sprite_overlap_check alien_bullet_sprite_0 b.x (b.y - 2) player_sprite px 32 = false := by
  have hc := (shipClearK_eq _ _ _).mp h
  have e1 : player_sprite.width = 11 := rfl
  have e2 : player_sprite.height = 7 := rfl
  have e3 : alien_bullet_sprite_0.width = 3 := rfl
  have e4 : alien_bullet_sprite_0.height = 7 := rfl
  rw [overlap_eq _ _ _ _ _ _ (by rw [e1]; omega) (by rw [e3]; omega) (by rw [e2]; omega)
    (by rw [e4]; omega), decide_eq_false_iff_not, e1, e2, e3, e4]
  omega

/-- The bullet loop of the replay computes what `simulateBullets` computes: from a
state whose live bullets are `acc.reverse ++ rest`, with the bullets of `acc` already
processed, a replay that returns a state gives the result of the game loop, and the
bullet array and the alien array of the result are again in step with the replay. -/
theorem loop_sound : ∀ fuel, LoopSpec fuel := by
  intro fuel
  induction fuel with
  | zero =>
    intro acc rest c c' bl al dc pmd _ _ _ _ _ _ _ hk
    rw [bulletsK_zero] at hk
    cases hk
  | succ f IH =>
    intro acc rest c c' bl al dc pmd hlive hgrid hfd hfr hpx hgx hgy hk
    have hlen : acc.reverse.length = acc.length := List.length_reverse acc
    cases rest with
    | nil =>
      rw [bulletsK_nil] at hk
      have e := (Option.some.inj hk).symm
      subst e
      refine ⟨bl, al, ?_, ?_, hgrid, rfl, rfl, rfl, rfl, rfl⟩
      · rw [simulateBullets]
        have e2 : ¬ (acc.length
            < (conc c (acc.length + ([] : List KB).length) bl al dc pmd).game.num_bullets) := by
          show ¬ (acc.length < acc.length + 0)
          omega
        rw [if_neg e2]
        have e3 : (revK acc []).length = acc.length + ([] : List KB).length := by
          rw [revK_eq]
          simp
        show Except.ok _ = Except.ok (conc _ (revK acc []).length _ _ _ _)
        rw [e3]
        rfl
      · show Live bl (revK acc [])
        rw [revK_eq]
        exact hlive
    | cons b t =>
      rw [bulletsK_cons, bulletStepK_eq] at hk
      have hb : bl[acc.length]? = some (toBullet b) := by
        rw [← hlen]
        exact hlive.read
      have hbb := hlive.2.2.2 b (by simp)
      have hn : acc.length + (t.length + 1) ≤ 128 := by
        have := hlive.2.1
        simpa using this
      have hbl := hlive.1
      have hlc : (b :: t).length = t.length + 1 := rfl
      rw [hlc, simulateBullets]
      have hlt : acc.length
          < (conc c (acc.length + (t.length + 1)) bl al dc pmd).game.num_bullets := by
        show acc.length < acc.length + (t.length + 1)
        omega
      rw [if_pos hlt]
      by_cases hup : b.up = true
      · rw [if_pos hup] at hk
        have hdir : (toBullet b).dir = 2 := toBullet_dir_up b hup
        have hy1 : addInt64 (toBullet b).y (toBullet b).dir = b.y + 2 := by
          rw [hdir]
          show addInt64 b.y 2 = _
          unfold addInt64 wrap64
          omega
        by_cases hout : 254 ≤ b.y ∨ b.y = 0
        · rw [if_pos hout] at hk
          obtain ⟨last, hlast, bl', al', h1, h2⟩ :=
            afterRemoval_sound f IH acc t b c c' bl al dc pmd { toBullet b with y := b.y + 2 }
              hlive hgrid hfd hfr hpx hgx hgy hk
          have hstep := simulateBullet_remove (conc c (acc.length + (t.length + 1)) bl al dc pmd)
            acc.length (toBullet b) last (b.y + 2) hb hy1
            (by show b.y + 2 ≥ 256 ∨ b.y + 2 < 3; omega)
            (by show 0 < acc.length + (t.length + 1); omega) hn hlast
          rw [hstep]
          exact ⟨bl', al', h1, h2⟩
        · rw [if_neg hout] at hk
          by_cases hclear : allClearK b.x (b.y + 2) acc = true ∧ allClearK b.x (b.y + 2) t = true
          · rw [if_pos hclear] at hk
            have hpair := pair_clear c bl acc t b (b.y + 2) hlive (by omega) hclear.1 hclear.2 al
            have hin : ¬ (b.y + 2 ≥ game_height ∨ b.y + 2 < player_bullet_sprite.height) := by
              show ¬ (b.y + 2 ≥ 256 ∨ b.y + 2 < 3)
              omega
            have hbw : (bl.set acc.length { toBullet b with y := b.y + 2 })[acc.length]?
                = some { x := b.x, y := b.y + 2, dir := (toBullet b).dir } :=
              List.getElem?_set_self (by omega)
            cases hh : hitK c b.x (b.y + 2) with
            | none =>
              rw [hh] at hk
              simp only [Option.elim] at hk
              have hlive' := Live.keep (KB.mk b.x (b.y + 2) true) hlive hbb.1 (by show b.y + 2 ≤ 255; omega)
              rw [hlen] at hlive'
              have e0 : (KB.mk b.x (b.y + 2) true :: acc).reverse ++ t
                  = acc.reverse ++ KB.mk b.x (b.y + 2) true :: t := by simp
              rw [← e0] at hlive'
              obtain ⟨bl', al', h1, h2⟩ := IH _ t c c' _ al dc pmd hlive' hgrid hfd hfr hpx hgx
                hgy hk
              have hhit : checkHit (conc c (acc.length + (t.length + 1))
                  (bl.set acc.length { toBullet b with y := b.y + 2 }) al dc pmd) acc.length
                  (List.range num_aliens) = Except.ok (conc c (acc.length + (t.length + 1))
                  (bl.set acc.length { toBullet b with y := b.y + 2 }) al dc pmd) :=
                checkHit_none _ _ (fun j hj =>
                  misses_of_grid c _ _ al dc pmd acc.length j b.x (b.y + 2) _ hgrid hfd hfr hbw
                    hbb.1 (by omega) hgx hgy hj (by rw [hh]; exact fun e => by cases e))
              have hstep := simulateBullet_keep_up
                (conc c (acc.length + (t.length + 1)) bl al dc pmd) _ acc.length (toBullet b)
                (b.y + 2) hb (by rw [hdir]; decide) hy1 hin hpair hhit
              rw [hstep]
              refine ⟨bl', al', ?_, h2⟩
              have e1 : ({ toBullet b with y := b.y + 2 } : Bullet)
                  = toBullet (KB.mk b.x (b.y + 2) true) := by
                rw [toBullet_moved, hup]
              rw [e1]
              have e2 : (KB.mk b.x (b.y + 2) true :: acc).length + t.length
                  = acc.length + (t.length + 1) := by
                simp only [List.length_cons]
                omega
              rw [← e2]
              exact h1
            | some i =>
              rw [hh] at hk
              simp only [Option.elim] at hk
              obtain ⟨hi, t0, ht0, ht0ne, k1, k2, k3, k4⟩ := hitK_sound c b.x (b.y + 2) i hh
              rw [killK_eq, ht0] at hk
              by_cases hg2 : c.kills ≤ 1000 ∧ c.score ≤ 4000000000
              · simp only [Option.elim, if_pos hg2] at hk
                obtain ⟨a, ha, hat⟩ := hgrid.alien_get i t0 ht0
                have hl : a.type ≠ 0 := by
                  rw [hat]
                  exact ht0ne
                obtain ⟨htr, _, _⟩ := hgrid.2.2 i a ha hl
                have h3 : a.type = 1 ∨ a.type = 2 ∨ a.type = 3 := by
                  rw [htr]
                  exact rowTypeK_cases (i % 5)
                obtain ⟨sp, hsp, hw, hh8⟩ := alienFrameSprite_box
                  (conc c (acc.length + (t.length + 1))
                    (bl.set acc.length { toBullet b with y := b.y + 2 }) al dc pmd)
                  a.type hl (by omega) hfd hfr
                rw [← widthK_eq] at hw
                have hov : sprite_overlap_check player_bullet_sprite b.x (b.y + 2) sp a.x a.y
                    = true :=
                  (grid_overlap c al b.x (b.y + 2) i a sp hgrid ha hl hw hh8 hbb.1 (by omega)
                    hgx hgy).mpr (by rw [hat]; exact ⟨k1, k2, k3, k4⟩)
                have hgrid1 := hgrid.kill i
                  { a with
                    type := ALIEN_DEAD
                    x := sub64 a.x (sub64 alien_death_sprite.width sp.width / 2) } rfl
                obtain ⟨last, hlast, bl', al', h1, h2⟩ :=
                  afterRemoval_sound f IH acc t b
                    { c with
                      types := c.types.set i 0
                      score := c.score + pointsK t0
                      kills := c.kills + 1
                      flag := if (c.kills + 1) % 15 = 0 then true else c.flag } c' bl
                    (al.set i { a with
                      type := ALIEN_DEAD
                      x := sub64 a.x (sub64 alien_death_sprite.width sp.width / 2) }) dc pmd
                    { toBullet b with y := b.y + 2 } hlive hgrid1 hfd hfr hpx hgx hgy hk
                have hhit := checkHit_first (conc c (acc.length + (t.length + 1))
                    (bl.set acc.length { toBullet b with y := b.y + 2 }) al dc pmd)
                  acc.length i a sp _ last hi ha hl hsp hbw
                  (by show 0 < acc.length + (t.length + 1); omega) hn hlast hov
                  (fun j hj => misses_of_grid c _ _ al dc pmd acc.length j b.x (b.y + 2) _ hgrid
                    hfd hfr hbw hbb.1 (by omega) hgx hgy (by omega)
                    (by rw [hh]; exact fun e => by have := Option.some.inj e; omega))
                have e1 : hitScore c.score a.type = c.score + pointsK t0 := by
                  rw [← hat]
                  exact pointsK_eq _ _ h3 hg2.2
                have e2 : add64 c.kills 1 = c.kills + 1 := add64_of_lt _ _ (by omega)
                dsimp only [conc] at hhit
                rw [e1, e2, List.set_set] at hhit
                have hstep := simulateBullet_keep_up
                  (conc c (acc.length + (t.length + 1)) bl al dc pmd) _ acc.length (toBullet b)
                  (b.y + 2) hb (by rw [hdir]; decide) hy1 hin hpair hhit
                rw [hstep]
                exact ⟨bl', al', h1, h2⟩
              · simp only [Option.elim, if_neg hg2] at hk
                cases hk
          · rw [if_neg hclear] at hk
            cases hk
      · rw [if_neg hup] at hk
        have hup' : b.up = false := by
          cases h : b.up
          · rfl
          · exact absurd h hup
        have hdir : (toBullet b).dir = -2 := toBullet_dir_down b hup'
        by_cases hout : b.y < 5 ∨ 258 ≤ b.y
        · rw [if_pos hout] at hk
          have hy1 : addInt64 (toBullet b).y (toBullet b).dir = wrap64 ((b.y : Int) - 2) := by
            rw [hdir]
            rfl
          obtain ⟨last, hlast, bl', al', h1, h2⟩ :=
            afterRemoval_sound f IH acc t b c c' bl al dc pmd
              { toBullet b with y := wrap64 ((b.y : Int) - 2) }
              hlive hgrid hfd hfr hpx hgx hgy hk
          have hstep := simulateBullet_remove (conc c (acc.length + (t.length + 1)) bl al dc pmd)
            acc.length (toBullet b) last (wrap64 ((b.y : Int) - 2)) hb hy1
            (by
              show wrap64 ((b.y : Int) - 2) ≥ 256 ∨ wrap64 ((b.y : Int) - 2) < 3
              unfold wrap64
              omega)
            (by show 0 < acc.length + (t.length + 1); omega) hn hlast
          rw [hstep]
          exact ⟨bl', al', h1, h2⟩
        · rw [if_neg hout] at hk
          have hy1 : addInt64 (toBullet b).y (toBullet b).dir = b.y - 2 := by
            rw [hdir]
            show addInt64 b.y (-2) = _
            unfold addInt64 wrap64
            omega
          by_cases hclear : shipClearK b.x (b.y - 2) c.px = true
          · rw [if_pos hclear] at hk
            have hlive' := Live.keep (KB.mk b.x (b.y - 2) false) hlive hbb.1
              (by show b.y - 2 ≤ 255; omega)
            rw [hlen] at hlive'
            have e0 : (KB.mk b.x (b.y - 2) false :: acc).reverse ++ t
                = acc.reverse ++ KB.mk b.x (b.y - 2) false :: t := by simp
            rw [← e0] at hlive'
            obtain ⟨bl', al', h1, h2⟩ := IH _ t c c' _ al dc pmd hlive' hgrid hfd hfr hpx hgx
              hgy hk
            have hstep := simulateBullet_keep_down
              (conc c (acc.length + (t.length + 1)) bl al dc pmd) acc.length (toBullet b)
              (b.y - 2) hb (by rw [hdir]; decide) hy1
              (by show ¬ (b.y - 2 ≥ 256 ∨ b.y - 2 < 3); omega)
              (ship_clear b c.px hbb.1 (by omega) hpx hclear)
            rw [hstep]
            refine ⟨bl', al', ?_, h2⟩
            have e1 : ({ toBullet b with y := b.y - 2 } : Bullet)
                = toBullet (KB.mk b.x (b.y - 2) false) := by
              rw [toBullet_moved, hup']
            have e2 : (KB.mk b.x (b.y - 2) false :: acc).length + t.length
                = acc.length + (t.length + 1) := by
              simp only [List.length_cons]
              omega
            rw [e1]
            rw [← e2]
            exact h1
          · rw [if_neg hclear] at hk
            cases hk

theorem changeSpeedK_sound (c : KS) (n : Nat) (bl : List Bullet) (al : List Alien)
    (dc : List Nat) (pmd : Int) :
    changeSpeed (conc c n bl al dc pmd) = conc (changeSpeedK c) n bl al dc pmd := by
  unfold changeSpeed changeSpeedK
  cases hf : c.flag
  · have e : (conc c n bl al dc pmd).should_change_speed = false := hf
    rw [e]
    rfl
  · have e : (conc c n bl al dc pmd).should_change_speed = true := hf
    rw [e, if_pos rfl]
    rfl

theorem changeSpeedK_frame (c : KS) :
    (changeSpeedK c).bullets = c.bullets ∧ (changeSpeedK c).types = c.types ∧
      (changeSpeedK c).gx = c.gx ∧ (changeSpeedK c).gy = c.gy := by
  unfold changeSpeedK
  cases c.flag <;> exact ⟨rfl, rfl, rfl, rfl⟩

theorem updateDeathCounters_conc (c : KS) (n : Nat) (bl : List Bullet) (al : List Alien)
    (dc : List Nat) (pmd : Int) (hal : al.length = 55) (hdc : dc.length = 55) :
    ∃ dc', updateDeathCounters (conc c n bl al dc pmd) = conc c n bl al dc' pmd ∧
      dc'.length = 55 := by
  refine ⟨List.zipWith (fun (alien : Alien) (d : Nat) =>
    if alien.type = ALIEN_DEAD ∧ d ≠ 0 then d - 1 else d) al dc, rfl, ?_⟩
  rw [List.length_zipWith, hal, hdc]
  rfl

theorem animK_eq (c : KS) :
    animK c =
      if c.atime ≤ 1000 ∧ c.fd ≤ 1000 ∧ c.btime ≤ 1000 ∧ c.timer ≤ 1000 then
        some { c with
          atime := if 2 * c.fd ≤ c.atime + 1 then 0 else c.atime + 1
          btime := if 2 * 5 ≤ c.btime + 1 then 0 else c.btime + 1
          timer := c.timer + 1 }
      else none := by
  unfold animK clockK
  simp only [bool_casesOn_eq, nat_add_eq, nat_mul_eq, cond_eq_if, Nat.ble_eq]
  by_cases h1 : c.atime ≤ 1000 <;> by_cases h2 : c.fd ≤ 1000 <;>
    by_cases h3 : c.btime ≤ 1000 <;> by_cases h4 : c.timer ≤ 1000 <;> simp [h1, h2, h3, h4]

theorem animK_sound (c c1 : KS) (n : Nat) (bl : List Bullet) (al : List Alien)
    (dc : List Nat) (pmd : Int) (h : animK c = some c1) :
    updateAnimations (conc c n bl al dc pmd) = conc c1 n bl al dc pmd ∧
      c1.bullets = c.bullets ∧ c1.types = c.types ∧ c1.gx = c.gx ∧ c1.gy = c.gy := by
  rw [animK_eq] at h
  split at h
  swap
  · cases h
  rename_i hg
  have e := (Option.some.inj h).symm
  subst e
  refine ⟨?_, rfl, rfl, rfl, rfl⟩
  unfold updateAnimations stepAnimation
  dsimp only [conc]
  rw [add64_of_lt _ _ (by omega), add64_of_lt _ _ (by omega), add64_of_lt _ _ (by omega)]
  have e1 : mul64 2 c.fd = 2 * c.fd := by
    unfold mul64
    omega
  have e2 : mul64 2 5 = 2 * 5 := by decide
  rw [e1, e2]

theorem playerK_eq (c : KS) :
    playerK c =
      if c.px ≤ 213 then
        if c.md = 4 then some c
        else if c.md = 5 then
          (if 211 ≤ c.px then some { c with px := 213 } else some { c with px := c.px + 2 })
        else if c.md = 3 then
          (if c.px ≤ 2 then some { c with px := 0 } else some { c with px := c.px - 2 })
        else none
      else none := by
  unfold playerK
  simp only [bool_casesOn_eq, nat_add_eq, nat_sub_eq, cond_eq_if, Nat.ble_eq, Nat.beq_eq]

theorem playerK_sound (c c1 : KS) (n : Nat) (bl : List Bullet) (al : List Alien)
    (dc : List Nat) (pmd : Int) (h : playerK c = some c1) :
    ∃ pmd', simulatePlayer (conc c n bl al dc pmd) = conc c1 n bl al dc pmd' ∧
      c1.bullets = c.bullets ∧ c1.types = c.types ∧ c1.gx = c.gx ∧ c1.gy = c.gy := by
  rw [playerK_eq] at h
  split at h
  swap
  · cases h
  rename_i hpx
  have e11 : add64 c.px player_sprite.width = c.px + 11 := add64_of_lt _ _ (by
    show c.px + 11 < _
    omega)
  have egw : game_width = 224 := rfl
  split at h
  · rename_i hmd
    have e := (Option.some.inj h).symm
    subst e
    refine ⟨0, ?_, rfl, rfl, rfl, rfl⟩
    unfold simulatePlayer
    dsimp only [conc]
    rw [hmd]
    have e0 : toInt32 (2 * (((4 : Nat) : Int) - 4)) = 0 := by decide
    rw [e0]
    simp only [ne_eq, not_true_eq_false, if_false]
  · split at h
    · rename_i hmd
      have e0 : toInt32 (2 * (((5 : Nat) : Int) - 4)) = 2 := by decide
      have c1' : addInt64 (c.px + 11) 2 ≥ 224 ↔ 211 ≤ c.px := by
        unfold addInt64 wrap64
        omega
      split at h
      · rename_i hb
        have e := (Option.some.inj h).symm
        subst e
        refine ⟨2, ?_, rfl, rfl, rfl, rfl⟩
        unfold simulatePlayer
        dsimp only [conc]
        rw [hmd, e0, e11, egw, if_pos (by decide), if_pos (c1'.mpr hb)]
        rfl
      · rename_i hb
        have e := (Option.some.inj h).symm
        subst e
        refine ⟨2, ?_, rfl, rfl, rfl, rfl⟩
        have c2 : ¬ toInt32 (toInt32 (c.px : Int) + 2) ≤ 0 := by
          unfold toInt32
          omega
        have c3 : addInt64 c.px 2 = c.px + 2 := by
          unfold addInt64 wrap64
          omega
        unfold simulatePlayer
        dsimp only [conc]
        rw [hmd, e0, e11, egw, if_pos (by decide), if_neg (fun hh => hb (c1'.mp hh)), if_neg c2, c3]
    · split at h
      swap
      · cases h
      rename_i hmd
      have e0 : toInt32 (2 * (((3 : Nat) : Int) - 4)) = -2 := by decide
      have c1' : ¬ addInt64 (c.px + 11) (-2) ≥ 224 := by
        unfold addInt64 wrap64
        omega
      have c2 : toInt32 (toInt32 (c.px : Int) + -2) ≤ 0 ↔ c.px ≤ 2 := by
        unfold toInt32
        omega
      split at h
      · rename_i hb
        have e := (Option.some.inj h).symm
        subst e
        refine ⟨-2, ?_, rfl, rfl, rfl, rfl⟩
        unfold simulatePlayer
        dsimp only [conc]
        rw [hmd, e0, e11, egw, if_pos (by decide), if_neg c1', if_pos (c2.mpr hb)]
      · rename_i hb
        have e := (Option.some.inj h).symm
        subst e
        refine ⟨-2, ?_, rfl, rfl, rfl, rfl⟩
        have c3 : addInt64 c.px (-2) = c.px - 2 := by
          unfold addInt64 wrap64
          omega
        unfold simulatePlayer
        dsimp only [conc]
        rw [hmd, e0, e11, egw, if_pos (by decide), if_neg c1', if_neg (fun hh => hb (c2.mp hh)), c3]

theorem Live.append {bl : List Bullet} {l : List KB} (b : KB) (h : Live bl l)
    (hlen : l.length < 128) (hx : b.x ≤ 1000) (hy : b.y ≤ 255) :
    Live (bl.set l.length (toBullet b)) (l ++ [b]) := by
  obtain ⟨h1, h2, h3, h4⟩ := h
  refine ⟨by simpa using h1, by simp; omega, ?_, ?_⟩
  · intro i q hq
    rcases Nat.lt_or_ge i l.length with hi | hi
    · rw [List.getElem?_set_ne (by omega)]
      apply h3
      rw [List.getElem?_append_left hi] at hq
      exact hq
    · have hi2 := lt_length_of_getElem? _ _ _ hq
      simp at hi2
      have e : i = l.length := by omega
      subst e
      rw [List.getElem?_set_self (by omega)]
      have e2 := getElem?_mid l [] b
      rw [e2] at hq
      rw [Option.some.inj hq]
  · intro q hq
    simp only [List.mem_append, List.mem_singleton] at hq
    rcases hq with hq | hq
    · exact h4 q hq
    · rw [hq]
      exact ⟨hx, hy⟩

theorem fireK_eq (c : KS) :
    fireK c =
      if c.fire = true then
        if c.bullets.length < 128 then
          { c with fire := false, bullets := c.bullets ++ [KB.mk (c.px + 5) 39 true] }
        else { c with fire := false }
      else c := by
  unfold fireK
  simp only [bool_casesOn_eq, nat_add_eq, cond_eq_if, Nat.blt_eq, revK_eq, List.reverse_reverse,
    List.append_nil]

theorem fireK_sound (c : KS) (bl : List Bullet) (al : List Alien) (dc : List Nat) (pmd : Int)
    (hlive : Live bl c.bullets) (hpx : c.px ≤ 213) :
    ∃ bl', processFire (conc c c.bullets.length bl al dc pmd)
        = Except.ok (conc (fireK c) (fireK c).bullets.length bl' al dc pmd) ∧
      Live bl' (fireK c).bullets ∧ (fireK c).types = c.types ∧ (fireK c).gx = c.gx ∧
      (fireK c).gy = c.gy ∧ (fireK c).md = c.md := by
  rw [fireK_eq]
  unfold processFire
  dsimp only [conc]
  by_cases hf : c.fire = true
  · rw [if_pos hf]
    by_cases hn : c.bullets.length < 128
    · rw [if_pos hn]
      have hg : c.fire = true ∧ c.bullets.length < GAME_MAX_BULLETS := ⟨hf, hn⟩
      rw [if_pos hg]
      refine ⟨bl.set c.bullets.length (toBullet (KB.mk (c.px + 5) 39 true)), ?_,
        Live.append _ hlive hn (by show c.px + 5 ≤ 1000; omega) (by show 39 ≤ 255; decide), rfl, rfl,
        rfl, rfl⟩
      rw [writeBullet_eq_ok _ _ _ (by show c.bullets.length < bl.length; rw [hlive.1]; exact hn),
        bind_ok_eq]
      have e1 : add64 c.px (player_sprite.width / 2) = c.px + 5 :=
        add64_of_lt _ _ (by show c.px + 5 < _; omega)
      have e2 : add64 32 player_sprite.height = 39 := by decide
      have e3 : add64 c.bullets.length 1 = c.bullets.length + 1 := add64_of_lt _ _ (by omega)
      dsimp only
      rw [e1, e2, e3]
      have e4 : (c.bullets ++ [KB.mk (c.px + 5) 39 true]).length = c.bullets.length + 1 := by
        simp
      rw [e4]
      rfl
    · rw [if_neg hn]
      have hg : ¬ (c.fire = true ∧ c.bullets.length < GAME_MAX_BULLETS) := fun hh => hn hh.2
      rw [if_neg hg]
      exact ⟨bl, rfl, hlive, rfl, rfl, rfl, rfl⟩
  · rw [if_neg hf]
    have hg : ¬ (c.fire = true ∧ c.bullets.length < GAME_MAX_BULLETS) := fun hh => hf hh.1
    rw [if_neg hg]
    have hf' : c.fire = false := by
      cases h : c.fire
      · rfl
      · exact absurd h hf
    refine ⟨bl, ?_, hlive, rfl, rfl, rfl, rfl⟩
    have e : ({ c with fire := false } : KS) = c := by
      cases c
      simp only at hf'
      subst hf'
      rfl
    conv_rhs => rw [← e]

theorem bitK_lt (ev k : Nat) : bitK ev k = 0 ∨ bitK ev k = 1 := by
  unfold bitK
  have e : Nat.land (Nat.shiftRight ev k) 1 = (ev >>> k) % 2 := Nat.and_one_is_mod _
  rw [e]
  omega

theorem pollK_eq (c : KS) (ev : Nat) :
    pollK c ev =
      if ev = 0 then some c
      else if ev < 32 ∧ 3 ≤ c.md ∧ c.md ≤ 5 then
        if 3 ≤ c.md + bitK ev 1 + bitK ev 2 - (bitK ev 0 + bitK ev 3) ∧
            c.md + bitK ev 1 + bitK ev 2 - (bitK ev 0 + bitK ev 3) ≤ 5 then
          some { c with
            md := c.md + bitK ev 1 + bitK ev 2 - (bitK ev 0 + bitK ev 3)
            fire := if bitK ev 4 = 1 then true else c.fire }
        else none
      else none := by
  unfold pollK
  simp only [bool_casesOn_eq, nat_add_eq, nat_sub_eq, cond_eq_if, Nat.ble_eq, Nat.blt_eq,
    Nat.beq_eq]
  by_cases h0 : ev = 0
  · simp [h0]
  · by_cases h1 : ev < 32 <;> by_cases h2 : 3 ≤ c.md <;> by_cases h3 : c.md ≤ 5 <;>
      simp [h0, h1, h2, h3]

theorem poll_step (s : State) (e : KeyEvent) (bit : Nat) (d : Int) (hb : bit = 0 ∨ bit = 1)
    (hd : d = 1 ∨ d = -1)
    (hcb : ∀ s' : State, key_callback s' e = { s' with move_dir := toInt32 (s'.move_dir + d) })
    (hr : -1000 ≤ s.move_dir ∧ s.move_dir ≤ 1000) :
    List.foldl key_callback s (if bit = 1 then [e] else [])
      = { s with move_dir := s.move_dir + bit * d } := by
  rcases hb with hb | hb
  · rw [if_neg (by omega), hb]
    simp only [List.foldl_nil, Nat.cast_zero, zero_mul, add_zero]
  · rw [if_pos hb, hb]
    simp only [List.foldl_cons, List.foldl_nil, Nat.cast_one, one_mul]
    rw [hcb]
    have e1 : toInt32 (s.move_dir + d) = s.move_dir + d := by
      unfold toInt32
      omega
    rw [e1]

theorem fire_step (s : State) (bit : Nat) :
    List.foldl key_callback s
        (if bit = 1 then [{ key := Key.space, action := Action.release }] else [])
      = { s with fire_pressed := if bit = 1 then true else s.fire_pressed } := by
  by_cases hb : bit = 1
  · rw [if_pos hb, if_pos hb]
    rfl
  · rw [if_neg hb, if_neg hb]
    rfl

theorem pollK_sound (c c1 : KS) (n : Nat) (bl : List Bullet) (al : List Alien)
    (dc : List Nat) (pmd : Int) (ev : Nat) (h : pollK c ev = some c1) :
    glfwPollEvents (conc c n bl al dc pmd) (evsOf ev) = conc c1 n bl al dc pmd ∧
      c1.bullets = c.bullets ∧ c1.types = c.types ∧ c1.gx = c.gx ∧ c1.gy = c.gy := by
  rw [pollK_eq] at h
  split at h
  · rename_i h0
    have e := (Option.some.inj h).symm
    subst e
    subst h0
    exact ⟨rfl, rfl, rfl, rfl, rfl⟩
  split at h
  swap
  · cases h
  rename_i hg
  split at h
  swap
  · cases h
  rename_i hg2
  have e := (Option.some.inj h).symm
  subst e
  refine ⟨?_, rfl, rfl, rfl, rfl⟩
  have b0 := bitK_lt ev 0
  have b1 := bitK_lt ev 1
  have b2 := bitK_lt ev 2
  have b3 := bitK_lt ev 3
  unfold evsOf glfwPollEvents
  rw [List.foldl_append, List.foldl_append, List.foldl_append, List.foldl_append]
  rw [poll_step _ { key := Key.left, action := Action.press } _ (-1) b0 (Or.inr rfl) (fun _ => rfl) (by
    show -1000 ≤ (c.md : Int) - 4 ∧ (c.md : Int) - 4 ≤ 1000
    omega)]
  rw [poll_step _ { key := Key.left, action := Action.release } _ 1 b1 (Or.inl rfl) (fun _ => rfl) (by
    show -1000 ≤ (c.md : Int) - 4 + (bitK ev 0 : Nat) * (-1) ∧
      (c.md : Int) - 4 + (bitK ev 0 : Nat) * (-1) ≤ 1000
    omega)]
  rw [poll_step _ { key := Key.right, action := Action.press } _ 1 b2 (Or.inl rfl) (fun _ => rfl) (by
    show -1000 ≤ (c.md : Int) - 4 + (bitK ev 0 : Nat) * (-1) + (bitK ev 1 : Nat) * 1 ∧
      (c.md : Int) - 4 + (bitK ev 0 : Nat) * (-1) + (bitK ev 1 : Nat) * 1 ≤ 1000
    omega)]
  rw [poll_step _ { key := Key.right, action := Action.release } _ (-1) b3 (Or.inr rfl) (fun _ => rfl) (by
    show -1000 ≤ (c.md : Int) - 4 + (bitK ev 0 : Nat) * (-1) + (bitK ev 1 : Nat) * 1
        + (bitK ev 2 : Nat) * 1 ∧
      (c.md : Int) - 4 + (bitK ev 0 : Nat) * (-1) + (bitK ev 1 : Nat) * 1
        + (bitK ev 2 : Nat) * 1 ≤ 1000
    omega)]
  rw [fire_step]
  dsimp only [conc]
  have em : (c.md : Int) - 4 + (bitK ev 0 : Nat) * (-1) + (bitK ev 1 : Nat) * 1
      + (bitK ev 2 : Nat) * 1 + (bitK ev 3 : Nat) * (-1)
      = ((c.md + bitK ev 1 + bitK ev 2 - (bitK ev 0 + bitK ev 3) : Nat) : Int) - 4 := by
    omega
  rw [em]

theorem firstK_cons (t0 : Nat) (l : List Nat) (k : Nat) :
    firstK (t0 :: l) k = if t0 = 0 then firstK l (k + 1) else some k := by
  show Bool.casesOn (motive := fun _ => Option Nat) (Nat.beq t0 0) (some k)
    (firstK l (Nat.succ k)) = _
  rw [bool_casesOn_eq]
  simp only [cond_eq_if, Nat.beq_eq]

theorem firstK_none (l : List Nat) (k : Nat) (h : firstK l k = none) :
    ∀ (j t : Nat), l[j]? = some t → t = 0 := by
  induction l generalizing k with
  | nil =>
    intro j t ht
    simp at ht
  | cons t0 l ih =>
    rw [firstK_cons] at h
    split at h
    swap
    · cases h
    rename_i h0
    intro j t ht
    cases j with
    | zero =>
      simp at ht
      omega
    | succ j => exact ih (k + 1) h j t (by simpa using ht)

theorem firstK_some (l : List Nat) (k i : Nat) (h : firstK l k = some i) :
    (∃ (j t : Nat), i = k + j ∧ l[j]? = some t ∧ t ≠ 0) ∧
      ∀ (j t : Nat), l[j]? = some t → t ≠ 0 → i ≤ k + j := by
  induction l generalizing k with
  | nil => cases h
  | cons t0 l ih =>
    rw [firstK_cons] at h
    split at h
    · rename_i h0
      obtain ⟨⟨j, t, e, ht, hne⟩, hall⟩ := ih (k + 1) h
      refine ⟨⟨j + 1, t, by omega, by simpa using ht, hne⟩, ?_⟩
      intro j' t' ht' hne'
      cases j' with
      | zero =>
        simp at ht'
        omega
      | succ j' =>
        have := hall j' t' (by simpa using ht') hne'
        omega
    · rename_i h0
      have e := Option.some.inj h
      refine ⟨⟨0, t0, by omega, by simp, h0⟩, ?_⟩
      intro j' t' _ _
      omega

theorem leftOkK_spec (c : KS) (al : List Alien) (h : leftOkK c = true)
    (hg : OnGrid c.types c.gx c.gy al) :
    ∀ (i : Nat) (a : Alien), al[i]? = some a → a.type ≠ 0 → 1028 ≤ c.gx + 16 * (i / 5) := by
  intro i a ha hl
  have hti := hg.types_get i a ha
  unfold leftOkK at h
  rw [option_casesOn_eq] at h
  cases hf : firstK c.types 0 with
  | none => exact absurd (firstK_none _ _ hf i a.type hti) hl
  | some i0 =>
    rw [hf] at h
    simp only [Option.elim, nat_add_eq, nat_mul_eq, nat_div_eq, Nat.ble_eq] at h
    have := (firstK_some _ _ _ hf).2 i a.type hti hl
    omega

theorem OnGrid.map {types : List Nat} {gx gy : Nat} {al : List Alien} (f : Alien → Alien)
    (gx' gy' : Nat) (h : OnGrid types gx gy al) (ht : ∀ a, (f a).type = a.type)
    (hf : ∀ (i : Nat) (a : Alien), al[i]? = some a → a.type ≠ 0 →
      (f a).x + 1024 = gx' + 16 * (i / 5) + offK a.type ∧ (f a).y = gy' + 17 * (i % 5)) :
    OnGrid types gx' gy' (al.map f) := by
  obtain ⟨h1, h2, h3⟩ := h
  refine ⟨by simpa using h1, ?_, ?_⟩
  · rw [h2, List.map_map]
    apply List.map_congr_left
    intro a _
    exact (ht a).symm
  · intro i a' ha' hl
    rw [List.getElem?_map] at ha'
    cases ha : al[i]? with
    | none =>
      rw [ha] at ha'
      cases ha'
    | some a =>
      rw [ha] at ha'
      have e := Option.some.inj ha'
      subst e
      rw [ht a] at hl ⊢
      exact ⟨(h3 i a ha hl).1, hf i a ha hl⟩

theorem moveK_eq (c : KS) :
    moveK c =
      if c.pos ≤ 1000 ∧ c.maxpos ≤ 1000 ∧ 4 ≤ c.maxpos ∧ 4 ≤ c.gx ∧ c.gx ≤ 2000 ∧
          c.gy ≤ 1000 then
        if c.right = true then
          if c.maxpos - 4 < c.pos then
            if 4 ≤ c.pos ∧ leftOkK c = true then
              some { c with right := false, pos := c.pos - 4, gx := c.gx - 4 }
            else none
          else some { c with pos := c.pos + 4, gx := c.gx + 4 }
        else
          if c.pos < 4 then
            if 8 ≤ c.gy then
              some { c with right := true, pos := c.pos + 4, gx := c.gx + 4, gy := c.gy - 8 }
            else none
          else
            if c.pos ≤ c.maxpos + 4 ∧ leftOkK c = true then
              some { c with pos := c.pos - 4, gx := c.gx - 4 }
            else none
      else none := by
  unfold moveK
  simp only [bool_casesOn_eq, option_casesOn_eq, nat_add_eq, nat_sub_eq, nat_mul_eq, nat_div_eq,
    cond_eq_if, Nat.ble_eq, Nat.blt_eq, Nat.beq_eq]
  by_cases h1 : c.pos ≤ 1000 <;> by_cases h2 : c.maxpos ≤ 1000 <;> by_cases h3 : 4 ≤ c.maxpos <;>
    by_cases h4 : 4 ≤ c.gx <;> by_cases h5 : c.gx ≤ 2000 <;> by_cases h6 : 4 ≤ c.pos <;>
    by_cases h7 : c.pos ≤ c.maxpos + 4 <;> by_cases h8 : c.gy ≤ 1000 <;>
    simp [h1, h2, h3, h4, h5, h6, h7, h8]

theorem moveK_sound (c c1 : KS) (n : Nat) (bl : List Bullet) (al : List Alien)
    (dc : List Nat) (pmd : Int) (hg : OnGrid c.types c.gx c.gy al) (h : moveK c = some c1) :
    ∃ al1, moveSwarm (conc c n bl al dc pmd) = conc c1 n bl al1 dc pmd ∧
      OnGrid c1.types c1.gx c1.gy al1 ∧ c1.bullets = c.bullets ∧ c1.kills = c.kills := by
  rw [moveK_eq] at h
  split at h
  swap
  · cases h
  rename_i hb
  obtain ⟨hb1, hb2, hb3, hb4, hb5, hb6⟩ := hb
  have hax : ∀ (i : Nat) (a : Alien), al[i]? = some a → a.type ≠ 0 →
      a.x + 1024 = c.gx + 16 * (i / 5) + offK a.type ∧ a.y = c.gy + 17 * (i % 5) ∧ i < 55 ∧
        offK a.type ≤ 2 := by
    intro i a ha hl
    have hi := lt_length_of_getElem? _ _ _ ha
    rw [hg.1] at hi
    have ho : offK a.type ≤ 2 := by
      rcases offK_widthK a.type with ⟨_, e, _⟩ | ⟨_, e, _⟩ | ⟨_, _, e, _⟩ <;> omega
    exact ⟨(hg.2.2 i a ha hl).2.1, (hg.2.2 i a ha hl).2.2, hi, ho⟩
  by_cases hr : c.right = true
  · rw [if_pos hr] at h
    have hdir : (conc c n bl al dc pmd).alien_move_dir = 4 := by
      show Bool.casesOn (motive := fun _ => Int) c.right (-4) 4 = 4
      rw [hr]
    have k1 : ¬ toInt32 (toInt32 ((conc c n bl al dc pmd).alien_swarm_position : Int)
        + (conc c n bl al dc pmd).alien_move_dir) < 0 := by
      rw [hdir]
      show ¬ toInt32 (toInt32 (c.pos : Int) + 4) < 0
      unfold toInt32
      omega
    have k2 : (conc c n bl al dc pmd).alien_swarm_position
        > subInt64 (conc c n bl al dc pmd).alien_swarm_max_position
          (conc c n bl al dc pmd).alien_move_dir ↔ c.maxpos - 4 < c.pos := by
      rw [hdir]
      show c.pos > subInt64 c.maxpos 4 ↔ _
      unfold subInt64 wrap64
      omega
    split at h
    · rename_i hbounce
      split at h
      swap
      · cases h
      rename_i hok
      have e := (Option.some.inj h).symm
      subst e
      have hleft := leftOkK_spec c al hok.2 hg
      refine ⟨al.map (fun alien => { alien with x := addInt64 alien.x (-4) }), ?_, ?_, rfl, rfl⟩
      · unfold moveSwarm
        simp only [k1, if_false, k2.mpr hbounce, if_true]
        rw [hdir]
        have e1 : toInt32 (4 * -1) = -4 := by decide
        rw [e1]
        have e2 : addInt64 (conc c n bl al dc pmd).alien_swarm_position (-4) = c.pos - 4 := by
          show addInt64 c.pos (-4) = _
          unfold addInt64 wrap64
          omega
        rw [e2]
        rfl
      · refine hg.map _ _ _ (fun _ => rfl) ?_
        intro i a ha hl
        obtain ⟨q1, q2, q3, q4⟩ := hax i a ha hl
        have q5 := hleft i a ha hl
        refine ⟨?_, q2⟩
        show addInt64 a.x (-4) + 1024 = c.gx - 4 + 16 * (i / 5) + offK a.type
        unfold addInt64 wrap64
        omega
    · rename_i hbounce
      have e := (Option.some.inj h).symm
      subst e
      refine ⟨al.map (fun alien => { alien with x := addInt64 alien.x 4 }), ?_, ?_, rfl, rfl⟩
      · unfold moveSwarm
        simp only [k1, if_false, mt k2.mp hbounce]
        rw [hdir]
        have e2 : addInt64 (conc c n bl al dc pmd).alien_swarm_position 4 = c.pos + 4 := by
          show addInt64 c.pos 4 = _
          unfold addInt64 wrap64
          omega
        rw [e2]
        show _ = conc { c with pos := c.pos + 4, gx := c.gx + 4 } n bl _ dc pmd
        unfold conc
        simp only [hr]
      · refine hg.map _ _ _ (fun _ => rfl) ?_
        intro i a ha hl
        obtain ⟨q1, q2, q3, q4⟩ := hax i a ha hl
        refine ⟨?_, q2⟩
        show addInt64 a.x 4 + 1024 = c.gx + 4 + 16 * (i / 5) + offK a.type
        unfold addInt64 wrap64
        omega
  · rw [if_neg hr] at h
    have hr' : c.right = false := by
      cases hh : c.right
      · rfl
      · exact absurd hh hr
    have hdir : (conc c n bl al dc pmd).alien_move_dir = -4 := by
      show Bool.casesOn (motive := fun _ => Int) c.right (-4) 4 = -4
      rw [hr']
    have k1 : toInt32 (toInt32 ((conc c n bl al dc pmd).alien_swarm_position : Int)
        + (conc c n bl al dc pmd).alien_move_dir) < 0 ↔ c.pos < 4 := by
      rw [hdir]
      show toInt32 (toInt32 (c.pos : Int) + -4) < 0 ↔ _
      unfold toInt32
      omega
    have k2 : (conc c n bl al dc pmd).alien_swarm_position
        > subInt64 (conc c n bl al dc pmd).alien_swarm_max_position
          (conc c n bl al dc pmd).alien_move_dir ↔ c.maxpos + 4 < c.pos := by
      rw [hdir]
      show c.pos > subInt64 c.maxpos (-4) ↔ _
      unfold subInt64 wrap64
      omega
    split at h
    · rename_i hedge
      split at h
      swap
      · cases h
      rename_i hgy
      have e := (Option.some.inj h).symm
      subst e
      refine ⟨(al.map (fun alien => { alien with y := sub64 alien.y 8 })).map
        (fun alien => { alien with x := addInt64 alien.x 4 }), ?_, ?_, rfl, rfl⟩
      · unfold moveSwarm
        simp only [k1.mpr hedge, if_true]
        rw [hdir]
        have e1 : toInt32 (-4 * -1) = 4 := by decide
        rw [e1]
        have e2 : addInt64 (conc c n bl al dc pmd).alien_swarm_position 4 = c.pos + 4 := by
          show addInt64 c.pos 4 = _
          unfold addInt64 wrap64
          omega
        rw [e2]
        rfl
      · have hg1 : OnGrid c.types c.gx (c.gy - 8)
            (al.map (fun alien => { alien with y := sub64 alien.y 8 })) := by
          refine hg.map _ _ _ (fun _ => rfl) ?_
          intro i a ha hl
          obtain ⟨q1, q2, q3, q4⟩ := hax i a ha hl
          refine ⟨q1, ?_⟩
          show sub64 a.y 8 = c.gy - 8 + 17 * (i % 5)
          rw [sub64_of_le _ _ (by omega) (by omega)]
          omega
        refine hg1.map _ _ _ (fun _ => rfl) ?_
        intro i a ha hl
        have hi := lt_length_of_getElem? _ _ _ ha
        rw [hg1.1] at hi
        have ho : offK a.type ≤ 2 := by
          rcases offK_widthK a.type with ⟨_, e, _⟩ | ⟨_, e, _⟩ | ⟨_, _, e, _⟩ <;> omega
        obtain ⟨_, q1, q2⟩ := hg1.2.2 i a ha hl
        refine ⟨?_, q2⟩
        show addInt64 a.x 4 + 1024 = c.gx + 4 + 16 * (i / 5) + offK a.type
        unfold addInt64 wrap64
        omega
    · rename_i hedge
      split at h
      swap
      · cases h
      rename_i hok
      have e := (Option.some.inj h).symm
      subst e
      have hleft := leftOkK_spec c al hok.2 hg
      refine ⟨al.map (fun alien => { alien with x := addInt64 alien.x (-4) }), ?_, ?_, rfl, rfl⟩
      · unfold moveSwarm
        simp only [mt k1.mp hedge, if_false, mt k2.mp (by omega : ¬ c.maxpos + 4 < c.pos)]
        rw [hdir]
        have e2 : addInt64 (conc c n bl al dc pmd).alien_swarm_position (-4) = c.pos - 4 := by
          show addInt64 c.pos (-4) = _
          unfold addInt64 wrap64
          omega
        rw [e2]
        show _ = conc { c with pos := c.pos - 4, gx := c.gx - 4 } n bl _ dc pmd
        unfold conc
        simp only [hr']
      · refine hg.map _ _ _ (fun _ => rfl) ?_
        intro i a ha hl
        obtain ⟨q1, q2, q3, q4⟩ := hax i a ha hl
        have q5 := hleft i a ha hl
        refine ⟨?_, q2⟩
        show addInt64 a.x (-4) + 1024 = c.gx - 4 + 16 * (i / 5) + offK a.type
        unfold addInt64 wrap64
        omega

theorem randomAlienIndex_eq (x : Nat) :
    randomAlienIndex x = (55 * xorshift32 x / 4294967295, xorshift32 x) := by
  unfold randomAlienIndex random
  simp only []
  have e : ((num_aliens : ℚ) * ((xorshift32 x : ℚ) / 4294967295))
      = (((55 * xorshift32 x : ℕ) : ℚ) / ((4294967295 : ℕ) : ℚ)) := by
    show ((55 : ℕ) : ℚ) * _ = _
    push_cast
    ring
  rw [e]
  have e2 : Rat.floor (((55 * xorshift32 x : ℕ) : ℚ) / ((4294967295 : ℕ) : ℚ))
      = ((55 * xorshift32 x / 4294967295 : ℕ) : ℤ) :=
    Rat.floor_natCast_div_natCast (55 * xorshift32 x) 4294967295
  rw [e2]
  rfl

theorem pickK_succ (fuel rng : Nat) (types : List Nat) :
    pickK (fuel + 1) rng types =
      (types[55 * xorshift32 rng / 4294967295]?).elim none fun t =>
        if t = 0 then pickK fuel (xorshift32 rng) types
        else some (xorshift32 rng, 55 * xorshift32 rng / 4294967295) := by
  show (Option.casesOn (motive := fun _ => Option (Nat × Nat))
    (nthK types (Nat.div (Nat.mul 55 (xorK rng)) 4294967295)) none
    (fun t => Bool.casesOn (motive := fun _ => Option (Nat × Nat)) (Nat.beq t 0)
      (some (xorK rng, Nat.div (Nat.mul 55 (xorK rng)) 4294967295))
      (pickK fuel (xorK rng) types))) = _
  have ex : xorK rng = xorshift32 rng := rfl
  rw [ex]
  simp only [bool_casesOn_eq, option_casesOn_eq, nat_mul_eq, nat_div_eq, cond_eq_if, Nat.beq_eq,
    nthK_eq]

theorem pickK_sound (fuel rng : Nat) (al : List Alien) (r i : Nat)
    (h : pickK fuel rng (al.map (fun a => a.type)) = some (r, i)) :
    pickAlien fuel rng al = Except.ok (i, r) ∧ ∃ a, al[i]? = some a ∧ a.type ≠ 0 := by
  induction fuel generalizing rng with
  | zero => cases h
  | succ fuel ih =>
    rw [pickK_succ, List.getElem?_map] at h
    rw [pickAlien]
    simp only [randomAlienIndex_eq]
    cases ha : al[55 * xorshift32 rng / 4294967295]? with
    | none =>
      rw [ha] at h
      cases h
    | some a =>
      rw [ha] at h
      simp only [Option.map, Option.elim] at h
      by_cases hd : a.type = 0
      · rw [if_pos hd] at h
        have hd' : a.type = ALIEN_DEAD := hd
        simp only [hd', if_true]
        exact ih _ h
      · rw [if_neg hd] at h
        have hd' : ¬ a.type = ALIEN_DEAD := hd
        simp only [hd', if_false]
        have e := Option.some.inj h
        have e1 : xorshift32 rng = r := congrArg Prod.fst e
        have e2 : 55 * xorshift32 rng / 4294967295 = i := congrArg Prod.snd e
        rw [e2] at ha
        rw [e2, e1]
        exact ⟨rfl, a, ha, hd⟩

theorem shotK_eq (c : KS) (i t : Nat) :
    shotK c i t =
      if 1024 ≤ c.gx + 16 * (i / 5) ∧ 7 ≤ c.gy + 17 * (i % 5) ∧ c.gx ≤ 1800 ∧ c.gy ≤ 128 then
        some { x := c.gx + 16 * (i / 5) - 1024 + (offK t + widthK t / 2),
               y := c.gy + 17 * (i % 5) - 7, up := false }
      else none := by
  unfold shotK
  simp only [bool_casesOn_eq, nat_add_eq, nat_sub_eq, nat_mul_eq, nat_div_eq, nat_mod_eq,
    cond_eq_if, Nat.ble_eq]
  by_cases h1 : 1024 ≤ c.gx + 16 * (i / 5) <;> by_cases h2 : 7 ≤ c.gy + 17 * (i % 5) <;>
    by_cases h3 : c.gx ≤ 1800 <;> by_cases h4 : c.gy ≤ 128 <;> simp [h1, h2, h3, h4]

theorem alienFireK_eq (fuel : Nat) (c : KS) :
    alienFireK fuel c =
      if c.kills < 55 then
        (pickK fuel c.rng c.types).elim none fun d =>
          c.types[d.2]?.elim none fun t =>
            (shotK c d.2 t).elim none fun b =>
              some { c with rng := d.1, bullets := c.bullets ++ [b] }
      else some c := by
  unfold alienFireK
  simp only [bool_casesOn_eq, option_casesOn_eq, cond_eq_if, Nat.blt_eq, nthK_eq, revK_eq,
    List.append_nil, List.reverse_reverse]

theorem alienFireK_sound (fuel : Nat) (c c1 : KS) (bl : List Bullet) (al : List Alien)
    (dc : List Nat) (pmd : Int) (hlive : Live bl c.bullets) (hg : OnGrid c.types c.gx c.gy al)
    (hn : c.bullets.length < 128) (h : alienFireK fuel c = some c1) :
    ∃ bl', alienFire fuel (conc c c.bullets.length bl al dc pmd)
        = Except.ok (conc c1 c1.bullets.length bl' al dc pmd) ∧
      Live bl' c1.bullets ∧ c1.types = c.types ∧ c1.gx = c.gx ∧ c1.gy = c.gy := by
  rw [alienFireK_eq] at h
  unfold alienFire
  by_cases hk : c.kills < 55
  · rw [if_pos hk] at h
    have hk' : (conc c c.bullets.length bl al dc pmd).aliens_killed < num_aliens := hk
    rw [if_pos hk']
    cases hp : pickK fuel c.rng c.types with
    | none =>
      rw [hp] at h
      cases h
    | some d =>
      obtain ⟨r, i⟩ := d
      rw [hp] at h
      simp only [Option.elim] at h
      have hp' := hp
      rw [hg.2.1] at hp'
      obtain ⟨hpick, a, ha, hl⟩ := pickK_sound fuel c.rng al r i hp'
      rw [hg.types_get i a ha] at h
      simp only [Option.elim] at h
      by_cases hs : 1024 ≤ c.gx + 16 * (i / 5) ∧ 7 ≤ c.gy + 17 * (i % 5) ∧ c.gx ≤ 1800 ∧
          c.gy ≤ 128
      swap
      · rw [shotK_eq, if_neg hs] at h
        cases h
      rw [shotK_eq, if_pos hs] at h
      simp only [Option.elim] at h
      have e := (Option.some.inj h).symm
      subst e
      obtain ⟨htr, hax, hay⟩ := hg.2.2 i a ha hl
      have h3 : a.type = 1 ∨ a.type = 2 ∨ a.type = 3 := by
        rw [htr]
        exact rowTypeK_cases (i % 5)
      have hi : i < 55 := by
        have := lt_length_of_getElem? _ _ _ ha
        rw [hg.1] at this
        exact this
      have how : offK a.type + widthK a.type / 2 ≤ 6 := by
        rcases offK_widthK a.type with ⟨_, e1, e2⟩ | ⟨_, e1, e2⟩ | ⟨_, _, e1, e2⟩ <;> omega
      have ho : offK a.type ≤ 2 := by
        rcases offK_widthK a.type with ⟨_, e1, _⟩ | ⟨_, e1, _⟩ | ⟨_, _, e1, _⟩ <;> omega
      have hsp : ∃ sp, alienSprite (2 * sub64 a.type 1) = Except.ok sp ∧
          sp.width = widthK a.type := by
        rcases h3 with e | e | e <;> rw [e] <;> exact ⟨_, rfl, rfl⟩
      obtain ⟨sp, hsp1, hsp2⟩ := hsp
      have hsub : sub64 a.type 1 < 3 := by
        rcases h3 with e | e | e <;> rw [e] <;> decide
      refine ⟨bl.set c.bullets.length (toBullet
        { x := c.gx + 16 * (i / 5) - 1024 + (offK a.type + widthK a.type / 2),
          y := c.gy + 17 * (i % 5) - 7, up := false }), ?_,
        Live.append _ hlive hn (by
          show c.gx + 16 * (i / 5) - 1024 + (offK a.type + widthK a.type / 2) ≤ 1000
          omega) (by
          show c.gy + 17 * (i % 5) - 7 ≤ 255
          omega), rfl, rfl, rfl⟩
      show (pickAlien fuel c.rng al >>= _) = _
      rw [hpick, bind_ok_eq]
      have hnb : (conc c c.bullets.length bl al dc pmd).game.num_bullets < GAME_MAX_BULLETS := hn
      simp only [hnb, if_true]
      unfold alienShoot
      have hra : readAlien ({ (conc c c.bullets.length bl al dc pmd) with rng := r } : State).game i
          = Except.ok a := (readAlien_eq_ok _ _ _).mpr ha
      rw [hra, bind_ok_eq]
      simp only [hsub, if_true]
      rw [hsp1, bind_ok_eq]
      rw [writeBullet_eq_ok _ _ _ (by
        show c.bullets.length < bl.length
        rw [hlive.1]
        exact hn), bind_ok_eq]
      have e1 : add64 a.x (sp.width / 2)
          = c.gx + 16 * (i / 5) - 1024 + (offK a.type + widthK a.type / 2) := by
        rw [add64_of_lt _ _ (by rw [hsp2]; omega), hsp2]
        omega
      have e2 : sub64 a.y alien_bullet_sprite_0.height = c.gy + 17 * (i % 5) - 7 := by
        show sub64 a.y 7 = _
        rw [sub64_of_le _ _ (by omega) (by omega)]
        omega
      have e3 : add64 c.bullets.length 1 = c.bullets.length + 1 := add64_of_lt _ _ (by omega)
      dsimp only [conc]
      rw [e1, e2, e3]
      have e4 : ∀ q : KB, (c.bullets ++ [q]).length = c.bullets.length + 1 := by
        intro q
        simp
      rw [e4]
      rfl
  · rw [if_neg hk] at h
    have hk' : ¬ (conc c c.bullets.length bl al dc pmd).aliens_killed < num_aliens := hk
    rw [if_neg hk']
    have e := (Option.some.inj h).symm
    subst e
    exact ⟨bl, rfl, hlive, rfl, rfl, rfl⟩

theorem advanceK_eq (fuel : Nat) (c : KS) :
    advanceK fuel c =
      if c.cadence ≤ c.timer then
        if c.bullets.length < 128 ∧ c.audio ≤ 1000 then
          (moveK { c with
            audio := if c.audio + 1 = 4 then 0 else c.audio + 1
            timer := 0 }).elim none (alienFireK fuel)
        else none
      else some c := by
  unfold advanceK
  simp only [bool_casesOn_eq, option_casesOn_eq, nat_add_eq, cond_eq_if, Nat.ble_eq, Nat.blt_eq,
    Nat.beq_eq]
  by_cases h1 : c.bullets.length < 128 <;> by_cases h2 : c.audio ≤ 1000 <;> simp [h1, h2]

/-- The advance of the replay computes what `advance` computes: the shift of the
swarm and the shot of a random living alien. -/
theorem advanceK_sound (fuel : Nat) (c c1 : KS) (bl : List Bullet) (al : List Alien)
    (dc : List Nat) (pmd : Int) (hlive : Live bl c.bullets) (hg : OnGrid c.types c.gx c.gy al)
    (h : advanceK fuel c = some c1) :
    ∃ bl' al', advance fuel (conc c c.bullets.length bl al dc pmd)
        = Except.ok (conc c1 c1.bullets.length bl' al' dc pmd) ∧
      Live bl' c1.bullets ∧ OnGrid c1.types c1.gx c1.gy al' := by
  rw [advanceK_eq] at h
  unfold advance
  by_cases ht : c.cadence ≤ c.timer
  · rw [if_pos ht] at h
    have ht' : (conc c c.bullets.length bl al dc pmd).alien_update_timer
        ≥ (conc c c.bullets.length bl al dc pmd).alien_update_frequency := ht
    rw [if_pos ht']
    by_cases hgd : c.bullets.length < 128 ∧ c.audio ≤ 1000
    swap
    · rw [if_neg hgd] at h
      cases h
    rw [if_pos hgd] at h
    cases hm : moveK { c with
        audio := if c.audio + 1 = 4 then 0 else c.audio + 1
        timer := 0 } with
    | none =>
      rw [hm] at h
      cases h
    | some cm =>
      rw [hm] at h
      simp only [Option.elim] at h
      obtain ⟨al1, hmove, hg1, hb1, _⟩ := moveK_sound
        { c with
          audio := if c.audio + 1 = 4 then 0 else c.audio + 1
          timer := 0 } cm c.bullets.length bl al dc pmd hg hm
      have hb1' : cm.bullets = c.bullets := hb1
      have hlive1 : Live bl cm.bullets := by
        rw [hb1']
        exact hlive
      obtain ⟨bl', hfire, hl2, ht2, hgx2, hgy2⟩ := alienFireK_sound fuel cm c1 bl al1 dc pmd hlive1 hg1
        (by rw [hb1']; exact hgd.1) h
      refine ⟨bl', al1, ?_, hl2, ?_⟩
      · have e1 : add64 (conc c c.bullets.length bl al dc pmd).move_audio_i 1 = c.audio + 1 :=
          add64_of_lt _ _ (by show c.audio + 1 < _; omega)
        simp only [e1]
        have e2 : ({ conc c c.bullets.length bl al dc pmd with
            move_audio_i := if c.audio + 1 = 4 then 0 else c.audio + 1
            alien_update_timer := 0 } : State)
            = conc { c with
              audio := if c.audio + 1 = 4 then 0 else c.audio + 1
              timer := 0 } c.bullets.length bl al dc pmd := rfl
        rw [e2, hmove, ← hb1']
        exact hfire
      · rw [ht2, hgx2, hgy2]
        exact hg1
  · rw [if_neg ht] at h
    have ht' : ¬ (conc c c.bullets.length bl al dc pmd).alien_update_timer
        ≥ (conc c c.bullets.length bl al dc pmd).alien_update_frequency := ht
    rw [if_neg ht']
    have e := (Option.some.inj h).symm
    subst e
    exact ⟨bl, al, rfl, hlive, hg⟩

theorem lastLiving_of_K (al : List Alien) (j : Nat) (hlen : al.length = 55)
    (h : lastLivingK (al.map (fun a => a.type)) 0 none = some j) :
    lastLiving al 54 = Except.ok j ∧ ∃ a, al[j]? = some a ∧ a.type ≠ 0 := by
  rcases lastLivingK_spec _ _ _ _ h with ⟨i, t, hj, ht, hne, hall⟩ | ⟨hacc, _⟩
  swap
  · cases hacc
  have hji : j = i := by omega
  subst hji
  rw [List.getElem?_map] at ht
  cases ha : al[j]? with
  | none =>
    rw [ha] at ht
    cases ht
  | some a =>
    rw [ha] at ht
    have hta : a.type = t := Option.some.inj ht
    have hl : a.type ≠ 0 := by
      rw [hta]
      exact hne
    have hj55 : j < 55 := by
      have := lt_length_of_getElem? _ _ _ ha
      omega
    refine ⟨?_, a, rfl, hl⟩
    obtain ⟨aj, hok, hle⟩ := lastLiving_ok al 54 (by omega) ⟨j, a, by omega, ha, hl⟩
    obtain ⟨_, a', ha', hl'⟩ := lastLiving_spec al 54 aj hok
    have hafter := lastLiving_after al 54 aj hok
    rcases Nat.lt_trichotomy aj j with hlt | heq | hgt
    · exact absurd (hafter j a hlt (by omega) ha) hl
    · rw [hok, heq]
    · have := hall aj a'.type hgt (by rw [List.getElem?_map, ha']; rfl)
      exact absurd this hl'

theorem boundsK_eq (c : KS) (lb lx : Nat) :
    boundsK c lb lx =
      if lx + 13 ≤ 224 ∧ 211 - lx + lb ≤ 224 ∧ c.maxpos ≤ 224 ∧ c.score < 4294967296 then
        some { c with
          hs := if c.hs < c.score then c.score else c.hs
          pos := if c.pos < lb then lb else c.pos
          maxpos := if c.maxpos < 211 - lx + lb then 211 - lx + lb else c.maxpos }
      else none := by
  unfold boundsK
  simp only [bool_casesOn_eq, nat_add_eq, nat_sub_eq, cond_eq_if, Nat.ble_eq, Nat.blt_eq]
  by_cases h1 : lx + 13 ≤ 224 <;> by_cases h2 : 211 - lx + lb ≤ 224 <;>
    by_cases h3 : c.maxpos ≤ 224 <;> by_cases h4 : c.score < 4294967296 <;>
    simp [h1, h2, h3, h4]

theorem trackK_eq (c : KS) :
    trackK c =
      (firstK c.types 0).elim none fun i =>
        (lastLivingK c.types 0 none).elim none fun j =>
          c.types[j]?.elim none fun tj =>
            if 1024 ≤ c.gx + 16 * (i / 5) then
              boundsK c (c.gx + 16 * (i / 5) - 1024) (c.gx + 16 * (j / 5) - 1024 + offK tj)
            else none := by
  unfold trackK
  simp only [bool_casesOn_eq, option_casesOn_eq, nat_add_eq, nat_sub_eq, nat_mul_eq, nat_div_eq,
    cond_eq_if, Nat.ble_eq, nthK_eq]

theorem base_offset (t : Nat) (h : t = 1 ∨ t = 2 ∨ t = 3) :
    ∃ sp, alienBaseSprite t = Except.ok sp ∧
      sub64 alien_death_sprite.width sp.width / 2 = offK t := by
  rcases h with h | h | h <;> subst h <;> exact ⟨_, rfl, rfl⟩

theorem trackK_sound (c c1 : KS) (n : Nat) (bl : List Bullet) (al : List Alien)
    (dc : List Nat) (pmd : Int) (hg : OnGrid c.types c.gx c.gy al) (h : trackK c = some c1) :
    trackBounds (conc c n bl al dc pmd) = Except.ok (conc c1 n bl al dc pmd) ∧
      c1.bullets = c.bullets ∧ c1.types = c.types ∧ c1.gx = c.gx ∧ c1.gy = c.gy ∧
      c1.level = c.level ∧ c1.cadence = c.cadence ∧ c1.kills = c.kills := by
  rw [trackK_eq] at h
  cases hf : firstK c.types 0 with
  | none =>
    rw [hf] at h
    cases h
  | some i =>
    rw [hf] at h
    simp only [Option.elim] at h
    cases hla : lastLivingK c.types 0 none with
    | none =>
      rw [hla] at h
      cases h
    | some j =>
      rw [hla] at h
      simp only [Option.elim] at h
      have hf' := hf
      rw [hg.2.1, firstK_eq] at hf'
      have hfirst := eq_ok_of_toOption hf'
      obtain ⟨⟨i0, t0, hi0, hti0, hne0⟩, hmin⟩ := firstK_some _ _ _ hf
      have hii : i = i0 := by omega
      subst hii
      obtain ⟨ai, hai, hait⟩ := hg.alien_get i t0 hti0
      have hli : ai.type ≠ 0 := by
        rw [hait]
        exact hne0
      have hla' := hla
      rw [hg.2.1] at hla'
      obtain ⟨hlast, aj, haj, hlj⟩ := lastLiving_of_K al j hg.1 hla'
      rw [hg.types_get j aj haj] at h
      simp only [Option.elim] at h
      split at h
      swap
      · cases h
      rename_i hgx
      rw [boundsK_eq] at h
      split at h
      swap
      · cases h
      rename_i hb
      have e := (Option.some.inj h).symm
      subst e
      refine ⟨?_, rfl, rfl, rfl, rfl, rfl, rfl, rfl⟩
      obtain ⟨htri, haxi, _⟩ := hg.2.2 i ai hai hli
      obtain ⟨_, haxj, _⟩ := hg.2.2 j aj haj hlj
      have h3 : ai.type = 1 ∨ ai.type = 2 ∨ ai.type = 3 := by
        rw [htri]
        exact rowTypeK_cases (i % 5)
      obtain ⟨sp, hsp, hoff⟩ := base_offset ai.type h3
      have hoi : offK ai.type ≤ 2 := by
        rcases offK_widthK ai.type with ⟨_, e, _⟩ | ⟨_, e, _⟩ | ⟨_, _, e, _⟩ <;> omega
      have hlb : leftBound al = Except.ok (c.gx + 16 * (i / 5) - 1024) := by
        unfold leftBound
        rw [hfirst, bind_ok_eq, hai]
        simp only []
        have ev : ai.x - offK ai.type = c.gx + 16 * (i / 5) - 1024 := by omega
        rw [bind_ok_eq, hsp, bind_ok_eq, hoff, sub64_of_le _ _ (by omega) (by omega), ev]
      have hrb : rightBound al (c.gx + 16 * (i / 5) - 1024)
          = Except.ok (211 - (c.gx + 16 * (j / 5) - 1024 + offK aj.type)
            + (c.gx + 16 * (i / 5) - 1024)) := by
        unfold rightBound
        have e54 : sub64 num_aliens 1 = 54 := by decide
        rw [e54, hlast, bind_ok_eq, haj]
        simp only []
        rw [bind_ok_eq]
        have egw : game_width = 224 := rfl
        have hij := hmin j aj.type (hg.types_get j aj haj) hlj
        have ex : aj.x = c.gx + 16 * (j / 5) - 1024 + offK aj.type := by omega
        have hb1 := hb.1
        have ev : 224 - (c.gx + 16 * (j / 5) - 1024 + offK aj.type) - 13
            = 211 - (c.gx + 16 * (j / 5) - 1024 + offK aj.type) := by omega
        have e1 : sub64 224 (c.gx + 16 * (j / 5) - 1024 + offK aj.type)
            = 224 - (c.gx + 16 * (j / 5) - 1024 + offK aj.type) :=
          sub64_of_le _ _ (by omega) (by omega)
        have e2 : sub64 (224 - (c.gx + 16 * (j / 5) - 1024 + offK aj.type)) 13
            = 224 - (c.gx + 16 * (j / 5) - 1024 + offK aj.type) - 13 :=
          sub64_of_le _ _ (by omega) (by omega)
        rw [egw, ex, e1, e2, ev, add64_of_lt _ _ (by omega)]
      unfold trackBounds
      show (leftBound al >>= _) = _
      rw [hlb, bind_ok_eq]
      show (rightBound al _ >>= _) = _
      rw [hrb, bind_ok_eq]
      have hhs : updateHighScore (conc c n bl al dc pmd)
          = conc { c with hs := if c.hs < c.score then c.score else c.hs } n bl al dc pmd := by
        unfold updateHighScore
        by_cases hsc : c.hs < c.score
        · have hsc' : (conc c n bl al dc pmd).score > (conc c n bl al dc pmd).high_score := hsc
          rw [if_pos hsc', if_pos hsc]
          have em : (conc c n bl al dc pmd).score % 4294967296 = c.score :=
            Nat.mod_eq_of_lt hb.2.2.2
          rw [em]
          rfl
        · have hsc' : ¬ (conc c n bl al dc pmd).score > (conc c n bl al dc pmd).high_score := hsc
          rw [if_neg hsc', if_neg hsc]
      rw [hhs]
      unfold raiseBounds
      have hle : (if 211 - (c.gx + 16 * (j / 5) - 1024 + offK aj.type)
            + (c.gx + 16 * (i / 5) - 1024)
          > (conc { c with hs := if c.hs < c.score then c.score else c.hs } n bl al dc
            pmd).alien_swarm_max_position
          then 211 - (c.gx + 16 * (j / 5) - 1024 + offK aj.type) + (c.gx + 16 * (i / 5) - 1024)
          else (conc { c with hs := if c.hs < c.score then c.score else c.hs } n bl al dc
            pmd).alien_swarm_max_position) ≤ game_width := by
        show (if _ > c.maxpos then _ else c.maxpos) ≤ 224
        have hb2 := hb.2.1
        have hb3 := hb.2.2.1
        split <;> omega
      rw [if_pos hle]
      dsimp only [conc]

theorem progressionK_eq (c : KS) :
    progressionK c =
      if c.kills < 55 then trackK c
      else if c.level + 1 ≤ 8 then
        some { c with
          flag := true
          level := c.level + 1
          bullets := []
          types := waveTypesK
          gx := 1048
          gy := 128
          maxpos := 45
          cadence := levelK (c.level + 1)
          pos := 24
          kills := 0
          timer := 0
          right := true }
      else none := by
  unfold progressionK
  simp only [bool_casesOn_eq, nat_add_eq, cond_eq_if, Nat.ble_eq, Nat.blt_eq]

theorem levelK_eq (l : Nat) : levelK l = 120 - 10 * l := by
  unfold levelK
  simp only [nat_sub_eq, nat_mul_eq]
  omega

theorem waveGrid : OnGrid waveTypesK 1048 128 (gridAliens 24) := by
  refine ⟨gridAliens_length 24, by decide, ?_⟩
  intro i a ha _
  obtain ⟨ht, hx, hy, hi⟩ := gridAliens_getElem? 24 i a ha
  have hr : i % 5 < 5 := Nat.mod_lt _ (by decide)
  have htr : a.type = rowTypeK (i % 5) := by
    rw [ht]
    generalize i % 5 = r at hr
    interval_cases r <;> rfl
  have hoff : (13 - typeWidth a.type) / 2 = offK a.type := by
    rw [htr]
    generalize i % 5 = r at hr
    interval_cases r <;> rfl
  refine ⟨htr, ?_, ?_⟩
  · rw [hx, hoff]
    omega
  · rw [hy]
    omega

theorem nextWave_conc (c : KS) (n : Nat) (bl : List Bullet) (al : List Alien) (dc : List Nat)
    (pmd : Int) (hlev : c.level + 1 ≤ 8) :
    nextWave (conc c n bl al dc pmd) =
      Except.ok (conc { c with
          flag := true
          level := c.level + 1
          bullets := []
          types := waveTypesK
          gx := 1048
          gy := 128
          maxpos := 45
          cadence := levelK (c.level + 1)
          pos := 24
          kills := 0
          timer := 0
          right := true } 0 bl (gridAliens 24) (List.replicate num_aliens 10) pmd) := by
  unfold nextWave
  rw [layoutAliens_start, bind_ok_eq]
  have har : applyReset (conc c n bl al dc pmd) = conc c n bl al dc pmd := rfl
  rw [har]
  have e1 : add64 (conc c n bl al dc pmd).level 1 = c.level + 1 :=
    add64_of_lt _ _ (by show c.level + 1 < 2 ^ 64; omega)
  have e2 : sub64 (sub64 game_width (mul64 16 11)) 3 = 45 := by decide
  rw [e1, e2, levelFrequency_le8 _ hlev, ← levelK_eq]
  rfl

/-- The progression step of the replay computes what `progression` computes: the
high-score update with bounds tracking while the wave lasts, and the next wave
otherwise. -/
theorem progressionK_sound (c c1 : KS) (bl : List Bullet) (al : List Alien) (dc : List Nat)
    (pmd : Int) (hl : Live bl c.bullets) (hg : OnGrid c.types c.gx c.gy al)
    (hdc : dc.length = 55) (h : progressionK c = some c1) :
    ∃ al1 dc1, progression (conc c c.bullets.length bl al dc pmd)
        = Except.ok (conc c1 c1.bullets.length bl al1 dc1 pmd) ∧
      Live bl c1.bullets ∧ OnGrid c1.types c1.gx c1.gy al1 ∧ dc1.length = 55 := by
  rw [progressionK_eq] at h
  unfold progression
  by_cases hk : c.kills < 55
  · rw [if_pos hk] at h
    have hc : (conc c c.bullets.length bl al dc pmd).aliens_killed < num_aliens ∧
        (conc c c.bullets.length bl al dc pmd).reset = false := ⟨hk, rfl⟩
    rw [if_pos hc]
    obtain ⟨ht, hb, hty, hgx, hgy, _⟩ := trackK_sound c c1 c.bullets.length bl al dc pmd hg h
    refine ⟨al, dc, ?_, ?_, ?_, hdc⟩
    · rw [ht, hb]
    · rw [hb]
      exact hl
    · rw [hty, hgx, hgy]
      exact hg
  · rw [if_neg hk] at h
    have hc : ¬ ((conc c c.bullets.length bl al dc pmd).aliens_killed < num_aliens ∧
        (conc c c.bullets.length bl al dc pmd).reset = false) := fun hh => hk hh.1
    rw [if_neg hc]
    split at h
    swap
    · cases h
    rename_i hlev
    have e := (Option.some.inj h).symm
    subst e
    refine ⟨gridAliens 24, List.replicate num_aliens 10, ?_, ?_, waveGrid, ?_⟩
    · exact nextWave_conc c c.bullets.length bl al dc pmd hlev
    · refine ⟨hl.1, Nat.zero_le _, ?_, ?_⟩
      · intro i q hq
        cases hq
      · intro b hb
        cases hb
    · simp [num_aliens]

theorem elim_some {α β : Type} (o : Option α) (f : α → Option β) (y : β)
    (h : o.elim none f = some y) : ∃ x, o = some x ∧ f x = some y := by
  cases o with
  | none => cases h
  | some x => exact ⟨x, rfl, h⟩

theorem tickK_eq (fuel : Nat) (c : KS) (ev : Nat) :
    tickK fuel c ev =
      if 0 < c.fd ∧ c.atime < 2 * c.fd ∧ c.btime < 10 ∧ 3 ≤ c.md ∧ c.md ≤ 5 ∧ c.fd ≤ 1000 ∧
          c.px ≤ 213 ∧ c.gx ≤ 2004 ∧ c.gy ≤ 128 then
        (bulletsK 129 [] c.bullets c).elim none fun c1 =>
          (advanceK fuel (changeSpeedK c1)).elim none fun c2 =>
            (animK c2).elim none fun c2a =>
              (playerK c2a).elim none fun c3 =>
                (progressionK c3).elim none fun c4 =>
                  if c4.px ≤ 213 then pollK (fireK c4) ev else none
      else none := by
  unfold tickK
  simp only [bool_casesOn_eq, option_casesOn_eq, nat_mul_eq, cond_eq_if, Nat.ble_eq,
    Nat.blt_eq]
  by_cases h1 : 0 < c.fd
  swap
  · simp [h1]
  by_cases h2 : c.atime < 2 * c.fd
  swap
  · simp [h2]
  by_cases h3 : c.btime < 10
  swap
  · simp [h3]
  by_cases h4 : 3 ≤ c.md
  swap
  · simp [h4]
  by_cases h5 : c.md ≤ 5
  swap
  · simp [h5]
  by_cases h6 : c.fd ≤ 1000
  swap
  · simp [h6]
  by_cases h7 : c.px ≤ 213
  swap
  · simp [h7]
  by_cases h8 : c.gx ≤ 2004
  swap
  · simp [h8]
  by_cases h9 : c.gy ≤ 128
  swap
  · simp [h9]
  simp [h1, h2, h3, h4, h5, h6, h7, h8, h9]

theorem drawGuard_conc (c : KS) (n : Nat) (bl : List Bullet) (al : List Alien) (dc : List Nat)
    (pmd : Int) (hg : OnGrid c.types c.gx c.gy al) (hdc : dc.length = 55) (hfd : c.fd ≠ 0)
    (hfr : c.atime / c.fd < 2) : drawGuard (conc c n bl al dc pmd) = true := by
  unfold drawGuard
  simp only [Bool.and_eq_true, decide_eq_true_eq, List.all_eq_true]
  refine ⟨⟨⟨⟨hg.1, hdc⟩, hfd⟩, hfr⟩, ?_⟩
  intro a ha
  obtain ⟨i, hi⟩ := List.getElem?_of_mem ha
  by_cases h0 : a.type = 0
  · omega
  · have ht := (hg.2.2 i a hi h0).1
    rcases rowTypeK_cases (i % 5) with e | e | e <;> omega

/-- A replay tick that returns a state is a tick of the game: if the game state `s`
is the one that the replay state `c` stands for, then `tick` with the key events of
the code `ev` returns a state, and that state is the one that `c'` stands for. -/
theorem tickK_sound (fuel : Nat) (c c' : KS) (ev : Nat) (s : State) (hr : Rep s c)
    (h : tickK fuel c ev = some c') :
    ∃ s', tick fuel s (evsOf ev) = Except.ok s' ∧ Rep s' c' := by
  obtain ⟨bl, al, dc, pmd, rfl, hlive, hg, hdc⟩ := hr
  rw [tickK_eq] at h
  split at h
  swap
  · cases h
  rename_i hgd
  obtain ⟨hfd, hat, hbt, hmd3, hmd5, hfd1000, hpx, hgx, hgy⟩ := hgd
  obtain ⟨c1, h1, h⟩ := elim_some _ _ _ h
  obtain ⟨c2, h2, h⟩ := elim_some _ _ _ h
  obtain ⟨c2a, h3, h⟩ := elim_some _ _ _ h
  obtain ⟨c3, h4, h⟩ := elim_some _ _ _ h
  obtain ⟨c4, h5, h⟩ := elim_some _ _ _ h
  split at h
  swap
  · cases h
  rename_i hpx4
  have hfd0 : c.fd ≠ 0 := by omega
  have hfr : c.atime / c.fd < 2 := Nat.div_lt_of_lt_mul (by omega)
  -- drawing
  have hda := drawAliens_of_guard _ (drawGuard_conc c c.bullets.length bl al dc pmd hg hdc hfd0 hfr)
    (List.range num_aliens) (fun ai hai => List.mem_range.mp hai)
  have hdb : drawBullets (conc c c.bullets.length bl al dc pmd) (GAME_MAX_BULLETS + 1) 0
      = Except.ok () := by
    apply drawBullets_ok
    · show c.bullets.length + 1 ≤ 128 + 1 + 0
      have := hlive.2.1
      omega
    · exact Nat.zero_le _
    · show c.bullets.length ≤ bl.length
      have := hlive.2.1
      have := hlive.1
      omega
    · show (5 : Nat) ≠ 0
      decide
    · show c.btime / 5 < 2
      omega
  -- bullets
  obtain ⟨bl1, al1, hsim, hlive1, hg1, hfd1, hat1, hpx1, hgx1, hgy1⟩ :=
    loop_sound 129 [] c.bullets c c1 bl al dc pmd hlive hg hfd0 hfr hpx hgx hgy h1
  have e0 : ([] : List KB).length + c.bullets.length = c.bullets.length := by simp
  rw [e0] at hsim
  -- speed change and death counters
  obtain ⟨hcb, hct, hcx, hcy⟩ := changeSpeedK_frame c1
  have hcs := changeSpeedK_sound c1 c1.bullets.length bl1 al1 dc pmd
  obtain ⟨dc1, hudc, hdc1⟩ :=
    updateDeathCounters_conc (changeSpeedK c1) c1.bullets.length bl1 al1 dc pmd hg1.1 hdc
  -- advance
  have hlive1' : Live bl1 (changeSpeedK c1).bullets := by
    rw [hcb]
    exact hlive1
  have hg1' : OnGrid (changeSpeedK c1).types (changeSpeedK c1).gx (changeSpeedK c1).gy al1 := by
    rw [hct, hcx, hcy]
    exact hg1
  obtain ⟨bl2, al2, hadv, hlive2, hg2⟩ :=
    advanceK_sound fuel (changeSpeedK c1) c2 bl1 al1 dc1 pmd hlive1' hg1' h2
  rw [hcb] at hadv
  -- clocks and player
  obtain ⟨han, hab, haty, hax, hay⟩ := animK_sound c2 c2a c2.bullets.length bl2 al2 dc1 pmd h3
  obtain ⟨pmd1, hpl, hpb, hpty, hpx', hpy⟩ :=
    playerK_sound c2a c3 c2.bullets.length bl2 al2 dc1 pmd h4
  have hb3 : c3.bullets = c2.bullets := by rw [hpb, hab]
  have hlive3 : Live bl2 c3.bullets := by
    rw [hb3]
    exact hlive2
  have hg3 : OnGrid c3.types c3.gx c3.gy al2 := by
    rw [hpty, hpx', hpy, haty, hax, hay]
    exact hg2
  -- progression
  obtain ⟨al4, dc4, hprog, hlive4, hg4, hdc4⟩ :=
    progressionK_sound c3 c4 bl2 al2 dc1 pmd1 hlive3 hg3 hdc1 h5
  rw [hb3] at hprog
  -- fire and events
  obtain ⟨bl5, hfire, hlive5, hfty, hfx, hfy, _⟩ := fireK_sound c4 bl2 al4 dc4 pmd1 hlive4 hpx4
  obtain ⟨hpoll, hqb, hqty, hqx, hqy⟩ :=
    pollK_sound (fireK c4) c' (fireK c4).bullets.length bl5 al4 dc4 pmd1 ev h
  refine ⟨conc c' c'.bullets.length bl5 al4 dc4 pmd1, ?_, bl5, al4, dc4, pmd1, rfl, ?_, ?_, hdc4⟩
  · unfold tick
    have hfg : forceGameOver (conc c c.bullets.length bl al dc pmd)
        = conc c c.bullets.length bl al dc pmd := rfl
    rw [hfg]
    have hlife : ¬ (conc c c.bullets.length bl al dc pmd).game.player.life = 0 := by
      show ¬ (3 : Nat) = 0
      decide
    rw [if_neg hlife]
    unfold playTick
    rw [hda, bind_ok_eq, hdb, bind_ok_eq]
    have hsim' : simulateBullets (GAME_MAX_BULLETS + 1) 0 (conc c c.bullets.length bl al dc pmd)
        = Except.ok (conc c1 c1.bullets.length bl1 al1 dc pmd) := hsim
    rw [hsim', bind_ok_eq, hcs, hudc, hadv, bind_ok_eq, han, hpl, hprog, bind_ok_eq, hfire,
      bind_ok_eq, hpoll, hqb]
  · rw [hqb]
    exact hlive5
  · rw [hqty, hqx, hqy, hfty, hfx, hfy]
    exact hg4

/-! ## The run to level 6

The event lists `tr0` to `tr7` are the key events of 2373 successive ticks from
start-up: the player clears five waves and kills 46 aliens of the sixth. The
states `ks1` to `ks8` are the replay states after each list. -/

set_option maxRecDepth 100000000 in
theorem chunk0 : runK 1000 ks0 tr0 = some ks1 := by decide!

set_option maxRecDepth 100000000 in
theorem chunk1 : runK 1000 ks1 tr1 = some ks2 := by decide!

set_option maxRecDepth 100000000 in
theorem chunk2 : runK 1000 ks2 tr2 = some ks3 := by decide!

set_option maxRecDepth 100000000 in
theorem chunk3 : runK 1000 ks3 tr3 = some ks4 := by decide!

set_option maxRecDepth 100000000 in
theorem chunk4 : runK 1000 ks4 tr4 = some ks5 := by decide!

set_option maxRecDepth 100000000 in
theorem chunk5 : runK 1000 ks5 tr5 = some ks6 := by decide!

set_option maxRecDepth 100000000 in
theorem chunk6 : runK 1000 ks6 tr6 = some ks7 := by decide!

set_option maxRecDepth 100000000 in
theorem chunk7 : runK 1000 ks7 tr7 = some ks8 := by decide!

theorem runK_nil (fuel : Nat) (c : KS) : runK fuel c [] = some c := rfl

theorem runK_cons (fuel : Nat) (c : KS) (ev : Nat) (t : List Nat) :
    runK fuel c (ev :: t) = (tickK fuel c ev).elim none fun c1 => runK fuel c1 t := by
  rw [← option_casesOn_eq]
  rfl

/-- A replay of a list of event codes from a replay state that stands for a
reachable game state ends in a replay state that stands for a reachable game
state. -/
theorem runK_sound (fuel : Nat) (tr : List Nat) :
    ∀ (c c' : KS) (s : State), Reachable s → Rep s c → runK fuel c tr = some c' →
      ∃ s', Reachable s' ∧ Rep s' c' := by
  induction tr with
  | nil =>
    intro c c' s hs hr h
    rw [runK_nil] at h
    cases h
    exact ⟨s, hs, hr⟩
  | cons ev t ih =>
    intro c c' s hs hr h
    rw [runK_cons] at h
    obtain ⟨c1, h1, h⟩ := elim_some _ _ _ h
    obtain ⟨s1, ht, hr1⟩ := tickK_sound fuel c c1 ev s hr h1
    exact ih c1 c' s1 (Reachable.step fuel s s1 (evsOf ev) hs ht) hr1 h

theorem zeroBullets_len : zeroBullets.length = 128 := by
  unfold zeroBullets
  exact List.length_replicate _ _

/-- The replay state `ks0` stands for the start-up state with high score 0 and a
zeroed bullet array. -/
theorem start_rep : Rep (startState 0 zeroBullets) ks0 := by
  refine ⟨zeroBullets, gridAliens 24, List.replicate num_aliens 10, 0, rfl, ?_, waveGrid, ?_⟩
  · refine ⟨zeroBullets_len, Nat.zero_le _, ?_, ?_⟩
    · intro i q hq
      cases hq
    · intro b hb
      cases hb
  · simp [num_aliens]

theorem start_reachable : Reachable (startState 0 zeroBullets) :=
  Reachable.start 0 zeroBullets _ (by decide) zeroBullets_len (initialState_eq 0 zeroBullets)

/-- The run of the event lists `tr0` to `tr7` from start-up ends in a reachable
state that the replay state `ks8` stands for. -/
theorem replay_reaches : ∃ s, Reachable s ∧ Rep s ks8 := by
  obtain ⟨s1, hs1, hr1⟩ := runK_sound 1000 tr0 ks0 ks1 _ start_reachable start_rep chunk0
  obtain ⟨s2, hs2, hr2⟩ := runK_sound 1000 tr1 ks1 ks2 _ hs1 hr1 chunk1
  obtain ⟨s3, hs3, hr3⟩ := runK_sound 1000 tr2 ks2 ks3 _ hs2 hr2 chunk2
  obtain ⟨s4, hs4, hr4⟩ := runK_sound 1000 tr3 ks3 ks4 _ hs3 hr3 chunk3
  obtain ⟨s5, hs5, hr5⟩ := runK_sound 1000 tr4 ks4 ks5 _ hs4 hr4 chunk4
  obtain ⟨s6, hs6, hr6⟩ := runK_sound 1000 tr5 ks5 ks6 _ hs5 hr5 chunk5
  obtain ⟨s7, hs7, hr7⟩ := runK_sound 1000 tr6 ks6 ks7 _ hs6 hr6 chunk6
  exact runK_sound 1000 tr7 ks7 ks8 _ hs7 hr7 chunk7

/-- C21, counterexample. A run from start-up reaches a state of level 6 in which
46 aliens of the wave are killed and the cadence is 3, below 4: the level formula
gives 60 at level 6, and the halvings at the wave start and at the 15th, 30th and
45th kill take 60 to 30, 15, 7 and 3. The run is the one of the event lists `tr0`
to `tr7`, 2373 ticks from the start-up state with high score 0 and a zeroed
bullet array. -/
theorem cadence_below_four :
    levelFrequency 6 = 60 ∧ 60 / 2 / 2 / 2 / 2 = 3 ∧
    ∃ s, Reachable s ∧ s.level = 6 ∧ s.aliens_killed = 46 ∧
      s.alien_update_frequency = 3 ∧ ¬ 4 ≤ s.alien_update_frequency := by
  refine ⟨by decide, by decide, ?_⟩
  obtain ⟨s, hs, bl, al, dc, pmd, he, _⟩ := replay_reaches
  have h3 : s.alien_update_frequency = 3 := by
    rw [he]
    rfl
  refine ⟨s, hs, ?_, ?_, h3, ?_⟩
  · rw [he]
    rfl
  · rw [he]
    rfl
  · rw [h3]
    decide

end SpaceInvaders
